import Mathlib

/-!
Portfolio site: resume renderer and content loader

A shallow embedding of `src/js/pdf-generator.js` (the paginated PDF engine
`generateResumePDF` and the HTML preview `resumePreview`) and of
`src/js/content-loader.js` (`loadContent`, `populateContent` and its populate
steps), together with the properties that the specification states of them.

Conventions of the embedding

* JavaScript numbers are exact rationals (`ℚ`).
* A JavaScript value that may be `undefined` is an `Option`; reading a property
  of `undefined` is the `TypeError` of the source and is an `Except.error`.
* The jsPDF document object is a recorder: every method the source calls on
  `doc` is appended, in order, to `PdfState.calls`.  The library's answers never
  steer the control flow of the source except for the page size and the wrapped
  lines, which are fields of `JsPDF`.  A library call that throws is modelled by
  `JsPDF.accepts`: a run is the intended call sequence cut at the first call the
  library rejects.
* A text call records the font that is current when it is made (the font set by
  the last `setFont` / `setFontSize`), as jsPDF draws with its current font.
* The page the content loader writes to is a record with one field per selector
  of the source (`Dom`).  Markup assigned through `innerHTML` is kept as the
  string assigned; the `.about-text` region, whose children `populateAbout`
  removes and inserts one by one, is a list of `Block`s.  A populate step that
  throws is an `Except.error` that carries the page as the step left it.
* What the environment decides is an input: how `fetch` settles (`FetchResult`),
  and what `loadJsPDF` meets in the browser (`Browser`), which decides how its
  promise settles (`LoadResult`).
-/

namespace Portfolio

/-! ## JavaScript strings -/

/-- Characters matched by the regular-expression class `\s` (and removed by
`String.prototype.trim`): ECMAScript WhiteSpace and LineTerminator. -/
def isJsWhitespace (c : Char) : Bool :=
  (0x09 ≤ c.val && c.val ≤ 0x0D) || c.val == 0x20 || c.val == 0xA0 || c.val == 0x1680 ||
  (0x2000 ≤ c.val && c.val ≤ 0x200A) || c.val == 0x2028 || c.val == 0x2029 ||
  c.val == 0x202F || c.val == 0x205F || c.val == 0x3000 || c.val == 0xFEFF

/-- JavaScript truthiness of a string-or-undefined value: defined and non-empty. -/
def truthy (v : Option String) : Bool :=
  match v with
  | some s => s != ""
  | none => false

/-- String conversion in a template literal: `undefined` prints as "undefined". -/
def jsToString (v : Option String) : String :=
  match v with
  | some s => s
  | none => "undefined"

/-- The method `toUpperCase`, on the ASCII letters (JavaScript also maps
non-ASCII letters; nothing below depends on them). -/
def toUpperCase (s : String) : String :=
  String.mk (s.data.map Char.toUpper)

/-- The method `trim` on a list of characters. -/
def trimChars (cs : List Char) : List Char :=
  ((cs.dropWhile isJsWhitespace).reverse.dropWhile isJsWhitespace).reverse

/-- The method `trim`. -/
def trim (s : String) : String :=
  String.mk (trimChars s.data)

/-- The method `split(sep)` for a one-character separator, on a list of
characters. -/
def splitOnChar (sep : Char) : List Char → List (List Char)
  | [] => [[]]
  | c :: cs =>
    if c = sep then [] :: splitOnChar sep cs
    else
      match splitOnChar sep cs with
      | [] => [[c]]
      | l :: ls => (c :: l) :: ls

/-- The call `split('\n')`. -/
def splitNewline (s : String) : List String :=
  (splitOnChar '\n' s.data).map String.mk

/-- Length of the match of the pattern `<[^>]+>` at the head of the input, if
there is one: a `<`, then the longest run of characters other than `>` (at least
one), then a `>`.  A shorter run cannot be followed by `>`, so backtracking finds
nothing more. -/
def tagLength : List Char → Option Nat
  | [] => none
  | c :: rest =>
    if c = '<' then
      let run := rest.takeWhile (fun d => d != '>')
      match run, rest.drop run.length with
      | _ :: _, d :: _ => if d = '>' then some (run.length + 2) else none
      | _, _ => none
    else none

/-- The scan of `replace(/<[^>]+>/g, '')`: `skip` characters of a match already
found remain to be dropped; otherwise a match is tried at the current position,
and the character is kept when there is none. -/
def stripTagsGo : Nat → List Char → List Char
  | _, [] => []
  | skip + 1, _ :: cs => stripTagsGo skip cs
  | 0, c :: cs =>
    match tagLength (c :: cs) with
    | some n => stripTagsGo (n - 1) cs
    | none => c :: stripTagsGo 0 cs

/-- The call `replace(/<[^>]+>/g, '')`. -/
def stripTags (s : String) : String :=
  String.mk (stripTagsGo 0 s.data)

/-- The scan of `replace(/\s+/g, '_')`: `inRun` says that the previous character
belonged to a whitespace run, whose `_` has been written already. -/
def replaceWhitespaceGo : Bool → List Char → List Char
  | _, [] => []
  | inRun, c :: cs =>
    if isJsWhitespace c then
      if inRun then replaceWhitespaceGo true cs else '_' :: replaceWhitespaceGo true cs
    else c :: replaceWhitespaceGo false cs

/-- The call `replace(/\s+/g, '_')`. -/
def replaceWhitespace (s : String) : String :=
  String.mk (replaceWhitespaceGo false s.data)

/-- The call `join(sep)` on an array of strings. -/
def join (sep : String) : List String → String
  | [] => ""
  | [s] => s
  | s :: t :: rest => s ++ sep ++ join sep (t :: rest)

/-! ## The content document -/

structure Personal where
  name : Option String := none
  title : Option String := none
  tagline : Option String := none
  email : Option String := none
  phone : Option String := none
  githubUrl : Option String := none
  resumePath : Option String := none
deriving DecidableEq, Repr

structure Byline where
  label : Option String := none
  date : Option String := none
deriving DecidableEq, Repr

/-- A hero meta value: one string or a sequence of strings. -/
inductive MetaValue where
  | str (s : String)
  | list (ss : List String)
deriving DecidableEq, Repr

structure MetaItem where
  label : Option String := none
  value : Option MetaValue := none
deriving DecidableEq, Repr

structure Hero where
  byline : Option Byline := none
  meta : Option (List MetaItem) := none
  lede : Option String := none
deriving DecidableEq, Repr

structure Skill where
  title : Option String := none
  description : Option (List String) := none
  category : Option String := none
deriving DecidableEq, Repr

structure About where
  eyebrow : Option String := none
  title : Option String := none
  intro : Option String := none
  paragraphs : Option (List String) := none
  quote : Option String := none
  skills : Option (List Skill) := none
deriving DecidableEq, Repr

structure Link where
  url : Option String := none
  text : Option String := none
deriving DecidableEq, Repr

structure Project where
  title : Option String := none
  subtitle : Option String := none
  description : Option String := none
  featured : Bool := false
  link : Option Link := none
deriving DecidableEq, Repr

structure Projects where
  eyebrow : Option String := none
  title : Option String := none
  description : Option String := none
  items : Option (List Project) := none
deriving DecidableEq, Repr

structure ContactMethod where
  number : Option String := none
  title : Option String := none
  value : Option String := none
  link : Option String := none
deriving DecidableEq, Repr

structure Contact where
  eyebrow : Option String := none
  title : Option String := none
  intro : Option String := none
  methods : Option (List ContactMethod) := none
  formTitle : Option String := none
deriving DecidableEq, Repr

structure Footer where
  copyright : Option String := none
  links : Option (List Link) := none
deriving DecidableEq, Repr

structure Job where
  title : Option String := none
  period : Option String := none
  company : Option String := none
  location : Option String := none
  achievements : Option (List String) := none
deriving DecidableEq, Repr

structure Education where
  institution : Option String := none
  period : Option String := none
  degree : Option String := none
deriving DecidableEq, Repr

structure Reference where
  name : Option String := none
  title : Option String := none
deriving DecidableEq, Repr

structure Resume where
  objective : Option String := none
  experience : Option (List Job) := none
  education : Option (List Education) := none
  references : Option (List Reference) := none
deriving DecidableEq, Repr

/-- The content document (`contentData`). -/
structure ContentDocument where
  personal : Option Personal := none
  hero : Option Hero := none
  about : Option About := none
  projects : Option Projects := none
  contact : Option Contact := none
  footer : Option Footer := none
  resume : Option Resume := none
deriving DecidableEq, Repr

/-! ## The PDF design system (`pdfTheme`) -/

structure Font where
  family : String
  style : String
  size : Nat
deriving DecidableEq, Repr

structure Colors where
  primary : String
  secondary : String
  accent : String
  line : String
  white : String
deriving DecidableEq, Repr

structure Fonts where
  name : Font
  title : Font
  contact : Font
  sectionTitle : Font
  jobTitle : Font
  body : Font
  small : Font
  italic : Font
deriving DecidableEq, Repr

structure Layout where
  margin : ℚ
  lineHeight : ℚ
  sectionSpacing : ℚ
deriving DecidableEq, Repr

structure Theme where
  colors : Colors
  fonts : Fonts
  layout : Layout
deriving DecidableEq, Repr

def pdfTheme : Theme where
  colors := {
    primary := "#000000"
    secondary := "#333333"
    accent := "#666666"
    line := "#E0E0E0"
    white := "#FFFFFF" }
  fonts := {
    name := { family := "helvetica", style := "bold", size := 24 }
    title := { family := "helvetica", style := "normal", size := 11 }
    contact := { family := "helvetica", style := "normal", size := 9 }
    sectionTitle := { family := "helvetica", style := "bold", size := 11 }
    jobTitle := { family := "helvetica", style := "bold", size := 10 }
    body := { family := "helvetica", style := "normal", size := 9 }
    small := { family := "helvetica", style := "normal", size := 8 }
    italic := { family := "helvetica", style := "italic", size := 9 } }
  layout := {
    margin := 25
    lineHeight := 4.5
    sectionSpacing := 8 }

/-! ## The jsPDF document as a recorder -/

/-- The first argument of `doc.text`: a string (possibly `undefined`) or the
array of lines that `splitTextToSize` returned. -/
inductive TextArg where
  | str (s : Option String)
  | lines (ls : List String)
deriving DecidableEq, Repr

/-- A method call on the jsPDF document.  `text` carries the font current at the
call, the text, `x`, `y` and the `align` option. -/
inductive DocCall where
  | getTextWidth (t : Option String)
  | setFont (family style : String)
  | setFontSize (size : Nat)
  | setTextColor (color : String)
  | setDrawColor (color : String)
  | setLineWidth (w : ℚ)
  | splitTextToSize (t : String) (maxWidth : ℚ)
  | text (font : Font) (t : TextArg) (x y : ℚ) (align : Option String)
  | line (x1 y1 x2 y2 : ℚ)
  | addPage
  | save (fileName : String)
deriving DecidableEq, Repr

/-- The capability the source consumes from jsPDF: the page size of the `a4`
portrait document, the wrapping function (it depends on the current font), and
which calls return normally (`accepts history call`) rather than throw. -/
structure JsPDF where
  pageWidth : ℚ
  pageHeight : ℚ
  splitTextToSize : Font → String → ℚ → List String
  accepts : List DocCall → DocCall → Bool

/-- The local state of `generateResumePDF`: the cursor `y`, the current font of
the document and the calls made on it so far. -/
structure PdfState where
  y : ℚ
  font : Font
  calls : List DocCall
deriving DecidableEq, Repr

/-- The font of a fresh jsPDF document. -/
def defaultFont : Font := { family := "helvetica", style := "normal", size := 16 }

/-- Record one call. -/
def call (c : DocCall) (s : PdfState) : PdfState :=
  { s with calls := s.calls ++ [c] }

/-- The pair `doc.setFont(f.family, f.style); doc.setFontSize(f.size)`. -/
def useFont (f : Font) (s : PdfState) : PdfState :=
  { s with font := f, calls := s.calls ++ [.setFont f.family f.style, .setFontSize f.size] }

/-- The call `doc.text(t, x, y, align)` at the cursor. -/
def drawText (t : TextArg) (x : ℚ) (align : Option String) (s : PdfState) : PdfState :=
  call (.text s.font t x s.y align) s

/-- The statement `y += d`. -/
def advance (d : ℚ) (s : PdfState) : PdfState :=
  { s with y := s.y + d }

/-- JavaScript `a || b` on numbers, `a` possibly `undefined`: `a` when it is
defined and non-zero, else `b`. -/
def numOr (a : Option ℚ) (b : ℚ) : ℚ :=
  match a with
  | some v => if v = 0 then b else v
  | none => b

/-! ## Helper functions of `generateResumePDF` -/

/-- The helper `checkPageBreak`. -/
def checkPageBreak (th : Theme) (lib : JsPDF) (requiredSpace : ℚ) (s : PdfState) : PdfState :=
  if s.y + requiredSpace > lib.pageHeight - th.layout.margin then
    { call .addPage s with y := th.layout.margin }
  else s

/-- The helper `ensureBlockFits`. -/
def ensureBlockFits (th : Theme) (lib : JsPDF) (minHeight : ℚ) (s : PdfState) : PdfState :=
  if s.y + minHeight > lib.pageHeight - th.layout.margin then
    { call .addPage s with y := th.layout.margin }
  else s

/-- The options object of `addWrappedText`. -/
structure WrapOptions where
  x : ℚ
  font : Font
  color : String
  maxWidth : ℚ
  lineHeight : Option ℚ

/-- The lines `addWrappedText` obtains from `doc.splitTextToSize`. -/
def wrappedLines (lib : JsPDF) (text : String) (o : WrapOptions) : List String :=
  lib.splitTextToSize o.font text o.maxWidth

/-- The helper `addWrappedText`: the calls it makes, and the height it returns. -/
def addWrappedText (th : Theme) (lib : JsPDF) (text : String) (o : WrapOptions)
    (s : PdfState) : PdfState × ℚ :=
  let s := useFont o.font s
  let s := call (.setTextColor o.color) s
  let lines := wrappedLines lib text o
  let s := call (.splitTextToSize text o.maxWidth) s
  let s := drawText (.lines lines) o.x none s
  (s, lines.length * numOr o.lineHeight th.layout.lineHeight)

/-- The helper `addSection`. -/
def addSection (th : Theme) (lib : JsPDF) (title : String) (startY : Option ℚ)
    (s : PdfState) : PdfState :=
  let s := { s with y := numOr startY s.y }
  let s := checkPageBreak th lib 16 s
  let s := useFont th.fonts.sectionTitle s
  let s := call (.setTextColor th.colors.primary) s
  let s := drawText (.str (some (toUpperCase title))) th.layout.margin none s
  let s := advance (th.layout.lineHeight * 1.7) s
  let s := call (.setDrawColor th.colors.line) s
  let s := call (.setLineWidth 0.4) s
  let s := call (.line th.layout.margin s.y (lib.pageWidth - th.layout.margin) s.y) s
  advance 5 s

/-- The helper `estimateJobBlockHeight`, given `job.achievements.length`. -/
def estimateJobBlockHeight (th : Theme) (achievements : Nat) : ℚ :=
  let h : ℚ := 0
  let h := h + th.layout.lineHeight * 1.5
  let h := h + th.layout.lineHeight * 1.7
  let h := h + achievements * (th.layout.lineHeight * 1.1 + 2.5)
  let h := h + 10
  h

/-! ## The sections of `generateResumePDF` -/

/-- What is thrown inside the `try` block: the error, and the calls made on the
document before it. -/
structure RenderError where
  message : String
  calls : List DocCall
deriving DecidableEq, Repr

/-- Read a value that the source dereferences: `undefined` throws a `TypeError`. -/
def req {α : Type} (v : Option α) (what : String) (s : PdfState) : Except RenderError α :=
  match v with
  | some a => .ok a
  | none => .error { message := "TypeError: " ++ what, calls := s.calls }

/-- The method `forEach((item, index) => ...)` with a body that may throw. -/
def forEachIdx {α : Type} (f : α → Nat → PdfState → Except RenderError PdfState) :
    List α → Nat → PdfState → Except RenderError PdfState
  | [], _, s => .ok s
  | a :: rest, i, s =>
    match f a i s with
    | .ok s1 => forEachIdx f rest (i + 1) s1
    | .error e => .error e

/-- The method `filter(Boolean)` on an array of strings and `undefined`s. -/
def filterBoolean (vs : List (Option String)) : List String :=
  vs.filterMap (fun v => if truthy v then v else none)

/-- Section 1, the centered header and the horizontal line after it. -/
def headerSection (th : Theme) (lib : JsPDF) (contentData : ContentDocument)
    (s : PdfState) : Except RenderError PdfState := do
  let personal ← req contentData.personal "personal is undefined" s
  let s := call (.getTextWidth personal.name) s
  let centerX := lib.pageWidth / 2
  let s := call (.setTextColor th.colors.primary) s
  let s := useFont th.fonts.name s
  let name ← req personal.name "personal.name is undefined" s
  let s := drawText (.str (some (toUpperCase name))) centerX (some "center") s
  let s := advance 6 s
  let s := useFont th.fonts.title s
  let s := call (.setTextColor th.colors.primary) s
  let s := drawText (.str personal.title) centerX (some "center") s
  let s := advance 5 s
  let contactInfo := join " | " (filterBoolean [personal.phone, personal.email, personal.githubUrl])
  let s := useFont th.fonts.contact s
  let s := call (.setTextColor th.colors.secondary) s
  let s := drawText (.str (some contactInfo)) centerX (some "center") s
  let s := advance 12 s
  let s := call (.setDrawColor th.colors.line) s
  let s := call (.setLineWidth 0.5) s
  let s := call (.line th.layout.margin s.y (lib.pageWidth - th.layout.margin) s.y) s
  return advance 10 s

/-- The expression `resume?.objective || hero.lede` of section 2, as the
receiver of `.replace`: `none` when it throws (`hero` undefined) or is
`undefined` (so that `.replace` throws). -/
def pdfSummarySource (contentData : ContentDocument) : Option String :=
  let objective : Option String :=
    match contentData.resume with
    | some resume => resume.objective
    | none => none
  if truthy objective then objective
  else
    match contentData.hero with
    | some hero => hero.lede
    | none => none

/-- Section 2, Profile. -/
def profileSection (th : Theme) (lib : JsPDF) (contentData : ContentDocument)
    (s : PdfState) : Except RenderError PdfState := do
  let s := addSection th lib "Profile" none s
  let source ← req (pdfSummarySource contentData) "hero.lede is undefined" s
  let summary := stripTags source
  let (s, height) := addWrappedText th lib summary
    { x := th.layout.margin, font := th.fonts.body, color := th.colors.primary,
      maxWidth := lib.pageWidth - th.layout.margin * 2, lineHeight := some 4 } s
  let s := advance height s
  return advance th.layout.sectionSpacing s

/-- The body shared by the description lines of a project and the achievements
of a job: page-break guard, bullet glyph, wrapped text, cursor advance. -/
def bulletLine (th : Theme) (lib : JsPDF) (text : String) (s : PdfState) : PdfState :=
  let s := checkPageBreak th lib 10 s
  let bullet := "•"
  let bulletWidth : ℚ := 4
  let s := useFont th.fonts.body s
  let s := call (.setTextColor th.colors.primary) s
  let s := drawText (.str (some bullet)) th.layout.margin none s
  let (s, textHeight) := addWrappedText th lib text
    { x := th.layout.margin + bulletWidth, font := th.fonts.body, color := th.colors.primary,
      maxWidth := lib.pageWidth - th.layout.margin * 2 - bulletWidth, lineHeight := some 4 } s
  advance (textHeight + 2.5) s

/-- The lines `project.description.split('\n').filter(line => line.trim())`. -/
def descLines (description : String) : List String :=
  (splitNewline description).filter (fun line => trim line != "")

/-- The body of `projects.items.forEach`. -/
def projectBlock (th : Theme) (lib : JsPDF) (count : Nat) (project : Project) (index : Nat)
    (s : PdfState) : Except RenderError PdfState := do
  let s := ensureBlockFits th lib 25 s
  let s := useFont th.fonts.jobTitle s
  let s := call (.setTextColor th.colors.primary) s
  let title ← req project.title "project.title is undefined" s
  let s := drawText (.str (some (toUpperCase title))) th.layout.margin none s
  let s := advance (th.layout.lineHeight * 1.5) s
  let s :=
    if truthy project.subtitle then
      let s := useFont th.fonts.italic s
      let s := call (.setTextColor th.colors.secondary) s
      let s := drawText (.str project.subtitle) th.layout.margin none s
      advance (th.layout.lineHeight * 1.3) s
    else s
  let description ← req project.description "project.description is undefined" s
  let s := (descLines description).foldl (fun s line => bulletLine th lib (trim line) s) s
  return if index < count - 1 then advance 8 s else s

/-- Section 3, Projects. -/
def projectsSection (th : Theme) (lib : JsPDF) (contentData : ContentDocument)
    (s : PdfState) : Except RenderError PdfState := do
  let projects ← req contentData.projects "projects is undefined" s
  match projects.items with
  | none => return s
  | some items =>
    if items.length > 0 then
      let s := addSection th lib "Projects" none s
      let s ← forEachIdx (projectBlock th lib items.length) items 0 s
      return advance (th.layout.sectionSpacing + 4) s
    else return s

/-- The body of `resume.experience.forEach`. -/
def jobBlock (th : Theme) (lib : JsPDF) (count : Nat) (job : Job) (index : Nat)
    (s : PdfState) : Except RenderError PdfState := do
  let achievements ← req job.achievements "job.achievements is undefined" s
  let jobBlockHeight := estimateJobBlockHeight th achievements.length
  let s := ensureBlockFits th lib jobBlockHeight s
  let s := useFont th.fonts.jobTitle s
  let s := call (.setTextColor th.colors.primary) s
  let title ← req job.title "job.title is undefined" s
  let s := drawText (.str (some (toUpperCase title))) th.layout.margin none s
  let s := useFont th.fonts.small s
  let s := call (.setTextColor th.colors.secondary) s
  let s := drawText (.str job.period) (lib.pageWidth - th.layout.margin) (some "right") s
  let s := advance (th.layout.lineHeight * 1.5) s
  let s := useFont th.fonts.body s
  let s := call (.setTextColor th.colors.secondary) s
  let s := drawText (.str (some (jsToString job.company ++ ", " ++ jsToString job.location)))
    th.layout.margin none s
  let s := advance (th.layout.lineHeight * 1.7) s
  let s := achievements.foldl (fun s achievement => bulletLine th lib achievement s) s
  return if index < count - 1 then advance 10 s else s

/-- Section 4, Professional Experience. -/
def experienceSection (th : Theme) (lib : JsPDF) (contentData : ContentDocument)
    (s : PdfState) : Except RenderError PdfState := do
  let s := addSection th lib "Professional Experience" none s
  let resume ← req contentData.resume "resume is undefined" s
  let experience ← req resume.experience "resume.experience is undefined" s
  let s ← forEachIdx (jobBlock th lib experience.length) experience 0 s
  return advance (th.layout.sectionSpacing + 4) s

/-- The body of `resume.education.forEach`. -/
def educationBlock (th : Theme) (lib : JsPDF) (count : Nat) (edu : Education) (index : Nat)
    (s : PdfState) : Except RenderError PdfState := do
  let s := ensureBlockFits th lib 18 s
  let s := useFont th.fonts.jobTitle s
  let s := call (.setTextColor th.colors.primary) s
  let institution ← req edu.institution "edu.institution is undefined" s
  let s := drawText (.str (some (toUpperCase institution))) th.layout.margin none s
  let s := useFont th.fonts.small s
  let s := call (.setTextColor th.colors.secondary) s
  let s := drawText (.str edu.period) (lib.pageWidth - th.layout.margin) (some "right") s
  let s := advance (th.layout.lineHeight * 1.5) s
  let s := useFont th.fonts.body s
  let s := call (.setTextColor th.colors.secondary) s
  let s := drawText (.str edu.degree) th.layout.margin none s
  return if index < count - 1 then advance (th.layout.lineHeight * 2.5) s
    else advance (th.layout.lineHeight * 2) s

/-- Section 5, Education. -/
def educationSection (th : Theme) (lib : JsPDF) (contentData : ContentDocument)
    (s : PdfState) : Except RenderError PdfState := do
  let s := addSection th lib "Education" none s
  let resume ← req contentData.resume "resume is undefined" s
  let education ← req resume.education "resume.education is undefined" s
  let s ← forEachIdx (educationBlock th lib education.length) education 0 s
  return advance (th.layout.sectionSpacing + 4) s

/-- Property names every plain object inherits from `Object.prototype`: for such
a key `grouped[cat]` is an inherited value, truthy and without a `push` method. -/
def objectPrototypeKeys : List String :=
  ["constructor", "__defineGetter__", "__defineSetter__", "hasOwnProperty",
   "__lookupGetter__", "__lookupSetter__", "isPrototypeOf", "propertyIsEnumerable",
   "toString", "valueOf", "__proto__", "toLocaleString"]

/-- The statement sequence of `about.skills.forEach` that fills `grouped`, on the
object as the list of its own properties in creation order.  `none` is the
`TypeError` of `grouped[cat].push` on an inherited property. -/
def groupSkill (grouped : List (String × List (Option String))) (skill : Skill) :
    Option (List (String × List (Option String))) :=
  let cat := if truthy skill.category then jsToString skill.category else "Other"
  if cat ∈ objectPrototypeKeys then none
  else if grouped.any (fun e => e.1 == cat) then
    some (grouped.map (fun e => if e.1 == cat then (e.1, e.2 ++ [skill.title]) else e))
  else some (grouped ++ [(cat, [skill.title])])

/-- The loop that fills `grouped`. -/
def groupSkills : List (String × List (Option String)) → List Skill →
    Option (List (String × List (Option String)))
  | grouped, [] => some grouped
  | grouped, skill :: rest =>
    match groupSkill grouped skill with
    | some g => groupSkills g rest
    | none => none

/-- The array index a property key denotes, if it is one: a canonical decimal
numeral below `2^32 - 1`. -/
def arrayIndex (key : String) : Option Nat :=
  let cs := key.data
  if cs.all Char.isDigit && (cs == ['0'] || (cs != [] && cs.head? != some '0')) then
    let n := cs.foldl (fun n c => 10 * n + (c.toNat - 48)) 0
    if n < 2 ^ 32 - 1 then some n else none
  else none

/-- The order of `Object.entries`: array-index keys in ascending numeric order,
then the other keys in creation order. -/
def objectEntries {α : Type} (obj : List (String × α)) : List (String × α) :=
  (obj.filter (fun e => (arrayIndex e.1).isSome)).insertionSort
      (fun a b => (arrayIndex a.1).getD 0 ≤ (arrayIndex b.1).getD 0) ++
    obj.filter (fun e => !(arrayIndex e.1).isSome)

/-- The body of the two `forEach` loops over skill titles. -/
def skillLine (th : Theme) (lib : JsPDF) (skillTitle : Option String) (s : PdfState) : PdfState :=
  let s := ensureBlockFits th lib 8 s
  let bullet := "•"
  let bulletWidth : ℚ := 4
  let s := useFont th.fonts.body s
  let s := call (.setTextColor th.colors.primary) s
  let s := drawText (.str (some bullet)) th.layout.margin none s
  let s := drawText (.str skillTitle) (th.layout.margin + bulletWidth) none s
  advance (th.layout.lineHeight * 1.1) s

/-- The body of `Object.entries(grouped).forEach`. -/
def categoryBlock (th : Theme) (lib : JsPDF) (entry : String × List (Option String))
    (s : PdfState) : PdfState :=
  let cat := entry.1
  let skills := entry.2
  let s := ensureBlockFits th lib (14 + skills.length * 7) s
  let s := useFont th.fonts.jobTitle s
  let s := call (.setTextColor th.colors.primary) s
  let s := drawText (.str (some cat)) th.layout.margin none s
  let s := advance (th.layout.lineHeight * 1.2) s
  let s := skills.foldl (fun s skillTitle => skillLine th lib skillTitle s) s
  advance 4 s

/-- Section 6, Skills and Interests. -/
def skillsSection (th : Theme) (lib : JsPDF) (contentData : ContentDocument)
    (s : PdfState) : Except RenderError PdfState := do
  let s := addSection th lib "Skills and Interests" none s
  let about ← req contentData.about "about is undefined" s
  let s ←
    match about.skills with
    | none => pure s
    | some skills =>
      if skills.length > 0 then
        let hasCategory := skills.any (fun skill => truthy skill.category)
        if hasCategory then do
          let grouped ← req (groupSkills [] skills) "grouped[cat].push is not a function" s
          pure ((objectEntries grouped).foldl (fun s entry => categoryBlock th lib entry s) s)
        else
          let s := ensureBlockFits th lib (skills.length * 7) s
          pure (skills.foldl (fun s skill => skillLine th lib skill.title s) s)
      else pure s
  return advance (th.layout.sectionSpacing + 4) s

/-- The body of `resume.references.forEach`. -/
def referenceBlock (th : Theme) (lib : JsPDF) (ref : Reference) (s : PdfState) : PdfState :=
  let s := ensureBlockFits th lib 16 s
  let s := useFont th.fonts.jobTitle s
  let s := call (.setTextColor th.colors.primary) s
  let s := drawText (.str ref.name) th.layout.margin none s
  let s := advance (th.layout.lineHeight * 1.5) s
  let s := useFont th.fonts.body s
  let s := call (.setTextColor th.colors.secondary) s
  let s := drawText (.str ref.title) th.layout.margin none s
  advance (th.layout.lineHeight * 2) s

/-- Section 7, Reference. -/
def referenceSection (th : Theme) (lib : JsPDF) (contentData : ContentDocument)
    (s : PdfState) : Except RenderError PdfState := do
  let resume ← req contentData.resume "resume is undefined" s
  match resume.references with
  | none => return s
  | some references =>
    if references.length > 0 then
      let s := addSection th lib "Reference" none s
      return references.foldl (fun s ref => referenceBlock th lib ref s) s
    else return s

/-- The file name given to `doc.save`. -/
def resumeFileName (name : String) : String :=
  replaceWhitespace name ++ "_Resume.pdf"

/-- The statements under "Save the PDF". -/
def saveSection (contentData : ContentDocument) (s : PdfState) : Except RenderError PdfState := do
  let personal ← req contentData.personal "personal is undefined" s
  let name ← req personal.name "personal.name is undefined" s
  let fileName := resumeFileName name
  return call (.save fileName) s

/-- The body of the `try` block of `generateResumePDF` after the document has
been created: all the calls it means to make on the document, or the error it
throws by itself. -/
def render (th : Theme) (lib : JsPDF) (contentData : ContentDocument) :
    Except RenderError PdfState := do
  let s : PdfState := { y := th.layout.margin, font := defaultFont, calls := [] }
  let s ← headerSection th lib contentData s
  let s ← profileSection th lib contentData s
  let s ← projectsSection th lib contentData s
  let s ← experienceSection th lib contentData s
  let s ← educationSection th lib contentData s
  let s ← skillsSection th lib contentData s
  let s ← referenceSection th lib contentData s
  saveSection contentData s

/-- Play the intended calls against the library: the calls that returned, and
the call that threw, if one did. -/
def playCalls (lib : JsPDF) : List DocCall → List DocCall → List DocCall × Option DocCall
  | done, [] => (done, none)
  | done, c :: rest =>
    if lib.accepts done c then playCalls lib (done ++ [c]) rest else (done, some c)

/-- How the promise of `loadJsPDF` settles: resolved with the library, rejected
(the script failed to load), or never settled. -/
inductive LoadResult where
  | resolved (lib : JsPDF)
  | rejected
  | pending

/-- What becomes of the `script` element that `loadJsPDF` appends to the head:
the browser fires `load` on it, `window.jspdf` being by then what the script made
of it (`none` when the script defined no such global), or it fires `error`. -/
inductive ScriptOutcome where
  | load (jspdf : Option JsPDF)
  | error

/-- The browser as `loadJsPDF` meets it: `window.jspdf` at the time of the call
(given by its member `jsPDF`; `none` when the global is not defined), and what
becomes of the script element if one is appended. -/
structure Browser where
  jspdf : Option JsPDF
  script : ScriptOutcome

/-- The function `loadJsPDF`, as the way its promise settles.  With
`window.jspdf` defined the executor resolves at once.  Otherwise `script.onload`
runs `resolve(window.jspdf.jsPDF)`: when the script defined no `window.jspdf`
this throws a `TypeError` inside the event handler, outside the executor, and
the promise is never settled; `script.onerror` rejects. -/
def loadJsPDF (browser : Browser) : LoadResult :=
  match browser.jspdf with
  | some lib => .resolved lib
  | none =>
    match browser.script with
    | .load (some lib) => .resolved lib
    | .load none => .pending
    | .error => .rejected

/-- What a call of `generateResumePDF` leaves behind: the `showNotification`
calls (message and type), the `console.error` calls, the file name of a
completed `doc.save`, the calls on the document that returned, and whether the
returned promise settled. -/
structure Outcome where
  notifications : List (String × String)
  consoleErrors : List String
  saved : Option String
  calls : List DocCall
  settled : Bool
deriving DecidableEq, Repr

/-- The `catch` block of `generateResumePDF`. -/
def catchBlock (error : String) (calls : List DocCall) : Outcome :=
  { notifications :=
      [("Generating your new resume...", "info"),
       ("Error generating resume. Please try again.", "error")]
    consoleErrors := ["Error generating PDF: " ++ error]
    saved := none
    calls := calls
    settled := true }

/-- The file name of the last call when it is a `save`. -/
def savedFile (calls : List DocCall) : Option String :=
  match calls.getLast? with
  | some (.save fileName) => some fileName
  | _ => none

/-- The function `generateResumePDF`. -/
def generateResumePDF (load : LoadResult) (contentData : ContentDocument) : Outcome :=
  match load with
  | .pending =>
    { notifications := [("Generating your new resume...", "info")]
      consoleErrors := [], saved := none, calls := [], settled := false }
  | .rejected => catchBlock "script load error" []
  | .resolved lib =>
    match render pdfTheme lib contentData with
    | .error e =>
      match playCalls lib [] e.calls with
      | (done, some _) => catchBlock "jsPDF call threw" done
      | (done, none) => catchBlock e.message done
    | .ok s =>
      match playCalls lib [] s.calls with
      | (done, some _) => catchBlock "jsPDF call threw" done
      | (done, none) =>
        { notifications :=
            [("Generating your new resume...", "info"),
             ("Your new resume has been downloaded!", "success")]
          consoleErrors := []
          saved := savedFile done
          calls := done
          settled := true }

/-- The function `generateResumePDF` in a browser: `await loadJsPDF()`, then the
rest of the `try` block or the `catch` block. -/
def generateResumePDFIn (browser : Browser) (contentData : ContentDocument) : Outcome :=
  generateResumePDF (loadJsPDF browser) contentData

/-! ## The preview (`resumePreview`) -/

/-- Read a value that the preview dereferences: `undefined` throws a `TypeError`. -/
def reqValue {α : Type} (v : Option α) (what : String) : Except String α :=
  match v with
  | some a => .ok a
  | none => .error ("TypeError: " ++ what)

/-- The method `map` with a callback that may throw. -/
def mapThrowing {α β : Type} (f : α → Except String β) : List α → Except String (List β)
  | [] => .ok []
  | a :: rest =>
    match f a with
    | .error e => .error e
    | .ok b =>
      match mapThrowing f rest with
      | .error e => .error e
      | .ok bs => .ok (b :: bs)

/-- The method `resumePreview.renderHeader`. -/
def resumePreview.renderHeader (personal : Option Personal) : Except String String := do
  let personal ← reqValue personal "personal is undefined"
  let contactInfo := join "  |  " (filterBoolean [personal.phone, personal.email, personal.githubUrl])
  let name ← reqValue personal.name "personal.name is undefined"
  return "\n            <div class=\"preview-section preview-header-section\">\n                <h1>"
    ++ toUpperCase name
    ++ "</h1>\n                <p class=\"preview-title\">"
    ++ jsToString personal.title
    ++ "</p>\n                <p class=\"preview-contact\">"
    ++ contactInfo
    ++ "</p>\n            </div>\n        "

/-- The method `resumePreview.renderSection`. -/
def resumePreview.renderSection (title : String) (content : String) : String :=
  "\n            <div class=\"preview-section\">\n                <h2 class=\"preview-heading\">"
    ++ toUpperCase title
    ++ "</h2>\n                <div class=\"preview-section-content\">\n                    "
    ++ content
    ++ "\n                </div>\n            </div>\n        "

/-- The callback of `resume.experience.map`. -/
def resumePreview.renderJob (job : Job) : Except String String := do
  let title ← reqValue job.title "job.title is undefined"
  let achievements ← reqValue job.achievements "job.achievements is undefined"
  return "\n            <div class=\"preview-job\">\n                <div class=\"preview-job-header\">\n                    <strong>"
    ++ toUpperCase title
    ++ "</strong>\n                    <span>"
    ++ jsToString job.period
    ++ "</span>\n                </div>\n                <div class=\"preview-company\">"
    ++ jsToString job.company
    ++ ", "
    ++ jsToString job.location
    ++ "</div>\n                <ul class=\"preview-achievements\">\n                    "
    ++ join "" (achievements.map (fun ach => "<li>" ++ ach ++ "</li>"))
    ++ "\n                </ul>\n            </div>\n        "

/-- The method `resumePreview.renderExperience`. -/
def resumePreview.renderExperience (resume : Option Resume) : Except String String := do
  let resume ← reqValue resume "resume is undefined"
  match resume.experience with
  | none => return ""
  | some experience =>
    if experience.length = 0 then return ""
    else
      let blocks ← mapThrowing resumePreview.renderJob experience
      return resumePreview.renderSection "Professional Experience" (join "" blocks)

/-- The callback of `projects.items.map`. -/
def resumePreview.renderProject (project : Project) : Except String String := do
  let title ← reqValue project.title "project.title is undefined"
  return "\n            <div class=\"preview-project\">\n                <div class=\"preview-job-header\">\n                    <strong>"
    ++ toUpperCase title
    ++ "</strong>\n                </div>\n                "
    ++ (if truthy project.subtitle then
          "<p class=\"preview-subtitle\">" ++ jsToString project.subtitle ++ "</p>"
        else "")
    ++ "\n                <p class=\"preview-project-description\">"
    ++ jsToString project.description
    ++ "</p>\n            </div>\n        "

/-- The method `resumePreview.renderProjects`. -/
def resumePreview.renderProjects (projects : Option Projects) : Except String String := do
  let projects ← reqValue projects "projects is undefined"
  match projects.items with
  | none => return ""
  | some items =>
    if items.length = 0 then return ""
    else
      let blocks ← mapThrowing resumePreview.renderProject items
      return resumePreview.renderSection "Projects" (join "" blocks)

/-- The callback of `resume.education.map`. -/
def resumePreview.renderEducationEntry (edu : Education) : Except String String := do
  let institution ← reqValue edu.institution "edu.institution is undefined"
  return "\n            <div class=\"preview-job\">\n                <div class=\"preview-job-header\">\n                    <strong>"
    ++ toUpperCase institution
    ++ "</strong>\n                    <span>"
    ++ jsToString edu.period
    ++ "</span>\n                </div>\n                <div class=\"preview-company\">"
    ++ jsToString edu.degree
    ++ "</div>\n            </div>\n        "

/-- The method `resumePreview.renderEducation`. -/
def resumePreview.renderEducation (resume : Option Resume) : Except String String := do
  let resume ← reqValue resume "resume is undefined"
  match resume.education with
  | none => return ""
  | some education =>
    if education.length = 0 then return ""
    else
      let blocks ← mapThrowing resumePreview.renderEducationEntry education
      return resumePreview.renderSection "Education" (join "" blocks)

/-- The method `resumePreview.renderSkills`.  `Array.prototype.join` writes an
`undefined` element as the empty string. -/
def resumePreview.renderSkills (about : Option About) : Except String String := do
  let about ← reqValue about "about is undefined"
  match about.skills with
  | none => return ""
  | some skills =>
    if skills.length = 0 then return ""
    else
      let content := "<p>" ++ join "  |  " (skills.map (fun skill => skill.title.getD "")) ++ "</p>"
      return resumePreview.renderSection "Skills" content

/-- The expression `resume?.objective || hero.lede` of `resumePreview.show`, as
the receiver of `.replace`: `none` when it throws or is `undefined`. -/
def resumePreview.summarySource (contentData : ContentDocument) : Option String :=
  let objective : Option String :=
    match contentData.resume with
    | some resume => resume.objective
    | none => none
  if truthy objective then objective
  else
    match contentData.hero with
    | some hero => hero.lede
    | none => none

/-- The interpolated pieces of `modalHTML`, in the order the template literal
evaluates them. -/
structure ModalParts where
  header : String
  profile : String
  projects : String
  experience : String
  education : String
  skills : String
deriving DecidableEq, Repr

/-- Evaluation of the interpolations of `modalHTML` in `resumePreview.show`. -/
def resumePreview.modalParts (contentData : ContentDocument) : Except String ModalParts := do
  let header ← resumePreview.renderHeader contentData.personal
  let source ← reqValue (resumePreview.summarySource contentData) "hero.lede is undefined"
  let profile := resumePreview.renderSection "Profile" ("<p>" ++ stripTags source ++ "</p>")
  let projects ← resumePreview.renderProjects contentData.projects
  let experience ← resumePreview.renderExperience contentData.resume
  let education ← resumePreview.renderEducation contentData.resume
  let skills ← resumePreview.renderSkills contentData.about
  return { header, profile, projects, experience, education, skills }

/-- The template literal `modalHTML` around its interpolated pieces. -/
def resumePreview.modalHTML (parts : ModalParts) : String :=
  "\n            <div id=\"resumePreviewModal\" class=\"resume-preview-modal\">\n                <div class=\"resume-preview-container\">\n                    <div class=\"resume-preview-header\">\n                        <h2>Resume Preview</h2>\n                        <button class=\"close-preview\">&times;</button>\n                    </div>\n                    <div class=\"resume-preview-content\">\n                        "
    ++ parts.header
    ++ "\n                        "
    ++ parts.profile
    ++ "\n                        "
    ++ parts.projects
    ++ "\n                        "
    ++ parts.experience
    ++ "\n                        "
    ++ parts.education
    ++ "\n                        "
    ++ parts.skills
    ++ "\n                    </div>\n                    <div class=\"resume-preview-footer\">\n                        <button class=\"btn-secondary close-preview\">Cancel</button>\n                        <button class=\"btn-primary\" id=\"downloadPdfBtn\">Download PDF</button>\n                    </div>\n                </div>\n            </div>\n        "

/-- A preview modal in the page: its markup, the pieces it was assembled from,
and the document its download button was bound to. -/
structure Modal where
  html : String
  parts : ModalParts
  document : ContentDocument
deriving DecidableEq, Repr

/-- The part of the page the preview touches: the elements with id
`resumePreviewModal`, in document order. -/
structure Page where
  modals : List Modal
deriving DecidableEq, Repr

/-- The method `resumePreview.close`: `getElementById` finds the first element
with the id, which is removed. -/
def resumePreview.close (page : Page) : Page :=
  { page with modals := page.modals.tail }

/-- The method `resumePreview.show`: the page afterwards, or the error thrown
(after `close` has run). -/
def resumePreview.show (contentData : ContentDocument) (page : Page) : Except String Page := do
  let page := resumePreview.close page
  let parts ← resumePreview.modalParts contentData
  let modalHTML := resumePreview.modalHTML parts
  return { page with
    modals := page.modals ++ [{ html := modalHTML, parts := parts, document := contentData }] }

/-! ## The content loader: the page it writes to -/

/-- The method `startsWith('http')`. -/
def startsWithHttp (s : String) : Bool :=
  "http".data.isPrefixOf s.data

/-- The method `padStart(width, fill)` for a one-character filler. -/
def padStart (width : Nat) (fill : Char) (s : String) : String :=
  String.mk (List.replicate (width - s.data.length) fill ++ s.data)

/-- What assigning `v` to `textContent` stores: `undefined` gives the empty
string. -/
def textOf (v : Option String) : String :=
  match v with
  | some s => s
  | none => ""

/-- A child of the `.about-text` region, as far as `populateAbout` can tell
children apart: the element with class `about-intro` and its text; a `p` without
that class and its markup; an element with class `pullquote` and the texts of the
`p` elements in it; an element with class `skills` and the `p` elements in it;
any other element (named by `label`) and the `p` elements in it.  Markup held as
a string is opaque: it adds no element that a selector of the loader matches. -/
inductive Block where
  | intro (text : String)
  | paragraph (html : String)
  | pullquote (paragraphs : List String)
  | skills (paragraphs : List String)
  | other (label : String) (paragraphs : List String)
deriving DecidableEq, Repr

/-- The parts of the page that the content loader reads and writes, one field
per selector; `none` says that the selector matches nothing.  The selectors are
taken to match distinct elements, and the classes `about-intro` and `pullquote`
to occur only inside the `.about-text` region.  The field `title` is the string
assigned to `document.title` (reading `document.title` back gives it with its
white space stripped and collapsed). -/
structure Dom where
  title : String := ""
  metaDescription : Option String := none
  bylineLabel : Option String := none
  bylineDate : Option String := none
  heroTitle : Option String := none
  heroSubtitle : Option String := none
  heroMeta : Option String := none
  heroLede : Option String := none
  aboutEyebrow : Option String := none
  aboutTitle : Option String := none
  aboutText : Option (List Block) := none
  skillsGrid : Option String := none
  projectsEyebrow : Option String := none
  projectsTitle : Option String := none
  projectsDescription : Option String := none
  projectsList : Option String := none
  contactEyebrow : Option String := none
  contactTitle : Option String := none
  contactIntro : Option String := none
  contactMethods : Option String := none
  formTitle : Option String := none
  footerCopyright : Option String := none
  socialLinks : Option String := none
deriving DecidableEq, Repr

/-- What a populate step throws: the error, and the page as the step left it. -/
structure Thrown where
  message : String
  dom : Dom
deriving DecidableEq, Repr

/-- Read a value that the loader dereferences: `undefined` throws a `TypeError`. -/
def need {α : Type} (v : Option α) (what : String) (dom : Dom) : Except Thrown α :=
  match v with
  | some a => .ok a
  | none => .error { message := "TypeError: " ++ what, dom := dom }

/-- The method `map((item, index) => ...)` with a callback that may throw. -/
def mapIdxThrowing {α β : Type} (f : α → Nat → Except String β) :
    List α → Nat → Except String (List β)
  | [], _ => .ok []
  | a :: rest, i =>
    match f a i with
    | .error e => .error e
    | .ok b =>
      match mapIdxThrowing f rest (i + 1) with
      | .error e => .error e
      | .ok bs => .ok (b :: bs)

/-! ## The content loader: markup it generates -/

/-- The string a hero meta value prints as in a template literal: an array
prints its entries joined by commas. -/
def metaValueToString (v : Option MetaValue) : String :=
  match v with
  | some (.str s) => s
  | some (.list ss) => join "," ss
  | none => "undefined"

/-- The callback of `hero.meta.map`. -/
def metaItemHtml (item : MetaItem) : String :=
  "\n            <div class=\"meta-item\">\n                <span class=\"meta-label\">"
    ++ jsToString item.label
    ++ "</span>\n                <span class=\"meta-value\">"
    ++ metaValueToString item.value
    ++ "</span>\n            </div>\n        "

/-- The index label of a skill card: `String(index + 1).padStart(2, '0')`. -/
def skillNumber (index : Nat) : String :=
  padStart 2 '0' (toString (index + 1))

/-- A skill card: the three values interpolated into its template. -/
structure SkillCard where
  number : String
  title : String
  tags : String
deriving DecidableEq, Repr

/-- The template of a skill card around its interpolated values. -/
def SkillCard.html (card : SkillCard) : String :=
  "\n            <div class=\"skill-card\">\n                <div class=\"skill-number\">"
    ++ card.number
    ++ "</div>\n                <h4>"
    ++ card.title
    ++ "</h4>\n                <div class=\"skill-tags\">\n                    "
    ++ card.tags
    ++ "\n                </div>\n            </div>\n        "

/-- The callback of `about.skills.map`: the interpolated values of one card;
`skill.description.map` throws when the description is `undefined`. -/
def skillCard (skill : Skill) (index : Nat) : Except String SkillCard :=
  match skill.description with
  | none => .error "TypeError: skill.description is undefined"
  | some description =>
    .ok { number := skillNumber index
          title := jsToString skill.title
          tags := join "" (description.map (fun tag => "<span class=\"skill-tag\">" ++ tag ++ "</span>")) }

/-- The cards of `about.skills.map(...)`, in array order. -/
def skillCards (skills : List Skill) : Except String (List SkillCard) :=
  mapIdxThrowing skillCard skills 0

/-- The value interpolated as the `target` attribute of a contact or footer
anchor: `url.startsWith('http') ? 'target="_blank"' : ''`. -/
def targetAttribute (url : String) : String :=
  if startsWithHttp url then "target=\"_blank\"" else ""

/-- The value interpolated as the class of a project card. -/
def featuredClass (project : Project) : String :=
  if project.featured then "featured" else ""

/-- The value interpolated as the label of a project card. -/
def featuredLabel (project : Project) : String :=
  if project.featured then "<span class=\"project-label\">Featured Project</span>" else ""

/-- The inner template of a project card: the external link block. -/
def projectLinkBlock (url : String) (text : Option String) : String :=
  "\n                                        <div class=\"project-link\">\n                                            <a href=\""
    ++ url
    ++ "\" target=\"_blank\" class=\"link-with-arrow\">\n                                                "
    ++ jsToString text
    ++ "\n                                            </a>\n                                        </div>\n                                    "

/-- The value of `project.link && project.link.url ? ... : ''`. -/
def projectLink (project : Project) : String :=
  match project.link with
  | none => ""
  | some link =>
    match link.url with
    | none => ""
    | some url => if url != "" then projectLinkBlock url link.text else ""

/-- The callback of `projects.items.map`. -/
def projectCardHtml (project : Project) : String :=
  "\n            <article class=\"project-card "
    ++ featuredClass project
    ++ "\">\n                <div class=\"project-header\">\n                    "
    ++ featuredLabel project
    ++ "\n                    <h3 class=\"project-title\">"
    ++ jsToString project.title
    ++ "</h3>\n                    <p class=\"project-subtitle\">"
    ++ jsToString project.subtitle
    ++ "</p>\n                </div>\n                \n                                    <div class=\"project-content\">\n                                    <p class=\"project-description\">\n                                        "
    ++ jsToString project.description
    ++ "\n                                    </p>\n                                    \n                                    "
    ++ projectLink project
    ++ "\n                                </div>            </article>\n        "

/-- A contact card: the values interpolated into its template. -/
structure ContactCard where
  href : String
  target : String
  number : String
  title : String
  value : String
deriving DecidableEq, Repr

/-- The template of a contact card around its interpolated values. -/
def ContactCard.html (card : ContactCard) : String :=
  "\n            <a href=\""
    ++ card.href
    ++ "\" class=\"contact-card\" "
    ++ card.target
    ++ ">\n                <div class=\"contact-number\">"
    ++ card.number
    ++ "</div>\n                <h3>"
    ++ card.title
    ++ "</h3>\n                <p>"
    ++ card.value
    ++ "</p>\n                <span class=\"contact-arrow\">→</span>\n            </a>\n        "

/-- The callback of `contact.methods.map`: `method.link.startsWith` throws when
the link is `undefined`. -/
def contactCard (method : ContactMethod) : Except String ContactCard :=
  match method.link with
  | none => .error "TypeError: method.link is undefined"
  | some link =>
    .ok { href := link
          target := targetAttribute link
          number := jsToString method.number
          title := jsToString method.title
          value := jsToString method.value }

/-- A footer anchor: the values interpolated into its template. -/
structure FooterAnchor where
  href : String
  target : String
  text : String
deriving DecidableEq, Repr

/-- The template of a footer anchor around its interpolated values. -/
def FooterAnchor.html (anchor : FooterAnchor) : String :=
  "\n            <a href=\""
    ++ anchor.href
    ++ "\" "
    ++ anchor.target
    ++ ">"
    ++ anchor.text
    ++ "</a>\n        "

/-- The callback of `footer.links.map`: `link.url.startsWith` throws when the
url is `undefined`. -/
def footerAnchor (link : Link) : Except String FooterAnchor :=
  match link.url with
  | none => .error "TypeError: link.url is undefined"
  | some url =>
    .ok { href := url, target := targetAttribute url, text := jsToString link.text }

/-! ## The content loader: the `.about-text` region -/

/-- Whether a child is the element with class `about-intro`. -/
def Block.isIntro : Block → Bool
  | .intro _ => true
  | _ => false

/-- Whether a child is an element with class `pullquote`. -/
def Block.isPullquote : Block → Bool
  | .pullquote _ => true
  | _ => false

/-- Whether a child is an element with class `pullquote` that holds a `p`. -/
def Block.hasQuote : Block → Bool
  | .pullquote (_ :: _) => true
  | _ => false

/-- The loop over `aboutText.querySelectorAll('p:not(.about-intro)')`: every `p`
without the class `about-intro` is removed unless `p.closest('.pullquote')`
finds an element. -/
def removeParagraphs : List Block → List Block
  | [] => []
  | .intro text :: rest => .intro text :: removeParagraphs rest
  | .paragraph _ :: rest => removeParagraphs rest
  | .pullquote paragraphs :: rest => .pullquote paragraphs :: removeParagraphs rest
  | .skills _ :: rest => .skills [] :: removeParagraphs rest
  | .other label _ :: rest => .other label [] :: removeParagraphs rest

/-- The call `existingIntro.insertAdjacentElement('afterend', p)`: `p` becomes the
next sibling of the first element with class `about-intro`; `none` when there is
no such element. -/
def insertAfterIntro (p : Block) : List Block → Option (List Block)
  | [] => none
  | b :: rest =>
    if b.isIntro then some (b :: p :: rest)
    else
      match insertAfterIntro p rest with
      | some done => some (b :: done)
      | none => none

/-- The call `existingPullquote.insertAdjacentElement('beforebegin', p)`: `p`
becomes the previous sibling of the first element with class `pullquote`. -/
def insertBeforePullquote (p : Block) : List Block → Option (List Block)
  | [] => none
  | b :: rest =>
    if b.isPullquote then some (p :: b :: rest)
    else
      match insertBeforePullquote p rest with
      | some done => some (b :: done)
      | none => none

/-- The body of `about.paragraphs.forEach((text, index) => ...)`, entry by
entry: the last entry goes before the pullquote when there is one, every other
entry after the intro.  `error` is the `TypeError` of calling
`insertAdjacentElement` on `null`, with the children as they are by then. -/
def insertParagraphs (existingPullquote : Bool) (count : Nat) :
    List String → Nat → List Block → Except (List Block) (List Block)
  | [], _, blocks => .ok blocks
  | text :: rest, index, blocks =>
    let p := Block.paragraph text
    let inserted :=
      if existingPullquote && index == count - 1 then insertBeforePullquote p blocks
      else insertAfterIntro p blocks
    match inserted with
    | some done => insertParagraphs existingPullquote count rest (index + 1) done
    | none => .error blocks

/-- Assign the text of the first element with class `about-intro`. -/
def setIntroText (text : String) : List Block → List Block
  | [] => []
  | .intro _ :: rest => .intro text :: rest
  | b :: rest => b :: setIntroText text rest

/-- Assign the text of the first `p` inside an element with class `pullquote`. -/
def setQuoteText (text : String) : List Block → List Block
  | [] => []
  | .pullquote (_ :: more) :: rest => .pullquote (text :: more) :: rest
  | b :: rest => b :: setQuoteText text rest

/-! ## The content loader: the populate steps -/

/-- The statement `if (el) el.textContent = obj.field`: nothing when the selector
matched no element, a `TypeError` when the element is there and `obj` is
`undefined`. -/
def setText {α : Type} (element : Option String) (obj : Option α) (what : String)
    (field : α → Option String) (dom : Dom) (store : String → Dom) : Except Thrown Dom :=
  match element with
  | none => .ok dom
  | some _ =>
    match obj with
    | none => .error { message := "TypeError: " ++ what, dom := dom }
    | some o => .ok (store (textOf (field o)))

/-- The block `if (metaContainer) { ... }` of `populateHero`. -/
def setHeroMeta (contentData : ContentDocument) (dom : Dom) : Except Thrown Dom :=
  match dom.heroMeta with
  | none => .ok dom
  | some _ =>
    match contentData.hero with
    | none => .error { message := "TypeError: hero is undefined", dom := dom }
    | some hero =>
      match hero.meta with
      | none => .error { message := "TypeError: hero.meta is undefined", dom := dom }
      | some items => .ok { dom with heroMeta := some (join "" (items.map metaItemHtml)) }

/-- The statement `if (heroLede) heroLede.innerHTML = hero.lede`. -/
def setHeroLede (contentData : ContentDocument) (dom : Dom) : Except Thrown Dom :=
  match dom.heroLede with
  | none => .ok dom
  | some _ =>
    match contentData.hero with
    | none => .error { message := "TypeError: hero is undefined", dom := dom }
    | some hero => .ok { dom with heroLede := some (jsToString hero.lede) }

/-- The function `populateHero`. -/
def populateHero (contentData : ContentDocument) (dom : Dom) : Except Thrown Dom := do
  let dom ← setText dom.bylineLabel (contentData.hero.bind (fun hero => hero.byline))
    "hero.byline is undefined" (fun b => b.label) dom (fun t => { dom with bylineLabel := some t })
  let dom ← setText dom.bylineDate (contentData.hero.bind (fun hero => hero.byline))
    "hero.byline is undefined" (fun b => b.date) dom (fun t => { dom with bylineDate := some t })
  let dom ← setText dom.heroTitle contentData.personal "personal is undefined"
    (fun personal => personal.name) dom (fun t => { dom with heroTitle := some t })
  let dom ← setText dom.heroSubtitle contentData.personal "personal is undefined"
    (fun personal => personal.tagline) dom (fun t => { dom with heroSubtitle := some t })
  let dom ← setHeroMeta contentData dom
  setHeroLede contentData dom

/-- The statement `if (intro) intro.textContent = about.intro` of
`populateAbout`. -/
def setIntro (contentData : ContentDocument) (dom : Dom) : Except Thrown Dom :=
  match dom.aboutText with
  | none => .ok dom
  | some blocks =>
    if blocks.any Block.isIntro then
      match contentData.about with
      | none => .error { message := "TypeError: about is undefined", dom := dom }
      | some about => .ok { dom with aboutText := some (setIntroText (textOf about.intro) blocks) }
    else .ok dom

/-- The block `if (aboutText && about.paragraphs) { ... }` of `populateAbout`. -/
def populateParagraphs (contentData : ContentDocument) (dom : Dom) : Except Thrown Dom :=
  match dom.aboutText with
  | none => .ok dom
  | some blocks =>
    match contentData.about with
    | none => .error { message := "TypeError: about is undefined", dom := dom }
    | some about =>
      match about.paragraphs with
      | none => .ok dom
      | some paragraphs =>
        let existingPullquote := blocks.any Block.isPullquote
        match insertParagraphs existingPullquote paragraphs.length paragraphs 0
            (removeParagraphs blocks) with
        | .ok done => .ok { dom with aboutText := some done }
        | .error reached =>
          .error { message := "TypeError: existingIntro is null",
                   dom := { dom with aboutText := some reached } }

/-- The statement `if (quote) quote.textContent = about.quote` of
`populateAbout`. -/
def setQuote (contentData : ContentDocument) (dom : Dom) : Except Thrown Dom :=
  match dom.aboutText with
  | none => .ok dom
  | some blocks =>
    if blocks.any Block.hasQuote then
      match contentData.about with
      | none => .error { message := "TypeError: about is undefined", dom := dom }
      | some about => .ok { dom with aboutText := some (setQuoteText (textOf about.quote) blocks) }
    else .ok dom

/-- The block `if (skillsGrid && about.skills) { ... }` of `populateAbout`. -/
def populateSkills (contentData : ContentDocument) (dom : Dom) : Except Thrown Dom :=
  match dom.skillsGrid with
  | none => .ok dom
  | some _ =>
    match contentData.about with
    | none => .error { message := "TypeError: about is undefined", dom := dom }
    | some about =>
      match about.skills with
      | none => .ok dom
      | some skills =>
        match skillCards skills with
        | .error e => .error { message := e, dom := dom }
        | .ok cards => .ok { dom with skillsGrid := some (join "" (cards.map SkillCard.html)) }

/-- The function `populateAbout`. -/
def populateAbout (contentData : ContentDocument) (dom : Dom) : Except Thrown Dom := do
  let dom ← setText dom.aboutEyebrow contentData.about "about is undefined"
    (fun about => about.eyebrow) dom (fun t => { dom with aboutEyebrow := some t })
  let dom ← setText dom.aboutTitle contentData.about "about is undefined"
    (fun about => about.title) dom (fun t => { dom with aboutTitle := some t })
  let dom ← setIntro contentData dom
  let dom ← populateParagraphs contentData dom
  let dom ← setQuote contentData dom
  populateSkills contentData dom

/-- The block `if (projectsList && projects.items) { ... }` of
`populateProjects`. -/
def setProjectsList (contentData : ContentDocument) (dom : Dom) : Except Thrown Dom :=
  match dom.projectsList with
  | none => .ok dom
  | some _ =>
    match contentData.projects with
    | none => .error { message := "TypeError: projects is undefined", dom := dom }
    | some projects =>
      match projects.items with
      | none => .ok dom
      | some items => .ok { dom with projectsList := some (join "" (items.map projectCardHtml)) }

/-- The function `populateProjects`. -/
def populateProjects (contentData : ContentDocument) (dom : Dom) : Except Thrown Dom := do
  let dom ← setText dom.projectsEyebrow contentData.projects "projects is undefined"
    (fun projects => projects.eyebrow) dom (fun t => { dom with projectsEyebrow := some t })
  let dom ← setText dom.projectsTitle contentData.projects "projects is undefined"
    (fun projects => projects.title) dom (fun t => { dom with projectsTitle := some t })
  let dom ← setText dom.projectsDescription contentData.projects "projects is undefined"
    (fun projects => projects.description) dom
    (fun t => { dom with projectsDescription := some t })
  setProjectsList contentData dom

/-- The block `if (methodsContainer && contact.methods) { ... }` of
`populateContact`. -/
def setContactMethods (contentData : ContentDocument) (dom : Dom) : Except Thrown Dom :=
  match dom.contactMethods with
  | none => .ok dom
  | some _ =>
    match contentData.contact with
    | none => .error { message := "TypeError: contact is undefined", dom := dom }
    | some contact =>
      match contact.methods with
      | none => .ok dom
      | some methods =>
        match mapThrowing contactCard methods with
        | .error e => .error { message := e, dom := dom }
        | .ok cards => .ok { dom with contactMethods := some (join "" (cards.map ContactCard.html)) }

/-- The function `populateContact`. -/
def populateContact (contentData : ContentDocument) (dom : Dom) : Except Thrown Dom := do
  let dom ← setText dom.contactEyebrow contentData.contact "contact is undefined"
    (fun contact => contact.eyebrow) dom (fun t => { dom with contactEyebrow := some t })
  let dom ← setText dom.contactTitle contentData.contact "contact is undefined"
    (fun contact => contact.title) dom (fun t => { dom with contactTitle := some t })
  let dom ← setText dom.contactIntro contentData.contact "contact is undefined"
    (fun contact => contact.intro) dom (fun t => { dom with contactIntro := some t })
  let dom ← setContactMethods contentData dom
  setText dom.formTitle contentData.contact "contact is undefined"
    (fun contact => contact.formTitle) dom (fun t => { dom with formTitle := some t })

/-- The statement ``if (copyright) copyright.textContent = `© ${footer.copyright}` ``
of `populateFooter`. -/
def setCopyright (contentData : ContentDocument) (dom : Dom) : Except Thrown Dom :=
  match dom.footerCopyright with
  | none => .ok dom
  | some _ =>
    match contentData.footer with
    | none => .error { message := "TypeError: footer is undefined", dom := dom }
    | some footer => .ok { dom with footerCopyright := some ("© " ++ jsToString footer.copyright) }

/-- The block `if (socialLinks && footer.links) { ... }` of `populateFooter`. -/
def setSocialLinks (contentData : ContentDocument) (dom : Dom) : Except Thrown Dom :=
  match dom.socialLinks with
  | none => .ok dom
  | some _ =>
    match contentData.footer with
    | none => .error { message := "TypeError: footer is undefined", dom := dom }
    | some footer =>
      match footer.links with
      | none => .ok dom
      | some links =>
        match mapThrowing footerAnchor links with
        | .error e => .error { message := e, dom := dom }
        | .ok anchors => .ok { dom with socialLinks := some (join "" (anchors.map FooterAnchor.html)) }

/-- The function `populateFooter`. -/
def populateFooter (contentData : ContentDocument) (dom : Dom) : Except Thrown Dom := do
  let dom ← setCopyright contentData dom
  setSocialLinks contentData dom

/-- The function `updateMetaTags`. -/
def updateMetaTags (contentData : ContentDocument) (dom : Dom) : Except Thrown Dom :=
  match contentData.personal with
  | none => .error { message := "TypeError: personal is undefined", dom := dom }
  | some personal =>
    match dom.metaDescription with
    | none => .ok { dom with title := jsToString personal.name ++ " | Portfolio" }
    | some _ =>
      .ok { dom with
        title := jsToString personal.name ++ " | Portfolio"
        metaDescription :=
          some (jsToString personal.name ++ " - " ++ jsToString personal.title ++ " Portfolio") }

/-- The function `populateContent`, for the value of the variable `contentData`. -/
def populateContent (contentData : Option ContentDocument) (dom : Dom) : Except Thrown Dom :=
  match contentData with
  | none => .ok dom
  | some contentData => do
    let dom ← populateHero contentData dom
    let dom ← populateAbout contentData dom
    let dom ← populateProjects contentData dom
    let dom ← populateContact contentData dom
    let dom ← populateFooter contentData dom
    updateMetaTags contentData dom

/-! ## The content loader: `loadContent` -/

/-- How `fetch('data/content.json')` and the parse of its body turn out: the
fetch rejects, or there is a response with its `ok` flag and `status`, whose
`json()` rejects (`none`) or gives a value: a document, or `null` (`some none`). -/
inductive FetchResult where
  | rejected
  | response (ok : Bool) (status : Nat) (json : Option (Option ContentDocument))
deriving DecidableEq, Repr

/-- What `loadContent` can change: the page, the module variable `contentData`,
the `contentLoaded` events dispatched (each with its `detail`), and the calls of
`console.error` and `console.log`. -/
structure World where
  dom : Dom
  contentData : Option ContentDocument
  events : List (Option ContentDocument)
  consoleErrors : List String
  consoleLogs : List String
deriving DecidableEq, Repr

/-- The `catch` block of `loadContent`. -/
def loadFailed (error : String) (w : World) : World :=
  { w with
    consoleErrors := w.consoleErrors ++ ["❌ Error loading content: " ++ error]
    consoleLogs := w.consoleLogs ++
      [ "ℹ️ Content will use HTML fallback. To use JSON content, run a local server:",
        "   python -m http.server 8000",
        "   OR use VS Code Live Server extension" ] }

/-- The function `loadContent` of `content-loader.js`. -/
def loadContent (fetch : FetchResult) (w : World) : World :=
  match fetch with
  | .rejected => loadFailed "TypeError: Failed to fetch" w
  | .response ok status json =>
    if !ok then loadFailed ("Error: HTTP error! status: " ++ toString status) w
    else
      match json with
      | none => loadFailed "SyntaxError: the body is not JSON" w
      | some data =>
        let w := { w with contentData := data }
        match populateContent w.contentData w.dom with
        | .error thrown => loadFailed thrown.message { w with dom := thrown.dom }
        | .ok dom =>
          { w with
            dom := dom
            consoleLogs := w.consoleLogs ++ ["✅ Content loaded successfully from JSON"]
            events := w.events ++ [w.contentData] }

/-- The page a populate step leaves behind, whether it returns or throws. -/
def pageAfter (r : Except Thrown Dom) : Dom :=
  match r with
  | .ok dom => dom
  | .error thrown => thrown.dom

/-! ## Call sequences named in the statements -/

/-- The calls `bulletLine` makes after its guard, for a bullet placed at `y`:
the glyph, then the wrapped text beside it. -/
def bulletCalls (th : Theme) (lib : JsPDF) (text : String) (y : ℚ) : List DocCall :=
  [ .setFont th.fonts.body.family th.fonts.body.style,
    .setFontSize th.fonts.body.size,
    .setTextColor th.colors.primary,
    .text th.fonts.body (.str (some "•")) th.layout.margin y none,
    .setFont th.fonts.body.family th.fonts.body.style,
    .setFontSize th.fonts.body.size,
    .setTextColor th.colors.primary,
    .splitTextToSize text (lib.pageWidth - th.layout.margin * 2 - 4),
    .text th.fonts.body
      (.lines (lib.splitTextToSize th.fonts.body text (lib.pageWidth - th.layout.margin * 2 - 4)))
      (th.layout.margin + 4) y none ]

/-- The calls of a job block between its pre-check and its first achievement,
for a block whose title line is placed at `y`: title and period on one line,
company and location on the next. -/
def jobHeadingCalls (th : Theme) (lib : JsPDF) (job : Job) (title : String) (y : ℚ) :
    List DocCall :=
  [ .setFont th.fonts.jobTitle.family th.fonts.jobTitle.style,
    .setFontSize th.fonts.jobTitle.size,
    .setTextColor th.colors.primary,
    .text th.fonts.jobTitle (.str (some (toUpperCase title))) th.layout.margin y none,
    .setFont th.fonts.small.family th.fonts.small.style,
    .setFontSize th.fonts.small.size,
    .setTextColor th.colors.secondary,
    .text th.fonts.small (.str job.period) (lib.pageWidth - th.layout.margin) y (some "right"),
    .setFont th.fonts.body.family th.fonts.body.style,
    .setFontSize th.fonts.body.size,
    .setTextColor th.colors.secondary,
    .text th.fonts.body (.str (some (jsToString job.company ++ ", " ++ jsToString job.location)))
      th.layout.margin (y + th.layout.lineHeight * 1.5) none ]

/-- The state of a job block when its achievements loop starts, on the path
where `job.title` is defined: the pre-check has run and the two heading lines
have been placed. -/
def jobHeadingState (th : Theme) (lib : JsPDF) (job : Job) (title : String) (achievements : Nat)
    (s : PdfState) : PdfState :=
  let s0 := ensureBlockFits th lib (estimateJobBlockHeight th achievements) s
  { y := s0.y + th.layout.lineHeight * 1.5 + th.layout.lineHeight * 1.7
    font := th.fonts.body
    calls := s0.calls ++ jobHeadingCalls th lib job title s0.y }

/-- The statement after the achievements loop: the gap between two jobs. -/
def jobGap (count index : Nat) (s : PdfState) : PdfState :=
  if index < count - 1 then advance 10 s else s

/-! ## What a run puts on the pages, in the words of the specification -/

/-- What a call puts on a page, its position left out: a text in a font, or a
horizontal rule. -/
inductive Mark where
  | text (font : Font) (t : TextArg)
  | rule
deriving DecidableEq, Repr

/-- The mark a call leaves. -/
def markOf : DocCall → Option Mark
  | .text font t _ _ _ => some (.text font t)
  | .line _ _ _ _ => some .rule
  | _ => none

/-- The marks of a call sequence, in order. -/
def marksOf (calls : List DocCall) : List Mark :=
  calls.filterMap markOf

/-- A section heading is a string drawn in the `sectionTitle` font. -/
def headingOfMark (th : Theme) : Mark → Option String
  | .text font (.str (some t)) => if font = th.fonts.sectionTitle then some t else none
  | _ => none

/-- The section headings among the marks, in order. -/
def headingsOfMarks (th : Theme) (marks : List Mark) : List String :=
  marks.filterMap (headingOfMark th)

/-- The section headings a call sequence draws, in order. -/
def headingsOf (th : Theme) (calls : List DocCall) : List String :=
  headingsOfMarks th (marksOf calls)

/-- Concatenate what `g` gives for each entry, in the order of the entries. -/
def concatMap {α β : Type} (g : α → List β) : List α → List β
  | [] => []
  | a :: rest => g a ++ concatMap g rest

/-- Concatenate what `g` gives for each entry, in the order of the entries, when
it gives something for every entry. -/
def collectMarks {α : Type} (g : α → Option (List Mark)) : List α → Option (List Mark)
  | [] => some []
  | a :: rest =>
    match g a, collectMarks g rest with
    | some m, some ms => some (m ++ ms)
    | _, _ => none

/-- Header: name, title, contact line, then the horizontal rule. -/
def headerMarks (th : Theme) (personal : Personal) (name : String) : List Mark :=
  [ .text th.fonts.name (.str (some (toUpperCase name))),
    .text th.fonts.title (.str personal.title),
    .text th.fonts.contact
      (.str (some (join " | " (filterBoolean [personal.phone, personal.email, personal.githubUrl])))),
    .rule ]

/-- A section heading with the rule under it. -/
def headingMarks (th : Theme) (title : String) : List Mark :=
  [ .text th.fonts.sectionTitle (.str (some (toUpperCase title))), .rule ]

/-- A bulleted, wrapped line: the glyph, then the lines of the text wrapped to
the column beside it. -/
def bulletMarks (th : Theme) (lib : JsPDF) (text : String) : List Mark :=
  [ .text th.fonts.body (.str (some "•")),
    .text th.fonts.body
      (.lines (lib.splitTextToSize th.fonts.body text (lib.pageWidth - th.layout.margin * 2 - 4))) ]

/-- The profile: the source stripped of markup, wrapped to the text width. -/
def profileMarks (th : Theme) (lib : JsPDF) (source : String) : List Mark :=
  [ .text th.fonts.body
      (.lines (lib.splitTextToSize th.fonts.body (stripTags source)
        (lib.pageWidth - th.layout.margin * 2))) ]

/-- A project: title, optional subtitle, description split into bullet lines on
its line breaks. -/
def projectMarks (th : Theme) (lib : JsPDF) (project : Project) : Option (List Mark) :=
  match project.title, project.description with
  | some title, some description =>
    some ([ Mark.text th.fonts.jobTitle (.str (some (toUpperCase title))) ] ++
      (if truthy project.subtitle then [ Mark.text th.fonts.italic (.str project.subtitle) ]
       else []) ++
      concatMap (fun line => bulletMarks th lib (trim line)) (descLines description))
  | _, _ => none

/-- A job: title line with the period, company and location line, bulleted
achievements. -/
def jobMarks (th : Theme) (lib : JsPDF) (job : Job) : Option (List Mark) :=
  match job.title, job.achievements with
  | some title, some achievements =>
    some ([ Mark.text th.fonts.jobTitle (.str (some (toUpperCase title))),
        Mark.text th.fonts.small (.str job.period),
        Mark.text th.fonts.body
          (.str (some (jsToString job.company ++ ", " ++ jsToString job.location))) ] ++
      concatMap (bulletMarks th lib) achievements)
  | _, _ => none

/-- An education entry: institution line with the period, degree line. -/
def educationMarks (th : Theme) (edu : Education) : Option (List Mark) :=
  match edu.institution with
  | some institution =>
    some [ Mark.text th.fonts.jobTitle (.str (some (toUpperCase institution))),
      Mark.text th.fonts.small (.str edu.period),
      Mark.text th.fonts.body (.str edu.degree) ]
  | none => none

/-- A skill title as a bullet. -/
def skillMarks (th : Theme) (skillTitle : Option String) : List Mark :=
  [ .text th.fonts.body (.str (some "•")), .text th.fonts.body (.str skillTitle) ]

/-- A skills category: its name, then its titles as bullets. -/
def categoryMarks (th : Theme) (entry : String × List (Option String)) : List Mark :=
  [ Mark.text th.fonts.jobTitle (.str (some entry.1)) ] ++ concatMap (skillMarks th) entry.2

/-- The skills under their heading: grouped by category if any skill declares
one, else a flat bulleted list; nothing for an absent or empty sequence. -/
def skillsMarks (th : Theme) (about : About) : Option (List Mark) :=
  match about.skills with
  | none => some []
  | some skills =>
    if skills.length > 0 then
      if skills.any (fun skill => truthy skill.category) then
        match groupSkills [] skills with
        | some grouped => some (concatMap (categoryMarks th) (objectEntries grouped))
        | none => none
      else some (concatMap (fun skill => skillMarks th skill.title) skills)
    else some []

/-- A reference: name, then title. -/
def referenceMarks (th : Theme) (ref : Reference) : List Mark :=
  [ .text th.fonts.jobTitle (.str ref.name), .text th.fonts.body (.str ref.title) ]

/-- The Projects section: absent for an absent or empty sequence. -/
def projectsMarks (th : Theme) (lib : JsPDF) (projects : Projects) : Option (List Mark) :=
  match projects.items with
  | none => some []
  | some items =>
    if items.length > 0 then
      match collectMarks (projectMarks th lib) items with
      | some ms => some (headingMarks th "Projects" ++ ms)
      | none => none
    else some []

/-- The Reference section: absent for an absent or empty sequence. -/
def referencesMarks (th : Theme) (resume : Resume) : List Mark :=
  match resume.references with
  | none => []
  | some references =>
    if references.length > 0 then headingMarks th "Reference" ++ concatMap (referenceMarks th) references
    else []

/-- The fixed rendering order after the header: Profile, Projects, Professional
Experience, Education, Skills, References, each sequence in document order. -/
def bodyMarks (th : Theme) (lib : JsPDF) (contentData : ContentDocument) : Option (List Mark) :=
  match pdfSummarySource contentData, contentData.projects, contentData.resume,
    contentData.about with
  | some source, some projects, some resume, some about =>
    match projectsMarks th lib projects, resume.experience, resume.education,
      skillsMarks th about with
    | some projectPart, some experience, some education, some skillPart =>
      match collectMarks (jobMarks th lib) experience,
        collectMarks (educationMarks th) education with
      | some jobPart, some educationPart =>
        some (headingMarks th "Profile" ++ profileMarks th lib source ++
          projectPart ++
          headingMarks th "Professional Experience" ++ jobPart ++
          headingMarks th "Education" ++ educationPart ++
          headingMarks th "Skills and Interests" ++ skillPart ++
          referencesMarks th resume)
      | _, _ => none
    | _, _, _, _ => none
  | _, _, _, _ => none

/-- The six section headings, in the fixed order. -/
def sectionHeadings : List String :=
  ["PROFILE", "PROJECTS", "PROFESSIONAL EXPERIENCE", "EDUCATION", "SKILLS AND INTERESTS",
   "REFERENCE"]

/-- The notification of a completed run. -/
def successNotification : String × String :=
  ("Your new resume has been downloaded!", "success")

/-- The category a skill is filed under: `skill.category || 'Other'`. -/
def skillCategory (skill : Skill) : String :=
  if truthy skill.category then jsToString skill.category else "Other"

/-- The titles of the skills filed under a category, in document order. -/
def titlesIn (cat : String) (skills : List Skill) : List (Option String) :=
  (skills.filter (fun skill => skillCategory skill == cat)).map (fun skill => skill.title)

/-- The number of skill titles under all the categories together. -/
def titleCount (grouped : List (String × List (Option String))) : Nat :=
  (grouped.map (fun entry => entry.2.length)).sum

/-- What the object `grouped` holds after the skills `processed` have been
filed: distinct categories, each with the titles of its skills in document
order, none empty; every skill's category is there; as many titles as skills. -/
def Grouped (grouped : List (String × List (Option String))) (processed : List Skill) : Prop :=
  (grouped.map (fun e => e.1)).Nodup ∧
    (∀ e ∈ grouped, e.2 = titlesIn e.1 processed ∧ e.2 ≠ []) ∧
    (∀ s ∈ processed, skillCategory s ∈ grouped.map (fun e => e.1)) ∧
    titleCount grouped = processed.length

/-- Whether a call that places something (a text or a rule) places it at a
height between `lo` and `hi`; the other calls place nothing. -/
def DocCall.inPage (lo hi : ℚ) : DocCall → Prop
  | .text _ _ _ y _ => lo ≤ y ∧ y ≤ hi
  | .line _ y1 _ y2 => lo ≤ y1 ∧ y1 ≤ hi ∧ lo ≤ y2 ∧ y2 ≤ hi
  | _ => True

/-- The cursor is not above `lo`, and everything placed so far is between `lo`
and `hi`. -/
def CursorOk (lo hi : ℚ) (s : PdfState) : Prop :=
  lo ≤ s.y ∧ ∀ c ∈ s.calls, c.inPage lo hi

/-- What `CursorOk` says of a computation of the `try` block: of the state when
it returns, of the calls made when it throws. -/
def ResultOk (lo hi : ℚ) (r : Except RenderError PdfState) : Prop :=
  match r with
  | .ok s => CursorOk lo hi s
  | .error e => ∀ c ∈ e.calls, c.inPage lo hi

/-- The document with `resume.references` replaced, everything else as it is. -/
def withReferences (contentData : ContentDocument) (references : Option (List Reference)) :
    ContentDocument :=
  { contentData with
    resume := contentData.resume.map (fun resume => { resume with references := references }) }

/-- Whether `needle` occurs in `text`. -/
def occursIn (needle text : String) : Bool :=
  text.data.tails.any (fun rest => needle.data.isPrefixOf rest)

/-- The markup of the modals of the page after a computation that returned. -/
def modalMarkup (r : Except String Page) : Option (List String) :=
  r.toOption.map (fun page => page.modals.map (fun modal => modal.html))

/-- The number a string of decimal digits denotes. -/
def decimalValue (s : String) : Nat :=
  s.data.foldl (fun n c => 10 * n + (c.toNat - 48)) 0

/-- Whether a call is `doc.save`. -/
def DocCall.isSave : DocCall → Bool
  | .save _ => true
  | _ => false

/-- No call of the sequence is `doc.save`. -/
def noSave (calls : List DocCall) : Bool :=
  calls.all (fun c => !c.isSave)

/-- The calls a computation of the `try` block has made by the time it returns
or throws. -/
def callsOf (r : Except RenderError PdfState) : List DocCall :=
  match r with
  | .ok s => s.calls
  | .error e => e.calls

/-- Whether `projects.items` is present and non-empty. -/
def hasProjects (contentData : ContentDocument) : Bool :=
  match contentData.projects with
  | some projects =>
    match projects.items with
    | some items => decide (items.length > 0)
    | none => false
  | none => false

/-- Whether `resume.references` is present and non-empty. -/
def hasReferences (contentData : ContentDocument) : Bool :=
  match contentData.resume with
  | some resume =>
    match resume.references with
    | some references => decide (references.length > 0)
    | none => false
  | none => false

/-- Whether `about.skills` is present and non-empty. -/
def hasSkills (contentData : ContentDocument) : Bool :=
  match contentData.about with
  | some about =>
    match about.skills with
    | some skills => decide (skills.length > 0)
    | none => false
  | none => false

/-- The headings of a completed run. -/
def drawnHeadings (contentData : ContentDocument) : List String :=
  ["PROFILE"] ++ (if hasProjects contentData then ["PROJECTS"] else []) ++
    ["PROFESSIONAL EXPERIENCE", "EDUCATION", "SKILLS AND INTERESTS"] ++
    (if hasReferences contentData then ["REFERENCE"] else [])

/-! ## Concrete inputs -/

/-- Break a text into lines of at most `width` characters: `room` characters
still fit in the line collected (reversed) in `line`. -/
def wrapGo (width : Nat) : Nat → List Char → List Char → List (List Char)
  | _, line, [] => [line.reverse]
  | 0, line, c :: cs => line.reverse :: wrapGo width (width - 1) [c] cs
  | room + 1, line, c :: cs => wrapGo width room (c :: line) cs

/-- A stand-in for the library on a nominal A4 page (210 by 297): it breaks a
text every 100 characters, about what the text column holds at 9 pt, and every
call returns. -/
def sampleA4 : JsPDF where
  pageWidth := 210
  pageHeight := 297
  splitTextToSize := fun _ t _ => (wrapGo 100 100 [] t.data).map String.mk
  accepts := fun _ _ => true

/-- An achievement of 169 characters: two lines. -/
def twoLineAchievement : String :=
  join " " (List.replicate 5 "Delivered the quarterly analysis.")

/-- An achievement of 339 characters: four lines. -/
def fourLineAchievement : String :=
  join " " (List.replicate 10 "Delivered the quarterly analysis.")

/-- An achievement of 407 characters: five lines. -/
def longAchievement : String :=
  join " " (List.replicate 12 "Delivered the quarterly analysis.")

/-- A job whose single achievement is `longAchievement`. -/
def sampleJob : Job where
  title := some "Analyst"
  period := some "1842"
  company := some "Engine"
  location := some "London"
  achievements := some [longAchievement]

/-- A resume with two jobs: by the sixth achievement of the second job the
cursor has come down to `y = 258.1`. -/
def crowdedDocument : ContentDocument where
  personal := some { name := some "Ada Lovelace", title := some "Engineer" }
  hero := some { lede := some "x" }
  about := some { skills := some [] }
  projects := some { items := some [] }
  resume := some {
    experience := some [
      { title := some "Translator", period := some "1843", company := some "Taylor",
        location := some "London",
        achievements := some [twoLineAchievement, twoLineAchievement, twoLineAchievement] },
      { title := some "Analyst", period := some "1842", company := some "Engine",
        location := some "London",
        achievements := some [fourLineAchievement, fourLineAchievement, fourLineAchievement,
          fourLineAchievement, fourLineAchievement, longAchievement] } ]
    education := some [] }

/-- A document with every section of the resume filled in. -/
def fullDocument : ContentDocument where
  personal := some {
    name := some "Ada Lovelace", title := some "Analyst", email := some "ada@example.org",
    phone := some "555 0100" }
  hero := some { lede := some "The <em>first</em> programmer." }
  about := some {
    skills := some [
      { title := some "Analysis", category := some "Mathematics" },
      { title := some "Music" },
      { title := some "Algebra", category := some "Mathematics" } ] }
  projects := some {
    items := some [
      { title := some "Notes", subtitle := some "On the Analytical Engine",
        description := some "Translated the memoir\n\nAdded notes A to G" },
      { title := some "Bernoulli", description := some "Computed the numbers" } ] }
  resume := some {
    experience := some [
      sampleJob,
      { title := some "Translator", period := some "1843", company := some "Taylor",
        location := some "London", achievements := some ["Published in 1843"] } ]
    education := some [
      { institution := some "Private tuition", period := some "1832", degree := some "Mathematics" } ]
    references := some [ { name := some "Charles Babbage", title := some "Inventor" } ] }

/-- The skills of `fullDocument`: two under `Mathematics`, one without a
category. -/
def fullSkills : List Skill :=
  [ { title := some "Analysis", category := some "Mathematics" },
    { title := some "Music" },
    { title := some "Algebra", category := some "Mathematics" } ]

/-- Skills one of which is filed under the category `constructor`. -/
def constructorSkills : List Skill :=
  [ { title := some "Analysis", category := some "Mathematics" },
    { title := some "Types", category := some "constructor" } ]

/-- The document `fullDocument` with `constructorSkills` as its skills. -/
def constructorSkillsDocument : ContentDocument :=
  { fullDocument with about := some { skills := some constructorSkills } }

/-- A complete resume whose `about.skills` is empty and that has no projects and
no references. -/
def emptySkillsDocument : ContentDocument where
  personal := some { name := some "Ada Lovelace", title := some "Analyst" }
  hero := some { lede := some "x" }
  about := some { skills := some [] }
  projects := some { items := some [] }
  resume := some {
    objective := some "Compute."
    experience := some [
      { title := some "Translator", period := some "1843", company := some "Taylor",
        location := some "London", achievements := some ["Published the notes"] } ]
    education := some [
      { institution := some "Private tuition", period := some "1832", degree := some "Mathematics" } ] }

/-- The example document of the specification: no `resume` object. -/
def specExampleDocument : ContentDocument where
  personal := some { name := some "Ada Lovelace" }
  hero := some { byline := some { label := some "L", date := some "D" }, meta := some [], lede := some "x" }
  about := some {
    eyebrow := some "", title := some "", intro := some "", paragraphs := some [],
    quote := some "", skills := some [] }
  projects := some { eyebrow := some "", title := some "", description := some "", items := some [] }
  contact := some {
    eyebrow := some "", title := some "", intro := some "", methods := some [],
    formTitle := some "" }
  footer := some { copyright := some "2024", links := some [] }

/-- Eleven skills, each with a title and one tag. -/
def elevenSkills : List Skill :=
  (List.range 11).map (fun i =>
    { title := some ("Skill " ++ toString i), description := some ["tag"] })

/-- A featured project with an absolute link. -/
def engineProject : Project where
  title := some "Engine"
  subtitle := some "1843"
  description := some "Notes"
  featured := true
  link := some { url := some "https://example.org/engine", text := some "View" }

/-- A project with a relative link. -/
def tablesProject : Project where
  title := some "Tables"
  subtitle := some "1842"
  description := some "Numbers"
  link := some { url := some "/tables.html", text := some "Read" }

/-- A project without a link. -/
def sketchProject : Project where
  title := some "Sketch"
  subtitle := some "1841"
  description := some "Drafts"

/-- A contact method whose link is a `mailto:` address. -/
def emailMethod : ContactMethod where
  number := some "01"
  title := some "Email"
  value := some "ada@example.org"
  link := some "mailto:ada@example.org"

/-- A contact method whose link begins with `http`. -/
def githubMethod : ContactMethod where
  number := some "02"
  title := some "GitHub"
  value := some "ada"
  link := some "https://github.com/ada"

/-- A footer link that begins with `http`. -/
def githubLink : Link where
  url := some "https://github.com/ada"
  text := some "GitHub"

/-- A footer link to a place in the page. -/
def topLink : Link where
  url := some "#top"
  text := some "Top"

/-- A document for the loader: three paragraphs, eleven skills, three projects
(featured with an absolute link, plain with a relative link, plain without a
link), contact methods and footer links with and without the `http` prefix. -/
def portfolioDocument : ContentDocument where
  personal := some { name := some "Ada Lovelace", title := some "Analyst",
                     tagline := some "Notes on the Analytical Engine" }
  hero := some { byline := some { label := some "Portfolio", date := some "2024" },
                 meta := some [{ label := some "Based in", value := some (.str "London") }],
                 lede := some "I write <em>programs</em>." }
  about := some {
    eyebrow := some "About", title := some "Who I am", intro := some "Intro",
    paragraphs := some ["First", "Second", "Third"], quote := some "Quote",
    skills := some elevenSkills }
  projects := some {
    eyebrow := some "Work", title := some "Projects", description := some "Selected work",
    items := some [engineProject, tablesProject, sketchProject] }
  contact := some {
    eyebrow := some "Contact", title := some "Write", intro := some "Say hello",
    methods := some [emailMethod, githubMethod],
    formTitle := some "Send a message" }
  footer := some { copyright := some "2024 Ada", links := some [githubLink, topLink] }

/-- A malformed document: `personal` and `hero` are well-formed, `about` and
everything after it are absent. -/
def heroOnlyDocument : ContentDocument where
  personal := some { name := some "Ada Lovelace", tagline := some "Notes" }
  hero := some { byline := some { label := some "L", date := some "D" }, meta := some [],
                 lede := some "x" }

/-- A page with every region of the loader in place, holding fallback markup:
the `.about-text` region has an intro, two static paragraphs, a pullquote and a
skills block with a paragraph of its own. -/
def samplePage : Dom where
  title := "Portfolio"
  metaDescription := some "A portfolio"
  bylineLabel := some "Portfolio"
  bylineDate := some "2023"
  heroTitle := some "Your Name"
  heroSubtitle := some "Tagline"
  heroMeta := some ""
  heroLede := some "Lede"
  aboutEyebrow := some "About"
  aboutTitle := some "About me"
  aboutText := some [
    .intro "Fallback intro", .paragraph "Fallback one", .paragraph "Fallback two",
    .pullquote ["Fallback quote"], .skills ["What I do"] ]
  skillsGrid := some ""
  projectsEyebrow := some "Work"
  projectsTitle := some "Projects"
  projectsDescription := some "Selected work"
  projectsList := some ""
  contactEyebrow := some "Contact"
  contactTitle := some "Get in touch"
  contactIntro := some "Write to me"
  contactMethods := some ""
  formTitle := some "Send a message"
  footerCopyright := some "© 2023"
  socialLinks := some ""

/-- The state of a freshly loaded page: `samplePage`, `contentData` still `null`,
nothing dispatched or logged. -/
def sampleWorld : World where
  dom := samplePage
  contentData := none
  events := []
  consoleErrors := []
  consoleLogs := []

/-- The page `samplePage` after `populateContent` has projected the example
document of the specification onto it. -/
def loadedSamplePage : Dom :=
  match populateContent (some specExampleDocument) samplePage with
  | .ok dom => dom
  | .error thrown => thrown.dom

/-- A browser without `window.jspdf` in which the appended script loads and
defines no `window.jspdf` (the bundle registered itself with a module loader of
the page instead, or the address served something else). -/
def scriptWithoutGlobal : Browser where
  jspdf := none
  script := .load none

/-- A state with the cursor at `y = 95.3`, where the first job block of
`crowdedDocument` starts. -/
def sampleState : PdfState where
  y := 95.3
  font := defaultFont
  calls := []

end Portfolio

namespace Portfolio

/-! ## The page-break guard -/

/-- C1: the guard `checkPageBreak(h)`, and likewise `ensureBlockFits(h)`, starts
exactly one new page (its only call is `addPage`) and sets `y` to the margin
when `y + h > pageHeight - margin`; otherwise it makes no call and leaves the
state, `y` included, unchanged. -/
theorem checkPageBreak_guard (th : Theme) (lib : JsPDF) (h : ℚ) (s : PdfState) :
    (s.y + h > lib.pageHeight - th.layout.margin →
      checkPageBreak th lib h s =
          { y := th.layout.margin, font := s.font, calls := s.calls ++ [DocCall.addPage] } ∧
        ensureBlockFits th lib h s =
          { y := th.layout.margin, font := s.font, calls := s.calls ++ [DocCall.addPage] }) ∧
      (¬ s.y + h > lib.pageHeight - th.layout.margin →
        checkPageBreak th lib h s = s ∧ ensureBlockFits th lib h s = s) := by
  constructor
  · intro hgt
    simp [checkPageBreak, ensureBlockFits, call, hgt]
  · intro hle
    simp [checkPageBreak, ensureBlockFits, hle]

/-- C1 at a concrete state: at `y = 265` on the A4 page a block of height 10
starts a new page, and at `y = 100` it does not. -/
theorem checkPageBreak_guard_witness :
    (checkPageBreak pdfTheme sampleA4 10 { y := 265, font := defaultFont, calls := [] } =
        { y := 25, font := defaultFont, calls := [DocCall.addPage] } ∧
      ensureBlockFits pdfTheme sampleA4 10 { y := 265, font := defaultFont, calls := [] } =
        { y := 25, font := defaultFont, calls := [DocCall.addPage] }) ∧
    (checkPageBreak pdfTheme sampleA4 10 { y := 100, font := defaultFont, calls := [] } =
        { y := 100, font := defaultFont, calls := [] } ∧
      ensureBlockFits pdfTheme sampleA4 10 { y := 100, font := defaultFont, calls := [] } =
        { y := 100, font := defaultFont, calls := [] }) :=
  ⟨(checkPageBreak_guard pdfTheme sampleA4 10 { y := 265, font := defaultFont, calls := [] }).1
      (by norm_num [pdfTheme, sampleA4]),
    (checkPageBreak_guard pdfTheme sampleA4 10 { y := 100, font := defaultFont, calls := [] }).2
      (by norm_num [pdfTheme, sampleA4])⟩

/-! ## Bullet lines and wrapped text -/

/-- The calls `bulletLine` makes after its guard, and where it leaves the cursor. -/
theorem bulletLine_eq (th : Theme) (lib : JsPDF) (text : String) (s : PdfState) :
    bulletLine th lib text s =
      { y := (checkPageBreak th lib 10 s).y +
          ((lib.splitTextToSize th.fonts.body text
            (lib.pageWidth - th.layout.margin * 2 - 4)).length * 4 + 2.5)
        font := th.fonts.body
        calls := (checkPageBreak th lib 10 s).calls ++
          bulletCalls th lib text (checkPageBreak th lib 10 s).y } := by
  simp [bulletLine, bulletCalls, addWrappedText, wrappedLines, useFont, call, drawText, advance,
    numOr]

/-- A loop of bullet lines only appends calls. -/
theorem foldl_bulletLine_calls (th : Theme) (lib : JsPDF) (g : String → String)
    (texts : List String) (s : PdfState) :
    ∃ tail, (texts.foldl (fun s t => bulletLine th lib (g t) s) s).calls = s.calls ++ tail := by
  induction texts generalizing s with
  | nil => exact ⟨[], by simp⟩
  | cons t rest ih =>
    obtain ⟨tail, htail⟩ := ih (bulletLine th lib (g t) s)
    have hstep : ∃ mid, (bulletLine th lib (g t) s).calls = s.calls ++ mid := by
      rw [bulletLine_eq]
      by_cases hgt : s.y + 10 > lib.pageHeight - th.layout.margin
      · exact ⟨_, by simp [checkPageBreak, call, hgt, List.append_assoc]; rfl⟩
      · exact ⟨_, by simp [checkPageBreak, hgt]; rfl⟩
    obtain ⟨mid, hmid⟩ := hstep
    exact ⟨mid ++ tail, by simp [List.foldl_cons, htail, hmid, List.append_assoc]⟩

/-- A job block with a title and achievements runs to its end: heading lines,
then one bullet line per achievement, then the gap. -/
theorem jobBlock_ok (th : Theme) (lib : JsPDF) (count index : Nat) (job : Job) (s : PdfState)
    (title : String) (achievements : List String)
    (hach : job.achievements = some achievements) (htitle : job.title = some title) :
    jobBlock th lib count job index s =
      .ok (jobGap count index
        (achievements.foldl (fun s achievement => bulletLine th lib achievement s)
          (jobHeadingState th lib job title achievements.length s))) := by
  simp [jobBlock, hach, htitle, req, jobHeadingState, jobHeadingCalls, jobGap, useFont, call,
    drawText, advance, bind, Except.bind, pure, Except.pure]

/-- The calls of one bullet line: a page first exactly when the fixed height 10
does not fit. -/
theorem bulletLine_calls (th : Theme) (lib : JsPDF) (text : String) (r : PdfState) :
    (r.y + 10 > lib.pageHeight - th.layout.margin →
      (bulletLine th lib text r).calls =
        r.calls ++ [DocCall.addPage] ++ bulletCalls th lib text th.layout.margin) ∧
    (¬ r.y + 10 > lib.pageHeight - th.layout.margin →
      (bulletLine th lib text r).calls = r.calls ++ bulletCalls th lib text r.y) := by
  rw [bulletLine_eq]
  constructor
  · intro hgt
    simp [checkPageBreak, call, hgt]
  · intro hle
    simp [checkPageBreak, hle]

/-- C2 (amended): in a job block, when an achievement is reached (after the
achievements `pre` before it) the guard checks the fixed height 10 and not the
wrapped height: if `y + 10 > pageHeight - margin` one page is started and the
bullet and the wrapped text are placed at the top margin, otherwise no page is
started and they are placed at `y`; these calls come next in the run of the
block. -/
theorem achievement_fixed_guard (th : Theme) (lib : JsPDF) (count index : Nat) (job : Job)
    (s : PdfState) (title : String) (pre post : List String) (a : String)
    (hach : job.achievements = some (pre ++ a :: post)) (htitle : job.title = some title) :
    ∃ sFinal tail,
      jobBlock th lib count job index s = .ok sFinal ∧
      (let reached := pre.foldl (fun s achievement => bulletLine th lib achievement s)
          (jobHeadingState th lib job title (pre ++ a :: post).length s)
       (reached.y + 10 > lib.pageHeight - th.layout.margin →
          sFinal.calls = reached.calls ++ [DocCall.addPage] ++
            bulletCalls th lib a th.layout.margin ++ tail) ∧
       (¬ reached.y + 10 > lib.pageHeight - th.layout.margin →
          sFinal.calls = reached.calls ++ bulletCalls th lib a reached.y ++ tail)) := by
  obtain ⟨tail, htail⟩ := foldl_bulletLine_calls th lib id post
    (bulletLine th lib a (pre.foldl (fun s achievement => bulletLine th lib achievement s)
      (jobHeadingState th lib job title (pre ++ a :: post).length s)))
  refine ⟨_, tail, jobBlock_ok th lib count index job s title _ hach htitle, ?_⟩
  have hgap : ∀ t : PdfState, (jobGap count index t).calls = t.calls := by
    intro t; unfold jobGap advance; split <;> rfl
  simp only [hgap, List.foldl_append, List.foldl_cons]
  simp only [id] at htail
  rw [htail]
  constructor
  · intro hgt
    rw [(bulletLine_calls th lib a _).1 hgt]
  · intro hle
    rw [(bulletLine_calls th lib a _).2 hle]

/-- C2 (amended) on `sampleJob` from the cursor `y = 95.3`: its one achievement
is reached at `y = 109.7`. -/
theorem achievement_fixed_guard_witness :
    ∃ sFinal tail,
      jobBlock pdfTheme sampleA4 1 sampleJob 0 sampleState = .ok sFinal ∧
      (let reached := ([] : List String).foldl
          (fun s achievement => bulletLine pdfTheme sampleA4 achievement s)
          (jobHeadingState pdfTheme sampleA4 sampleJob "Analyst"
            ([] ++ longAchievement :: []).length sampleState)
       (reached.y + 10 > sampleA4.pageHeight - pdfTheme.layout.margin →
          sFinal.calls = reached.calls ++ [DocCall.addPage] ++
            bulletCalls pdfTheme sampleA4 longAchievement pdfTheme.layout.margin ++ tail) ∧
       (¬ reached.y + 10 > sampleA4.pageHeight - pdfTheme.layout.margin →
          sFinal.calls = reached.calls ++
            bulletCalls pdfTheme sampleA4 longAchievement reached.y ++ tail)) :=
  achievement_fixed_guard pdfTheme sampleA4 1 0 sampleJob sampleState "Analyst" [] []
    longAchievement rfl rfl

/-- C2 as stated fails on `crowdedDocument`: the run completes; the sixth
achievement of the second job wraps to `N = 5` lines and its text is placed at
`y = 258.1` on the first page, no page having been started before it, so it was
reached at `y = 258.1`; and `y + N * 4 = 278.1` exceeds
`pageHeight - margin = 272`. -/
theorem achievement_guard_counterexample :
    (generateResumePDF (.resolved sampleA4) crowdedDocument).saved =
        some "Ada_Lovelace_Resume.pdf" ∧
      (sampleA4.splitTextToSize pdfTheme.fonts.body longAchievement 156).length = 5 ∧
      DocCall.text pdfTheme.fonts.body
          (.lines (sampleA4.splitTextToSize pdfTheme.fonts.body longAchievement 156))
          29 (2581 / 10) none ∈
        (generateResumePDF (.resolved sampleA4) crowdedDocument).calls ∧
      (2581 / 10 : ℚ) + 5 * 4 > sampleA4.pageHeight - pdfTheme.layout.margin ∧
      DocCall.addPage ∉
        (generateResumePDF (.resolved sampleA4) crowdedDocument).calls.takeWhile
          (fun c => c != DocCall.text pdfTheme.fonts.body
            (.lines (sampleA4.splitTextToSize pdfTheme.fonts.body longAchievement 156))
            29 (2581 / 10) none) := by
  decide!

/-- C8: `addWrappedText` returns `N` times the line height, `N` the number of
lines `splitTextToSize(text, maxWidth)` yields and the line height
`options.lineHeight` when it is given and non-zero, `layout.lineHeight` (4.5 in
`pdfTheme`) otherwise; a bullet line advances the cursor from its guarded
position by `N * 4` plus the gap 2.5, and the profile advances it from the end
of its heading by `N * 4` plus `sectionSpacing`. -/
theorem addWrappedText_height (th : Theme) (lib : JsPDF) (text : String) (o : WrapOptions)
    (s : PdfState) :
    (addWrappedText th lib text o s).2 =
        (lib.splitTextToSize o.font text o.maxWidth).length *
          (match o.lineHeight with
           | some v => if v = 0 then th.layout.lineHeight else v
           | none => th.layout.lineHeight) ∧
      pdfTheme.layout.lineHeight = 4.5 ∧
      (bulletLine th lib text s).y =
        (checkPageBreak th lib 10 s).y +
          ((lib.splitTextToSize th.fonts.body text
            (lib.pageWidth - th.layout.margin * 2 - 4)).length * 4 + 2.5) ∧
      (∀ (contentData : ContentDocument) (source : String),
        pdfSummarySource contentData = some source →
        ∃ s1, profileSection th lib contentData s = .ok s1 ∧
          s1.y = (addSection th lib "Profile" none s).y +
            (lib.splitTextToSize th.fonts.body (stripTags source)
              (lib.pageWidth - th.layout.margin * 2)).length * 4 +
            th.layout.sectionSpacing) := by
  refine ⟨?_, rfl, ?_, ?_⟩
  · cases hlh : o.lineHeight <;>
      simp [addWrappedText, wrappedLines, numOr, useFont, call, drawText, hlh]
  · rw [bulletLine_eq]
  · intro contentData source hsrc
    simp [profileSection, hsrc, req, addWrappedText, wrappedLines, numOr, useFont, call,
      drawText, advance, bind, Except.bind, pure, Except.pure]

/-- C8 on `crowdedDocument`, whose profile source is its hero lede "x". -/
theorem addWrappedText_height_witness :
    ∃ s1, profileSection pdfTheme sampleA4 crowdedDocument sampleState = .ok s1 ∧
      s1.y = (addSection pdfTheme sampleA4 "Profile" none sampleState).y +
        (sampleA4.splitTextToSize pdfTheme.fonts.body (stripTags "x")
          (sampleA4.pageWidth - pdfTheme.layout.margin * 2)).length * 4 +
        pdfTheme.layout.sectionSpacing :=
  (addWrappedText_height pdfTheme sampleA4 "x"
    { x := 25, font := pdfTheme.fonts.body, color := "#000000", maxWidth := 160,
      lineHeight := some 4 } sampleState).2.2.2 crowdedDocument "x" rfl

/-- The pre-check of a job block leaves the cursor where the heading and the
fixed height of a first bullet still fit. -/
theorem ensureBlockFits_estimate_room (lib : JsPDF) (hH : lib.pageHeight = 297) (n : Nat)
    (s : PdfState) :
    ¬ (ensureBlockFits pdfTheme lib (estimateJobBlockHeight pdfTheme n) s).y +
        pdfTheme.layout.lineHeight * 1.5 + pdfTheme.layout.lineHeight * 1.7 + 10 >
      lib.pageHeight - pdfTheme.layout.margin := by
  have hn : (0 : ℚ) ≤ (n : ℚ) := Nat.cast_nonneg n
  unfold ensureBlockFits
  split
  · simp [call, pdfTheme, hH]; norm_num
  · rename_i hfit
    simp [estimateJobBlockHeight, pdfTheme, hH] at hfit ⊢
    norm_num at hfit ⊢
    nlinarith

/-- C3: on a page of height 297 with `pdfTheme`, for a job with at least one
achievement and any cursor before the pre-check: the estimate is
`1.5 * 4.5 + 1.7 * 4.5 + n * (1.1 * 4.5 + 2.5) + 10`; the guard
`checkPageBreak(10)` before the first achievement changes nothing; and the run
of the block is the pre-check, then the title line, the company line and the
first bullet with no page started between them. -/
theorem job_heading_unbroken (lib : JsPDF) (hH : lib.pageHeight = 297) (count index : Nat)
    (job : Job) (s : PdfState) (title a : String) (rest : List String)
    (hach : job.achievements = some (a :: rest)) (htitle : job.title = some title) :
    estimateJobBlockHeight pdfTheme (a :: rest).length =
        1.5 * 4.5 + 1.7 * 4.5 + ((a :: rest).length : ℚ) * (1.1 * 4.5 + 2.5) + 10 ∧
      checkPageBreak pdfTheme lib 10 (jobHeadingState pdfTheme lib job title (a :: rest).length s) =
        jobHeadingState pdfTheme lib job title (a :: rest).length s ∧
      ∃ sFinal tail,
        jobBlock pdfTheme lib count job index s = .ok sFinal ∧
        DocCall.addPage ∉
          jobHeadingCalls pdfTheme lib job title
              (ensureBlockFits pdfTheme lib (estimateJobBlockHeight pdfTheme (a :: rest).length) s).y ++
            bulletCalls pdfTheme lib a
              ((ensureBlockFits pdfTheme lib
                (estimateJobBlockHeight pdfTheme (a :: rest).length) s).y + 4.5 * 1.5 + 4.5 * 1.7) ∧
        sFinal.calls =
          (ensureBlockFits pdfTheme lib (estimateJobBlockHeight pdfTheme (a :: rest).length) s).calls ++
            jobHeadingCalls pdfTheme lib job title
              (ensureBlockFits pdfTheme lib (estimateJobBlockHeight pdfTheme (a :: rest).length) s).y ++
            bulletCalls pdfTheme lib a
              ((ensureBlockFits pdfTheme lib
                (estimateJobBlockHeight pdfTheme (a :: rest).length) s).y + 4.5 * 1.5 + 4.5 * 1.7) ++
            tail := by
  have hroom := ensureBlockFits_estimate_room lib hH (a :: rest).length s
  have hguard : checkPageBreak pdfTheme lib 10
      (jobHeadingState pdfTheme lib job title (a :: rest).length s) =
      jobHeadingState pdfTheme lib job title (a :: rest).length s := by
    unfold checkPageBreak
    rw [if_neg]
    simpa [jobHeadingState, add_assoc] using hroom
  refine ⟨?_, hguard, ?_⟩
  · simp [estimateJobBlockHeight, pdfTheme]; ring
  · obtain ⟨tail, htail⟩ := foldl_bulletLine_calls pdfTheme lib id rest
      (bulletLine pdfTheme lib a (jobHeadingState pdfTheme lib job title (a :: rest).length s))
    refine ⟨_, tail, jobBlock_ok pdfTheme lib count index job s title _ hach htitle, ?_, ?_⟩
    · simp [jobHeadingCalls, bulletCalls]
    · have hgap : ∀ t : PdfState, (jobGap count index t).calls = t.calls := by
        intro t; unfold jobGap advance; split <;> rfl
      simp only [id] at htail
      rw [hgap, List.foldl_cons, htail, bulletLine_eq, hguard]
      simp [jobHeadingState, pdfTheme]

/-- C3 on `sampleJob`, from the cursor `y = 95.3`. -/
theorem job_heading_unbroken_witness :
    estimateJobBlockHeight pdfTheme (longAchievement :: []).length =
        1.5 * 4.5 + 1.7 * 4.5 + ((longAchievement :: []).length : ℚ) * (1.1 * 4.5 + 2.5) + 10 ∧
      checkPageBreak pdfTheme sampleA4 10
          (jobHeadingState pdfTheme sampleA4 sampleJob "Analyst"
            (longAchievement :: []).length sampleState) =
        jobHeadingState pdfTheme sampleA4 sampleJob "Analyst"
          (longAchievement :: []).length sampleState ∧
      ∃ sFinal tail,
        jobBlock pdfTheme sampleA4 1 sampleJob 0 sampleState = .ok sFinal ∧
        DocCall.addPage ∉
          jobHeadingCalls pdfTheme sampleA4 sampleJob "Analyst"
              (ensureBlockFits pdfTheme sampleA4
                (estimateJobBlockHeight pdfTheme (longAchievement :: []).length) sampleState).y ++
            bulletCalls pdfTheme sampleA4 longAchievement
              ((ensureBlockFits pdfTheme sampleA4
                (estimateJobBlockHeight pdfTheme (longAchievement :: []).length) sampleState).y +
                  4.5 * 1.5 + 4.5 * 1.7) ∧
        sFinal.calls =
          (ensureBlockFits pdfTheme sampleA4
              (estimateJobBlockHeight pdfTheme (longAchievement :: []).length) sampleState).calls ++
            jobHeadingCalls pdfTheme sampleA4 sampleJob "Analyst"
              (ensureBlockFits pdfTheme sampleA4
                (estimateJobBlockHeight pdfTheme (longAchievement :: []).length) sampleState).y ++
            bulletCalls pdfTheme sampleA4 longAchievement
              ((ensureBlockFits pdfTheme sampleA4
                (estimateJobBlockHeight pdfTheme (longAchievement :: []).length) sampleState).y +
                  4.5 * 1.5 + 4.5 * 1.7) ++
            tail :=
  job_heading_unbroken sampleA4 rfl 1 0 sampleJob sampleState "Analyst" longAchievement []
    rfl rfl

/-! ## The marks of each helper and block -/

@[simp]
theorem marksOf_append (a b : List DocCall) : marksOf (a ++ b) = marksOf a ++ marksOf b := by
  simp [marksOf, List.filterMap_append]

@[simp]
theorem marksOf_nil : marksOf [] = [] := rfl

theorem concatMap_append {α β : Type} (g : α → List β) (l1 l2 : List α) :
    concatMap g (l1 ++ l2) = concatMap g l1 ++ concatMap g l2 := by
  induction l1 with
  | nil => rfl
  | cons a rest ih => simp [concatMap, ih, List.append_assoc]

@[simp]
theorem checkPageBreak_marks (th : Theme) (lib : JsPDF) (h : ℚ) (s : PdfState) :
    marksOf (checkPageBreak th lib h s).calls = marksOf s.calls := by
  unfold checkPageBreak
  split <;> simp [call, marksOf, markOf, List.filterMap_append]

@[simp]
theorem checkPageBreak_font (th : Theme) (lib : JsPDF) (h : ℚ) (s : PdfState) :
    (checkPageBreak th lib h s).font = s.font := by
  unfold checkPageBreak
  split <;> simp [call]

@[simp]
theorem ensureBlockFits_marks (th : Theme) (lib : JsPDF) (h : ℚ) (s : PdfState) :
    marksOf (ensureBlockFits th lib h s).calls = marksOf s.calls := by
  unfold ensureBlockFits
  split <;> simp [call, marksOf, markOf, List.filterMap_append]

@[simp]
theorem ensureBlockFits_font (th : Theme) (lib : JsPDF) (h : ℚ) (s : PdfState) :
    (ensureBlockFits th lib h s).font = s.font := by
  unfold ensureBlockFits
  split <;> simp [call]

theorem addSection_marks (th : Theme) (lib : JsPDF) (title : String) (s : PdfState) :
    marksOf (addSection th lib title none s).calls = marksOf s.calls ++ headingMarks th title := by
  simp [addSection, headingMarks, numOr, useFont, call, drawText, advance, marksOf, markOf,
    List.filterMap_append]
  exact checkPageBreak_marks th lib 16 s

theorem bulletLine_marks (th : Theme) (lib : JsPDF) (text : String) (s : PdfState) :
    marksOf (bulletLine th lib text s).calls = marksOf s.calls ++ bulletMarks th lib text := by
  rw [bulletLine_eq]
  simp [bulletCalls, bulletMarks, marksOf, markOf, List.filterMap_append]
  exact checkPageBreak_marks th lib 10 s

theorem skillLine_marks (th : Theme) (lib : JsPDF) (skillTitle : Option String) (s : PdfState) :
    marksOf (skillLine th lib skillTitle s).calls = marksOf s.calls ++ skillMarks th skillTitle := by
  simp [skillLine, skillMarks, useFont, call, drawText, advance, marksOf, markOf,
    List.filterMap_append]
  exact ensureBlockFits_marks th lib 8 s

theorem referenceBlock_marks (th : Theme) (lib : JsPDF) (ref : Reference) (s : PdfState) :
    marksOf (referenceBlock th lib ref s).calls = marksOf s.calls ++ referenceMarks th ref := by
  simp [referenceBlock, referenceMarks, useFont, call, drawText, advance, marksOf, markOf,
    List.filterMap_append]
  exact ensureBlockFits_marks th lib 16 s

/-- A loop whose body appends the marks `g a` appends them for every entry, in
the order of the entries. -/
theorem foldl_marks {α : Type} (f : PdfState → α → PdfState) (g : α → List Mark)
    (hstep : ∀ s a, marksOf (f s a).calls = marksOf s.calls ++ g a) (l : List α) (s : PdfState) :
    marksOf (l.foldl f s).calls = marksOf s.calls ++ concatMap g l := by
  induction l generalizing s with
  | nil => simp [concatMap]
  | cons a rest ih => simp [List.foldl_cons, ih, hstep, concatMap, List.append_assoc]

theorem categoryBlock_marks (th : Theme) (lib : JsPDF) (entry : String × List (Option String))
    (s : PdfState) :
    marksOf (categoryBlock th lib entry s).calls = marksOf s.calls ++ categoryMarks th entry := by
  simp only [categoryBlock, advance]
  rw [foldl_marks _ (skillMarks th) (fun s a => skillLine_marks th lib a s)]
  simp [categoryMarks, useFont, call, drawText, advance, marksOf, markOf, List.filterMap_append]
  exact ensureBlockFits_marks th lib _ s

/-- A throwing loop that ran to its end drew the marks of every entry, in the
order of the entries. -/
theorem forEachIdx_marks {α : Type} (f : α → Nat → PdfState → Except RenderError PdfState)
    (g : α → Option (List Mark))
    (hstep : ∀ a i s s1, f a i s = .ok s1 →
      ∃ m, g a = some m ∧ marksOf s1.calls = marksOf s.calls ++ m)
    (l : List α) (i : Nat) (s s1 : PdfState) (hrun : forEachIdx f l i s = .ok s1) :
    ∃ ms, collectMarks g l = some ms ∧ marksOf s1.calls = marksOf s.calls ++ ms := by
  induction l generalizing i s with
  | nil =>
    simp [forEachIdx] at hrun
    subst hrun
    exact ⟨[], rfl, by simp⟩
  | cons a rest ih =>
    simp only [forEachIdx] at hrun
    cases hfa : f a i s with
    | error e => simp [hfa] at hrun
    | ok s2 =>
      simp only [hfa] at hrun
      obtain ⟨m, hm, hmarks⟩ := hstep a i s s2 hfa
      obtain ⟨ms, hms, hrest⟩ := ih (i + 1) s2 hrun
      exact ⟨m ++ ms, by simp [collectMarks, hm, hms], by simp [hrest, hmarks, List.append_assoc]⟩

@[simp]
theorem advance_calls (d : ℚ) (s : PdfState) : (advance d s).calls = s.calls := rfl

theorem jobGap_calls (count index : Nat) (s : PdfState) : (jobGap count index s).calls = s.calls := by
  unfold jobGap advance
  split <;> rfl

theorem jobBlock_marks (th : Theme) (lib : JsPDF) (count : Nat) (job : Job) (index : Nat)
    (s s1 : PdfState) (hrun : jobBlock th lib count job index s = .ok s1) :
    ∃ m, jobMarks th lib job = some m ∧ marksOf s1.calls = marksOf s.calls ++ m := by
  cases hach : job.achievements with
  | none => simp [jobBlock, hach, req, bind, Except.bind] at hrun
  | some achievements =>
    cases htitle : job.title with
    | none => simp [jobBlock, hach, htitle, req, bind, Except.bind] at hrun
    | some title =>
      rw [jobBlock_ok th lib count index job s title achievements hach htitle] at hrun
      injection hrun with hrun
      subst hrun
      refine ⟨_, by unfold jobMarks; rw [htitle, hach], ?_⟩
      rw [jobGap_calls, foldl_marks _ (bulletMarks th lib) (fun s a => bulletLine_marks th lib a s)]
      simp [jobHeadingState, jobHeadingCalls, marksOf, markOf, List.filterMap_append]
      exact ensureBlockFits_marks th lib _ s

theorem projectBlock_marks (th : Theme) (lib : JsPDF) (count : Nat) (project : Project)
    (index : Nat) (s s1 : PdfState) (hrun : projectBlock th lib count project index s = .ok s1) :
    ∃ m, projectMarks th lib project = some m ∧ marksOf s1.calls = marksOf s.calls ++ m := by
  cases htitle : project.title with
  | none => simp [projectBlock, htitle, req, bind, Except.bind] at hrun
  | some title =>
    cases hdesc : project.description with
    | none => simp [projectBlock, htitle, hdesc, req, bind, Except.bind] at hrun
    | some description =>
      refine ⟨_, by unfold projectMarks; rw [htitle, hdesc], ?_⟩
      have hloop := fun t => foldl_marks (fun s line => bulletLine th lib (trim line) s)
        (fun line => bulletMarks th lib (trim line))
        (fun s a => bulletLine_marks th lib (trim a) s) (descLines description) t
      simp only [projectBlock, htitle, hdesc, req, bind, Except.bind, pure, Except.pure] at hrun
      injection hrun with hrun
      subst hrun
      by_cases hsub : truthy project.subtitle = true <;> by_cases hidx : index < count - 1 <;>
        simp only [hsub, hidx, if_true, if_false, not_true_eq_false, advance_calls, hloop] <;>
        simp [useFont, call, drawText, advance, marksOf, markOf, List.filterMap_append] <;>
        exact ensureBlockFits_marks th lib 25 s

theorem educationBlock_marks (th : Theme) (lib : JsPDF) (count : Nat) (edu : Education)
    (index : Nat) (s s1 : PdfState) (hrun : educationBlock th lib count edu index s = .ok s1) :
    ∃ m, educationMarks th edu = some m ∧ marksOf s1.calls = marksOf s.calls ++ m := by
  cases hinst : edu.institution with
  | none => simp [educationBlock, hinst, req, bind, Except.bind] at hrun
  | some institution =>
    refine ⟨_, by unfold educationMarks; rw [hinst], ?_⟩
    simp only [educationBlock, hinst, req, bind, Except.bind, pure, Except.pure] at hrun
    injection hrun with hrun
    subst hrun
    by_cases hidx : index < count - 1 <;>
      simp [hidx, useFont, call, drawText, advance, marksOf, markOf, List.filterMap_append] <;>
      exact ensureBlockFits_marks th lib 18 s

/-! ## The marks of each section -/

theorem headerSection_marks (th : Theme) (lib : JsPDF) (contentData : ContentDocument)
    (s s1 : PdfState) (hrun : headerSection th lib contentData s = .ok s1) :
    ∃ personal name, contentData.personal = some personal ∧ personal.name = some name ∧
      marksOf s1.calls = marksOf s.calls ++ headerMarks th personal name := by
  cases hp : contentData.personal with
  | none => simp [headerSection, hp, req, bind, Except.bind] at hrun
  | some personal =>
    cases hn : personal.name with
    | none => simp [headerSection, hp, hn, req, bind, Except.bind] at hrun
    | some name =>
      refine ⟨personal, name, rfl, hn, ?_⟩
      simp only [headerSection, hp, hn, req, bind, Except.bind, pure, Except.pure] at hrun
      injection hrun with hrun
      subst hrun
      simp [headerMarks, useFont, call, drawText, advance, marksOf, markOf, List.filterMap_append]

theorem profileSection_marks (th : Theme) (lib : JsPDF) (contentData : ContentDocument)
    (s s1 : PdfState) (hrun : profileSection th lib contentData s = .ok s1) :
    ∃ source, pdfSummarySource contentData = some source ∧
      marksOf s1.calls = marksOf s.calls ++ headingMarks th "Profile" ++ profileMarks th lib source := by
  cases hsrc : pdfSummarySource contentData with
  | none => simp [profileSection, hsrc, req, bind, Except.bind] at hrun
  | some source =>
    refine ⟨source, rfl, ?_⟩
    simp only [profileSection, hsrc, req, bind, Except.bind, pure, Except.pure, addWrappedText,
      wrappedLines, advance_calls] at hrun
    injection hrun with hrun
    subst hrun
    have hsec := addSection_marks th lib "Profile" s
    simp only [advance_calls, drawText, call, useFont, marksOf_append, hsec]
    simp [profileMarks, marksOf, markOf]

theorem projectsSection_marks (th : Theme) (lib : JsPDF) (contentData : ContentDocument)
    (s s1 : PdfState) (hrun : projectsSection th lib contentData s = .ok s1) :
    ∃ projects m, contentData.projects = some projects ∧ projectsMarks th lib projects = some m ∧
      marksOf s1.calls = marksOf s.calls ++ m := by
  cases hp : contentData.projects with
  | none => simp [projectsSection, hp, req, bind, Except.bind] at hrun
  | some projects =>
    simp only [projectsSection, hp, req, bind, Except.bind, pure, Except.pure] at hrun
    cases hitems : projects.items with
    | none =>
      simp only [hitems] at hrun
      injection hrun with hrun
      subst hrun
      exact ⟨projects, [], rfl, by simp [projectsMarks, hitems], by simp⟩
    | some items =>
      simp only [hitems] at hrun
      by_cases hlen : items.length > 0
      · simp only [hlen, if_true] at hrun
        cases hloop : forEachIdx (projectBlock th lib items.length) items 0
            (addSection th lib "Projects" none s) with
        | error e => simp [hloop] at hrun
        | ok s2 =>
          simp only [hloop] at hrun
          injection hrun with hrun
          subst hrun
          obtain ⟨ms, hms, hmarks⟩ := forEachIdx_marks _ (projectMarks th lib)
            (fun a i t t1 h => projectBlock_marks th lib items.length a i t t1 h) items 0 _ s2 hloop
          refine ⟨projects, headingMarks th "Projects" ++ ms, rfl, ?_, ?_⟩
          · simp [projectsMarks, hitems, hlen, hms]
          · simp [hmarks, addSection_marks, List.append_assoc]
      · simp only [hlen, if_false] at hrun
        injection hrun with hrun
        subst hrun
        exact ⟨projects, [], rfl, by simp [projectsMarks, hitems, hlen], by simp⟩

theorem experienceSection_marks (th : Theme) (lib : JsPDF) (contentData : ContentDocument)
    (s s1 : PdfState) (hrun : experienceSection th lib contentData s = .ok s1) :
    ∃ resume experience m, contentData.resume = some resume ∧
      resume.experience = some experience ∧
      collectMarks (jobMarks th lib) experience = some m ∧
      marksOf s1.calls = marksOf s.calls ++ headingMarks th "Professional Experience" ++ m := by
  cases hr : contentData.resume with
  | none => simp [experienceSection, hr, req, bind, Except.bind] at hrun
  | some resume =>
    cases he : resume.experience with
    | none => simp [experienceSection, hr, he, req, bind, Except.bind] at hrun
    | some experience =>
      simp only [experienceSection, hr, he, req, bind, Except.bind, pure, Except.pure] at hrun
      cases hloop : forEachIdx (jobBlock th lib experience.length) experience 0
          (addSection th lib "Professional Experience" none s) with
      | error e => simp [hloop] at hrun
      | ok s2 =>
        simp only [hloop] at hrun
        injection hrun with hrun
        subst hrun
        obtain ⟨ms, hms, hmarks⟩ := forEachIdx_marks _ (jobMarks th lib)
          (fun a i t t1 h => jobBlock_marks th lib experience.length a i t t1 h) experience 0 _ s2
          hloop
        exact ⟨resume, experience, ms, rfl, he, hms, by simp [hmarks, addSection_marks]⟩

theorem educationSection_marks (th : Theme) (lib : JsPDF) (contentData : ContentDocument)
    (s s1 : PdfState) (hrun : educationSection th lib contentData s = .ok s1) :
    ∃ resume education m, contentData.resume = some resume ∧
      resume.education = some education ∧
      collectMarks (educationMarks th) education = some m ∧
      marksOf s1.calls = marksOf s.calls ++ headingMarks th "Education" ++ m := by
  cases hr : contentData.resume with
  | none => simp [educationSection, hr, req, bind, Except.bind] at hrun
  | some resume =>
    cases he : resume.education with
    | none => simp [educationSection, hr, he, req, bind, Except.bind] at hrun
    | some education =>
      simp only [educationSection, hr, he, req, bind, Except.bind, pure, Except.pure] at hrun
      cases hloop : forEachIdx (educationBlock th lib education.length) education 0
          (addSection th lib "Education" none s) with
      | error e => simp [hloop] at hrun
      | ok s2 =>
        simp only [hloop] at hrun
        injection hrun with hrun
        subst hrun
        obtain ⟨ms, hms, hmarks⟩ := forEachIdx_marks _ (educationMarks th)
          (fun a i t t1 h => educationBlock_marks th lib education.length a i t t1 h) education 0 _
          s2 hloop
        exact ⟨resume, education, ms, rfl, he, hms, by simp [hmarks, addSection_marks]⟩

theorem skillsSection_marks (th : Theme) (lib : JsPDF) (contentData : ContentDocument)
    (s s1 : PdfState) (hrun : skillsSection th lib contentData s = .ok s1) :
    ∃ about m, contentData.about = some about ∧ skillsMarks th about = some m ∧
      marksOf s1.calls = marksOf s.calls ++ headingMarks th "Skills and Interests" ++ m := by
  have hsec := addSection_marks th lib "Skills and Interests" s
  cases ha : contentData.about with
  | none => simp [skillsSection, ha, req, bind, Except.bind] at hrun
  | some about =>
    simp only [skillsSection, ha, req, bind, Except.bind, pure, Except.pure] at hrun
    cases hskills : about.skills with
    | none =>
      simp only [hskills] at hrun
      injection hrun with hrun
      subst hrun
      exact ⟨about, [], rfl, by simp [skillsMarks, hskills], by simp [hsec]⟩
    | some skills =>
      simp only [hskills] at hrun
      by_cases hlen : skills.length > 0
      · simp only [hlen, if_true] at hrun
        by_cases hcat : skills.any (fun skill => truthy skill.category) = true
        · simp only [hcat, if_true] at hrun
          cases hg : groupSkills [] skills with
          | none => simp [hg] at hrun
          | some grouped =>
            simp only [hg] at hrun
            injection hrun with hrun
            subst hrun
            refine ⟨about, concatMap (categoryMarks th) (objectEntries grouped), rfl, ?_, ?_⟩
            · simp [skillsMarks, hskills, hlen, hcat, hg]
            · rw [advance_calls, foldl_marks _ (categoryMarks th)
                (fun t a => categoryBlock_marks th lib a t), hsec]
        · simp only [hcat] at hrun
          injection hrun with hrun
          subst hrun
          refine ⟨about, concatMap (fun skill => skillMarks th skill.title) skills, rfl, ?_, ?_⟩
          · simp [skillsMarks, hskills, hlen, hcat]
          · rw [advance_calls, foldl_marks (fun t (skill : Skill) => skillLine th lib skill.title t)
              (fun skill => skillMarks th skill.title)
              (fun t a => skillLine_marks th lib a.title t), ensureBlockFits_marks, hsec]
      · simp only [hlen, if_false] at hrun
        injection hrun with hrun
        subst hrun
        exact ⟨about, [], rfl, by simp [skillsMarks, hskills, hlen], by simp [hsec]⟩

theorem referenceSection_marks (th : Theme) (lib : JsPDF) (contentData : ContentDocument)
    (s s1 : PdfState) (hrun : referenceSection th lib contentData s = .ok s1) :
    ∃ resume, contentData.resume = some resume ∧
      marksOf s1.calls = marksOf s.calls ++ referencesMarks th resume := by
  cases hr : contentData.resume with
  | none => simp [referenceSection, hr, req, bind, Except.bind] at hrun
  | some resume =>
    refine ⟨resume, rfl, ?_⟩
    simp only [referenceSection, hr, req, bind, Except.bind, pure, Except.pure] at hrun
    cases hrefs : resume.references with
    | none =>
      simp only [hrefs] at hrun
      injection hrun with hrun
      subst hrun
      simp [referencesMarks, hrefs]
    | some references =>
      simp only [hrefs] at hrun
      by_cases hlen : references.length > 0
      · simp only [hlen, if_true] at hrun
        injection hrun with hrun
        subst hrun
        rw [foldl_marks _ (referenceMarks th) (fun t a => referenceBlock_marks th lib a t),
          addSection_marks]
        simp [referencesMarks, hrefs, hlen, List.append_assoc]
      · simp only [hlen, if_false] at hrun
        injection hrun with hrun
        subst hrun
        simp [referencesMarks, hrefs, hlen]

theorem saveSection_calls (contentData : ContentDocument) (s s1 : PdfState)
    (hrun : saveSection contentData s = .ok s1) :
    ∃ personal name, contentData.personal = some personal ∧ personal.name = some name ∧
      s1.calls = s.calls ++ [DocCall.save (resumeFileName name)] := by
  cases hp : contentData.personal with
  | none => simp [saveSection, hp, req, bind, Except.bind] at hrun
  | some personal =>
    cases hn : personal.name with
    | none => simp [saveSection, hp, hn, req, bind, Except.bind] at hrun
    | some name =>
      simp only [saveSection, hp, hn, req, bind, Except.bind, pure, Except.pure] at hrun
      injection hrun with hrun
      subst hrun
      exact ⟨personal, name, rfl, hn, rfl⟩

/-- The sections of a run of `render`, one after the other. -/
theorem render_sections (th : Theme) (lib : JsPDF) (contentData : ContentDocument) (s : PdfState)
    (hrun : render th lib contentData = .ok s) :
    ∃ s1 s2 s3 s4 s5 s6 s7,
      headerSection th lib contentData
        { y := th.layout.margin, font := defaultFont, calls := [] } = .ok s1 ∧
      profileSection th lib contentData s1 = .ok s2 ∧
      projectsSection th lib contentData s2 = .ok s3 ∧
      experienceSection th lib contentData s3 = .ok s4 ∧
      educationSection th lib contentData s4 = .ok s5 ∧
      skillsSection th lib contentData s5 = .ok s6 ∧
      referenceSection th lib contentData s6 = .ok s7 ∧
      saveSection contentData s7 = .ok s := by
  simp only [render, bind, Except.bind] at hrun
  cases h1 : headerSection th lib contentData
      { y := th.layout.margin, font := defaultFont, calls := [] } with
  | error e => simp [h1] at hrun
  | ok s1 =>
    simp only [h1] at hrun
    cases h2 : profileSection th lib contentData s1 with
    | error e => simp [h2] at hrun
    | ok s2 =>
      simp only [h2] at hrun
      cases h3 : projectsSection th lib contentData s2 with
      | error e => simp [h3] at hrun
      | ok s3 =>
        simp only [h3] at hrun
        cases h4 : experienceSection th lib contentData s3 with
        | error e => simp [h4] at hrun
        | ok s4 =>
          simp only [h4] at hrun
          cases h5 : educationSection th lib contentData s4 with
          | error e => simp [h5] at hrun
          | ok s5 =>
            simp only [h5] at hrun
            cases h6 : skillsSection th lib contentData s5 with
            | error e => simp [h6] at hrun
            | ok s6 =>
              simp only [h6] at hrun
              cases h7 : referenceSection th lib contentData s6 with
              | error e => simp [h7] at hrun
              | ok s7 =>
                simp only [h7] at hrun
                exact ⟨s1, s2, s3, s4, s5, s6, s7, rfl, h2, h3, h4, h5, h6, h7, hrun⟩

/-! ## A completed run -/

/-- The marks of a run of `render`: the header, then the body in the fixed
order; its last call saves the file named after `personal.name`. -/
theorem render_marks (th : Theme) (lib : JsPDF) (contentData : ContentDocument) (s : PdfState)
    (hrun : render th lib contentData = .ok s) :
    ∃ personal name body, contentData.personal = some personal ∧ personal.name = some name ∧
      bodyMarks th lib contentData = some body ∧
      marksOf s.calls = headerMarks th personal name ++ body ∧
      ∃ before, s.calls = before ++ [DocCall.save (resumeFileName name)] := by
  obtain ⟨s1, s2, s3, s4, s5, s6, s7, h1, h2, h3, h4, h5, h6, h7, h8⟩ :=
    render_sections th lib contentData s hrun
  obtain ⟨personal, name, hp, hn, m1⟩ := headerSection_marks th lib contentData _ s1 h1
  obtain ⟨source, hsrc, m2⟩ := profileSection_marks th lib contentData s1 s2 h2
  obtain ⟨projects, pm, hproj, hpm, m3⟩ := projectsSection_marks th lib contentData s2 s3 h3
  obtain ⟨resume, experience, jm, hres, hexp, hjm, m4⟩ :=
    experienceSection_marks th lib contentData s3 s4 h4
  obtain ⟨resume5, education, em, hres5, hedu, hem, m5⟩ :=
    educationSection_marks th lib contentData s4 s5 h5
  obtain ⟨about, sm, habout, hsm, m6⟩ := skillsSection_marks th lib contentData s5 s6 h6
  obtain ⟨resume7, hres7, m7⟩ := referenceSection_marks th lib contentData s6 s7 h7
  obtain ⟨personal8, name8, hp8, hn8, hsave⟩ := saveSection_calls contentData s7 s h8
  rw [hres] at hres5 hres7
  injection hres5 with hres5
  injection hres7 with hres7
  subst hres5 hres7
  rw [hp] at hp8
  injection hp8 with hp8
  subst hp8
  rw [hn] at hn8
  injection hn8 with hn8
  subst hn8
  refine ⟨personal, name,
    headingMarks th "Profile" ++ profileMarks th lib source ++ pm ++
      headingMarks th "Professional Experience" ++ jm ++ headingMarks th "Education" ++ em ++
      headingMarks th "Skills and Interests" ++ sm ++ referencesMarks th resume,
    hp, hn, ?_, ?_, _, hsave⟩
  · simp only [bodyMarks, hsrc, hproj, hres, habout, hpm, hexp, hedu, hsm, hjm, hem]
  · rw [hsave, marksOf_append, m7, m6, m5, m4, m3, m2, m1]
    simp [marksOf, markOf, List.append_assoc]

theorem playCalls_all (lib : JsPDF) (calls done played : List DocCall)
    (hplay : playCalls lib done calls = (played, none)) : played = done ++ calls := by
  induction calls generalizing done with
  | nil =>
    simp [playCalls] at hplay
    simp [hplay]
  | cons c rest ih =>
    simp only [playCalls] at hplay
    split at hplay
    · rw [ih _ hplay]
      simp
    · simp at hplay

/-- A run that shows the success notification resolved the library, ran
`render` to its end, had every call accepted, and saved the file. -/
theorem generateResumePDF_completed (load : LoadResult) (contentData : ContentDocument)
    (hdone : successNotification ∈ (generateResumePDF load contentData).notifications) :
    ∃ lib s, load = .resolved lib ∧ render pdfTheme lib contentData = .ok s ∧
      (generateResumePDF load contentData).calls = s.calls ∧
      (generateResumePDF load contentData).saved = savedFile s.calls := by
  cases load with
  | pending => simp [generateResumePDF, successNotification] at hdone
  | rejected => simp [generateResumePDF, catchBlock, successNotification] at hdone
  | resolved lib =>
    simp only [generateResumePDF] at hdone
    cases hr : render pdfTheme lib contentData with
    | error e =>
      simp only [hr] at hdone
      split at hdone <;> simp [catchBlock, successNotification] at hdone
    | ok s =>
      simp only [hr] at hdone
      cases hplay : playCalls lib [] s.calls with
      | mk played thrown =>
        cases thrown with
        | some c => simp [hplay, catchBlock, successNotification] at hdone
        | none =>
          have hall := playCalls_all lib s.calls [] played hplay
          simp at hall
          subst hall
          exact ⟨lib, s, rfl, hr, by simp [generateResumePDF, hr, hplay],
            by simp [generateResumePDF, hr, hplay]⟩

/-! ## The headings of a completed run -/

@[simp]
theorem headingsOfMarks_append (th : Theme) (a b : List Mark) :
    headingsOfMarks th (a ++ b) = headingsOfMarks th a ++ headingsOfMarks th b := by
  simp [headingsOfMarks, List.filterMap_append]

theorem headingsOfMarks_concatMap {α : Type} (th : Theme) (g : α → List Mark)
    (hg : ∀ a, headingsOfMarks th (g a) = []) (l : List α) :
    headingsOfMarks th (concatMap g l) = [] := by
  induction l with
  | nil => rfl
  | cons a rest ih => simp [concatMap, hg, ih]

theorem headingsOfMarks_collectMarks {α : Type} (th : Theme) (g : α → Option (List Mark))
    (hg : ∀ a m, g a = some m → headingsOfMarks th m = []) (l : List α) (ms : List Mark)
    (hms : collectMarks g l = some ms) : headingsOfMarks th ms = [] := by
  induction l generalizing ms with
  | nil =>
    simp [collectMarks] at hms
    subst hms
    rfl
  | cons a rest ih =>
    simp only [collectMarks] at hms
    cases hga : g a with
    | none => simp [hga] at hms
    | some m =>
      cases hrest : collectMarks g rest with
      | none => simp [hga, hrest] at hms
      | some ms1 =>
        simp [hga, hrest] at hms
        subst hms
        simp [hg a m hga, ih ms1 hrest]

theorem headingsOfMarks_text_cons (th : Theme) (f : Font) (t : TextArg) (rest : List Mark)
    (hf : f ≠ th.fonts.sectionTitle) :
    headingsOfMarks th (Mark.text f t :: rest) = headingsOfMarks th rest := by
  cases t with
  | lines ls => simp [headingsOfMarks, headingOfMark]
  | str v => cases v <;> simp [headingsOfMarks, headingOfMark, hf]

theorem headingsOfMarks_rule_cons (th : Theme) (rest : List Mark) :
    headingsOfMarks th (Mark.rule :: rest) = headingsOfMarks th rest := by
  simp [headingsOfMarks, headingOfMark]

theorem headingsOfMarks_nil (th : Theme) : headingsOfMarks th [] = [] := rfl

theorem font_name_ne : pdfTheme.fonts.name ≠ pdfTheme.fonts.sectionTitle := by decide

theorem font_title_ne : pdfTheme.fonts.title ≠ pdfTheme.fonts.sectionTitle := by decide

theorem font_contact_ne : pdfTheme.fonts.contact ≠ pdfTheme.fonts.sectionTitle := by decide

theorem font_jobTitle_ne : pdfTheme.fonts.jobTitle ≠ pdfTheme.fonts.sectionTitle := by decide

theorem font_body_ne : pdfTheme.fonts.body ≠ pdfTheme.fonts.sectionTitle := by decide

theorem font_small_ne : pdfTheme.fonts.small ≠ pdfTheme.fonts.sectionTitle := by decide

theorem font_italic_ne : pdfTheme.fonts.italic ≠ pdfTheme.fonts.sectionTitle := by decide

theorem headings_headerMarks (personal : Personal) (name : String) :
    headingsOfMarks pdfTheme (headerMarks pdfTheme personal name) = [] := by
  simp only [headerMarks, headingsOfMarks_text_cons _ _ _ _ font_name_ne,
    headingsOfMarks_text_cons _ _ _ _ font_title_ne,
    headingsOfMarks_text_cons _ _ _ _ font_contact_ne, headingsOfMarks_rule_cons,
    headingsOfMarks_nil]

theorem headings_headingMarks (title : String) :
    headingsOfMarks pdfTheme (headingMarks pdfTheme title) = [toUpperCase title] := by
  simp [headingsOfMarks, headingOfMark, headingMarks]

theorem headings_bulletMarks (lib : JsPDF) (text : String) :
    headingsOfMarks pdfTheme (bulletMarks pdfTheme lib text) = [] := by
  simp only [bulletMarks, headingsOfMarks_text_cons _ _ _ _ font_body_ne, headingsOfMarks_nil]

theorem headings_profileMarks (lib : JsPDF) (source : String) :
    headingsOfMarks pdfTheme (profileMarks pdfTheme lib source) = [] := by
  simp only [profileMarks, headingsOfMarks_text_cons _ _ _ _ font_body_ne, headingsOfMarks_nil]

theorem headings_skillMarks (skillTitle : Option String) :
    headingsOfMarks pdfTheme (skillMarks pdfTheme skillTitle) = [] := by
  simp only [skillMarks, headingsOfMarks_text_cons _ _ _ _ font_body_ne, headingsOfMarks_nil]

theorem headings_projectMarks (lib : JsPDF) (project : Project) (m : List Mark)
    (hm : projectMarks pdfTheme lib project = some m) : headingsOfMarks pdfTheme m = [] := by
  unfold projectMarks at hm
  split at hm
  · injection hm with hm
    subst hm
    have hb := headingsOfMarks_concatMap pdfTheme
      (fun line => bulletMarks pdfTheme lib (trim line))
      (fun a => headings_bulletMarks lib (trim a))
    by_cases ht : truthy project.subtitle = true <;>
      simp only [ht, if_true, if_false, not_true_eq_false, List.singleton_append, List.nil_append,
        List.cons_append, Bool.false_eq_true, headingsOfMarks_text_cons _ _ _ _ font_jobTitle_ne,
        headingsOfMarks_text_cons _ _ _ _ font_italic_ne, hb]
  · simp at hm

theorem headings_jobMarks (lib : JsPDF) (job : Job) (m : List Mark)
    (hm : jobMarks pdfTheme lib job = some m) : headingsOfMarks pdfTheme m = [] := by
  unfold jobMarks at hm
  split at hm
  · injection hm with hm
    subst hm
    have hb := headingsOfMarks_concatMap pdfTheme (bulletMarks pdfTheme lib)
      (fun a => headings_bulletMarks lib a)
    simp only [List.cons_append, List.nil_append,
      headingsOfMarks_text_cons _ _ _ _ font_jobTitle_ne,
      headingsOfMarks_text_cons _ _ _ _ font_small_ne,
      headingsOfMarks_text_cons _ _ _ _ font_body_ne, hb]
  · simp at hm

theorem headings_educationMarks (edu : Education) (m : List Mark)
    (hm : educationMarks pdfTheme edu = some m) : headingsOfMarks pdfTheme m = [] := by
  unfold educationMarks at hm
  split at hm
  · injection hm with hm
    subst hm
    simp only [headingsOfMarks_text_cons _ _ _ _ font_jobTitle_ne,
      headingsOfMarks_text_cons _ _ _ _ font_small_ne,
      headingsOfMarks_text_cons _ _ _ _ font_body_ne, headingsOfMarks_nil]
  · simp at hm

theorem headings_categoryMarks (entry : String × List (Option String)) :
    headingsOfMarks pdfTheme (categoryMarks pdfTheme entry) = [] := by
  have hs := headingsOfMarks_concatMap pdfTheme (skillMarks pdfTheme) headings_skillMarks entry.2
  simp only [categoryMarks, List.singleton_append,
    headingsOfMarks_text_cons _ _ _ _ font_jobTitle_ne, hs]

theorem headings_skillsMarks (about : About) (m : List Mark)
    (hm : skillsMarks pdfTheme about = some m) : headingsOfMarks pdfTheme m = [] := by
  unfold skillsMarks at hm
  split at hm
  · injection hm with hm
    subst hm
    rfl
  · split at hm
    · split at hm
      · split at hm
        · injection hm with hm
          subst hm
          exact headingsOfMarks_concatMap pdfTheme _ headings_categoryMarks _
        · simp at hm
      · injection hm with hm
        subst hm
        exact headingsOfMarks_concatMap pdfTheme _ (fun (a : Skill) => headings_skillMarks a.title) _
    · injection hm with hm
      subst hm
      rfl

theorem headings_referenceMarks (ref : Reference) :
    headingsOfMarks pdfTheme (referenceMarks pdfTheme ref) = [] := by
  simp only [referenceMarks, headingsOfMarks_text_cons _ _ _ _ font_jobTitle_ne,
    headingsOfMarks_text_cons _ _ _ _ font_body_ne, headingsOfMarks_nil]

theorem headings_projectsMarks (lib : JsPDF) (contentData : ContentDocument)
    (projects : Projects) (m : List Mark) (hp : contentData.projects = some projects)
    (hm : projectsMarks pdfTheme lib projects = some m) :
    headingsOfMarks pdfTheme m = if hasProjects contentData then ["PROJECTS"] else [] := by
  unfold projectsMarks at hm
  cases hitems : projects.items with
  | none =>
    simp [hitems] at hm
    subst hm
    simp [hasProjects, hp, hitems, headingsOfMarks_nil]
  | some items =>
    simp only [hitems] at hm
    by_cases hlen : items.length > 0
    · simp only [hlen, if_true] at hm
      cases hc : collectMarks (projectMarks pdfTheme lib) items with
      | none => simp [hc] at hm
      | some ms =>
        simp [hc] at hm
        subst hm
        have hup : toUpperCase "Projects" = "PROJECTS" := by decide
        simp [hasProjects, hp, hitems, hlen, headings_headingMarks, hup,
          headingsOfMarks_collectMarks pdfTheme _ (headings_projectMarks lib) items ms hc]
    · simp only [hlen, if_false] at hm
      injection hm with hm
      subst hm
      simp [hasProjects, hp, hitems, hlen, headingsOfMarks_nil]

theorem headings_referencesMarks (contentData : ContentDocument) (resume : Resume)
    (hr : contentData.resume = some resume) :
    headingsOfMarks pdfTheme (referencesMarks pdfTheme resume) =
      if hasReferences contentData then ["REFERENCE"] else [] := by
  unfold referencesMarks
  cases hrefs : resume.references with
  | none => simp [hasReferences, hr, hrefs, headingsOfMarks_nil]
  | some references =>
    by_cases hlen : references.length > 0
    · have hup : toUpperCase "Reference" = "REFERENCE" := by decide
      simp [hasReferences, hr, hrefs, hlen, headings_headingMarks, hup,
        headingsOfMarks_concatMap pdfTheme _ headings_referenceMarks]
    · simp [hasReferences, hr, hrefs, hlen, headingsOfMarks_nil]

/-- The headings in the body of a completed run. -/
theorem headings_bodyMarks (lib : JsPDF) (contentData : ContentDocument) (body : List Mark)
    (hbody : bodyMarks pdfTheme lib contentData = some body) :
    headingsOfMarks pdfTheme body = drawnHeadings contentData := by
  unfold bodyMarks at hbody
  split at hbody
  · rename_i source projects resume about hsrc hproj hres habout
    split at hbody
    · rename_i projectPart experience education skillPart hpp hexp hedu hsp
      split at hbody
      · rename_i jobPart educationPart hjp hep
        injection hbody with hbody
        subst hbody
        have h1 : toUpperCase "Profile" = "PROFILE" := by decide
        have h2 : toUpperCase "Professional Experience" = "PROFESSIONAL EXPERIENCE" := by decide
        have h3 : toUpperCase "Education" = "EDUCATION" := by decide
        have h4 : toUpperCase "Skills and Interests" = "SKILLS AND INTERESTS" := by decide
        simp only [headingsOfMarks_append, headings_headingMarks, headings_profileMarks,
          headings_projectsMarks lib contentData projects projectPart hproj hpp,
          headingsOfMarks_collectMarks pdfTheme _ (headings_jobMarks lib) experience jobPart hjp,
          headingsOfMarks_collectMarks pdfTheme _ headings_educationMarks education educationPart hep,
          headings_skillsMarks about skillPart hsp,
          headings_referencesMarks contentData resume hres, h1, h2, h3, h4, drawnHeadings]
        simp
      · simp at hbody
    · simp at hbody
  · simp at hbody

/-- The headings a completed run draws. -/
theorem completed_headings (load : LoadResult) (contentData : ContentDocument)
    (hdone : successNotification ∈ (generateResumePDF load contentData).notifications) :
    headingsOf pdfTheme (generateResumePDF load contentData).calls = drawnHeadings contentData := by
  obtain ⟨lib, s, _, hrender, hcalls, _⟩ := generateResumePDF_completed load contentData hdone
  obtain ⟨personal, name, body, _, _, hbody, hmarks, _⟩ :=
    render_marks pdfTheme lib contentData s hrender
  rw [hcalls, headingsOf, hmarks, headingsOfMarks_append, headings_headerMarks,
    headings_bodyMarks lib contentData body hbody]
  rfl

/-- C4: when `generateResumePDF` completes, what it put on the pages is the
header (name, title, contact line) and the horizontal rule, none of them a
section heading, followed by the body in the fixed order with the entries of
every sequence in document order (`bodyMarks`); and the section headings it drew
are a subsequence of PROFILE, PROJECTS, PROFESSIONAL EXPERIENCE, EDUCATION,
SKILLS AND INTERESTS, REFERENCE in that order. -/
theorem rendering_order (load : LoadResult) (contentData : ContentDocument)
    (hdone : successNotification ∈ (generateResumePDF load contentData).notifications) :
    ∃ lib personal name body,
      load = .resolved lib ∧ contentData.personal = some personal ∧ personal.name = some name ∧
      bodyMarks pdfTheme lib contentData = some body ∧
      marksOf (generateResumePDF load contentData).calls =
        headerMarks pdfTheme personal name ++ body ∧
      headingsOfMarks pdfTheme (headerMarks pdfTheme personal name) = [] ∧
      headingsOf pdfTheme (generateResumePDF load contentData).calls =
        headingsOfMarks pdfTheme body ∧
      List.Sublist (headingsOf pdfTheme (generateResumePDF load contentData).calls)
        sectionHeadings := by
  have hheadings := completed_headings load contentData hdone
  obtain ⟨lib, s, hload, hrender, hcalls, _⟩ := generateResumePDF_completed load contentData hdone
  obtain ⟨personal, name, body, hp, hn, hbody, hmarks, _⟩ :=
    render_marks pdfTheme lib contentData s hrender
  refine ⟨lib, personal, name, body, hload, hp, hn, hbody, by rw [hcalls, hmarks],
    headings_headerMarks personal name, ?_, ?_⟩
  · rw [hheadings, headings_bodyMarks lib contentData body hbody]
  · rw [hheadings]
    unfold drawnHeadings sectionHeadings
    cases hasProjects contentData <;> cases hasReferences contentData <;> decide

/-- C4 on `fullDocument`, whose run completes. -/
theorem rendering_order_witness :
    ∃ lib personal name body,
      LoadResult.resolved sampleA4 = .resolved lib ∧ fullDocument.personal = some personal ∧
      personal.name = some name ∧
      bodyMarks pdfTheme lib fullDocument = some body ∧
      marksOf (generateResumePDF (.resolved sampleA4) fullDocument).calls =
        headerMarks pdfTheme personal name ++ body ∧
      headingsOfMarks pdfTheme (headerMarks pdfTheme personal name) = [] ∧
      headingsOf pdfTheme (generateResumePDF (.resolved sampleA4) fullDocument).calls =
        headingsOfMarks pdfTheme body ∧
      List.Sublist (headingsOf pdfTheme (generateResumePDF (.resolved sampleA4) fullDocument).calls)
        sectionHeadings :=
  rendering_order (.resolved sampleA4) fullDocument (by decide!)

/-- C5: with `projects.items` absent or empty the Projects section makes no
call and leaves the cursor where it was, and so does the Reference section with
`resume.references` absent or empty; in a completed run the PROJECTS heading is
drawn if and only if `projects.items` is present and non-empty, and the
REFERENCE heading if and only if `resume.references` is. -/
theorem optional_sections (contentData : ContentDocument) :
    (∀ (th : Theme) (lib : JsPDF) (s : PdfState) (projects : Projects),
        contentData.projects = some projects → hasProjects contentData = false →
        projectsSection th lib contentData s = .ok s) ∧
      (∀ (th : Theme) (lib : JsPDF) (s : PdfState) (resume : Resume),
        contentData.resume = some resume → hasReferences contentData = false →
        referenceSection th lib contentData s = .ok s) ∧
      (∀ load : LoadResult,
        successNotification ∈ (generateResumePDF load contentData).notifications →
        ("PROJECTS" ∈ headingsOf pdfTheme (generateResumePDF load contentData).calls ↔
            hasProjects contentData = true) ∧
          ("REFERENCE" ∈ headingsOf pdfTheme (generateResumePDF load contentData).calls ↔
            hasReferences contentData = true)) := by
  refine ⟨?_, ?_, ?_⟩
  · intro th lib s projects hp hnone
    cases hitems : projects.items with
    | none => simp [projectsSection, hp, hitems, req, bind, Except.bind, pure, Except.pure]
    | some items =>
      have hlen : ¬ items.length > 0 := by
        simpa [hasProjects, hp, hitems] using hnone
      simp [projectsSection, hp, hitems, hlen, req, bind, Except.bind, pure, Except.pure]
  · intro th lib s resume hr hnone
    cases hrefs : resume.references with
    | none => simp [referenceSection, hr, hrefs, req, bind, Except.bind, pure, Except.pure]
    | some references =>
      have hlen : ¬ references.length > 0 := by
        simpa [hasReferences, hr, hrefs] using hnone
      simp [referenceSection, hr, hrefs, hlen, req, bind, Except.bind, pure, Except.pure]
  · intro load hdone
    rw [completed_headings load contentData hdone]
    unfold drawnHeadings
    cases hasProjects contentData <;> cases hasReferences contentData <;> simp

/-- C5 on `emptySkillsDocument` (empty `projects.items`, no `resume.references`)
and on the completed run of `fullDocument`. -/
theorem optional_sections_witness :
    projectsSection pdfTheme sampleA4 emptySkillsDocument sampleState = .ok sampleState ∧
      referenceSection pdfTheme sampleA4 emptySkillsDocument sampleState = .ok sampleState ∧
      ("PROJECTS" ∈ headingsOf pdfTheme (generateResumePDF (.resolved sampleA4) fullDocument).calls ↔
          hasProjects fullDocument = true) ∧
      ("REFERENCE" ∈ headingsOf pdfTheme (generateResumePDF (.resolved sampleA4) fullDocument).calls ↔
          hasReferences fullDocument = true) :=
  ⟨(optional_sections emptySkillsDocument).1 pdfTheme sampleA4 sampleState
      { items := some [] } rfl rfl,
    (optional_sections emptySkillsDocument).2.1 pdfTheme sampleA4 sampleState _ rfl rfl,
    (optional_sections fullDocument).2.2 (.resolved sampleA4) (by decide!)⟩

/-- C6 fails on the code: every completed run draws the SKILLS AND INTERESTS
heading, whatever `about.skills` is. -/
theorem skills_heading_always_drawn (load : LoadResult) (contentData : ContentDocument)
    (hdone : successNotification ∈ (generateResumePDF load contentData).notifications) :
    "SKILLS AND INTERESTS" ∈ headingsOf pdfTheme (generateResumePDF load contentData).calls := by
  rw [completed_headings load contentData hdone]
  unfold drawnHeadings
  cases hasProjects contentData <;> cases hasReferences contentData <;> simp

/-- The run of `emptySkillsDocument`, whose `about.skills` is empty, completes
and draws the SKILLS AND INTERESTS heading. -/
theorem skills_heading_always_drawn_witness :
    hasSkills emptySkillsDocument = false ∧
      "SKILLS AND INTERESTS" ∈
        headingsOf pdfTheme (generateResumePDF (.resolved sampleA4) emptySkillsDocument).calls :=
  ⟨rfl, skills_heading_always_drawn (.resolved sampleA4) emptySkillsDocument (by decide!)⟩

/-! ## The file name -/

theorem replaceWhitespaceGo_no_whitespace (flag : Bool) (cs : List Char) :
    ∀ c ∈ replaceWhitespaceGo flag cs, isJsWhitespace c = false := by
  induction cs generalizing flag with
  | nil => simp [replaceWhitespaceGo]
  | cons d rest ih =>
    intro c hc
    unfold replaceWhitespaceGo at hc
    by_cases hd : isJsWhitespace d = true
    · simp only [hd, if_true] at hc
      cases flag with
      | true => exact ih true c (by simpa using hc)
      | false =>
        simp only [Bool.false_eq_true, if_false, List.mem_cons] at hc
        rcases hc with h | h
        · subst h; decide
        · exact ih true c h
    · simp only [hd, Bool.false_eq_true, if_false, List.mem_cons] at hc
      rcases hc with h | h
      · subst h; simpa using hd
      · exact ih false c h

theorem replaceWhitespaceGo_word (flag : Bool) (w : List Char)
    (hw : ∀ c ∈ w, isJsWhitespace c = false) : replaceWhitespaceGo flag w = w := by
  induction w generalizing flag with
  | nil => rfl
  | cons d rest ih =>
    have hd : isJsWhitespace d = false := hw d (by simp)
    simp only [replaceWhitespaceGo, hd, Bool.false_eq_true, if_false]
    rw [ih false (fun c hc => hw c (by simp [hc]))]

theorem replaceWhitespaceGo_run (r b : List Char) (hr : ∀ c ∈ r, isJsWhitespace c = true) :
    replaceWhitespaceGo true (r ++ b) = replaceWhitespaceGo true b := by
  induction r with
  | nil => rfl
  | cons d rest ih =>
    have hd : isJsWhitespace d = true := hr d (by simp)
    simp only [List.cons_append, replaceWhitespaceGo, hd, if_true]
    exact ih (fun c hc => hr c (by simp [hc]))

theorem replaceWhitespaceGo_after_run (b : List Char)
    (hb : ∀ c, b.head? = some c → isJsWhitespace c = false) :
    replaceWhitespaceGo true b = replaceWhitespaceGo false b := by
  cases b with
  | nil => rfl
  | cons d rest =>
    have hd : isJsWhitespace d = false := hb d rfl
    simp [replaceWhitespaceGo, hd]

theorem replaceWhitespaceGo_prefix (flag : Bool) (a rest : List Char) (ha : a ≠ [])
    (hlast : ∀ c, a.getLast? = some c → isJsWhitespace c = false) :
    replaceWhitespaceGo flag (a ++ rest) =
      replaceWhitespaceGo flag a ++ replaceWhitespaceGo false rest := by
  induction a generalizing flag with
  | nil => exact absurd rfl ha
  | cons d tail ih =>
    cases tail with
    | nil =>
      have hd : isJsWhitespace d = false := hlast d rfl
      simp [replaceWhitespaceGo, hd]
    | cons e tail2 =>
      have hlast2 : ∀ c, (e :: tail2).getLast? = some c → isJsWhitespace c = false := by
        intro c hc
        exact hlast c (by simpa [List.getLast?_cons_cons] using hc)
      have ih2 := fun f => ih f (by simp) hlast2
      by_cases hd : isJsWhitespace d = true
      · cases flag <;>
          simp only [List.cons_append, replaceWhitespaceGo, hd, if_true, Bool.false_eq_true,
            if_false] <;>
          simpa [replaceWhitespaceGo] using ih2 true
      · simp only [List.cons_append, replaceWhitespaceGo, hd, if_false]
        simpa [replaceWhitespaceGo] using ih2 false

theorem savedFile_append_save (before : List DocCall) (fileName : String) :
    savedFile (before ++ [DocCall.save fileName]) = some fileName := by
  simp [savedFile]

/-- C9: the file name is `personal.name` with every maximal run of whitespace
replaced by one `_` (a stretch without whitespace is kept as it is; a run between
two such stretches becomes a single `_`), followed by `_Resume.pdf`; it holds no
whitespace; "Ada Lovelace" gives "Ada_Lovelace_Resume.pdf"; and a completed run
saves under exactly this name, which depends on the name alone. -/
theorem resume_file_name (name : String) :
    (resumeFileName name).data = replaceWhitespaceGo false name.data ++ "_Resume.pdf".data ∧
      (∀ c ∈ (resumeFileName name).data, isJsWhitespace c = false) ∧
      (∀ w : List Char, (∀ c ∈ w, isJsWhitespace c = false) → replaceWhitespaceGo false w = w) ∧
      (∀ a r b : List Char,
        (∀ c, a.getLast? = some c → isJsWhitespace c = false) → r ≠ [] →
        (∀ c ∈ r, isJsWhitespace c = true) →
        (∀ c, b.head? = some c → isJsWhitespace c = false) →
        replaceWhitespaceGo false (a ++ r ++ b) =
          replaceWhitespaceGo false a ++ '_' :: replaceWhitespaceGo false b) ∧
      resumeFileName "Ada Lovelace" = "Ada_Lovelace_Resume.pdf" ∧
      (∀ (load : LoadResult) (contentData : ContentDocument) (personal : Personal),
        contentData.personal = some personal → personal.name = some name →
        successNotification ∈ (generateResumePDF load contentData).notifications →
        (generateResumePDF load contentData).saved = some (resumeFileName name)) := by
  have hdata : (resumeFileName name).data =
      replaceWhitespaceGo false name.data ++ "_Resume.pdf".data := by
    simp [resumeFileName, replaceWhitespace, String.data_append]
  refine ⟨hdata, ?_, fun w hw => replaceWhitespaceGo_word false w hw, ?_, by decide, ?_⟩
  · intro c hc
    rw [hdata, List.mem_append] at hc
    rcases hc with h | h
    · exact replaceWhitespaceGo_no_whitespace false _ c h
    · revert c
      decide
  · intro a r b ha hr hws hb
    have hrun : replaceWhitespaceGo false (r ++ b) = '_' :: replaceWhitespaceGo false b := by
      cases r with
      | nil => exact absurd rfl hr
      | cons d rest =>
        have hd : isJsWhitespace d = true := hws d (by simp)
        simp only [List.cons_append, replaceWhitespaceGo, hd, if_true, Bool.false_eq_true,
          if_false]
        have hrest := replaceWhitespaceGo_run rest b (fun c hc => hws c (by simp [hc]))
        simp only [List.append_eq] at hrest ⊢
        rw [hrest, replaceWhitespaceGo_after_run b hb]
    by_cases hnil : a = []
    · subst hnil
      simpa [replaceWhitespaceGo] using hrun
    · rw [List.append_assoc, replaceWhitespaceGo_prefix false a (r ++ b) hnil ha, hrun]
  · intro load contentData personal hp hn hdone
    obtain ⟨lib, s, _, hrender, _, hsaved⟩ := generateResumePDF_completed load contentData hdone
    obtain ⟨personal1, name1, _, hp1, hn1, _, _, before, hcalls⟩ :=
      render_marks pdfTheme lib contentData s hrender
    rw [hp] at hp1
    injection hp1 with hp1
    subst hp1
    rw [hn] at hn1
    injection hn1 with hn1
    subst hn1
    rw [hsaved, hcalls, savedFile_append_save]

/-- C9 on the name "Ada Lovelace": the run of `fullDocument` saves under the
derived name, and the one space between the two words becomes one `_`. -/
theorem resume_file_name_witness :
    (generateResumePDF (.resolved sampleA4) fullDocument).saved =
        some (resumeFileName "Ada Lovelace") ∧
      replaceWhitespaceGo false (['A', 'd', 'a'] ++ [' '] ++ ['L', 'o', 'v', 'e']) =
        replaceWhitespaceGo false ['A', 'd', 'a'] ++
          '_' :: replaceWhitespaceGo false ['L', 'o', 'v', 'e'] ∧
      replaceWhitespaceGo false ['A', 'd', 'a'] = ['A', 'd', 'a'] :=
  ⟨(resume_file_name "Ada Lovelace").2.2.2.2.2 (.resolved sampleA4) fullDocument
      { name := some "Ada Lovelace", title := some "Analyst", email := some "ada@example.org",
        phone := some "555 0100" } rfl rfl (by decide!),
    (resume_file_name "Ada Lovelace").2.2.2.1 ['A', 'd', 'a'] [' '] ['L', 'o', 'v', 'e']
      (by intro c hc; cases hc; decide) (by decide) (by decide)
      (by intro c hc; cases hc; decide),
    (resume_file_name "Ada Lovelace").2.2.1 ['A', 'd', 'a'] (by decide)⟩

/-! ## A document without a `resume` object -/

/-- Without a `resume` object the body of the `try` block throws. -/
theorem render_without_resume (th : Theme) (lib : JsPDF) (contentData : ContentDocument)
    (hres : contentData.resume = none) : ∃ e, render th lib contentData = .error e := by
  have hexp : ∀ s3, ∃ e, experienceSection th lib contentData s3 = .error e := by
    intro s3
    refine ⟨RenderError.mk ("TypeError: " ++ "resume is undefined")
      (addSection th lib "Professional Experience" none s3).calls, ?_⟩
    simp only [experienceSection, hres, req, bind, Except.bind]
  simp only [render, bind, Except.bind]
  cases h1 : headerSection th lib contentData
      { y := th.layout.margin, font := defaultFont, calls := [] } with
  | error e => exact ⟨e, rfl⟩
  | ok s1 =>
    dsimp only
    cases h2 : profileSection th lib contentData s1 with
    | error e => exact ⟨e, rfl⟩
    | ok s2 =>
      dsimp only
      cases h3 : projectsSection th lib contentData s2 with
      | error e => exact ⟨e, rfl⟩
      | ok s3 =>
        dsimp only
        obtain ⟨e, he⟩ := hexp s3
        exact ⟨e, by simp only [he]⟩

/-- C10 fails on the code: on the example document of the specification, which
has no `resume` object, `generateResumePDF` saves no file and shows no success
notification, whatever the library does; with the library loaded it ends in the
`catch` block with the error notification. -/
theorem example_document_not_saved (load : LoadResult) :
    (generateResumePDF load specExampleDocument).saved = none ∧
      successNotification ∉ (generateResumePDF load specExampleDocument).notifications ∧
      (∀ lib, load = .resolved lib →
        (generateResumePDF load specExampleDocument).notifications =
          [("Generating your new resume...", "info"),
           ("Error generating resume. Please try again.", "error")]) := by
  cases load with
  | pending => simp [generateResumePDF, successNotification]
  | rejected => simp [generateResumePDF, catchBlock, successNotification]
  | resolved lib =>
    obtain ⟨e, he⟩ := render_without_resume pdfTheme lib specExampleDocument rfl
    simp only [generateResumePDF, he]
    split <;> simp [catchBlock, successNotification]

/-! ## Stripping markup -/

theorem tagLength_of_ne (c : Char) (cs : List Char) (hc : c ≠ '<') : tagLength (c :: cs) = none := by
  simp [tagLength, hc]

/-- At a `<` that is the last character, or is followed at once by `>`, or has no
`>` after it, the tag pattern does not match. -/
theorem tagLength_lt_none (cs : List Char)
    (hcs : cs = [] ∨ cs.head? = some '>' ∨ '>' ∉ cs) : tagLength ('<' :: cs) = none := by
  rcases hcs with h | h | h
  · subst h
    simp [tagLength]
  · cases cs with
    | nil => simp at h
    | cons d rest =>
      simp at h
      subst h
      simp [tagLength, List.takeWhile]
  · have hall : ∀ d ∈ cs, (d != '>') = true := by
      intro d hd
      have hne : d ≠ '>' := fun hEq => h (hEq ▸ hd)
      simpa using hne
    have htake : cs.takeWhile (fun d => d != '>') = cs := List.takeWhile_eq_self_iff.mpr hall
    simp only [tagLength, if_true, htake, List.drop_length]

/-- Where the tag pattern does not match at a `<`, the `<` is the last
character, or is followed at once by `>`, or has no `>` after it. -/
theorem tagLength_lt_none_inv (cs : List Char) (hnone : tagLength ('<' :: cs) = none) :
    cs = [] ∨ cs.head? = some '>' ∨ '>' ∉ cs := by
  by_cases hmem : '>' ∈ cs
  · cases cs with
    | nil => exact Or.inl rfl
    | cons d rest =>
      by_cases hd : d = '>'
      · exact Or.inr (Or.inl (by simp [hd]))
      · exfalso
        have hrest : '>' ∈ rest := by
          rcases List.mem_cons.mp hmem with h | h
          · exact absurd h.symm hd
          · exact h
        obtain ⟨pre, post, hsplit, hpre⟩ : ∃ pre post, rest = pre ++ '>' :: post ∧
            ∀ e ∈ pre, (e != '>') = true := by
          clear hnone hmem
          induction rest with
          | nil => simp at hrest
          | cons e tail ih =>
            by_cases he : e = '>'
            · exact ⟨[], tail, by simp [he], by simp⟩
            · have htail : '>' ∈ tail := by
                rcases List.mem_cons.mp hrest with h | h
                · exact absurd h.symm he
                · exact h
              obtain ⟨pre, post, hsplit, hpre⟩ := ih htail
              refine ⟨e :: pre, post, by simp [hsplit], ?_⟩
              intro x hx
              rcases List.mem_cons.mp hx with h | h
              · subst h; simpa using he
              · exact hpre x h
        have htake : (d :: rest).takeWhile (fun e => e != '>') = d :: pre := by
          have hdne : (d != '>') = true := by simpa using hd
          rw [hsplit, List.takeWhile_cons, if_pos hdne]
          congr 1
          rw [List.takeWhile_append_of_pos hpre]
          simp [List.takeWhile]
        have hdrop : (d :: rest).drop (d :: pre).length = '>' :: post := by
          rw [hsplit]
          simp
        simp only [tagLength, if_true, htake, hdrop] at hnone
        simp at hnone
  · exact Or.inr (Or.inr hmem)

theorem stripTagsGo_subset (skip : Nat) (cs : List Char) :
    ∀ c ∈ stripTagsGo skip cs, c ∈ cs := by
  induction cs generalizing skip with
  | nil => simp [stripTagsGo]
  | cons d rest ih =>
    intro c hc
    cases skip with
    | succ k =>
      simp only [stripTagsGo] at hc
      exact List.mem_cons_of_mem _ (ih k c hc)
    | zero =>
      simp only [stripTagsGo] at hc
      split at hc
      · exact List.mem_cons_of_mem _ (ih _ c hc)
      · rcases List.mem_cons.mp hc with h | h
        · exact h ▸ List.mem_cons_self _ _
        · exact List.mem_cons_of_mem _ (ih 0 c h)

/-- What `replace(/<[^>]+>/g, '')` returns holds no match of the tag pattern, at
any position. -/
theorem stripTagsGo_no_tag (skip : Nat) (cs : List Char) (k : Nat) :
    tagLength ((stripTagsGo skip cs).drop k) = none := by
  induction cs generalizing skip k with
  | nil => simp [stripTagsGo, tagLength]
  | cons d rest ih =>
    cases skip with
    | succ n =>
      simp only [stripTagsGo]
      exact ih n k
    | zero =>
      simp only [stripTagsGo]
      split
      · exact ih _ k
      · rename_i hnone
        cases k with
        | succ j =>
          simp only [List.drop_succ_cons]
          exact ih 0 j
        | zero =>
          simp only [List.drop_zero]
          by_cases hd : d = '<'
          · subst hd
            apply tagLength_lt_none
            rcases tagLength_lt_none_inv rest hnone with h | h | h
            · subst h
              exact Or.inl rfl
            · cases rest with
              | nil => simp at h
              | cons e tail =>
                simp at h
                subst h
                refine Or.inr (Or.inl ?_)
                simp [stripTagsGo, tagLength]
            · exact Or.inr (Or.inr (fun hmem => h (stripTagsGo_subset 0 rest _ hmem)))
          · exact tagLength_of_ne d _ hd

/-! ## The profile text -/

/-- C7: both renderers take the profile text from the same source,
`resume.objective` when it is present and non-empty and `hero.lede` otherwise,
and both render that source with its tags stripped by
`replace(/<[^>]+>/g, '')`: the PDF wraps and draws `stripTags source` under the
Profile heading, the preview puts it in the paragraph of its Profile section;
and the stripped text holds no match of the tag pattern at any position. -/
theorem profile_text (contentData : ContentDocument) :
    pdfSummarySource contentData = resumePreview.summarySource contentData ∧
      (∀ resume objective, contentData.resume = some resume →
        resume.objective = some objective → objective ≠ "" →
        pdfSummarySource contentData = some objective) ∧
      ((∀ resume objective, contentData.resume = some resume →
          resume.objective = some objective → objective = "") →
        pdfSummarySource contentData = contentData.hero.bind (fun hero => hero.lede)) ∧
      (∀ (th : Theme) (lib : JsPDF) (s s1 : PdfState),
        profileSection th lib contentData s = .ok s1 →
        ∃ source, pdfSummarySource contentData = some source ∧
          s1.calls = (addSection th lib "Profile" none s).calls ++
            [ DocCall.setFont th.fonts.body.family th.fonts.body.style,
              DocCall.setFontSize th.fonts.body.size,
              DocCall.setTextColor th.colors.primary,
              DocCall.splitTextToSize (stripTags source) (lib.pageWidth - th.layout.margin * 2),
              DocCall.text th.fonts.body
                (.lines (lib.splitTextToSize th.fonts.body (stripTags source)
                  (lib.pageWidth - th.layout.margin * 2)))
                th.layout.margin (addSection th lib "Profile" none s).y none ]) ∧
      (∀ parts, resumePreview.modalParts contentData = .ok parts →
        ∃ source, resumePreview.summarySource contentData = some source ∧
          parts.profile =
            resumePreview.renderSection "Profile" ("<p>" ++ stripTags source ++ "</p>")) ∧
      (∀ (source : String) (k : Nat), tagLength ((stripTags source).data.drop k) = none) := by
  refine ⟨rfl, ?_, ?_, ?_, ?_, fun source k => stripTagsGo_no_tag 0 source.data k⟩
  · intro resume objective hr ho hne
    simp [pdfSummarySource, hr, ho, truthy, hne]
  · intro hempty
    cases hr : contentData.resume with
    | none => cases hh : contentData.hero <;> simp [pdfSummarySource, hr, hh, truthy]
    | some resume =>
      cases ho : resume.objective with
      | none => cases hh : contentData.hero <;> simp [pdfSummarySource, hr, ho, hh, truthy]
      | some objective =>
        have hobj := hempty resume objective hr ho
        subst hobj
        cases hh : contentData.hero <;> simp [pdfSummarySource, hr, ho, hh, truthy]
  · intro th lib s s1 hrun
    cases hsrc : pdfSummarySource contentData with
    | none => simp [profileSection, hsrc, req, bind, Except.bind] at hrun
    | some source =>
      refine ⟨source, rfl, ?_⟩
      simp only [profileSection, hsrc, req, bind, Except.bind, pure, Except.pure, addWrappedText,
        wrappedLines] at hrun
      injection hrun with hrun
      subst hrun
      simp [useFont, call, drawText, advance]
  · intro parts hparts
    simp only [resumePreview.modalParts, bind, Except.bind] at hparts
    cases hh : resumePreview.renderHeader contentData.personal with
    | error e => simp [hh] at hparts
    | ok header =>
      simp only [hh] at hparts
      cases hsrc : resumePreview.summarySource contentData with
      | none => simp [hsrc, reqValue] at hparts
      | some source =>
        refine ⟨source, rfl, ?_⟩
        simp only [hsrc, reqValue] at hparts
        cases hp : resumePreview.renderProjects contentData.projects with
        | error e => simp [hp] at hparts
        | ok projects =>
          simp only [hp] at hparts
          cases he : resumePreview.renderExperience contentData.resume with
          | error e => simp [he] at hparts
          | ok experience =>
            simp only [he] at hparts
            cases hed : resumePreview.renderEducation contentData.resume with
            | error e => simp [hed] at hparts
            | ok education =>
              simp only [hed] at hparts
              cases hs : resumePreview.renderSkills contentData.about with
              | error e => simp [hs] at hparts
              | ok skills =>
                simp only [hs, pure, Except.pure] at hparts
                injection hparts with hparts
                subst hparts
                rfl

/-- C7 on `emptySkillsDocument`, which has an objective, and on `fullDocument`,
which has none and whose hero lede carries tags. -/
theorem profile_text_witness :
    pdfSummarySource emptySkillsDocument = some "Compute." ∧
      pdfSummarySource fullDocument = fullDocument.hero.bind (fun hero => hero.lede) ∧
      (∃ s1 source,
        profileSection pdfTheme sampleA4 fullDocument sampleState = .ok s1 ∧
        pdfSummarySource fullDocument = some source ∧
        s1.calls = (addSection pdfTheme sampleA4 "Profile" none sampleState).calls ++
          [ DocCall.setFont pdfTheme.fonts.body.family pdfTheme.fonts.body.style,
            DocCall.setFontSize pdfTheme.fonts.body.size,
            DocCall.setTextColor pdfTheme.colors.primary,
            DocCall.splitTextToSize (stripTags source)
              (sampleA4.pageWidth - pdfTheme.layout.margin * 2),
            DocCall.text pdfTheme.fonts.body
              (.lines (sampleA4.splitTextToSize pdfTheme.fonts.body (stripTags source)
                (sampleA4.pageWidth - pdfTheme.layout.margin * 2)))
              pdfTheme.layout.margin (addSection pdfTheme sampleA4 "Profile" none sampleState).y
              none ]) ∧
      (∃ parts source,
        resumePreview.modalParts fullDocument = .ok parts ∧
        resumePreview.summarySource fullDocument = some source ∧
        parts.profile =
          resumePreview.renderSection "Profile" ("<p>" ++ stripTags source ++ "</p>")) := by
  refine ⟨(profile_text emptySkillsDocument).2.1 _ "Compute." rfl rfl (by decide),
    (profile_text fullDocument).2.2.1 (by intro r o hr ho; cases hr; cases ho), ?_, ?_⟩
  · cases hrun : profileSection pdfTheme sampleA4 fullDocument sampleState with
    | error e =>
      have hsome : (profileSection pdfTheme sampleA4 fullDocument sampleState).toOption.isSome =
          true := by decide!
      rw [hrun] at hsome
      exact absurd hsome (by simp [Except.toOption])
    | ok s1 =>
      obtain ⟨source, hsrc, hcalls⟩ :=
        (profile_text fullDocument).2.2.2.1 pdfTheme sampleA4 sampleState s1 hrun
      exact ⟨s1, source, rfl, hsrc, hcalls⟩
  · cases hparts : resumePreview.modalParts fullDocument with
    | error e =>
      have hsome : (resumePreview.modalParts fullDocument).toOption.isSome = true := by decide
      rw [hparts] at hsome
      exact absurd hsome (by simp [Except.toOption])
    | ok parts =>
      obtain ⟨source, hsrc, hprofile⟩ := (profile_text fullDocument).2.2.2.2.1 parts hparts
      exact ⟨parts, source, rfl, hsrc, hprofile⟩

/-! ## Loading the content: failure of the fetch -/

/-- C20: when the fetch rejects or the response is not ok, `loadContent` returns
normally with the page (every region and the title) as it was, the variable
`contentData` as it was, no `contentLoaded` event dispatched, and exactly one
more `console.error` call. -/
theorem loadContent_fetch_failure (fetch : FetchResult) (w : World)
    (hfail : fetch = .rejected ∨ ∃ status json, fetch = .response false status json) :
    (loadContent fetch w).dom = w.dom ∧
      (loadContent fetch w).contentData = w.contentData ∧
      (loadContent fetch w).events = w.events ∧
      ∃ error, (loadContent fetch w).consoleErrors = w.consoleErrors ++ [error] := by
  rcases hfail with h | ⟨status, json, h⟩
  · subst h
    exact ⟨rfl, rfl, rfl, _, rfl⟩
  · subst h
    exact ⟨rfl, rfl, rfl, _, rfl⟩

/-- C20 on `sampleWorld` with a response of status 404. -/
theorem loadContent_fetch_failure_witness :
    (loadContent (.response false 404 none) sampleWorld).dom = sampleWorld.dom ∧
      (loadContent (.response false 404 none) sampleWorld).contentData = sampleWorld.contentData ∧
      (loadContent (.response false 404 none) sampleWorld).events = sampleWorld.events ∧
      ∃ error, (loadContent (.response false 404 none) sampleWorld).consoleErrors =
        sampleWorld.consoleErrors ++ [error] :=
  loadContent_fetch_failure (.response false 404 none) sampleWorld (Or.inr ⟨404, none, rfl⟩)

/-! ## The content loader: shared lemmas -/

/-- A `do` step that finishes: the first computation finished and the rest did. -/
theorem bind_ok {ε α β : Type} {x : Except ε α} {f : α → Except ε β} {b : β}
    (h : (x >>= f) = .ok b) : ∃ a, x = .ok a ∧ f a = .ok b := by
  cases x with
  | error e => simp [bind, Except.bind] at h
  | ok a => exact ⟨a, rfl, h⟩

/-- Two computations that both finish, finish in sequence. -/
theorem isOk_bind {ε α β : Type} {x : Except ε α} {f : α → Except ε β}
    (hx : x.isOk = true) (hf : ∀ a, (f a).isOk = true) : (x >>= f).isOk = true := by
  cases x with
  | error e => simp [Except.isOk, Except.toBool] at hx
  | ok a => exact hf a

/-- A computation with `isOk` has a result. -/
theorem isOk_iff {ε α : Type} {x : Except ε α} (hx : x.isOk = true) : ∃ a, x = .ok a := by
  cases x with
  | error e => simp [Except.isOk, Except.toBool] at hx
  | ok a => exact ⟨a, rfl⟩

/-- The step `setText` keeps every value of the page that its store keeps. -/
theorem setText_keeps {α β : Type} (g : Dom → β) {element : Option String} {obj : Option α}
    {what : String} {field : α → Option String} {dom : Dom} {store : String → Dom} {d1 : Dom}
    (h : setText element obj what field dom store = .ok d1)
    (hstore : ∀ t, g (store t) = g dom) : g d1 = g dom := by
  unfold setText at h
  split at h
  · injection h with h; rw [← h]
  · split at h
    · cases h
    · injection h with h; rw [← h]; exact hstore _

/-- The step `setText` does not throw when its object is defined. -/
theorem setText_isOk {α : Type} (element : Option String) (o : α)
    (what : String) (field : α → Option String) (dom : Dom) (store : String → Dom) :
    (setText element (some o) what field dom store).isOk = true := by
  cases element <;> rfl


theorem setHeroMeta_keeps (contentData : ContentDocument) (dom d1 : Dom)
    (h : setHeroMeta contentData dom = .ok d1) : d1.metaDescription = dom.metaDescription := by
  unfold setHeroMeta at h
  repeat' split at h
  all_goals (cases h; try rfl)

theorem setHeroLede_keeps (contentData : ContentDocument) (dom d1 : Dom)
    (h : setHeroLede contentData dom = .ok d1) : d1.metaDescription = dom.metaDescription := by
  unfold setHeroLede at h
  repeat' split at h
  all_goals (cases h; try rfl)

/-- The function `populateHero` leaves the description meta tag alone. -/
theorem populateHero_keeps (contentData : ContentDocument) (dom d1 : Dom)
    (h : populateHero contentData dom = .ok d1) : d1.metaDescription = dom.metaDescription := by
  unfold populateHero at h
  obtain ⟨a1, h1, h⟩ := bind_ok h
  obtain ⟨a2, h2, h⟩ := bind_ok h
  obtain ⟨a3, h3, h⟩ := bind_ok h
  obtain ⟨a4, h4, h⟩ := bind_ok h
  obtain ⟨a5, h5, h⟩ := bind_ok h
  have e1 := setText_keeps (fun d => d.metaDescription) h1 (fun _ => rfl)
  have e2 := setText_keeps (fun d => d.metaDescription) h2 (fun _ => rfl)
  have e3 := setText_keeps (fun d => d.metaDescription) h3 (fun _ => rfl)
  have e4 := setText_keeps (fun d => d.metaDescription) h4 (fun _ => rfl)
  have e5 := setHeroMeta_keeps _ _ _ h5
  have e6 := setHeroLede_keeps _ _ _ h
  simp only at e1 e2 e3 e4
  rw [e6, e5, e4, e3, e2, e1]

theorem setIntro_keeps (contentData : ContentDocument) (dom d1 : Dom)
    (h : setIntro contentData dom = .ok d1) : d1.metaDescription = dom.metaDescription := by
  unfold setIntro at h
  repeat' split at h
  all_goals (cases h; try rfl)

theorem populateParagraphs_keeps (contentData : ContentDocument) (dom d1 : Dom)
    (h : populateParagraphs contentData dom = .ok d1) :
    d1.metaDescription = dom.metaDescription := by
  unfold populateParagraphs at h
  repeat' split at h
  all_goals try dsimp only at h
  all_goals repeat' split at h
  all_goals (cases h; try rfl)

theorem setQuote_keeps (contentData : ContentDocument) (dom d1 : Dom)
    (h : setQuote contentData dom = .ok d1) : d1.metaDescription = dom.metaDescription := by
  unfold setQuote at h
  repeat' split at h
  all_goals (cases h; try rfl)

theorem populateSkills_keeps (contentData : ContentDocument) (dom d1 : Dom)
    (h : populateSkills contentData dom = .ok d1) : d1.metaDescription = dom.metaDescription := by
  unfold populateSkills at h
  repeat' split at h
  all_goals (cases h; try rfl)

/-- The function `populateAbout` leaves the description meta tag alone. -/
theorem populateAbout_keeps (contentData : ContentDocument) (dom d1 : Dom)
    (h : populateAbout contentData dom = .ok d1) : d1.metaDescription = dom.metaDescription := by
  unfold populateAbout at h
  obtain ⟨a1, h1, h⟩ := bind_ok h
  obtain ⟨a2, h2, h⟩ := bind_ok h
  obtain ⟨a3, h3, h⟩ := bind_ok h
  obtain ⟨a4, h4, h⟩ := bind_ok h
  obtain ⟨a5, h5, h⟩ := bind_ok h
  have e1 := setText_keeps (fun d => d.metaDescription) h1 (fun _ => rfl)
  have e2 := setText_keeps (fun d => d.metaDescription) h2 (fun _ => rfl)
  have e3 := setIntro_keeps _ _ _ h3
  have e4 := populateParagraphs_keeps _ _ _ h4
  have e5 := setQuote_keeps _ _ _ h5
  have e6 := populateSkills_keeps _ _ _ h
  simp only at e1 e2
  rw [e6, e5, e4, e3, e2, e1]

theorem setProjectsList_keeps (contentData : ContentDocument) (dom d1 : Dom)
    (h : setProjectsList contentData dom = .ok d1) : d1.metaDescription = dom.metaDescription := by
  unfold setProjectsList at h
  repeat' split at h
  all_goals (cases h; try rfl)

/-- The function `populateProjects` leaves the description meta tag alone. -/
theorem populateProjects_keeps (contentData : ContentDocument) (dom d1 : Dom)
    (h : populateProjects contentData dom = .ok d1) :
    d1.metaDescription = dom.metaDescription := by
  unfold populateProjects at h
  obtain ⟨a1, h1, h⟩ := bind_ok h
  obtain ⟨a2, h2, h⟩ := bind_ok h
  obtain ⟨a3, h3, h⟩ := bind_ok h
  have e1 := setText_keeps (fun d => d.metaDescription) h1 (fun _ => rfl)
  have e2 := setText_keeps (fun d => d.metaDescription) h2 (fun _ => rfl)
  have e3 := setText_keeps (fun d => d.metaDescription) h3 (fun _ => rfl)
  have e4 := setProjectsList_keeps _ _ _ h
  simp only at e1 e2 e3
  rw [e4, e3, e2, e1]

theorem setContactMethods_keeps (contentData : ContentDocument) (dom d1 : Dom)
    (h : setContactMethods contentData dom = .ok d1) :
    d1.metaDescription = dom.metaDescription := by
  unfold setContactMethods at h
  repeat' split at h
  all_goals (cases h; try rfl)

/-- The function `populateContact` leaves the description meta tag alone. -/
theorem populateContact_keeps (contentData : ContentDocument) (dom d1 : Dom)
    (h : populateContact contentData dom = .ok d1) :
    d1.metaDescription = dom.metaDescription := by
  unfold populateContact at h
  obtain ⟨a1, h1, h⟩ := bind_ok h
  obtain ⟨a2, h2, h⟩ := bind_ok h
  obtain ⟨a3, h3, h⟩ := bind_ok h
  obtain ⟨a4, h4, h⟩ := bind_ok h
  have e1 := setText_keeps (fun d => d.metaDescription) h1 (fun _ => rfl)
  have e2 := setText_keeps (fun d => d.metaDescription) h2 (fun _ => rfl)
  have e3 := setText_keeps (fun d => d.metaDescription) h3 (fun _ => rfl)
  have e4 := setContactMethods_keeps _ _ _ h4
  have e5 := setText_keeps (fun d => d.metaDescription) h (fun _ => rfl)
  simp only at e1 e2 e3 e5
  rw [e5, e4, e3, e2, e1]

theorem setCopyright_keeps (contentData : ContentDocument) (dom d1 : Dom)
    (h : setCopyright contentData dom = .ok d1) : d1.metaDescription = dom.metaDescription := by
  unfold setCopyright at h
  repeat' split at h
  all_goals (cases h; try rfl)

theorem setSocialLinks_keeps (contentData : ContentDocument) (dom d1 : Dom)
    (h : setSocialLinks contentData dom = .ok d1) : d1.metaDescription = dom.metaDescription := by
  unfold setSocialLinks at h
  repeat' split at h
  all_goals (cases h; try rfl)

/-- The function `populateFooter` leaves the description meta tag alone. -/
theorem populateFooter_keeps (contentData : ContentDocument) (dom d1 : Dom)
    (h : populateFooter contentData dom = .ok d1) : d1.metaDescription = dom.metaDescription := by
  unfold populateFooter at h
  obtain ⟨a1, h1, h⟩ := bind_ok h
  rw [setSocialLinks_keeps _ _ _ h, setCopyright_keeps _ _ _ h1]

/-- On the example document `populateHero` does not throw, whatever the page. -/
theorem populateHero_example (dom : Dom) : (populateHero specExampleDocument dom).isOk = true := by
  unfold populateHero
  refine isOk_bind (setText_isOk _ _ _ _ _ _) (fun a1 => ?_)
  refine isOk_bind (setText_isOk _ _ _ _ _ _) (fun a2 => ?_)
  refine isOk_bind (setText_isOk _ _ _ _ _ _) (fun a3 => ?_)
  refine isOk_bind (setText_isOk _ _ _ _ _ _) (fun a4 => ?_)
  refine isOk_bind ?_ (fun a5 => ?_)
  · unfold setHeroMeta; cases a4.heroMeta <;> rfl
  · unfold setHeroLede; cases a5.heroLede <;> rfl

/-- On the example document `populateAbout` does not throw, whatever the page. -/
theorem populateAbout_example (dom : Dom) : (populateAbout specExampleDocument dom).isOk = true := by
  unfold populateAbout
  refine isOk_bind (setText_isOk _ _ _ _ _ _) (fun a1 => ?_)
  refine isOk_bind (setText_isOk _ _ _ _ _ _) (fun a2 => ?_)
  refine isOk_bind ?_ (fun a3 => ?_)
  · unfold setIntro; cases a2.aboutText with
    | none => rfl
    | some blocks => dsimp only; split <;> rfl
  refine isOk_bind ?_ (fun a4 => ?_)
  · unfold populateParagraphs; cases a3.aboutText <;> rfl
  refine isOk_bind ?_ (fun a5 => ?_)
  · unfold setQuote; cases a4.aboutText with
    | none => rfl
    | some blocks => dsimp only; split <;> rfl
  · unfold populateSkills; cases a5.skillsGrid <;> rfl

/-- On the example document `populateProjects` does not throw, whatever the page. -/
theorem populateProjects_example (dom : Dom) :
    (populateProjects specExampleDocument dom).isOk = true := by
  unfold populateProjects
  refine isOk_bind (setText_isOk _ _ _ _ _ _) (fun a1 => ?_)
  refine isOk_bind (setText_isOk _ _ _ _ _ _) (fun a2 => ?_)
  refine isOk_bind (setText_isOk _ _ _ _ _ _) (fun a3 => ?_)
  unfold setProjectsList; cases a3.projectsList <;> rfl

/-- On the example document `populateContact` does not throw, whatever the page. -/
theorem populateContact_example (dom : Dom) :
    (populateContact specExampleDocument dom).isOk = true := by
  unfold populateContact
  refine isOk_bind (setText_isOk _ _ _ _ _ _) (fun a1 => ?_)
  refine isOk_bind (setText_isOk _ _ _ _ _ _) (fun a2 => ?_)
  refine isOk_bind (setText_isOk _ _ _ _ _ _) (fun a3 => ?_)
  refine isOk_bind ?_ (fun a4 => setText_isOk _ _ _ _ _ _)
  unfold setContactMethods; cases a3.contactMethods <;> rfl

/-- On the example document `populateFooter` does not throw, whatever the page. -/
theorem populateFooter_example (dom : Dom) :
    (populateFooter specExampleDocument dom).isOk = true := by
  unfold populateFooter
  refine isOk_bind ?_ (fun a1 => ?_)
  · unfold setCopyright; cases dom.footerCopyright <;> rfl
  · unfold setSocialLinks; cases a1.socialLinks <;> rfl

/-- What `updateMetaTags` writes when it returns. -/
theorem updateMetaTags_ok (contentData : ContentDocument) (dom d1 : Dom)
    (h : updateMetaTags contentData dom = .ok d1) :
    ∃ personal, contentData.personal = some personal ∧
      d1.title = jsToString personal.name ++ " | Portfolio" ∧
      d1.metaDescription = dom.metaDescription.map (fun _ =>
        jsToString personal.name ++ " - " ++ jsToString personal.title ++ " Portfolio") := by
  unfold updateMetaTags at h
  split at h
  · cases h
  · next personal hp =>
    refine ⟨personal, hp, ?_⟩
    split at h
    · next hm => cases h; exact ⟨rfl, by rw [hm]; rfl⟩
    · next hm => cases h; exact ⟨rfl, by rw [hm]; rfl⟩


/-- What a run of `populateContent` that returns has written to the title and
the description meta tag. -/
theorem populateContent_meta (doc : ContentDocument) (dom dom1 : Dom)
    (h : populateContent (some doc) dom = .ok dom1) :
    ∃ personal, doc.personal = some personal ∧
      dom1.title = jsToString personal.name ++ " | Portfolio" ∧
      dom1.metaDescription = dom.metaDescription.map (fun _ =>
        jsToString personal.name ++ " - " ++ jsToString personal.title ++ " Portfolio") := by
  unfold populateContent at h
  dsimp only at h
  obtain ⟨a1, h1, h⟩ := bind_ok h
  obtain ⟨a2, h2, h⟩ := bind_ok h
  obtain ⟨a3, h3, h⟩ := bind_ok h
  obtain ⟨a4, h4, h⟩ := bind_ok h
  obtain ⟨a5, h5, h⟩ := bind_ok h
  obtain ⟨personal, hp, htitle, hmeta⟩ := updateMetaTags_ok _ _ _ h
  refine ⟨personal, hp, htitle, ?_⟩
  rw [hmeta, populateFooter_keeps _ _ _ h5, populateContact_keeps _ _ _ h4,
    populateProjects_keeps _ _ _ h3, populateAbout_keeps _ _ _ h2, populateHero_keeps _ _ _ h1]

/-- On the example document `populateContent` does not throw, whatever the page. -/
theorem populateContent_example (dom : Dom) :
    (populateContent (some specExampleDocument) dom).isOk = true := by
  unfold populateContent
  dsimp only
  refine isOk_bind (populateHero_example _) (fun a1 => ?_)
  refine isOk_bind (populateAbout_example _) (fun a2 => ?_)
  refine isOk_bind (populateProjects_example _) (fun a3 => ?_)
  refine isOk_bind (populateContact_example _) (fun a4 => ?_)
  refine isOk_bind (populateFooter_example _) (fun a5 => ?_)
  unfold updateMetaTags
  cases a5.metaDescription <;> rfl

/-! ## The page title after a load -/

/-- C11: whenever `populateContent` projects a document without throwing, the
document has a `personal` object and the page title is its name followed by
`' | Portfolio'` (the name as a template literal prints it); the description meta
tag stays absent when it was absent and otherwise holds name, `' - '`, title and
`' Portfolio'`.  On the example document of the specification the projection
returns for every page, with the title `'Ada Lovelace | Portfolio'`. -/
theorem populateContent_title :
    (∀ (doc : ContentDocument) (dom dom1 : Dom),
      populateContent (some doc) dom = .ok dom1 →
      ∃ personal, doc.personal = some personal ∧
        dom1.title = jsToString personal.name ++ " | Portfolio" ∧
        (∀ name, personal.name = some name → dom1.title = name ++ " | Portfolio") ∧
        dom1.metaDescription = dom.metaDescription.map (fun _ =>
          jsToString personal.name ++ " - " ++ jsToString personal.title ++ " Portfolio")) ∧
      (∀ dom : Dom, ∃ dom1,
        populateContent (some specExampleDocument) dom = .ok dom1 ∧
          dom1.title = "Ada Lovelace | Portfolio") := by
  constructor
  · intro doc dom dom1 h
    obtain ⟨personal, hp, htitle, hmeta⟩ := populateContent_meta doc dom dom1 h
    refine ⟨personal, hp, htitle, ?_, hmeta⟩
    intro name hname
    rw [htitle, hname]; rfl
  · intro dom
    obtain ⟨dom1, h⟩ := isOk_iff (populateContent_example dom)
    obtain ⟨personal, hp, htitle, _⟩ := populateContent_meta _ _ _ h
    refine ⟨dom1, h, ?_⟩
    have hpersonal : personal = { name := some "Ada Lovelace" } := by
      have hdoc : specExampleDocument.personal = some { name := some "Ada Lovelace" } := rfl
      rw [hdoc] at hp; injection hp with hp; exact hp.symm
    rw [htitle, hpersonal]; rfl

/-- C11 on `samplePage` and the example document: the load returns
`loadedSamplePage`, whose title and description are those of the document. -/
theorem populateContent_title_witness :
    populateContent (some specExampleDocument) samplePage = .ok loadedSamplePage ∧
      loadedSamplePage.title = "Ada Lovelace | Portfolio" ∧
      loadedSamplePage.metaDescription = some "Ada Lovelace - undefined Portfolio" := by
  have hrun : populateContent (some specExampleDocument) samplePage = .ok loadedSamplePage :=
    rfl
  obtain ⟨personal, hp, _, htitle, hmeta⟩ :=
    populateContent_title.1 specExampleDocument samplePage loadedSamplePage hrun
  have hpersonal : personal = { name := some "Ada Lovelace" } := by
    have hdoc : specExampleDocument.personal = some { name := some "Ada Lovelace" } := rfl
    rw [hdoc] at hp; injection hp with hp; exact hp.symm
  subst hpersonal
  exact ⟨hrun, htitle "Ada Lovelace" rfl, hmeta⟩

/-! ## The PDF generator: where `doc.save` is called -/

theorem noSave_append (a b : List DocCall) : noSave (a ++ b) = (noSave a && noSave b) := by
  simp [noSave, List.all_append]

theorem noSave_cons (c : DocCall) (l : List DocCall) :
    noSave (c :: l) = (!c.isSave && noSave l) := by
  simp [noSave]

theorem noSave_nil : noSave [] = true := rfl

theorem call_noSave (c : DocCall) (s : PdfState) (hc : c.isSave = false)
    (h : noSave s.calls = true) : noSave (call c s).calls = true := by
  simp [call, noSave_append, noSave_cons, noSave_nil, h, hc]

theorem useFont_noSave (f : Font) (s : PdfState)
    (h : noSave s.calls = true) : noSave (useFont f s).calls = true := by
  simp [useFont, noSave_append, h, noSave_cons, noSave_nil, DocCall.isSave]

theorem drawText_noSave (t : TextArg) (x : ℚ) (a : Option String) (s : PdfState)
    (h : noSave s.calls = true) : noSave (drawText t x a s).calls = true := by
  simp [drawText, call, noSave_append, h, noSave_cons, noSave_nil, DocCall.isSave]

theorem checkPageBreak_noSave (th : Theme) (lib : JsPDF) (r : ℚ) (s : PdfState)
    (h : noSave s.calls = true) : noSave (checkPageBreak th lib r s).calls = true := by
  unfold checkPageBreak
  split
  · simp [call, noSave_append, h, noSave_cons, noSave_nil, DocCall.isSave]
  · exact h

theorem ensureBlockFits_noSave (th : Theme) (lib : JsPDF) (r : ℚ) (s : PdfState)
    (h : noSave s.calls = true) : noSave (ensureBlockFits th lib r s).calls = true := by
  unfold ensureBlockFits
  split
  · simp [call, noSave_append, h, noSave_cons, noSave_nil, DocCall.isSave]
  · exact h

theorem addWrappedText_noSave (th : Theme) (lib : JsPDF) (text : String) (o : WrapOptions)
    (s : PdfState) (h : noSave s.calls = true) :
    noSave (addWrappedText th lib text o s).1.calls = true := by
  simp [addWrappedText, drawText, useFont, call, noSave_append, h, noSave_cons, noSave_nil, DocCall.isSave]

theorem addSection_noSave (th : Theme) (lib : JsPDF) (title : String) (y : Option ℚ)
    (s : PdfState) (h : noSave s.calls = true) :
    noSave (addSection th lib title y s).calls = true := by
  unfold addSection
  dsimp only
  have h1 := checkPageBreak_noSave th lib 16 { s with y := numOr y s.y } h
  generalize checkPageBreak th lib 16 { s with y := numOr y s.y } = s1 at h1 ⊢
  simp [drawText, useFont, call, advance, noSave_append, h1, noSave_cons, noSave_nil, DocCall.isSave]

theorem bulletLine_noSave (th : Theme) (lib : JsPDF) (text : String)
    (s : PdfState) (h : noSave s.calls = true) :
    noSave (bulletLine th lib text s).calls = true := by
  unfold bulletLine
  dsimp only
  have h1 := checkPageBreak_noSave th lib 10 s h
  generalize checkPageBreak th lib 10 s = s1 at h1 ⊢
  simp [addWrappedText, drawText, useFont, call, advance, noSave_append, h1, noSave_cons, noSave_nil, DocCall.isSave]

theorem foldl_noSave {α : Type} (f : PdfState → α → PdfState)
    (hf : ∀ s a, noSave s.calls = true → noSave (f s a).calls = true)
    (l : List α) (s : PdfState) (h : noSave s.calls = true) :
    noSave (l.foldl f s).calls = true := by
  induction l generalizing s with
  | nil => exact h
  | cons a rest ih => exact ih _ (hf s a h)

theorem skillLine_noSave (th : Theme) (lib : JsPDF) (t : Option String)
    (s : PdfState) (h : noSave s.calls = true) :
    noSave (skillLine th lib t s).calls = true := by
  unfold skillLine
  dsimp only
  have h1 := ensureBlockFits_noSave th lib 8 s h
  generalize ensureBlockFits th lib 8 s = s1 at h1 ⊢
  simp [drawText, useFont, call, advance, noSave_append, h1, noSave_cons, noSave_nil, DocCall.isSave]

theorem categoryBlock_noSave (th : Theme) (lib : JsPDF) (entry : String × List (Option String))
    (s : PdfState) (h : noSave s.calls = true) :
    noSave (categoryBlock th lib entry s).calls = true := by
  unfold categoryBlock
  dsimp only
  have h1 := ensureBlockFits_noSave th lib (14 + entry.2.length * 7) s h
  generalize ensureBlockFits th lib (14 + entry.2.length * 7) s = s1 at h1 ⊢
  rw [advance_calls]
  apply foldl_noSave _ (fun s a hs => skillLine_noSave th lib a s hs)
  simp [drawText, useFont, call, advance, noSave_append, h1, noSave_cons, noSave_nil, DocCall.isSave]

theorem referenceBlock_noSave (th : Theme) (lib : JsPDF) (ref : Reference)
    (s : PdfState) (h : noSave s.calls = true) :
    noSave (referenceBlock th lib ref s).calls = true := by
  unfold referenceBlock
  dsimp only
  have h1 := ensureBlockFits_noSave th lib 16 s h
  generalize ensureBlockFits th lib 16 s = s1 at h1 ⊢
  simp [drawText, useFont, call, advance, noSave_append, h1, noSave_cons, noSave_nil, DocCall.isSave]

theorem req_bind_noSave {α : Type} (v : Option α) (what : String) (s : PdfState)
    (f : α → Except RenderError PdfState) (hs : noSave s.calls = true)
    (hf : ∀ a, noSave (callsOf (f a)) = true) :
    noSave (callsOf (req v what s >>= f)) = true := by
  cases v with
  | none => exact hs
  | some a => exact hf a

theorem bind_noSave (x : Except RenderError PdfState)
    (f : PdfState → Except RenderError PdfState) (hx : noSave (callsOf x) = true)
    (hf : ∀ a, noSave a.calls = true → noSave (callsOf (f a)) = true) :
    noSave (callsOf (x >>= f)) = true := by
  cases x with
  | error e => exact hx
  | ok a => exact hf a hx

theorem forEachIdx_noSave {α : Type} (f : α → Nat → PdfState → Except RenderError PdfState)
    (hf : ∀ a i s, noSave s.calls = true → noSave (callsOf (f a i s)) = true)
    (l : List α) (i : Nat) (s : PdfState) (h : noSave s.calls = true) :
    noSave (callsOf (forEachIdx f l i s)) = true := by
  induction l generalizing i s with
  | nil => exact h
  | cons a rest ih =>
    unfold forEachIdx
    have h1 := hf a i s h
    cases hfa : f a i s with
    | error e => rw [hfa] at h1; exact h1
    | ok s1 => rw [hfa] at h1; exact ih _ _ h1

theorem headerSection_noSave (th : Theme) (lib : JsPDF) (contentData : ContentDocument)
    (s : PdfState) (h : noSave s.calls = true) :
    noSave (callsOf (headerSection th lib contentData s)) = true := by
  unfold headerSection
  refine req_bind_noSave _ _ _ _ h (fun personal => ?_)
  dsimp only
  refine req_bind_noSave _ _ _ _ ?_ (fun name => ?_)
  · simp [drawText, useFont, call, advance, noSave_append, h, noSave_cons, noSave_nil,
      DocCall.isSave]
  · simp [callsOf, pure, Except.pure, drawText, useFont, call, advance, noSave_append, h,
      noSave_cons, noSave_nil, DocCall.isSave]

theorem profileSection_noSave (th : Theme) (lib : JsPDF) (contentData : ContentDocument)
    (s : PdfState) (h : noSave s.calls = true) :
    noSave (callsOf (profileSection th lib contentData s)) = true := by
  unfold profileSection
  have h1 := addSection_noSave th lib "Profile" none s h
  refine req_bind_noSave _ _ _ _ h1 (fun source => ?_)
  exact addWrappedText_noSave th lib _ _ _ h1

theorem projectBlock_noSave (th : Theme) (lib : JsPDF) (count : Nat) (project : Project)
    (index : Nat) (s : PdfState) (h : noSave s.calls = true) :
    noSave (callsOf (projectBlock th lib count project index s)) = true := by
  unfold projectBlock
  have h1 := ensureBlockFits_noSave th lib 25 s h
  generalize ensureBlockFits th lib 25 s = s1 at h1 ⊢
  dsimp only
  refine req_bind_noSave _ _ _ _ ?_ (fun title => ?_)
  · simp [useFont, call, noSave_append, h1, noSave_cons, noSave_nil, DocCall.isSave]
  dsimp only
  have h2 : ∀ s2 : PdfState, noSave s2.calls = true →
      noSave (if truthy project.subtitle = true then
        advance (th.layout.lineHeight * 1.3)
          (drawText (TextArg.str project.subtitle) th.layout.margin none
            (call (DocCall.setTextColor th.colors.secondary) (useFont th.fonts.italic s2)))
        else s2).calls = true := by
    intro s2 hs2
    split
    · simp [drawText, useFont, call, advance, noSave_append, hs2, noSave_cons, noSave_nil,
        DocCall.isSave]
    · exact hs2
  refine req_bind_noSave _ _ _ _ (h2 _ ?_) (fun description => ?_)
  · simp [drawText, useFont, call, advance, noSave_append, h1, noSave_cons, noSave_nil,
      DocCall.isSave]
  · have h3 := foldl_noSave (fun s line => bulletLine th lib (trim line) s)
      (fun s a hs => bulletLine_noSave th lib _ s hs) (descLines description) _
      (h2 (advance (th.layout.lineHeight * 1.5)
        (drawText (TextArg.str (some (toUpperCase title))) th.layout.margin none
          (call (DocCall.setTextColor th.colors.primary) (useFont th.fonts.jobTitle s1))))
        (by simp [drawText, useFont, call, advance, noSave_append, h1, noSave_cons, noSave_nil,
              DocCall.isSave]))
    show noSave (callsOf (pure _)) = true
    simp only [callsOf, pure, Except.pure]
    split
    · rw [advance_calls]; exact h3
    · exact h3

theorem projectsSection_noSave (th : Theme) (lib : JsPDF) (contentData : ContentDocument)
    (s : PdfState) (h : noSave s.calls = true) :
    noSave (callsOf (projectsSection th lib contentData s)) = true := by
  unfold projectsSection
  refine req_bind_noSave _ _ _ _ h (fun projects => ?_)
  split
  · exact h
  · next items _ =>
    split
    · refine bind_noSave _ _ (forEachIdx_noSave _
        (fun a i s hs => projectBlock_noSave th lib _ a i s hs) _ _ _
        (addSection_noSave th lib _ _ s h)) (fun a ha => ?_)
      exact ha
    · exact h

theorem jobBlock_noSave (th : Theme) (lib : JsPDF) (count : Nat) (job : Job)
    (index : Nat) (s : PdfState) (h : noSave s.calls = true) :
    noSave (callsOf (jobBlock th lib count job index s)) = true := by
  unfold jobBlock
  refine req_bind_noSave _ _ _ _ h (fun achievements => ?_)
  dsimp only
  have h1 := ensureBlockFits_noSave th lib (estimateJobBlockHeight th achievements.length) s h
  generalize ensureBlockFits th lib (estimateJobBlockHeight th achievements.length) s = s1
    at h1 ⊢
  refine req_bind_noSave _ _ _ _ ?_ (fun title => ?_)
  · simp [useFont, call, noSave_append, h1, noSave_cons, noSave_nil, DocCall.isSave]
  dsimp only
  have h3 := foldl_noSave (fun s achievement => bulletLine th lib achievement s)
    (fun s a hs => bulletLine_noSave th lib _ s hs) achievements
    (advance (th.layout.lineHeight * 1.7)
      (drawText (TextArg.str (some (jsToString job.company ++ ", " ++ jsToString job.location)))
        th.layout.margin none
        (call (DocCall.setTextColor th.colors.secondary)
          (useFont th.fonts.body
            (advance (th.layout.lineHeight * 1.5)
              (drawText (TextArg.str job.period) (lib.pageWidth - th.layout.margin) (some "right")
                (call (DocCall.setTextColor th.colors.secondary)
                  (useFont th.fonts.small
                    (drawText (TextArg.str (some (toUpperCase title))) th.layout.margin none
                      (call (DocCall.setTextColor th.colors.primary)
                        (useFont th.fonts.jobTitle s1)))))))))))
    (by simp [drawText, useFont, call, advance, noSave_append, h1, noSave_cons, noSave_nil,
          DocCall.isSave])
  show noSave (callsOf (pure _)) = true
  simp only [callsOf, pure, Except.pure]
  split
  · rw [advance_calls]; exact h3
  · exact h3

theorem experienceSection_noSave (th : Theme) (lib : JsPDF) (contentData : ContentDocument)
    (s : PdfState) (h : noSave s.calls = true) :
    noSave (callsOf (experienceSection th lib contentData s)) = true := by
  unfold experienceSection
  have h1 := addSection_noSave th lib "Professional Experience" none s h
  refine req_bind_noSave _ _ _ _ h1 (fun resume => ?_)
  refine req_bind_noSave _ _ _ _ h1 (fun experience => ?_)
  refine bind_noSave _ _ (forEachIdx_noSave _
    (fun a i s hs => jobBlock_noSave th lib _ a i s hs) _ _ _ h1) (fun a ha => ?_)
  exact ha

theorem educationBlock_noSave (th : Theme) (lib : JsPDF) (count : Nat) (edu : Education)
    (index : Nat) (s : PdfState) (h : noSave s.calls = true) :
    noSave (callsOf (educationBlock th lib count edu index s)) = true := by
  unfold educationBlock
  have h1 := ensureBlockFits_noSave th lib 18 s h
  generalize ensureBlockFits th lib 18 s = s1 at h1 ⊢
  dsimp only
  refine req_bind_noSave _ _ _ _ ?_ (fun institution => ?_)
  · simp [useFont, call, noSave_append, h1, noSave_cons, noSave_nil, DocCall.isSave]
  show noSave (callsOf (pure _)) = true
  simp only [callsOf, pure, Except.pure]
  split <;>
    simp [drawText, useFont, call, advance, noSave_append, h1, noSave_cons, noSave_nil,
      DocCall.isSave]

theorem educationSection_noSave (th : Theme) (lib : JsPDF) (contentData : ContentDocument)
    (s : PdfState) (h : noSave s.calls = true) :
    noSave (callsOf (educationSection th lib contentData s)) = true := by
  unfold educationSection
  have h1 := addSection_noSave th lib "Education" none s h
  refine req_bind_noSave _ _ _ _ h1 (fun resume => ?_)
  refine req_bind_noSave _ _ _ _ h1 (fun education => ?_)
  refine bind_noSave _ _ (forEachIdx_noSave _
    (fun a i s hs => educationBlock_noSave th lib _ a i s hs) _ _ _ h1) (fun a ha => ?_)
  exact ha

theorem skillsSection_noSave (th : Theme) (lib : JsPDF) (contentData : ContentDocument)
    (s : PdfState) (h : noSave s.calls = true) :
    noSave (callsOf (skillsSection th lib contentData s)) = true := by
  unfold skillsSection
  have h1 := addSection_noSave th lib "Skills and Interests" none s h
  generalize addSection th lib "Skills and Interests" none s = s1 at h1 ⊢
  refine req_bind_noSave _ _ _ _ h1 (fun about => ?_)
  dsimp only
  split
  · exact h1
  · next skills _ =>
    split
    · split
      · refine req_bind_noSave _ _ _ _ h1 (fun grouped => ?_)
        exact foldl_noSave _ (fun s a hs => categoryBlock_noSave th lib a s hs) _ _ h1
      · exact foldl_noSave _ (fun s a hs => skillLine_noSave th lib _ s hs) _ _
          (ensureBlockFits_noSave th lib _ _ h1)
    · exact h1

theorem referenceSection_noSave (th : Theme) (lib : JsPDF) (contentData : ContentDocument)
    (s : PdfState) (h : noSave s.calls = true) :
    noSave (callsOf (referenceSection th lib contentData s)) = true := by
  unfold referenceSection
  refine req_bind_noSave _ _ _ _ h (fun resume => ?_)
  split
  · exact h
  · next references _ =>
    split
    · exact foldl_noSave _ (fun s a hs => referenceBlock_noSave th lib a s hs) _ _
        (addSection_noSave th lib _ _ s h)
    · exact h

/-- A run of `render` that throws has made no `doc.save` call; a run that
returns has made exactly one, its last call. -/
theorem render_noSave (th : Theme) (lib : JsPDF) (contentData : ContentDocument) :
    match render th lib contentData with
    | .error e => noSave e.calls = true
    | .ok s => ∃ before name, s.calls = before ++ [DocCall.save name] ∧ noSave before = true := by
  have hbind : ∀ (x : Except RenderError PdfState) (f : PdfState → Except RenderError PdfState),
      noSave (callsOf x) = true →
      (∀ a, noSave a.calls = true →
        match f a with
        | .error e => noSave e.calls = true
        | .ok s => ∃ before name, s.calls = before ++ [DocCall.save name] ∧
            noSave before = true) →
      match x >>= f with
      | .error e => noSave e.calls = true
      | .ok s => ∃ before name, s.calls = before ++ [DocCall.save name] ∧
          noSave before = true := by
    intro x f hx hf
    cases x with
    | error e => exact hx
    | ok a => exact hf a hx
  unfold render
  dsimp only
  refine hbind _ _ (headerSection_noSave th lib contentData _ rfl) (fun s1 h1 => ?_)
  refine hbind _ _ (profileSection_noSave th lib contentData _ h1) (fun s2 h2 => ?_)
  refine hbind _ _ (projectsSection_noSave th lib contentData _ h2) (fun s3 h3 => ?_)
  refine hbind _ _ (experienceSection_noSave th lib contentData _ h3) (fun s4 h4 => ?_)
  refine hbind _ _ (educationSection_noSave th lib contentData _ h4) (fun s5 h5 => ?_)
  refine hbind _ _ (skillsSection_noSave th lib contentData _ h5) (fun s6 h6 => ?_)
  refine hbind _ _ (referenceSection_noSave th lib contentData _ h6) (fun s7 h7 => ?_)
  cases hsave : saveSection contentData s7 with
  | ok s =>
    obtain ⟨personal, name, _, _, hcalls⟩ := saveSection_calls contentData s7 s hsave
    exact ⟨s7.calls, _, hcalls, h7⟩
  | error e =>
    dsimp only
    unfold saveSection at hsave
    cases hp : contentData.personal with
    | none =>
      rw [hp] at hsave
      cases hsave
      exact h7
    | some personal =>
      rw [hp] at hsave
      cases hn : personal.name with
      | none =>
        simp only [req, hn, bind, Except.bind] at hsave
        cases hsave
        exact h7
      | some name =>
        simp only [req, hn, bind, Except.bind, pure, Except.pure] at hsave
        cases hsave

/-- The calls that returned are a prefix of the calls meant. -/
theorem playCalls_prefix (lib : JsPDF) (calls done played : List DocCall) (r : Option DocCall)
    (hplay : playCalls lib done calls = (played, r)) :
    ∃ rest, done ++ calls = played ++ rest ∧ (r.isSome = true → rest ≠ []) := by
  induction calls generalizing done with
  | nil =>
    simp only [playCalls] at hplay
    cases hplay
    exact ⟨[], rfl, by simp⟩
  | cons c rest ih =>
    simp only [playCalls] at hplay
    split at hplay
    · obtain ⟨more, hmore, hne⟩ := ih _ hplay
      exact ⟨more, by rw [← hmore]; simp, hne⟩
    · cases hplay
      exact ⟨c :: rest, rfl, by simp⟩

/-- A proper prefix of a call sequence whose only `doc.save` is its last call
has no `doc.save`. -/
theorem noSave_proper_prefix (played rest before : List DocCall) (c : DocCall)
    (h : played ++ rest = before ++ [c]) (hrest : rest ≠ []) (hb : noSave before = true) :
    noSave played = true := by
  rcases List.append_eq_append_iff.mp h with ⟨a, ha, _⟩ | ⟨a, ha, hc⟩
  · rw [ha, noSave_append] at hb
    simp only [Bool.and_eq_true] at hb
    exact hb.1
  · cases a with
    | nil => simp at ha; rw [ha]; exact hb
    | cons x xs =>
      have hlen := congrArg List.length hc
      simp only [List.length_append, List.length_cons, List.length_nil] at hlen
      have : rest.length = 0 := by omega
      exact absurd (List.length_eq_zero.mp this) hrest

/-- The outcomes of `generateResumePDF` once the library is there: either the
`try` block ran to its end, every call returning, or the `catch` block ran, and
then no `doc.save` call had returned. -/
theorem generateResumePDF_resolved (lib : JsPDF) (contentData : ContentDocument) :
    (∃ s, render pdfTheme lib contentData = .ok s ∧
        playCalls lib [] s.calls = (s.calls, none) ∧
        generateResumePDF (.resolved lib) contentData =
          { notifications :=
              [("Generating your new resume...", "info"),
               ("Your new resume has been downloaded!", "success")]
            consoleErrors := []
            saved := savedFile s.calls
            calls := s.calls
            settled := true }) ∨
      ((∀ s, render pdfTheme lib contentData = .ok s →
          ∃ done c, playCalls lib [] s.calls = (done, some c)) ∧
        ∃ error done, generateResumePDF (.resolved lib) contentData = catchBlock error done ∧
          noSave done = true) := by
  have hrender := render_noSave pdfTheme lib contentData
  cases hr : render pdfTheme lib contentData with
  | error e =>
    right
    rw [hr] at hrender
    dsimp only at hrender
    refine ⟨fun s hs => (by cases hs), ?_⟩
    cases hplay : playCalls lib [] e.calls with
    | mk played thrown =>
      obtain ⟨rest, hrest, _⟩ := playCalls_prefix lib _ _ _ _ hplay
      have hplayed : noSave played = true := by
        simp only [List.nil_append] at hrest
        rw [hrest, noSave_append] at hrender
        simp only [Bool.and_eq_true] at hrender
        exact hrender.1
      cases thrown with
      | some c =>
        exact ⟨"jsPDF call threw", played, by simp [generateResumePDF, hr, hplay], hplayed⟩
      | none => exact ⟨e.message, played, by simp [generateResumePDF, hr, hplay], hplayed⟩
  | ok s =>
    rw [hr] at hrender
    dsimp only at hrender
    obtain ⟨before, name, hcalls, hbefore⟩ := hrender
    cases hplay : playCalls lib [] s.calls with
    | mk played thrown =>
      cases thrown with
      | some c =>
        right
        refine ⟨fun s1 hs1 => ?_, ?_⟩
        · cases hs1
          exact ⟨played, c, hplay⟩
        · obtain ⟨rest, hrest, hne⟩ := playCalls_prefix lib _ _ _ _ hplay
          simp only [List.nil_append] at hrest
          rw [hcalls] at hrest
          exact ⟨"jsPDF call threw", played, by simp [generateResumePDF, hr, hplay],
            noSave_proper_prefix played rest before _ hrest.symm (hne rfl) hbefore⟩
      | none =>
        left
        have hall := playCalls_all lib s.calls [] played hplay
        simp only [List.nil_append] at hall
        subst hall
        exact ⟨s, rfl, hplay, by simp [generateResumePDF, hr, hplay]⟩


/-! ## Failures of `generateResumePDF` -/

/-- Once the promise of `loadJsPDF` has settled, the promise of
`generateResumePDF` resolves.  Whenever the load rejected, the `try` block throws
by itself, or a call on the document throws, no `doc.save` call has returned, no
file is saved, the error is logged with one `console.error` call, and the
notifications are the `info` one followed by exactly one `error` one; in every
other run the notifications are the `info` one followed by the `success` one and
nothing is logged. -/
theorem generateResumePDF_settled (load : LoadResult) (contentData : ContentDocument)
    (hload : load ≠ .pending) :
    (generateResumePDF load contentData).settled = true ∧
      ((load = .rejected ∨
          (∃ lib e, load = .resolved lib ∧ render pdfTheme lib contentData = .error e) ∨
          (∃ lib s done c, load = .resolved lib ∧ render pdfTheme lib contentData = .ok s ∧
            playCalls lib [] s.calls = (done, some c))) →
        (generateResumePDF load contentData).notifications =
            [("Generating your new resume...", "info"),
             ("Error generating resume. Please try again.", "error")] ∧
          (∃ error, (generateResumePDF load contentData).consoleErrors = [error]) ∧
          (generateResumePDF load contentData).saved = none ∧
          noSave (generateResumePDF load contentData).calls = true) ∧
      (¬ (load = .rejected ∨
          (∃ lib e, load = .resolved lib ∧ render pdfTheme lib contentData = .error e) ∨
          (∃ lib s done c, load = .resolved lib ∧ render pdfTheme lib contentData = .ok s ∧
            playCalls lib [] s.calls = (done, some c))) →
        (generateResumePDF load contentData).notifications =
            [("Generating your new resume...", "info"),
             ("Your new resume has been downloaded!", "success")] ∧
          (generateResumePDF load contentData).consoleErrors = []) := by
  cases load with
  | pending => exact absurd rfl hload
  | rejected =>
    refine ⟨rfl, fun _ => ⟨rfl, ⟨_, rfl⟩, rfl, rfl⟩, fun hno => absurd (Or.inl rfl) hno⟩
  | resolved lib =>
    rcases generateResumePDF_resolved lib contentData with
      ⟨s, hr, hplay, hout⟩ | ⟨hthrown, error, done, hout, hdone⟩
    · rw [hout]
      refine ⟨rfl, fun hthrew => ?_, fun _ => ⟨rfl, rfl⟩⟩
      rcases hthrew with h | ⟨lib1, e, hl, he⟩ | ⟨lib1, s1, done, c, hl, hs, hp⟩
      · cases h
      · cases hl
        rw [hr] at he
        cases he
      · cases hl
        rw [hr] at hs
        cases hs
        rw [hplay] at hp
        cases hp
    · rw [hout]
      refine ⟨rfl, fun _ => ⟨rfl, ⟨_, rfl⟩, rfl, hdone⟩, fun hno => ?_⟩
      refine absurd ?_ hno
      cases hr : render pdfTheme lib contentData with
      | error e => exact Or.inr (Or.inl ⟨lib, e, rfl, hr⟩)
      | ok s =>
        obtain ⟨played, c, hp⟩ := hthrown s hr
        exact Or.inr (Or.inr ⟨lib, s, played, c, rfl, hr, hp⟩)

/-- The promise of `loadJsPDF` stays pending exactly when `window.jspdf` is not
defined and the appended script loads without defining it. -/
theorem loadJsPDF_pending_iff (browser : Browser) :
    loadJsPDF browser = .pending ↔ browser.jspdf = none ∧ browser.script = .load none := by
  cases browser with
  | mk jspdf script =>
    cases jspdf with
    | some lib => exact ⟨fun h => (by cases h), fun h => (by cases h.1)⟩
    | none =>
      cases script with
      | error => exact ⟨fun h => (by cases h), fun h => (by cases h.2)⟩
      | load j =>
        cases j with
        | none => exact ⟨fun _ => ⟨rfl, rfl⟩, fun _ => rfl⟩
        | some lib => exact ⟨fun h => (by cases h), fun h => (by cases h.2)⟩

/-- C12 fails on the code.  When `window.jspdf` is not defined and the script
that `loadJsPDF` appends loads without defining it, the handler `script.onload`
throws on `window.jspdf.jsPDF`, the promise of `loadJsPDF` is never settled, and
neither is the promise of `generateResumePDF`: the `info` notification is the
only one, nothing is logged, and no `error` notification is shown.  The promise
of `loadJsPDF` stays pending in no other browser, and in every other browser the
claim holds for every document and every behaviour of the library: the promise
of `generateResumePDF` resolves, and whenever the load rejects, the `try` block
throws by itself, or a call on the document throws, no `doc.save` call has
returned, no file is saved, the error is logged with one `console.error` call,
and the notifications are the `info` one followed by exactly one `error` one;
in every other run they are the `info` one followed by the `success` one, and
nothing is logged. -/
theorem generateResumePDF_failure (browser : Browser) (contentData : ContentDocument) :
    (loadJsPDF browser = .pending ↔ browser.jspdf = none ∧ browser.script = .load none) ∧
      (browser.jspdf = none ∧ browser.script = .load none →
        generateResumePDFIn browser contentData =
          { notifications := [("Generating your new resume...", "info")]
            consoleErrors := [], saved := none, calls := [], settled := false }) ∧
      (¬ (browser.jspdf = none ∧ browser.script = .load none) →
        (generateResumePDFIn browser contentData).settled = true ∧
        ((loadJsPDF browser = .rejected ∨
            (∃ lib e, loadJsPDF browser = .resolved lib ∧
              render pdfTheme lib contentData = .error e) ∨
            (∃ lib s done c, loadJsPDF browser = .resolved lib ∧
              render pdfTheme lib contentData = .ok s ∧
              playCalls lib [] s.calls = (done, some c))) →
          (generateResumePDFIn browser contentData).notifications =
              [("Generating your new resume...", "info"),
               ("Error generating resume. Please try again.", "error")] ∧
            (∃ error, (generateResumePDFIn browser contentData).consoleErrors = [error]) ∧
            (generateResumePDFIn browser contentData).saved = none ∧
            noSave (generateResumePDFIn browser contentData).calls = true) ∧
        (¬ (loadJsPDF browser = .rejected ∨
            (∃ lib e, loadJsPDF browser = .resolved lib ∧
              render pdfTheme lib contentData = .error e) ∨
            (∃ lib s done c, loadJsPDF browser = .resolved lib ∧
              render pdfTheme lib contentData = .ok s ∧
              playCalls lib [] s.calls = (done, some c))) →
          (generateResumePDFIn browser contentData).notifications =
              [("Generating your new resume...", "info"),
               ("Your new resume has been downloaded!", "success")] ∧
            (generateResumePDFIn browser contentData).consoleErrors = [])) := by
  refine ⟨loadJsPDF_pending_iff browser, fun h => ?_, fun h => ?_⟩
  · have hp := (loadJsPDF_pending_iff browser).mpr h
    unfold generateResumePDFIn
    rw [hp]
    rfl
  · have hp : loadJsPDF browser ≠ .pending := fun hp => h ((loadJsPDF_pending_iff browser).mp hp)
    exact generateResumePDF_settled (loadJsPDF browser) contentData hp

/-- C12 on the browser `scriptWithoutGlobal`: the promise of `generateResumePDF`
is never settled, whatever the document; here with `fullDocument`. -/
theorem generateResumePDF_failure_witness :
    (scriptWithoutGlobal.jspdf = none ∧ scriptWithoutGlobal.script = .load none) ∧
      (generateResumePDFIn scriptWithoutGlobal fullDocument).settled = false ∧
      (generateResumePDFIn scriptWithoutGlobal fullDocument).notifications =
        [("Generating your new resume...", "info")] ∧
      (generateResumePDFIn scriptWithoutGlobal fullDocument).consoleErrors = [] ∧
      (generateResumePDFIn { jspdf := none, script := .error } fullDocument).settled = true ∧
      (generateResumePDFIn { jspdf := none, script := .error } fullDocument).notifications =
        [("Generating your new resume...", "info"),
         ("Error generating resume. Please try again.", "error")] :=
  have h := (generateResumePDF_failure scriptWithoutGlobal fullDocument).2.1 ⟨rfl, rfl⟩
  have hne : ¬ ((⟨none, .error⟩ : Browser).jspdf = none ∧
      (⟨none, .error⟩ : Browser).script = .load none) := fun h => by cases h.2
  have h2 := (generateResumePDF_failure ⟨none, .error⟩ fullDocument).2.2 hne
  ⟨⟨rfl, rfl⟩, by rw [h], by rw [h], by rw [h], h2.1, (h2.2.1 (Or.inl rfl)).1⟩

/-- C13 fails on the code: on the example document of the specification
(building throws, there is no `resume` object) with the library loaded, the
notifications are the same as when the load of the library rejects; only the
error passed to `console.error` differs. -/
theorem failure_message_counterexample :
    (generateResumePDF (.resolved sampleA4) specExampleDocument).notifications =
        (generateResumePDF .rejected specExampleDocument).notifications ∧
      (generateResumePDF .rejected specExampleDocument).notifications =
        [("Generating your new resume...", "info"),
         ("Error generating resume. Please try again.", "error")] ∧
      (generateResumePDF .rejected specExampleDocument).consoleErrors =
        ["Error generating PDF: script load error"] ∧
      (generateResumePDF (.resolved sampleA4) specExampleDocument).consoleErrors =
        ["Error generating PDF: TypeError: resume is undefined"] := by
  decide!

/-- C13 (amended): when the library loaded but building threw (the `try` block
by itself, or a call on the document), the notifications are those of a rejected
load of the library: the `info` one and the one generic error message
`'Error generating resume. Please try again.'`. -/
theorem failure_message_shared (lib : JsPDF) (contentData : ContentDocument)
    (hthrew : (∃ e, render pdfTheme lib contentData = .error e) ∨
      ∃ s done c, render pdfTheme lib contentData = .ok s ∧
        playCalls lib [] s.calls = (done, some c)) :
    (generateResumePDF (.resolved lib) contentData).notifications =
        (generateResumePDF .rejected contentData).notifications ∧
      (generateResumePDF .rejected contentData).notifications =
        [("Generating your new resume...", "info"),
         ("Error generating resume. Please try again.", "error")] := by
  refine ⟨?_, rfl⟩
  rcases generateResumePDF_resolved lib contentData with
    ⟨s, hr, hplay, _⟩ | ⟨_, error, done, hout, _⟩
  · rcases hthrew with ⟨e, he⟩ | ⟨s1, done, c, hs, hp⟩
    · rw [hr] at he
      cases he
    · rw [hr] at hs
      cases hs
      rw [hplay] at hp
      cases hp
  · rw [hout]
    rfl

/-- C13 (amended) on the example document of the specification, whose build
throws for want of a `resume` object. -/
theorem failure_message_shared_witness :
    (generateResumePDF (.resolved sampleA4) specExampleDocument).notifications =
        (generateResumePDF .rejected specExampleDocument).notifications ∧
      (generateResumePDF .rejected specExampleDocument).notifications =
        [("Generating your new resume...", "info"),
         ("Error generating resume. Please try again.", "error")] :=
  failure_message_shared sampleA4 specExampleDocument
    (Or.inl (render_without_resume pdfTheme sampleA4 specExampleDocument rfl))

/-! ## Decimal numerals -/

/-- The character of a decimal digit. -/
theorem digitChar_toNat (m : Nat) (hm : m < 10) :
    (Nat.digitChar m).toNat = 48 + m ∧ (Nat.digitChar m).isDigit = true := by
  interval_cases m <;> exact ⟨rfl, rfl⟩

/-- Reading one more digit. -/
theorem foldl_digits_append (v : Nat) (ds : List Char) (d : Char) :
    (ds ++ [d]).foldl (fun n c => 10 * n + (c.toNat - 48)) v =
      10 * ds.foldl (fun n c => 10 * n + (c.toNat - 48)) v + (d.toNat - 48) := by
  simp [List.foldl_append]

/-- The digits `Nat.toDigitsCore` puts in front of its accumulator, with enough
fuel: they read back as the number, one digit below ten, two or more from ten on. -/
theorem toDigitsCore_value (fuel : Nat) : ∀ (n : Nat) (acc : List Char), n < fuel →
    ∃ ds : List Char, Nat.toDigitsCore 10 fuel n acc = ds ++ acc ∧
      (∀ v, ds.foldl (fun n c => 10 * n + (c.toNat - 48)) v = v * 10 ^ ds.length + n) ∧
      (∀ c ∈ ds, c.isDigit = true) ∧
      (n < 10 → ds.length = 1) ∧ (10 ≤ n → 2 ≤ ds.length) := by
  induction fuel with
  | zero => intro n acc h; exact absurd h (Nat.not_lt_zero _)
  | succ fuel ih =>
    intro n acc hn
    unfold Nat.toDigitsCore
    by_cases h10 : n / 10 = 0
    · have hlt : n < 10 := by omega
      simp only [h10, if_true]
      refine ⟨[Nat.digitChar (n % 10)], rfl, ?_, ?_, fun _ => rfl, fun h => by omega⟩
      · intro v
        simp only [List.foldl_cons, List.foldl_nil, List.length_singleton, pow_one]
        rw [(digitChar_toNat (n % 10) (Nat.mod_lt _ (by omega))).1, Nat.mod_eq_of_lt hlt]
        omega
      · intro c hc
        simp only [List.mem_singleton] at hc
        rw [hc]
        exact (digitChar_toNat (n % 10) (Nat.mod_lt _ (by omega))).2
    · simp only [h10, if_false]
      obtain ⟨ds, hds, hval, hdig, _, _⟩ :=
        ih (n / 10) (Nat.digitChar (n % 10) :: acc) (by omega)
      have hpos : 1 ≤ ds.length := by
        cases ds with
        | nil =>
          have := hval 0
          simp at this
          omega
        | cons _ _ => simp
      refine ⟨ds ++ [Nat.digitChar (n % 10)], by rw [hds]; simp, ?_, ?_,
        fun h => by omega, fun _ => by simp; omega⟩
      · intro v
        rw [foldl_digits_append, hval v,
          (digitChar_toNat (n % 10) (Nat.mod_lt _ (by omega))).1]
        simp only [List.length_append, List.length_singleton, pow_succ]
        have := Nat.div_add_mod n 10
        have e : 48 + n % 10 - 48 = n % 10 := by omega
        rw [e]
        nlinarith [this]
      · intro c hc
        simp only [List.mem_append, List.mem_singleton] at hc
        rcases hc with hc | hc
        · exact hdig c hc
        · rw [hc]
          exact (digitChar_toNat (n % 10) (Nat.mod_lt _ (by omega))).2

/-- The decimal numeral of a number: its digits, read back, give the number. -/
theorem toString_value (n : Nat) :
    decimalValue (toString n) = n ∧ (∀ c ∈ (toString n).data, c.isDigit = true) ∧
      (n < 10 → (toString n).data.length = 1) ∧ (10 ≤ n → 2 ≤ (toString n).data.length) := by
  obtain ⟨ds, hds, hval, hdig, h1, h2⟩ := toDigitsCore_value (n + 1) n [] (by omega)
  have hdata : (toString n).data = ds := by
    show (Nat.repr n).data = ds
    unfold Nat.repr Nat.toDigits
    rw [hds]
    simp [List.asString]
  refine ⟨?_, ?_, ?_, ?_⟩
  · unfold decimalValue
    rw [hdata, hval 0]
    simp
  · rw [hdata]; exact hdig
  · rw [hdata]; exact h1
  · rw [hdata]; exact h2

/-- Leading zeros do not change the number read. -/
theorem foldl_zeros (k : Nat) (rest : List Char) :
    (List.replicate k '0' ++ rest).foldl (fun n c => 10 * n + (c.toNat - 48)) 0 =
      rest.foldl (fun n c => 10 * n + (c.toNat - 48)) 0 := by
  induction k with
  | zero => rfl
  | succ k ih =>
    rw [List.replicate_succ, List.cons_append, List.foldl_cons]
    exact ih

/-- The label of a skill card reads back as the 1-based position, has at least
two characters, all of them digits; below ten it is `0` and the digit, from ten
on it is the numeral itself. -/
theorem skillNumber_value (i : Nat) :
    decimalValue (skillNumber i) = i + 1 ∧
      2 ≤ (skillNumber i).data.length ∧
      (∀ c ∈ (skillNumber i).data, c.isDigit = true) ∧
      (i + 1 < 10 → skillNumber i = "0" ++ toString (i + 1) ∧
        (skillNumber i).data.length = 2) ∧
      (10 ≤ i + 1 → skillNumber i = toString (i + 1)) := by
  obtain ⟨hv, hd, h1, h2⟩ := toString_value (i + 1)
  have hdata : (skillNumber i).data =
      List.replicate (2 - (toString (i + 1)).data.length) '0' ++ (toString (i + 1)).data := rfl
  refine ⟨?_, ?_, ?_, ?_, ?_⟩
  · unfold decimalValue at hv ⊢
    rw [hdata, foldl_zeros]
    exact hv
  · rw [hdata]
    simp only [List.length_append, List.length_replicate]
    omega
  · intro c hc
    rw [hdata] at hc
    simp only [List.mem_append] at hc
    rcases hc with hc | hc
    · rw [(List.mem_replicate.mp hc).2]; rfl
    · exact hd c hc
  · intro hlt
    have hlen := h1 hlt
    constructor
    · apply String.ext
      rw [hdata, hlen]
      rfl
    · rw [hdata, hlen]
      simp [hlen]
  · intro hge
    have hlen := h2 hge
    apply String.ext
    rw [hdata]
    have : 2 - (toString (i + 1)).data.length = 0 := by omega
    rw [this]
    rfl

/-- The labels at the positions the specification asks to test. -/
theorem skillNumber_examples :
    skillNumber 0 = "01" ∧ skillNumber 1 = "02" ∧ skillNumber 8 = "09" ∧ skillNumber 9 = "10" ∧
      skillNumber 10 = "11" ∧ skillNumber 99 = "100" := by
  decide

/-- The results of `mapIdxThrowing` when it returns: one per entry, each the
result of the callback on its entry and position. -/
theorem mapIdxThrowing_ok {α β : Type} (f : α → Nat → Except String β) (l : List α) (i : Nat)
    (bs : List β) (h : mapIdxThrowing f l i = .ok bs) :
    bs.length = l.length ∧
      ∀ j a, l[j]? = some a → ∃ b, bs[j]? = some b ∧ f a (i + j) = .ok b := by
  induction l generalizing i bs with
  | nil =>
    simp only [mapIdxThrowing] at h
    cases h
    exact ⟨rfl, fun j a hj => by simp at hj⟩
  | cons x rest ih =>
    simp only [mapIdxThrowing] at h
    cases hx : f x i with
    | error e => rw [hx] at h; cases h
    | ok b =>
      rw [hx] at h
      dsimp only at h
      cases hrest : mapIdxThrowing f rest (i + 1) with
      | error e => rw [hrest] at h; cases h
      | ok more =>
        rw [hrest] at h
        cases h
        obtain ⟨hlen, hget⟩ := ih (i + 1) more hrest
        refine ⟨by simp [hlen], fun j a hj => ?_⟩
        cases j with
        | zero =>
          simp only [List.getElem?_cons_zero, Option.some.injEq] at hj
          subst hj
          exact ⟨b, by simp, hx⟩
        | succ j =>
          simp only [List.getElem?_cons_succ] at hj
          obtain ⟨b1, hb1, hf⟩ := hget j a hj
          exact ⟨b1, by simpa using hb1, by rw [← hf]; congr 1; omega⟩

/-- The method `mapIdxThrowing` returns when the callback returns on every entry. -/
theorem mapIdxThrowing_isOk {α β : Type} (f : α → Nat → Except String β) (l : List α) (i : Nat)
    (hf : ∀ a ∈ l, ∀ j, (f a j).isOk = true) : (mapIdxThrowing f l i).isOk = true := by
  induction l generalizing i with
  | nil => rfl
  | cons x rest ih =>
    simp only [mapIdxThrowing]
    obtain ⟨b, hb⟩ := isOk_iff (hf x (by simp) i)
    obtain ⟨bs, hbs⟩ := isOk_iff (ih (i + 1) (fun a ha j => hf a (by simp [ha]) j))
    rw [hb]
    dsimp only
    rw [hbs]
    rfl

/-- The step `setIntro` changes nothing but the `.about-text` region. -/
theorem setIntro_frame {β : Type} (g : Dom → β)
    (hg : ∀ (d : Dom) v, g { d with aboutText := v } = g d)
    (contentData : ContentDocument) (dom d1 : Dom)
    (h : setIntro contentData dom = .ok d1) : g d1 = g dom := by
  unfold setIntro at h
  repeat' split at h
  all_goals (cases h <;> first | rfl | exact hg _ _)

/-- The step `populateParagraphs` changes nothing but the `.about-text` region. -/
theorem populateParagraphs_frame {β : Type} (g : Dom → β)
    (hg : ∀ (d : Dom) v, g { d with aboutText := v } = g d)
    (contentData : ContentDocument) (dom d1 : Dom)
    (h : populateParagraphs contentData dom = .ok d1) : g d1 = g dom := by
  unfold populateParagraphs at h
  repeat' split at h
  all_goals try dsimp only at h
  all_goals repeat' split at h
  all_goals (cases h <;> first | rfl | exact hg _ _)

/-- The step `setQuote` changes nothing but the `.about-text` region. -/
theorem setQuote_frame {β : Type} (g : Dom → β)
    (hg : ∀ (d : Dom) v, g { d with aboutText := v } = g d)
    (contentData : ContentDocument) (dom d1 : Dom)
    (h : setQuote contentData dom = .ok d1) : g d1 = g dom := by
  unfold setQuote at h
  repeat' split at h
  all_goals (cases h <;> first | rfl | exact hg _ _)

/-- The steps of a run of `populateAbout` that returns. -/
theorem populateAbout_steps (contentData : ContentDocument) (dom d : Dom)
    (h : populateAbout contentData dom = .ok d) :
    ∃ a1 a2 a3 a4 a5,
      setText dom.aboutEyebrow contentData.about "about is undefined"
        (fun about => about.eyebrow) dom (fun t => { dom with aboutEyebrow := some t }) = .ok a1 ∧
      setText a1.aboutTitle contentData.about "about is undefined"
        (fun about => about.title) a1 (fun t => { a1 with aboutTitle := some t }) = .ok a2 ∧
      setIntro contentData a2 = .ok a3 ∧
      populateParagraphs contentData a3 = .ok a4 ∧
      setQuote contentData a4 = .ok a5 ∧
      populateSkills contentData a5 = .ok d := by
  unfold populateAbout at h
  obtain ⟨a1, h1, h⟩ := bind_ok h
  obtain ⟨a2, h2, h⟩ := bind_ok h
  obtain ⟨a3, h3, h⟩ := bind_ok h
  obtain ⟨a4, h4, h⟩ := bind_ok h
  obtain ⟨a5, h5, h⟩ := bind_ok h
  exact ⟨a1, a2, a3, a4, a5, h1, h2, h3, h4, h5, h⟩

/-- What `populateSkills` does on a page with a skills grid, for skills that
all have a description. -/
theorem populateSkills_ok (contentData : ContentDocument) (about : About) (skills : List Skill)
    (dom : Dom) (grid : String)
    (habout : contentData.about = some about) (hskills : about.skills = some skills)
    (hdesc : ∀ skill ∈ skills, skill.description.isSome = true)
    (hgrid : dom.skillsGrid = some grid) :
    ∃ cards, skillCards skills = .ok cards ∧
      populateSkills contentData dom =
        .ok { dom with skillsGrid := some (join "" (cards.map SkillCard.html)) } := by
  have hok : (skillCards skills).isOk = true := by
    unfold skillCards
    refine mapIdxThrowing_isOk _ _ _ (fun skill hs j => ?_)
    have := hdesc skill hs
    unfold skillCard
    cases hd : skill.description with
    | none => rw [hd] at this; cases this
    | some d => rfl
  obtain ⟨cards, hcards⟩ := isOk_iff hok
  refine ⟨cards, hcards, ?_⟩
  unfold populateSkills
  rw [hgrid]
  dsimp only
  rw [habout]
  dsimp only
  rw [hskills]
  dsimp only
  rw [hcards]

/-! ## The skill cards -/

/-- C14: for every `about.skills` whose entries have a description, on a page
with a skills grid `populateSkills` (the skills block of `populateAbout`)
returns, and the grid becomes the markup of exactly one card per skill, in input
order; every run of `populateAbout` that returns leaves that grid.  The card at
position `i` has the title of skill `i` and the label `skillNumber i`: a string
of at least two digits that reads back as `i + 1` (so no gap and no repeat),
`0` followed by the digit below ten and the numeral itself from ten on.  For no
skills the grid is empty. -/
theorem skill_cards (contentData : ContentDocument) (about : About) (skills : List Skill)
    (dom : Dom) (grid : String)
    (habout : contentData.about = some about) (hskills : about.skills = some skills)
    (hdesc : ∀ skill ∈ skills, skill.description.isSome = true)
    (hgrid : dom.skillsGrid = some grid) :
    ∃ cards, skillCards skills = .ok cards ∧
      populateSkills contentData dom =
        .ok { dom with skillsGrid := some (join "" (cards.map SkillCard.html)) } ∧
      (∀ d1, populateAbout contentData dom = .ok d1 →
        d1.skillsGrid = some (join "" (cards.map SkillCard.html))) ∧
      cards.length = skills.length ∧
      (∀ i skill, skills[i]? = some skill →
        ∃ card, cards[i]? = some card ∧ skillCard skill i = .ok card ∧
          card.title = jsToString skill.title ∧
          card.number = skillNumber i ∧
          decimalValue card.number = i + 1 ∧
          2 ≤ card.number.data.length ∧
          (∀ c ∈ card.number.data, c.isDigit = true) ∧
          (i + 1 < 10 → card.number = "0" ++ toString (i + 1)) ∧
          (10 ≤ i + 1 → card.number = toString (i + 1))) ∧
      (skills = [] → join "" (cards.map SkillCard.html) = "") := by
  obtain ⟨cards, hcards, hrun⟩ :=
    populateSkills_ok contentData about skills dom grid habout hskills hdesc hgrid
  obtain ⟨hlen, hget⟩ := mapIdxThrowing_ok skillCard skills 0 cards hcards
  refine ⟨cards, hcards, hrun, ?_, hlen, ?_, ?_⟩
  · intro d1 hd1
    obtain ⟨a1, a2, a3, a4, a5, h1, h2, h3, h4, h5, h6⟩ := populateAbout_steps _ _ _ hd1
    have e1 := setText_keeps (fun d => d.skillsGrid) h1 (fun _ => rfl)
    have e2 := setText_keeps (fun d => d.skillsGrid) h2 (fun _ => rfl)
    have e3 := setIntro_frame (fun d => d.skillsGrid) (fun _ _ => rfl) _ _ _ h3
    have e4 := populateParagraphs_frame (fun d => d.skillsGrid) (fun _ _ => rfl) _ _ _ h4
    have e5 := setQuote_frame (fun d => d.skillsGrid) (fun _ _ => rfl) _ _ _ h5
    simp only at e1 e2 e3 e4 e5
    have hg5 : a5.skillsGrid = some grid := by rw [e5, e4, e3, e2, e1, hgrid]
    obtain ⟨cards5, hcards5, hrun5⟩ :=
      populateSkills_ok contentData about skills a5 grid habout hskills hdesc hg5
    rw [hcards] at hcards5
    cases hcards5
    rw [hrun5] at h6
    cases h6
    rfl
  · intro i skill hi
    obtain ⟨card, hcard, hf⟩ := hget i skill hi
    rw [Nat.zero_add] at hf
    have hnum : card.number = skillNumber i ∧ card.title = jsToString skill.title := by
      unfold skillCard at hf
      split at hf
      · cases hf
      · cases hf
        exact ⟨rfl, rfl⟩
    obtain ⟨hv, h2, hd, hlt, hge⟩ := skillNumber_value i
    rw [← hnum.1] at hv h2 hd hlt hge
    exact ⟨card, hcard, hf, hnum.2, hnum.1, hv, h2, hd, fun h => (hlt h).1, hge⟩
  · intro hnil
    subst hnil
    have : cards = [] := List.length_eq_zero.mp hlen
    rw [this]
    rfl

/-- C14 on eleven skills: the labels are `01` to `11`, and on `samplePage` the
grid is the markup of the eleven cards. -/
theorem skill_cards_witness :
    (∀ skill ∈ elevenSkills, skill.description.isSome = true) ∧
      ∃ cards, skillCards elevenSkills = .ok cards ∧
        cards.length = 11 ∧
        cards.map (fun card => card.number) =
          ["01", "02", "03", "04", "05", "06", "07", "08", "09", "10", "11"] ∧
        (populateSkills portfolioDocument samplePage).toOption.bind (fun dom => dom.skillsGrid) =
          some (join "" (cards.map SkillCard.html)) := by
  have hdesc : ∀ skill ∈ elevenSkills, skill.description.isSome = true := by decide
  obtain ⟨cards, hcards, hrun, _, hlen, _, _⟩ :=
    skill_cards portfolioDocument _ elevenSkills samplePage "" rfl rfl hdesc rfl
  refine ⟨hdesc, cards, hcards, hlen, ?_, ?_⟩
  · have hc : (skillCards elevenSkills).toOption.map (fun cs => cs.map (fun card => card.number)) =
        some ["01", "02", "03", "04", "05", "06", "07", "08", "09", "10", "11"] := by decide
    rw [hcards] at hc
    simpa [Except.toOption] using hc
  · rw [hrun]
    rfl

/-! ## The content loader: anchors and cards -/

/-- The method `startsWith('http')` holds of the strings that are `http` followed
by something. -/
theorem startsWithHttp_iff (s : String) :
    startsWithHttp s = true ↔ ∃ rest : String, s = "http" ++ rest := by
  unfold startsWithHttp
  rw [List.isPrefixOf_iff_prefix]
  constructor
  · rintro ⟨t, ht⟩
    exact ⟨String.mk t, String.ext (by rw [String.data_append, ← ht])⟩
  · rintro ⟨rest, hrest⟩
    exact ⟨rest.data, by rw [hrest, String.data_append]⟩

/-- The attribute interpolated into a contact or footer anchor. -/
theorem targetAttribute_iff (url : String) :
    (targetAttribute url = "target=\"_blank\"" ↔ startsWithHttp url = true) ∧
      (startsWithHttp url = false → targetAttribute url = "") := by
  unfold targetAttribute
  cases h : startsWithHttp url
  · simp
  · simp

/-- The results of `mapThrowing` when it returns: one per entry, each the result
of the callback on its entry. -/
theorem mapThrowing_ok {α β : Type} (f : α → Except String β) (l : List α)
    (bs : List β) (h : mapThrowing f l = .ok bs) :
    bs.length = l.length ∧ ∀ (j : Nat) (a : α), l[j]? = some a → ∃ b, bs[j]? = some b ∧ f a = .ok b := by
  induction l generalizing bs with
  | nil =>
    simp only [mapThrowing] at h
    cases h
    exact ⟨rfl, fun j a hj => by simp at hj⟩
  | cons x rest ih =>
    simp only [mapThrowing] at h
    cases hx : f x with
    | error e => rw [hx] at h; cases h
    | ok b =>
      rw [hx] at h
      dsimp only at h
      cases hrest : mapThrowing f rest with
      | error e => rw [hrest] at h; cases h
      | ok more =>
        rw [hrest] at h
        cases h
        obtain ⟨hlen, hget⟩ := ih more hrest
        refine ⟨by simp [hlen], fun j a hj => ?_⟩
        cases j with
        | zero =>
          simp only [List.getElem?_cons_zero, Option.some.injEq] at hj
          subst hj
          exact ⟨b, by simp, hx⟩
        | succ j =>
          simp only [List.getElem?_cons_succ] at hj
          obtain ⟨b1, hb1, hf⟩ := hget j a hj
          exact ⟨b1, by simpa using hb1, hf⟩

/-- The method `mapThrowing` returns when the callback returns on every entry. -/
theorem mapThrowing_isOk {α β : Type} (f : α → Except String β) (l : List α)
    (hf : ∀ a ∈ l, (f a).isOk = true) : (mapThrowing f l).isOk = true := by
  induction l with
  | nil => rfl
  | cons x rest ih =>
    simp only [mapThrowing]
    obtain ⟨b, hb⟩ := isOk_iff (hf x (by simp))
    obtain ⟨bs, hbs⟩ := isOk_iff (ih (fun a ha => hf a (by simp [ha])))
    rw [hb]
    dsimp only
    rw [hbs]
    rfl

/-- The callback `contactCard` on a method with a link. -/
theorem contactCard_ok (method : ContactMethod) (link : String) (h : method.link = some link) :
    contactCard method = .ok
      { href := link, target := targetAttribute link, number := jsToString method.number,
        title := jsToString method.title, value := jsToString method.value } := by
  unfold contactCard
  rw [h]

/-- The callback `footerAnchor` on a link with a url. -/
theorem footerAnchor_ok (link : Link) (url : String) (h : link.url = some url) :
    footerAnchor link = .ok
      { href := url, target := targetAttribute url, text := jsToString link.text } := by
  unfold footerAnchor
  rw [h]

/-- What `setContactMethods` does on a page with a methods container, for
methods that all have a link. -/
theorem setContactMethods_ok (contentData : ContentDocument) (contact : Contact)
    (methods : List ContactMethod) (dom : Dom) (old : String)
    (hc : contentData.contact = some contact) (hm : contact.methods = some methods)
    (hlinks : ∀ method ∈ methods, method.link.isSome = true)
    (hdom : dom.contactMethods = some old) :
    ∃ cards, mapThrowing contactCard methods = .ok cards ∧
      setContactMethods contentData dom =
        .ok { dom with contactMethods := some (join "" (cards.map ContactCard.html)) } := by
  have hok : (mapThrowing contactCard methods).isOk = true := by
    refine mapThrowing_isOk _ _ (fun method hmem => ?_)
    have := hlinks method hmem
    cases hl : method.link with
    | none => rw [hl] at this; cases this
    | some l => rw [contactCard_ok method l hl]; rfl
  obtain ⟨cards, hcards⟩ := isOk_iff hok
  refine ⟨cards, hcards, ?_⟩
  unfold setContactMethods
  rw [hdom]
  dsimp only
  rw [hc]
  dsimp only
  rw [hm]
  dsimp only
  rw [hcards]

/-- What `setSocialLinks` does on a page with a links container, for links that
all have a url. -/
theorem setSocialLinks_ok (contentData : ContentDocument) (footer : Footer)
    (links : List Link) (dom : Dom) (old : String)
    (hc : contentData.footer = some footer) (hm : footer.links = some links)
    (hlinks : ∀ link ∈ links, link.url.isSome = true)
    (hdom : dom.socialLinks = some old) :
    ∃ anchors, mapThrowing footerAnchor links = .ok anchors ∧
      setSocialLinks contentData dom =
        .ok { dom with socialLinks := some (join "" (anchors.map FooterAnchor.html)) } := by
  have hok : (mapThrowing footerAnchor links).isOk = true := by
    refine mapThrowing_isOk _ _ (fun link hmem => ?_)
    have := hlinks link hmem
    cases hl : link.url with
    | none => rw [hl] at this; cases this
    | some l => rw [footerAnchor_ok link l hl]; rfl
  obtain ⟨anchors, hanchors⟩ := isOk_iff hok
  refine ⟨anchors, hanchors, ?_⟩
  unfold setSocialLinks
  rw [hdom]
  dsimp only
  rw [hc]
  dsimp only
  rw [hm]
  dsimp only
  rw [hanchors]

/-! ## Link targets -/

/-- C15: the anchor of a contact method (`contactCard`) and of a footer link
(`footerAnchor`) carries `target="_blank"` if and only if its link target begins
with `http` (`startsWithHttp`, that is, the target is `http` followed by
something), and carries no attribute in its place otherwise; the markup of the
anchor opens with the `href` and that attribute.  On a page with the container,
`setContactMethods` and `setSocialLinks` (the blocks of `populateContact` and
`populateFooter`) return for entries that all have a link target and write one
such anchor per entry, in order. -/
theorem anchor_target :
    (∀ (method : ContactMethod) (link : String), method.link = some link →
      ∃ card, contactCard method = .ok card ∧ card.href = link ∧
        (card.target = "target=\"_blank\"" ↔ startsWithHttp link = true) ∧
        (startsWithHttp link = false → card.target = "") ∧
        ∃ rest, card.html =
          "\n            <a href=\"" ++ (link ++ ("\" class=\"contact-card\" " ++
            (card.target ++ rest)))) ∧
      (∀ (link : Link) (url : String), link.url = some url →
        ∃ anchor, footerAnchor link = .ok anchor ∧ anchor.href = url ∧
          (anchor.target = "target=\"_blank\"" ↔ startsWithHttp url = true) ∧
          (startsWithHttp url = false → anchor.target = "") ∧
          anchor.html =
            "\n            <a href=\"" ++ (url ++ ("\" " ++ (anchor.target ++ (">" ++
              (jsToString link.text ++ "</a>\n        ")))))) ∧
      (∀ s : String, startsWithHttp s = true ↔ ∃ rest : String, s = "http" ++ rest) ∧
      (∀ (contentData : ContentDocument) (contact : Contact) (methods : List ContactMethod)
          (dom : Dom) (old : String),
        contentData.contact = some contact → contact.methods = some methods →
        (∀ method ∈ methods, method.link.isSome = true) → dom.contactMethods = some old →
        ∃ cards, mapThrowing contactCard methods = .ok cards ∧
          setContactMethods contentData dom =
            .ok { dom with contactMethods := some (join "" (cards.map ContactCard.html)) } ∧
          cards.length = methods.length ∧
          ∀ (i : Nat) (method : ContactMethod), methods[i]? = some method →
            ∃ card, cards[i]? = some card ∧ contactCard method = .ok card) ∧
      (∀ (contentData : ContentDocument) (footer : Footer) (links : List Link)
          (dom : Dom) (old : String),
        contentData.footer = some footer → footer.links = some links →
        (∀ link ∈ links, link.url.isSome = true) → dom.socialLinks = some old →
        ∃ anchors, mapThrowing footerAnchor links = .ok anchors ∧
          setSocialLinks contentData dom =
            .ok { dom with socialLinks := some (join "" (anchors.map FooterAnchor.html)) } ∧
          anchors.length = links.length ∧
          ∀ (i : Nat) (link : Link), links[i]? = some link →
            ∃ anchor, anchors[i]? = some anchor ∧ footerAnchor link = .ok anchor) := by
  refine ⟨?_, ?_, startsWithHttp_iff, ?_, ?_⟩
  · intro method link hlink
    refine ⟨_, contactCard_ok method link hlink, rfl, (targetAttribute_iff link).1,
      (targetAttribute_iff link).2, ?_⟩
    refine ⟨">\n                <div class=\"contact-number\">" ++ (jsToString method.number ++
      ("</div>\n                <h3>" ++ (jsToString method.title ++
      ("</h3>\n                <p>" ++ (jsToString method.value ++
      "</p>\n                <span class=\"contact-arrow\">→</span>\n            </a>\n        "))))),
      ?_⟩
    simp only [ContactCard.html, String.append_assoc]
  · intro link url hurl
    refine ⟨_, footerAnchor_ok link url hurl, rfl, (targetAttribute_iff url).1,
      (targetAttribute_iff url).2, ?_⟩
    simp only [FooterAnchor.html, String.append_assoc]
  · intro contentData contact methods dom old hc hm hlinks hdom
    obtain ⟨cards, hcards, hrun⟩ :=
      setContactMethods_ok contentData contact methods dom old hc hm hlinks hdom
    obtain ⟨hlen, hget⟩ := mapThrowing_ok _ _ _ hcards
    exact ⟨cards, hcards, hrun, hlen, hget⟩
  · intro contentData footer links dom old hc hm hlinks hdom
    obtain ⟨anchors, hanchors, hrun⟩ :=
      setSocialLinks_ok contentData footer links dom old hc hm hlinks hdom
    obtain ⟨hlen, hget⟩ := mapThrowing_ok _ _ _ hanchors
    exact ⟨anchors, hanchors, hrun, hlen, hget⟩

/-- C15 on two contact methods and two footer links: the `https` targets get
the attribute, the `mailto:` and `#top` targets do not. -/
theorem anchor_target_witness :
    (∃ card, contactCard githubMethod = .ok card ∧ card.target = "target=\"_blank\"") ∧
      (∃ card, contactCard emailMethod = .ok card ∧ card.target = "") ∧
      (∃ anchor, footerAnchor githubLink = .ok anchor ∧ anchor.target = "target=\"_blank\"") ∧
      (∃ anchor, footerAnchor topLink = .ok anchor ∧ anchor.target = "") := by
  obtain ⟨c1, h1, _, i1, _, _⟩ := anchor_target.1 githubMethod "https://github.com/ada" rfl
  obtain ⟨c2, h2, _, _, n2, _⟩ := anchor_target.1 emailMethod "mailto:ada@example.org" rfl
  obtain ⟨a1, g1, _, j1, _, _⟩ := anchor_target.2.1 githubLink "https://github.com/ada" rfl
  obtain ⟨a2, g2, _, _, m2, _⟩ := anchor_target.2.1 topLink "#top" rfl
  exact ⟨⟨c1, h1, i1.2 (by decide)⟩, ⟨c2, h2, n2 (by decide)⟩, ⟨a1, g1, j1.2 (by decide)⟩,
    ⟨a2, g2, m2 (by decide)⟩⟩

/-- The external link block is never the empty string. -/
theorem projectLinkBlock_ne (url : String) (text : Option String) :
    projectLinkBlock url text ≠ "" := by
  intro h
  have hlen := congrArg String.length h
  unfold projectLinkBlock at hlen
  simp only [String.length_append] at hlen
  have : ("\n                                        <div class=\"project-link\">\n                                            <a href=\"").length = 121 := by decide
  rw [this] at hlen
  simp at hlen

/-- The value of the link slot of a project card. -/
theorem projectLink_cases (project : Project) :
    (projectLink project ≠ "" ↔
        ∃ link url, project.link = some link ∧ link.url = some url ∧ url ≠ "") ∧
      (∀ link url, project.link = some link → link.url = some url → url ≠ "" →
        projectLink project = projectLinkBlock url link.text) := by
  unfold projectLink
  cases hl : project.link with
  | none => simp
  | some link =>
    cases hu : link.url with
    | none =>
      simp only [hu]
      refine ⟨by simp [hu], fun l u hlu huu _ => ?_⟩
      cases hlu
      rw [hu] at huu
      cases huu
    | some url =>
      by_cases hne : url = ""
      · simp only [hu, hne]
        refine ⟨by simp [hu, hne], fun l u hlu huu hun => ?_⟩
        cases hlu
        rw [hu] at huu
        cases huu
        exact absurd hne hun
      · simp only [hu]
        refine ⟨by simp [hu, hne, projectLinkBlock_ne], fun l u hlu huu _ => ?_⟩
        cases hlu
        rw [hu] at huu
        cases huu
        simp [hne]

/-- The value of the label slot of a project card. -/
theorem featuredLabel_cases (project : Project) :
    (featuredLabel project = "<span class=\"project-label\">Featured Project</span>" ↔
        project.featured = true) ∧
      (project.featured = false → featuredLabel project = "") := by
  unfold featuredLabel
  cases project.featured <;> simp

/-- What `setProjectsList` does on a page with a projects list. -/
theorem setProjectsList_ok (contentData : ContentDocument) (projects : Projects)
    (items : List Project) (dom : Dom) (old : String)
    (hp : contentData.projects = some projects) (hi : projects.items = some items)
    (hdom : dom.projectsList = some old) :
    setProjectsList contentData dom =
      .ok { dom with projectsList := some (join "" (items.map projectCardHtml)) } := by
  unfold setProjectsList
  rw [hdom]
  dsimp only
  rw [hp]
  dsimp only
  rw [hi]

/-- The steps of a run of `populateProjects` that returns. -/
theorem populateProjects_steps (contentData : ContentDocument) (dom d : Dom)
    (h : populateProjects contentData dom = .ok d) :
    ∃ a3, setProjectsList contentData a3 = .ok d ∧ a3.projectsList = dom.projectsList := by
  unfold populateProjects at h
  obtain ⟨a1, h1, h⟩ := bind_ok h
  obtain ⟨a2, h2, h⟩ := bind_ok h
  obtain ⟨a3, h3, h⟩ := bind_ok h
  have e1 := setText_keeps (fun d => d.projectsList) h1 (fun _ => rfl)
  have e2 := setText_keeps (fun d => d.projectsList) h2 (fun _ => rfl)
  have e3 := setText_keeps (fun d => d.projectsList) h3 (fun _ => rfl)
  simp only at e1 e2 e3
  exact ⟨a3, h, by rw [e3, e2, e1]⟩

/-- The function `populateProjects` returns when the document has a `projects`
object. -/
theorem populateProjects_isOk (contentData : ContentDocument) (projects : Projects) (dom : Dom)
    (hp : contentData.projects = some projects) :
    (populateProjects contentData dom).isOk = true := by
  unfold populateProjects
  rw [hp]
  refine isOk_bind (setText_isOk _ _ _ _ _ _) (fun a1 => ?_)
  refine isOk_bind (setText_isOk _ _ _ _ _ _) (fun a2 => ?_)
  refine isOk_bind (setText_isOk _ _ _ _ _ _) (fun a3 => ?_)
  unfold setProjectsList
  rw [hp]
  cases a3.projectsList with
  | none => rfl
  | some _ =>
    dsimp only
    cases projects.items <;> rfl

/-- C16 fails on the code: the link of `tablesProject` is `/tables.html`, which
does not begin with `http`, and its anchor carries `target="_blank"`. -/
theorem project_link_target_counterexample :
    startsWithHttp "/tables.html" = false ∧
      projectLink tablesProject =
        "\n                                        <div class=\"project-link\">\n                                            <a href=\"/tables.html\" target=\"_blank\" class=\"link-with-arrow\">\n                                                Read\n                                            </a>\n                                        </div>\n                                    " := by
  decide!

/-- C16 (amended): for every project item with a link whose url is present and
non-empty, the link block of its card is the fixed template around the url and
the link text, whose anchor carries `target="_blank"` whatever the url is. -/
theorem project_link_target (project : Project) (link : Link) (url : String)
    (hl : project.link = some link) (hu : link.url = some url) (hne : url ≠ "") :
    projectLink project =
      "\n                                        <div class=\"project-link\">\n                                            <a href=\"" ++ (url ++ ("\" target=\"_blank\" class=\"link-with-arrow\">\n                                                " ++ (jsToString link.text ++ "\n                                            </a>\n                                        </div>\n                                    "))) := by
  rw [(projectLink_cases project).2 link url hl hu hne]
  simp only [projectLinkBlock, String.append_assoc]

/-- C16 (amended) on `tablesProject`, whose url does not begin with `http`. -/
theorem project_link_target_witness :
    startsWithHttp "/tables.html" = false ∧
      projectLink tablesProject =
        "\n                                        <div class=\"project-link\">\n                                            <a href=\"" ++ ("/tables.html" ++ ("\" target=\"_blank\" class=\"link-with-arrow\">\n                                                " ++ (jsToString (some "Read") ++ "\n                                            </a>\n                                        </div>\n                                    "))) :=
  ⟨by decide,
    project_link_target tablesProject { url := some "/tables.html", text := some "Read" }
      "/tables.html" rfl rfl (by decide)⟩

/-! ## Project cards -/

/-- C17: on a page with a projects list, `populateProjects` returns for every
document with `projects.items`, and the list becomes the markup of one card per
item, in document order.  The link slot of a card is non-empty if and only if
the item has a link with a present, non-empty url, and then it is the external
link block; the label slot is the `Featured Project` label if and only if
`featured` is true, and empty otherwise; the markup of a card is fixed text
around these two slots. -/
theorem project_cards :
    (∀ (contentData : ContentDocument) (projects : Projects) (items : List Project)
        (dom : Dom) (old : String),
      contentData.projects = some projects → projects.items = some items →
      dom.projectsList = some old →
      (∃ d1, populateProjects contentData dom = .ok d1) ∧
        ∀ d1, populateProjects contentData dom = .ok d1 →
          d1.projectsList = some (join "" (items.map projectCardHtml))) ∧
      (∀ project : Project,
        (projectLink project ≠ "" ↔
          ∃ link url, project.link = some link ∧ link.url = some url ∧ url ≠ "") ∧
        (∀ link url, project.link = some link → link.url = some url → url ≠ "" →
          projectLink project = projectLinkBlock url link.text)) ∧
      (∀ project : Project,
        (featuredLabel project = "<span class=\"project-label\">Featured Project</span>" ↔
          project.featured = true) ∧
        (project.featured = false → featuredLabel project = "")) ∧
      (∀ project : Project, ∃ head middle tail,
        projectCardHtml project =
          head ++ (featuredLabel project ++ (middle ++ (projectLink project ++ tail))) ∧
        tail = "\n                                </div>            </article>\n        ") := by
  refine ⟨?_, projectLink_cases, featuredLabel_cases, ?_⟩
  · intro contentData projects items dom old hp hi hdom
    refine ⟨isOk_iff (populateProjects_isOk contentData projects dom hp), fun d1 hd1 => ?_⟩
    obtain ⟨a3, hset, hlist⟩ := populateProjects_steps contentData dom d1 hd1
    rw [setProjectsList_ok contentData projects items a3 old hp hi (by rw [hlist, hdom])] at hset
    cases hset
    rfl
  · intro project
    refine ⟨"\n            <article class=\"project-card " ++ (featuredClass project ++
        "\">\n                <div class=\"project-header\">\n                    "),
      "\n                    <h3 class=\"project-title\">" ++ (jsToString project.title ++
        ("</h3>\n                    <p class=\"project-subtitle\">" ++
          (jsToString project.subtitle ++
            ("</p>\n                </div>\n                \n                                    <div class=\"project-content\">\n                                    <p class=\"project-description\">\n                                        " ++
              (jsToString project.description ++
                "\n                                    </p>\n                                    \n                                    "))))),
      _, ?_, rfl⟩
    simp only [projectCardHtml, String.append_assoc]

/-- C17 on the three projects of `portfolioDocument`. -/
theorem project_cards_witness :
    (∃ d1, populateProjects portfolioDocument samplePage = .ok d1 ∧
        d1.projectsList =
          some (join "" [projectCardHtml engineProject, projectCardHtml tablesProject,
            projectCardHtml sketchProject])) ∧
      projectLink engineProject ≠ "" ∧ projectLink sketchProject = "" ∧
      featuredLabel engineProject = "<span class=\"project-label\">Featured Project</span>" ∧
      featuredLabel tablesProject = "" := by
  obtain ⟨⟨d1, hd1⟩, hlist⟩ := project_cards.1 portfolioDocument _
    [engineProject, tablesProject, sketchProject] samplePage "" rfl rfl rfl
  refine ⟨⟨d1, hd1, hlist d1 hd1⟩, ?_, ?_, ?_, ?_⟩
  · exact (project_cards.2.1 engineProject).1.2 ⟨_, _, rfl, rfl, by decide⟩
  · decide
  · exact (project_cards.2.2.1 engineProject).1.2 rfl
  · exact (project_cards.2.2.1 tablesProject).2 rfl

/-! ## The content loader: the `.about-text` region -/

/-- The call `insertAfterIntro` on a non-empty list of children. -/
theorem insertAfterIntro_cons (p b : Block) (rest : List Block) :
    insertAfterIntro p (b :: rest) =
      if b.isIntro = true then some (b :: p :: rest)
      else (insertAfterIntro p rest).map (fun done => b :: done) := by
  rw [insertAfterIntro]
  split
  · rfl
  · cases insertAfterIntro p rest <;> rfl

/-- The call `insertBeforePullquote` on a non-empty list of children. -/
theorem insertBeforePullquote_cons (p b : Block) (rest : List Block) :
    insertBeforePullquote p (b :: rest) =
      if b.isPullquote = true then some (p :: b :: rest)
      else (insertBeforePullquote p rest).map (fun done => b :: done) := by
  rw [insertBeforePullquote]
  split
  · rfl
  · cases insertBeforePullquote p rest <;> rfl

/-- Assigning the intro text twice is assigning it once. -/
theorem setIntroText_idem (i : String) (bs : List Block) :
    setIntroText i (setIntroText i bs) = setIntroText i bs := by
  induction bs with
  | nil => rfl
  | cons x rest ih => cases x <;> simp [setIntroText, ih]

/-- Assigning the quote text twice is assigning it once. -/
theorem setQuoteText_idem (q : String) (bs : List Block) :
    setQuoteText q (setQuoteText q bs) = setQuoteText q bs := by
  induction bs with
  | nil => rfl
  | cons x rest ih =>
    cases x with
    | pullquote ps => cases ps <;> simp [setQuoteText, ih]
    | _ => simp [setQuoteText, ih]

/-- Removing the paragraphs twice is removing them once. -/
theorem removeParagraphs_idem (bs : List Block) :
    removeParagraphs (removeParagraphs bs) = removeParagraphs bs := by
  induction bs with
  | nil => rfl
  | cons x rest ih => cases x <;> simp [removeParagraphs, ih]

/-- Removing the paragraphs and assigning the quote text commute. -/
theorem removeParagraphs_setQuoteText (q : String) (bs : List Block) :
    removeParagraphs (setQuoteText q bs) = setQuoteText q (removeParagraphs bs) := by
  induction bs with
  | nil => rfl
  | cons x rest ih =>
    cases x with
    | pullquote ps => cases ps <;> simp [setQuoteText, removeParagraphs, ih]
    | _ => simp [setQuoteText, removeParagraphs, ih]

/-- Removing the paragraphs and assigning the intro text commute. -/
theorem removeParagraphs_setIntroText (i : String) (bs : List Block) :
    removeParagraphs (setIntroText i bs) = setIntroText i (removeParagraphs bs) := by
  induction bs with
  | nil => rfl
  | cons x rest ih => cases x <;> simp [setIntroText, removeParagraphs, ih]

/-- Assigning the intro text and assigning the quote text commute. -/
theorem setIntroText_setQuoteText (i q : String) (bs : List Block) :
    setIntroText i (setQuoteText q bs) = setQuoteText q (setIntroText i bs) := by
  induction bs with
  | nil => rfl
  | cons x rest ih =>
    cases x with
    | pullquote ps => cases ps <;> simp [setQuoteText, setIntroText, ih]
    | _ => simp [setQuoteText, setIntroText, ih]

/-- A paragraph inserted after the intro is removed by the next removal. -/
theorem removeParagraphs_insertAfterIntro (t : String) (bs done : List Block)
    (h : insertAfterIntro (.paragraph t) bs = some done) :
    removeParagraphs done = removeParagraphs bs := by
  induction bs generalizing done with
  | nil => simp [insertAfterIntro] at h
  | cons x rest ih =>
    rw [insertAfterIntro_cons] at h
    split at h
    · cases h
      cases x <;> simp_all [removeParagraphs, Block.isIntro]
    · cases hr : insertAfterIntro (.paragraph t) rest with
      | none => rw [hr] at h; cases h
      | some r =>
        rw [hr] at h
        cases h
        cases x <;> simp [removeParagraphs, ih r hr]

/-- A paragraph inserted before the pullquote is removed by the next removal. -/
theorem removeParagraphs_insertBeforePullquote (t : String) (bs done : List Block)
    (h : insertBeforePullquote (.paragraph t) bs = some done) :
    removeParagraphs done = removeParagraphs bs := by
  induction bs generalizing done with
  | nil => simp [insertBeforePullquote] at h
  | cons x rest ih =>
    rw [insertBeforePullquote_cons] at h
    split at h
    · cases h
      cases x <;> simp_all [removeParagraphs, Block.isPullquote]
    · cases hr : insertBeforePullquote (.paragraph t) rest with
      | none => rw [hr] at h; cases h
      | some r =>
        rw [hr] at h
        cases h
        cases x <;> simp [removeParagraphs, ih r hr]

/-- The paragraphs that `insertParagraphs` inserted are all removed by the next
removal. -/
theorem removeParagraphs_insertParagraphs (pq : Bool) (count : Nat) (ps : List String)
    (k : Nat) (bs done : List Block)
    (h : insertParagraphs pq count ps k bs = .ok done) :
    removeParagraphs done = removeParagraphs bs := by
  induction ps generalizing k bs with
  | nil =>
    simp only [insertParagraphs] at h
    cases h
    rfl
  | cons t rest ih =>
    simp only [insertParagraphs] at h
    split at h
    · next r hr =>
      rw [ih _ _ h]
      split at hr
      · exact removeParagraphs_insertBeforePullquote t bs r hr
      · exact removeParagraphs_insertAfterIntro t bs r hr
    · cases h

/-- Inserting after the intro and assigning the quote text commute. -/
theorem insertAfterIntro_setQuoteText (q t : String) (bs : List Block) :
    insertAfterIntro (.paragraph t) (setQuoteText q bs) =
      (insertAfterIntro (.paragraph t) bs).map (setQuoteText q) := by
  induction bs with
  | nil => rfl
  | cons x rest ih =>
    cases x with
    | pullquote ps =>
      cases ps <;>
        simp [setQuoteText, insertAfterIntro_cons, Block.isIntro, ih, Option.map_map,
          Function.comp_def]
    | _ =>
      simp [setQuoteText, insertAfterIntro_cons, Block.isIntro, ih, Option.map_map,
        Function.comp_def]

/-- Inserting before the pullquote and assigning the quote text commute. -/
theorem insertBeforePullquote_setQuoteText (q t : String) (bs : List Block) :
    insertBeforePullquote (.paragraph t) (setQuoteText q bs) =
      (insertBeforePullquote (.paragraph t) bs).map (setQuoteText q) := by
  induction bs with
  | nil => rfl
  | cons x rest ih =>
    cases x with
    | pullquote ps =>
      cases ps <;>
        simp [setQuoteText, insertBeforePullquote_cons, Block.isPullquote, ih, Option.map_map,
          Function.comp_def]
    | _ =>
      simp [setQuoteText, insertBeforePullquote_cons, Block.isPullquote, ih, Option.map_map,
        Function.comp_def]

/-- Inserting after the intro and assigning the intro text commute. -/
theorem insertAfterIntro_setIntroText (i t : String) (bs : List Block) :
    insertAfterIntro (.paragraph t) (setIntroText i bs) =
      (insertAfterIntro (.paragraph t) bs).map (setIntroText i) := by
  induction bs with
  | nil => rfl
  | cons x rest ih =>
    cases x <;>
      simp [setIntroText, insertAfterIntro_cons, Block.isIntro, ih, Option.map_map,
        Function.comp_def]

/-- Inserting before the pullquote and assigning the intro text commute. -/
theorem insertBeforePullquote_setIntroText (i t : String) (bs : List Block) :
    insertBeforePullquote (.paragraph t) (setIntroText i bs) =
      (insertBeforePullquote (.paragraph t) bs).map (setIntroText i) := by
  induction bs with
  | nil => rfl
  | cons x rest ih =>
    cases x <;>
      simp [setIntroText, insertBeforePullquote_cons, Block.isPullquote, ih, Option.map_map,
        Function.comp_def]

/-- The loop `insertParagraphs` commutes with a change of the children that
commutes with both insertions. -/
theorem insertParagraphs_commute (g : List Block → List Block)
    (hafter : ∀ t bs, insertAfterIntro (.paragraph t) (g bs) =
      (insertAfterIntro (.paragraph t) bs).map g)
    (hbefore : ∀ t bs, insertBeforePullquote (.paragraph t) (g bs) =
      (insertBeforePullquote (.paragraph t) bs).map g)
    (pq : Bool) (count : Nat) (ps : List String) (k : Nat) (bs done : List Block)
    (h : insertParagraphs pq count ps k bs = .ok done) :
    insertParagraphs pq count ps k (g bs) = .ok (g done) := by
  induction ps generalizing k bs with
  | nil =>
    simp only [insertParagraphs] at h ⊢
    cases h
    rfl
  | cons t rest ih =>
    simp only [insertParagraphs] at h ⊢
    split at h
    · next r hr =>
      have hg : (if (pq && k == count - 1) = true then
          insertBeforePullquote (.paragraph t) (g bs)
          else insertAfterIntro (.paragraph t) (g bs)) = some (g r) := by
        split at hr
        · next hc => rw [if_pos hc, hbefore, hr]; rfl
        · next hc => rw [if_neg hc, hafter, hr]; rfl
      rw [hg]
      exact ih _ _ h
    · cases h

/-- Assigning the intro text changes no test that ignores the intro text. -/
theorem any_setIntroText (f : Block → Bool) (hf : ∀ a b, f (.intro a) = f (.intro b))
    (i : String) (bs : List Block) : (setIntroText i bs).any f = bs.any f := by
  induction bs with
  | nil => rfl
  | cons x rest ih =>
    cases x <;> simp [setIntroText, ih]
    next a => rw [hf i a]

/-- Removing the paragraphs keeps the intro. -/
theorem any_removeParagraphs_isIntro (bs : List Block) :
    (removeParagraphs bs).any Block.isIntro = bs.any Block.isIntro := by
  induction bs with
  | nil => rfl
  | cons x rest ih => cases x <;> simp [removeParagraphs, ih, Block.isIntro]

/-- Removing the paragraphs keeps the pullquote. -/
theorem any_removeParagraphs_isPullquote (bs : List Block) :
    (removeParagraphs bs).any Block.isPullquote = bs.any Block.isPullquote := by
  induction bs with
  | nil => rfl
  | cons x rest ih => cases x <;> simp [removeParagraphs, ih, Block.isPullquote]

/-- Assigning the quote text keeps the intro. -/
theorem any_setQuoteText_isIntro (q : String) (bs : List Block) :
    (setQuoteText q bs).any Block.isIntro = bs.any Block.isIntro := by
  induction bs with
  | nil => rfl
  | cons x rest ih =>
    cases x with
    | pullquote ps => cases ps <;> simp [setQuoteText, ih, Block.isIntro]
    | _ => simp [setQuoteText, ih, Block.isIntro]

/-- Assigning the quote text keeps the pullquote. -/
theorem any_setQuoteText_isPullquote (q : String) (bs : List Block) :
    (setQuoteText q bs).any Block.isPullquote = bs.any Block.isPullquote := by
  induction bs with
  | nil => rfl
  | cons x rest ih =>
    cases x with
    | pullquote ps => cases ps <;> simp [setQuoteText, ih, Block.isPullquote]
    | _ => simp [setQuoteText, ih, Block.isPullquote]

/-- Assigning the quote text keeps the quote paragraph. -/
theorem any_setQuoteText_hasQuote (q : String) (bs : List Block) :
    (setQuoteText q bs).any Block.hasQuote = bs.any Block.hasQuote := by
  induction bs with
  | nil => rfl
  | cons x rest ih =>
    cases x with
    | pullquote ps => cases ps <;> simp [setQuoteText, ih, Block.hasQuote]
    | _ => simp [setQuoteText, ih, Block.hasQuote]

/-- Inserting a paragraph changes neither whether there is an intro nor whether
there is a pullquote. -/
theorem any_insertAfterIntro (f : Block → Bool) (t : String) (hf : f (.paragraph t) = false)
    (bs done : List Block) (h : insertAfterIntro (.paragraph t) bs = some done) :
    done.any f = bs.any f := by
  induction bs generalizing done with
  | nil => simp [insertAfterIntro] at h
  | cons x rest ih =>
    rw [insertAfterIntro_cons] at h
    split at h
    · cases h
      simp [hf]
    · cases hr : insertAfterIntro (.paragraph t) rest with
      | none => rw [hr] at h; cases h
      | some r =>
        rw [hr] at h
        cases h
        simp [ih r hr]

/-- Inserting a paragraph before the pullquote changes no test that is false of
paragraphs. -/
theorem any_insertBeforePullquote (f : Block → Bool) (t : String)
    (hf : f (.paragraph t) = false)
    (bs done : List Block) (h : insertBeforePullquote (.paragraph t) bs = some done) :
    done.any f = bs.any f := by
  induction bs generalizing done with
  | nil => simp [insertBeforePullquote] at h
  | cons x rest ih =>
    rw [insertBeforePullquote_cons] at h
    split at h
    · cases h
      simp [hf]
    · cases hr : insertBeforePullquote (.paragraph t) rest with
      | none => rw [hr] at h; cases h
      | some r =>
        rw [hr] at h
        cases h
        simp [ih r hr]

/-- The loop `insertParagraphs` changes no test that is false of paragraphs. -/
theorem any_insertParagraphs (f : Block → Bool) (hf : ∀ t, f (.paragraph t) = false)
    (pq : Bool) (count : Nat) (ps : List String) (k : Nat) (bs done : List Block)
    (h : insertParagraphs pq count ps k bs = .ok done) :
    done.any f = bs.any f := by
  induction ps generalizing k bs with
  | nil =>
    simp only [insertParagraphs] at h
    cases h
    rfl
  | cons t rest ih =>
    simp only [insertParagraphs] at h
    split at h
    · next r hr =>
      rw [ih _ _ h]
      split at hr
      · exact any_insertBeforePullquote f t (hf t) bs r hr
      · exact any_insertAfterIntro f t (hf t) bs r hr
    · cases h

/-- The children of the `.about-text` region after the intro, paragraphs and
quote steps are a fixed point of each of the three steps. -/
theorem region_fixed (i q : String) (paragraphs : Option (List String))
    (B B3 B4 B5 : List Block)
    (h3 : B3 = if B.any Block.isIntro = true then setIntroText i B else B)
    (h4 : match paragraphs with
      | none => B4 = B3
      | some ps =>
        insertParagraphs (B3.any Block.isPullquote) ps.length ps 0 (removeParagraphs B3) =
          .ok B4)
    (h5 : B5 = if B4.any Block.hasQuote = true then setQuoteText q B4 else B4) :
    (B5.any Block.isIntro = true → setIntroText i B5 = B5) ∧
      (∀ ps, paragraphs = some ps →
        insertParagraphs (B5.any Block.isPullquote) ps.length ps 0 (removeParagraphs B5) =
          .ok B5) ∧
      (B5.any Block.hasQuote = true → setQuoteText q B5 = B5) := by
  have hintro3 : B3.any Block.isIntro = B.any Block.isIntro := by
    rw [h3]
    split
    · exact any_setIntroText Block.isIntro (fun _ _ => rfl) i B
    · rfl
  have hintro4 : B4.any Block.isIntro = B3.any Block.isIntro := by
    cases paragraphs with
    | none => rw [h4]
    | some ps =>
      rw [any_insertParagraphs Block.isIntro (fun _ => rfl) _ _ _ _ _ _ h4,
        any_removeParagraphs_isIntro]
  have hintro5 : B5.any Block.isIntro = B4.any Block.isIntro := by
    rw [h5]
    split
    · exact any_setQuoteText_isIntro q B4
    · rfl
  have hpq4 : ∀ ps, paragraphs = some ps →
      B4.any Block.isPullquote = B3.any Block.isPullquote := by
    intro ps hps
    subst hps
    rw [any_insertParagraphs Block.isPullquote (fun _ => rfl) _ _ _ _ _ _ h4,
      any_removeParagraphs_isPullquote]
  have hpq5 : B5.any Block.isPullquote = B4.any Block.isPullquote := by
    rw [h5]
    split
    · exact any_setQuoteText_isPullquote q B4
    · rfl
  refine ⟨fun hi => ?_, fun ps hps => ?_, fun hq => ?_⟩
  · rw [hintro5, hintro4, hintro3] at hi
    have hfix3 : setIntroText i B3 = B3 := by
      rw [h3, if_pos hi, setIntroText_idem]
    have hfix4 : setIntroText i B4 = B4 := by
      cases paragraphs with
      | none => rw [h4]; exact hfix3
      | some ps =>
        have hc := insertParagraphs_commute (setIntroText i)
          (insertAfterIntro_setIntroText i) (insertBeforePullquote_setIntroText i) _ _ _ _ _ _ h4
        rw [← removeParagraphs_setIntroText, hfix3, h4] at hc
        injection hc with hc
        exact hc.symm
    rw [h5]
    split
    · rw [setIntroText_setQuoteText, hfix4]
    · exact hfix4
  · subst hps
    have hrem : removeParagraphs B4 = removeParagraphs B3 := by
      rw [removeParagraphs_insertParagraphs _ _ _ _ _ _ h4, removeParagraphs_idem]
    rw [hpq5, hpq4 ps rfl, h5]
    split
    · rw [removeParagraphs_setQuoteText, hrem]
      exact insertParagraphs_commute (setQuoteText q)
        (insertAfterIntro_setQuoteText q) (insertBeforePullquote_setQuoteText q) _ _ _ _ _ _ h4
    · rw [hrem]
      exact h4
  · rw [h5] at hq ⊢
    split
    · exact setQuoteText_idem q B4
    · next hno =>
      rw [if_neg hno] at hq
      exact absurd hq hno

/-- A `do` step after a computation that returned. -/
theorem ok_bind {ε α β : Type} (a : α) (f : α → Except ε β) : (Except.ok a >>= f) = f a := rfl

/-- Writing to a region the value it holds leaves the page as it is. -/
theorem Dom.aboutText_eta (d : Dom) (v : Option (List Block)) (h : d.aboutText = v) :
    { d with aboutText := v } = d := by
  cases d
  cases h
  rfl

/-- Writing to the skills grid the value it holds leaves the page as it is. -/
theorem Dom.skillsGrid_eta (d : Dom) (v : Option String) (h : d.skillsGrid = v) :
    { d with skillsGrid := v } = d := by
  cases d
  cases h
  rfl

/-- Writing to the eyebrow the value it holds leaves the page as it is. -/
theorem Dom.aboutEyebrow_eta (d : Dom) (v : Option String) (h : d.aboutEyebrow = v) :
    { d with aboutEyebrow := v } = d := by
  cases d
  cases h
  rfl

/-- Writing to the title the value it holds leaves the page as it is. -/
theorem Dom.aboutTitle_eta (d : Dom) (v : Option String) (h : d.aboutTitle = v) :
    { d with aboutTitle := v } = d := by
  cases d
  cases h
  rfl

/-- The step `populateSkills` changes nothing but the skills grid. -/
theorem populateSkills_frame {β : Type} (g : Dom → β)
    (hg : ∀ (d : Dom) v, g { d with skillsGrid := v } = g d)
    (contentData : ContentDocument) (dom d1 : Dom)
    (h : populateSkills contentData dom = .ok d1) : g d1 = g dom := by
  unfold populateSkills at h
  repeat' split at h
  all_goals (cases h <;> first | rfl | exact hg _ _)

/-- A `setText` step that has run once changes nothing when it runs again on a
page whose element holds what the first run wrote. -/
theorem setText_again {α : Type} (get : Dom → Option String) (set : Dom → String → Dom)
    (hset : ∀ d t, get d = some t → set d t = d) (hget : ∀ d t, get (set d t) = some t)
    (obj : Option α) (what : String) (field : α → Option String) (dom a1 d : Dom)
    (h : setText (get dom) obj what field dom (set dom) = .ok a1) (hd : get d = get a1) :
    setText (get d) obj what field d (set d) = .ok d := by
  unfold setText at h ⊢
  cases hg : get dom with
  | none =>
    rw [hg] at h
    cases h
    rw [hd, hg]
  | some old =>
    rw [hg] at h
    cases obj with
    | none => cases h
    | some o =>
      dsimp only at h
      cases h
      rw [hget] at hd
      rw [hd]
      dsimp only
      rw [hset d _ hd]

/-- The step `populateSkills` changes nothing when it runs again on its result. -/
theorem populateSkills_again (contentData : ContentDocument) (dom d1 : Dom)
    (h : populateSkills contentData dom = .ok d1) : populateSkills contentData d1 = .ok d1 := by
  unfold populateSkills at h
  cases hg : dom.skillsGrid with
  | none =>
    rw [hg] at h
    cases h
    simp only [populateSkills, hg]
  | some old =>
    rw [hg] at h
    dsimp only at h
    cases ha : contentData.about with
    | none => rw [ha] at h; cases h
    | some about =>
      rw [ha] at h
      dsimp only at h
      cases hs : about.skills with
      | none =>
        rw [hs] at h
        cases h
        simp only [populateSkills, hg, ha, hs]
      | some skills =>
        rw [hs] at h
        dsimp only at h
        cases hc : skillCards skills with
        | error e => rw [hc] at h; cases h
        | ok cards =>
          rw [hc] at h
          cases h
          simp only [populateSkills, ha, hs, hc]

/-- The step `setIntro` on a page with the region, for a document with `about`. -/
theorem setIntro_some (contentData : ContentDocument) (about : About) (d : Dom)
    (B : List Block) (ha : contentData.about = some about) (hB : d.aboutText = some B) :
    setIntro contentData d =
      .ok { d with
        aboutText := some (if B.any Block.isIntro = true then
          setIntroText (textOf about.intro) B else B) } := by
  simp only [setIntro, hB, ha]
  split
  · rfl
  · exact congrArg Except.ok (Dom.aboutText_eta d _ hB).symm

/-- The step `setQuote` on a page with the region, for a document with `about`. -/
theorem setQuote_some (contentData : ContentDocument) (about : About) (d : Dom)
    (B : List Block) (ha : contentData.about = some about) (hB : d.aboutText = some B) :
    setQuote contentData d =
      .ok { d with
        aboutText := some (if B.any Block.hasQuote = true then
          setQuoteText (textOf about.quote) B else B) } := by
  simp only [setQuote, hB, ha]
  split
  · rfl
  · exact congrArg Except.ok (Dom.aboutText_eta d _ hB).symm

/-- The step `populateParagraphs` on a page with the region, for a document
without `about.paragraphs`. -/
theorem populateParagraphs_none (contentData : ContentDocument) (about : About) (d : Dom)
    (B : List Block) (ha : contentData.about = some about) (hB : d.aboutText = some B)
    (hp : about.paragraphs = none) :
    populateParagraphs contentData d = .ok d := by
  simp only [populateParagraphs, hB, ha, hp]

/-- The step `populateParagraphs` on a page with the region, for a document with
`about.paragraphs`, when every insertion finds its anchor. -/
theorem populateParagraphs_some (contentData : ContentDocument) (about : About) (d : Dom)
    (B done : List Block) (ps : List String)
    (ha : contentData.about = some about) (hB : d.aboutText = some B)
    (hp : about.paragraphs = some ps)
    (hins : insertParagraphs (B.any Block.isPullquote) ps.length ps 0 (removeParagraphs B) =
      .ok done) :
    populateParagraphs contentData d = .ok { d with aboutText := some done } := by
  simp only [populateParagraphs, hB, ha, hp, hins]

/-- What a run of `populateParagraphs` that returns has done, on a page with the
region. -/
theorem populateParagraphs_inv (contentData : ContentDocument) (d d1 : Dom) (B : List Block)
    (hB : d.aboutText = some B) (h : populateParagraphs contentData d = .ok d1) :
    ∃ about, contentData.about = some about ∧
      ((about.paragraphs = none ∧ d1 = d) ∨
        ∃ ps done, about.paragraphs = some ps ∧
          insertParagraphs (B.any Block.isPullquote) ps.length ps 0 (removeParagraphs B) =
            .ok done ∧
          d1 = { d with aboutText := some done }) := by
  cases ha : contentData.about with
  | none => simp [populateParagraphs, hB, ha] at h
  | some about =>
    refine ⟨about, rfl, ?_⟩
    cases hp : about.paragraphs with
    | none =>
      rw [populateParagraphs_none contentData about d B ha hB hp] at h
      cases h
      exact Or.inl ⟨rfl, rfl⟩
    | some ps =>
      cases hins : insertParagraphs (B.any Block.isPullquote) ps.length ps 0
          (removeParagraphs B) with
      | error reached => simp [populateParagraphs, hB, ha, hp, hins] at h
      | ok done =>
        rw [populateParagraphs_some contentData about d B done ps ha hB hp hins] at h
        cases h
        exact Or.inr ⟨ps, done, rfl, hins, rfl⟩

/-- The three steps of `populateAbout` on the `.about-text` region change
nothing on a page whose region is a fixed point of each of them. -/
theorem region_again_of_fixed (contentData : ContentDocument) (about : About) (d1 : Dom)
    (B5 : List Block) (ha : contentData.about = some about) (hd : d1.aboutText = some B5)
    (f1 : B5.any Block.isIntro = true → setIntroText (textOf about.intro) B5 = B5)
    (f2 : ∀ ps, about.paragraphs = some ps →
      insertParagraphs (B5.any Block.isPullquote) ps.length ps 0 (removeParagraphs B5) = .ok B5)
    (f3 : B5.any Block.hasQuote = true → setQuoteText (textOf about.quote) B5 = B5) :
    setIntro contentData d1 = .ok d1 ∧ populateParagraphs contentData d1 = .ok d1 ∧
      setQuote contentData d1 = .ok d1 := by
  refine ⟨?_, ?_, ?_⟩
  · rw [setIntro_some contentData about d1 _ ha hd]
    refine congrArg Except.ok (Dom.aboutText_eta d1 _ ?_)
    rw [hd]
    by_cases hi : B5.any Block.isIntro = true
    · rw [if_pos hi, f1 hi]
    · rw [if_neg hi]
  · cases hp : about.paragraphs with
    | none => exact populateParagraphs_none contentData about d1 _ ha hd hp
    | some ps =>
      rw [populateParagraphs_some contentData about d1 _ _ ps ha hd hp (f2 ps hp)]
      exact congrArg Except.ok (Dom.aboutText_eta d1 _ hd)
  · rw [setQuote_some contentData about d1 _ ha hd]
    refine congrArg Except.ok (Dom.aboutText_eta d1 _ ?_)
    rw [hd]
    by_cases hi : B5.any Block.hasQuote = true
    · rw [if_pos hi, f3 hi]
    · rw [if_neg hi]

/-- The three steps of `populateAbout` on the `.about-text` region change
nothing when they run again on a page whose region is as they left it. -/
theorem region_steps_again (contentData : ContentDocument) (a2 a3 a4 a5 d1 : Dom)
    (h3 : setIntro contentData a2 = .ok a3)
    (h4 : populateParagraphs contentData a3 = .ok a4)
    (h5 : setQuote contentData a4 = .ok a5)
    (hd : d1.aboutText = a5.aboutText) :
    setIntro contentData d1 = .ok d1 ∧ populateParagraphs contentData d1 = .ok d1 ∧
      setQuote contentData d1 = .ok d1 := by
  cases hB : a2.aboutText with
  | none =>
    have e3 : a3 = a2 := by
      simp only [setIntro, hB] at h3
      cases h3
      rfl
    subst e3
    have e4 : a4 = a3 := by
      simp only [populateParagraphs, hB] at h4
      cases h4
      rfl
    subst e4
    have e5 : a5 = a4 := by
      simp only [setQuote, hB] at h5
      cases h5
      rfl
    subst e5
    rw [hB] at hd
    exact ⟨by simp only [setIntro, hd], by simp only [populateParagraphs, hd],
      by simp only [setQuote, hd]⟩
  | some B =>
    have hB3 : ∃ B3, a3.aboutText = some B3 := by
      unfold setIntro at h3
      rw [hB] at h3
      dsimp only at h3
      repeat' split at h3
      all_goals (cases h3 <;> first | exact ⟨_, rfl⟩ | exact ⟨_, hB⟩)
    obtain ⟨B3, hB3⟩ := hB3
    obtain ⟨about, ha, hpar⟩ := populateParagraphs_inv contentData a3 a4 B3 hB3 h4
    rw [setIntro_some contentData about a2 B ha hB] at h3
    have e3 : B3 = if B.any Block.isIntro = true then setIntroText (textOf about.intro) B
        else B := by
      cases h3
      simp only at hB3
      cases hB3
      rfl
    have hfix := region_fixed (textOf about.intro) (textOf about.quote) about.paragraphs B B3
    rcases hpar with ⟨hp, e4⟩ | ⟨ps, done, hp, hins, e4⟩
    · subst e4
      rw [setQuote_some contentData about _ _ ha hB3] at h5
      have hd5 : a5.aboutText = some (if B3.any Block.hasQuote = true then
          setQuoteText (textOf about.quote) B3 else B3) := by
        cases h5
        rfl
      rw [hd5] at hd
      obtain ⟨f1, f2, f3⟩ := hfix B3 _ e3 (by rw [hp]) rfl
      exact region_again_of_fixed contentData about d1 _ ha hd f1 f2 f3
    · have hB4 : a4.aboutText = some done := by
        rw [e4]
      rw [setQuote_some contentData about _ _ ha hB4] at h5
      have hd5 : a5.aboutText = some (if done.any Block.hasQuote = true then
          setQuoteText (textOf about.quote) done else done) := by
        cases h5
        rfl
      rw [hd5] at hd
      obtain ⟨f1, f2, f3⟩ := hfix done _ e3 (by rw [hp]; exact hins) rfl
      exact region_again_of_fixed contentData about d1 _ ha hd f1 f2 f3

/-- A run of `populateAbout` that has returned changes nothing when it runs
again on its result. -/
theorem populateAbout_again (contentData : ContentDocument) (dom d1 : Dom)
    (h : populateAbout contentData dom = .ok d1) : populateAbout contentData d1 = .ok d1 := by
  obtain ⟨a1, a2, a3, a4, a5, h1, h2, h3, h4, h5, h6⟩ := populateAbout_steps _ _ _ h
  have k2 := fun {β : Type} (g : Dom → β) (hg : ∀ (d : Dom) v, g { d with aboutTitle := v } = g d) =>
    setText_keeps g h2 (fun t => hg a1 (some t))
  have k3 := fun {β : Type} (g : Dom → β) hg => setIntro_frame g hg _ _ _ h3
  have k4 := fun {β : Type} (g : Dom → β) hg => populateParagraphs_frame g hg _ _ _ h4
  have k5 := fun {β : Type} (g : Dom → β) hg => setQuote_frame g hg _ _ _ h5
  have k6 := fun {β : Type} (g : Dom → β) hg => populateSkills_frame g hg _ _ _ h6
  have e1 : setText d1.aboutEyebrow contentData.about "about is undefined"
      (fun about => about.eyebrow) d1 (fun t => { d1 with aboutEyebrow := some t }) = .ok d1 := by
    refine setText_again (fun d => d.aboutEyebrow) (fun d t => { d with aboutEyebrow := some t })
      (fun d t hd => Dom.aboutEyebrow_eta d _ hd) (fun _ _ => rfl) _ _ _ dom a1 d1 h1 ?_
    exact (k6 (fun d => d.aboutEyebrow) (fun _ _ => rfl)).trans
      ((k5 (fun d => d.aboutEyebrow) (fun _ _ => rfl)).trans
        ((k4 (fun d => d.aboutEyebrow) (fun _ _ => rfl)).trans
          ((k3 (fun d => d.aboutEyebrow) (fun _ _ => rfl)).trans
            (k2 (fun d => d.aboutEyebrow) (fun _ _ => rfl)))))
  have e2 : setText d1.aboutTitle contentData.about "about is undefined"
      (fun about => about.title) d1 (fun t => { d1 with aboutTitle := some t }) = .ok d1 := by
    refine setText_again (fun d => d.aboutTitle) (fun d t => { d with aboutTitle := some t })
      (fun d t hd => Dom.aboutTitle_eta d _ hd) (fun _ _ => rfl) _ _ _ a1 a2 d1 h2 ?_
    exact (k6 (fun d => d.aboutTitle) (fun _ _ => rfl)).trans
      ((k5 (fun d => d.aboutTitle) (fun _ _ => rfl)).trans
        ((k4 (fun d => d.aboutTitle) (fun _ _ => rfl)).trans
          (k3 (fun d => d.aboutTitle) (fun _ _ => rfl))))
  obtain ⟨e3, e4, e5⟩ := region_steps_again contentData a2 a3 a4 a5 d1 h3 h4 h5
    (k6 (fun d => d.aboutText) (fun _ _ => rfl))
  have e6 : populateSkills contentData d1 = .ok d1 := populateSkills_again contentData a5 d1 h6
  unfold populateAbout
  rw [e1, ok_bind, e2, ok_bind, e3, ok_bind, e4, ok_bind, e5, ok_bind, e6]

/-- Inserting after the intro finds its anchor when there is an intro. -/
theorem insertAfterIntro_isSome (p : Block) (bs : List Block)
    (h : bs.any Block.isIntro = true) : ∃ done, insertAfterIntro p bs = some done := by
  induction bs with
  | nil => simp at h
  | cons x rest ih =>
    rw [insertAfterIntro_cons]
    by_cases hx : x.isIntro = true
    · exact ⟨_, if_pos hx⟩
    · rw [if_neg hx]
      simp only [List.any_cons, Bool.or_eq_true] at h
      obtain ⟨done, hdone⟩ := ih (h.resolve_left hx)
      exact ⟨_, by rw [hdone]; rfl⟩

/-- Inserting before the pullquote finds its anchor when there is a pullquote. -/
theorem insertBeforePullquote_isSome (p : Block) (bs : List Block)
    (h : bs.any Block.isPullquote = true) : ∃ done, insertBeforePullquote p bs = some done := by
  induction bs with
  | nil => simp at h
  | cons x rest ih =>
    rw [insertBeforePullquote_cons]
    by_cases hx : x.isPullquote = true
    · exact ⟨_, if_pos hx⟩
    · rw [if_neg hx]
      simp only [List.any_cons, Bool.or_eq_true] at h
      obtain ⟨done, hdone⟩ := ih (h.resolve_left hx)
      exact ⟨_, by rw [hdone]; rfl⟩

/-- The loop `insertParagraphs` finds its anchors when the region has an intro
and, if a pullquote was found, a pullquote. -/
theorem insertParagraphs_isOk (pq : Bool) (count : Nat) (ps : List String) (k : Nat)
    (bs : List Block) (hi : bs.any Block.isIntro = true)
    (hq : pq = true → bs.any Block.isPullquote = true) :
    ∃ done, insertParagraphs pq count ps k bs = .ok done := by
  induction ps generalizing k bs with
  | nil => exact ⟨bs, rfl⟩
  | cons t rest ih =>
    simp only [insertParagraphs]
    by_cases hc : (pq && k == count - 1) = true
    · have hpq : pq = true := by
        simp only [Bool.and_eq_true] at hc
        exact hc.1
      obtain ⟨r, hr⟩ := insertBeforePullquote_isSome (.paragraph t) bs (hq hpq)
      rw [if_pos hc, hr]
      exact ih _ r
        (by rw [any_insertBeforePullquote Block.isIntro t rfl bs r hr]; exact hi)
        (fun h => by
          rw [any_insertBeforePullquote Block.isPullquote t rfl bs r hr]; exact hq h)
    · obtain ⟨r, hr⟩ := insertAfterIntro_isSome (.paragraph t) bs hi
      rw [if_neg hc, hr]
      exact ih _ r
        (by rw [any_insertAfterIntro Block.isIntro t rfl bs r hr]; exact hi)
        (fun h => by
          rw [any_insertAfterIntro Block.isPullquote t rfl bs r hr]; exact hq h)

/-- The function `populateAbout` returns for a document with `about` whose
skills all have a description, on a page whose `.about-text` region has an
intro. -/
theorem populateAbout_isOk (contentData : ContentDocument) (about : About) (dom : Dom)
    (B : List Block) (ha : contentData.about = some about)
    (hdesc : ∀ skills, about.skills = some skills →
      ∀ skill ∈ skills, skill.description.isSome = true)
    (hB : dom.aboutText = some B) (hi : B.any Block.isIntro = true) :
    ∃ d1, populateAbout contentData dom = .ok d1 := by
  unfold populateAbout
  rw [ha]
  obtain ⟨a1, h1⟩ := isOk_iff (setText_isOk dom.aboutEyebrow about "about is undefined"
    (fun about => about.eyebrow) dom (fun t => { dom with aboutEyebrow := some t }))
  have t1 : a1.aboutText = dom.aboutText := setText_keeps (fun d => d.aboutText) h1 (fun _ => rfl)
  rw [h1, ok_bind]
  obtain ⟨a2, h2⟩ := isOk_iff (setText_isOk a1.aboutTitle about "about is undefined"
    (fun about => about.title) a1 (fun t => { a1 with aboutTitle := some t }))
  have t2 : a2.aboutText = a1.aboutText := setText_keeps (fun d => d.aboutText) h2 (fun _ => rfl)
  rw [h2, ok_bind]
  have hB2 : a2.aboutText = some B := by rw [t2, t1, hB]
  rw [setIntro_some contentData about a2 B ha hB2, ok_bind, if_pos hi]
  have hi3 : (setIntroText (textOf about.intro) B).any Block.isIntro = true := by
    rw [any_setIntroText Block.isIntro (fun _ _ => rfl)]; exact hi
  have hpar : ∃ a4 B4, populateParagraphs contentData
      { a2 with aboutText := some (setIntroText (textOf about.intro) B) } = .ok a4 ∧
      a4.aboutText = some B4 := by
    cases hp : about.paragraphs with
    | none =>
      exact ⟨_, _, populateParagraphs_none contentData about _ _ ha rfl hp, rfl⟩
    | some ps =>
      obtain ⟨done, hdone⟩ := insertParagraphs_isOk
        ((setIntroText (textOf about.intro) B).any Block.isPullquote) ps.length ps 0
        (removeParagraphs (setIntroText (textOf about.intro) B))
        (by rw [any_removeParagraphs_isIntro]; exact hi3)
        (fun h => by rw [any_removeParagraphs_isPullquote]; exact h)
      exact ⟨_, done, populateParagraphs_some contentData about _ _ done ps ha rfl hp hdone, rfl⟩
  obtain ⟨a4, B4, h4, hB4⟩ := hpar
  rw [h4, ok_bind, setQuote_some contentData about a4 B4 ha hB4, ok_bind]
  unfold populateSkills
  dsimp only
  split
  · exact ⟨_, rfl⟩
  · rw [ha]
    dsimp only
    cases hs : about.skills with
    | none => exact ⟨_, rfl⟩
    | some skills =>
      dsimp only
      have hok : (skillCards skills).isOk = true := by
        unfold skillCards
        refine mapIdxThrowing_isOk _ _ _ (fun skill hmem j => ?_)
        have := hdesc skills hs skill hmem
        unfold skillCard
        cases hd : skill.description with
        | none => rw [hd] at this; cases this
        | some d => rfl
      obtain ⟨cards, hcards⟩ := isOk_iff hok
      rw [hcards]
      exact ⟨_, rfl⟩

/-- Entries inserted after the intro end up in reverse order: each goes right
after the intro, in front of the ones before it. -/
theorem insertParagraphs_after (pq : Bool) (count : Nat) (ps : List String) (k : Nat)
    (t : String) (rest : List Block)
    (hk : ∀ j, j < ps.length → (pq && (k + j == count - 1)) = false) :
    insertParagraphs pq count ps k (.intro t :: rest) =
      .ok (.intro t :: (ps.reverse.map Block.paragraph ++ rest)) := by
  induction ps generalizing k rest with
  | nil => rfl
  | cons a more ih =>
    have h0 := hk 0 (by simp)
    rw [Nat.add_zero] at h0
    simp only [insertParagraphs, h0, insertAfterIntro_cons, Block.isIntro, if_true]
    simp only [Bool.false_eq_true, if_false]
    rw [ih (k + 1) (.paragraph a :: rest) (fun j hj => by
      have := hk (j + 1) (by simp; omega)
      rw [← this]
      congr 2
      omega)]
    simp

/-- The loop `insertParagraphs` over two runs of entries. -/
theorem insertParagraphs_append (pq : Bool) (count : Nat) (xs ys : List String) (k : Nat)
    (bs mid : List Block) (h : insertParagraphs pq count xs k bs = .ok mid) :
    insertParagraphs pq count (xs ++ ys) k bs =
      insertParagraphs pq count ys (k + xs.length) mid := by
  induction xs generalizing k bs with
  | nil =>
    simp only [insertParagraphs] at h
    cases h
    rfl
  | cons a more ih =>
    simp only [insertParagraphs, List.cons_append] at h ⊢
    split at h
    · next r hr =>
      show insertParagraphs pq count (more ++ ys) (k + 1) r = _
      rw [ih (k + 1) r h]
      congr 1
      simp only [List.length_cons]
      omega
    · cases h

/-- Inserting before the pullquote skips the paragraphs in front of it. -/
theorem insertBeforePullquote_skip (p : Block) (front : List String) (q : List String)
    (tail : List Block) :
    insertBeforePullquote p (front.map Block.paragraph ++ .pullquote q :: tail) =
      some (front.map Block.paragraph ++ p :: .pullquote q :: tail) := by
  induction front with
  | nil => simp [insertBeforePullquote_cons, Block.isPullquote]
  | cons a more ih =>
    simp only [List.map_cons, List.cons_append]
    rw [insertBeforePullquote_cons, ih]
    simp [Block.isPullquote]

/-! ## The order of the generated paragraphs -/

/-- C18 fails on the code: the entries of `about.paragraphs` other than the last
end up in reverse order.  With a pullquote right after the intro, the entries
`init ++ [last]` give the intro, the paragraphs of `init` reversed, the
paragraph of `last`, the pullquote; without a pullquote all entries are in
reverse order after the intro.  On `samplePage`, `populateAbout` with the
paragraphs `First`, `Second`, `Third` leaves `Second`, `First`, `Third` between
the intro and the pullquote. -/
theorem paragraphs_out_of_order :
    (∀ (t : String) (q : List String) (tail : List Block) (init : List String) (last : String),
      insertParagraphs true (init.length + 1) (init ++ [last]) 0
          (.intro t :: .pullquote q :: tail) =
        .ok (.intro t ::
          (init.reverse.map Block.paragraph ++ .paragraph last :: .pullquote q :: tail))) ∧
      (∀ (t : String) (tail : List Block) (ps : List String),
        insertParagraphs false ps.length ps 0 (.intro t :: tail) =
          .ok (.intro t :: (ps.reverse.map Block.paragraph ++ tail))) ∧
      (populateAbout portfolioDocument samplePage).toOption.bind (fun dom => dom.aboutText) =
        some [.intro "Intro", .paragraph "Second", .paragraph "First", .paragraph "Third",
          .pullquote ["Quote"], .skills []] := by
  refine ⟨?_, ?_, ?_⟩
  · intro t q tail init last
    have hinit := insertParagraphs_after true (init.length + 1) init 0 t (.pullquote q :: tail)
      (fun j hj => by
        have : (0 + j == init.length + 1 - 1) = false := by
          simp only [Nat.add_sub_cancel, Nat.zero_add, beq_eq_false_iff_ne]
          omega
        rw [this]
        rfl)
    rw [insertParagraphs_append true _ init [last] 0 _ _ hinit]
    simp only [insertParagraphs, Nat.zero_add, Nat.add_sub_cancel, beq_self_eq_true,
      Bool.and_self, if_true, insertBeforePullquote_cons, Block.isPullquote]
    simp only [Bool.false_eq_true, if_false, insertBeforePullquote_skip]
    rfl
  · intro t tail ps
    exact insertParagraphs_after false ps.length ps 0 t tail (fun _ _ => rfl)
  · decide

/-! ## Running `populateAbout` again -/

/-- C19: a run of `populateAbout` that has returned changes nothing when it
runs again on the page it left: the second run returns the same page, so that
the paragraphs generated by the first run are all removed and inserted afresh,
and none accumulate.  For a document with `about` whose skills all have a
description, and a page whose `.about-text` region holds an intro, the first run
returns. -/
theorem populateAbout_idempotent (contentData : ContentDocument) (dom : Dom) :
    (∀ d1, populateAbout contentData dom = .ok d1 → populateAbout contentData d1 = .ok d1) ∧
      (∀ (about : About) (B : List Block), contentData.about = some about →
        (∀ skills, about.skills = some skills →
          ∀ skill ∈ skills, skill.description.isSome = true) →
        dom.aboutText = some B → B.any Block.isIntro = true →
        ∃ d1, populateAbout contentData dom = .ok d1 ∧
          populateAbout contentData d1 = .ok d1) := by
  refine ⟨fun d1 h => populateAbout_again contentData dom d1 h, ?_⟩
  intro about B ha hdesc hB hi
  obtain ⟨d1, h⟩ := populateAbout_isOk contentData about dom B ha hdesc hB hi
  exact ⟨d1, h, populateAbout_again contentData dom d1 h⟩

/-- C19 on `portfolioDocument` and `samplePage`: the first run returns a page
whose region holds the three generated paragraphs, and the second run returns
the same page. -/
theorem populateAbout_idempotent_witness :
    ∃ d1, populateAbout portfolioDocument samplePage = .ok d1 ∧
      populateAbout portfolioDocument d1 = .ok d1 ∧
      d1.aboutText =
        some [.intro "Intro", .paragraph "Second", .paragraph "First", .paragraph "Third",
          .pullquote ["Quote"], .skills []] := by
  obtain ⟨d1, h1, h2⟩ := (populateAbout_idempotent portfolioDocument samplePage).2
    _ _ rfl (fun skills hs => by cases hs; decide) rfl (by decide)
  refine ⟨d1, h1, h2, ?_⟩
  have hrun : (populateAbout portfolioDocument samplePage).toOption.bind
      (fun dom => dom.aboutText) =
      some [.intro "Intro", .paragraph "Second", .paragraph "First", .paragraph "Third",
        .pullquote ["Quote"], .skills []] := by decide
  rw [h1] at hrun
  exact hrun

/-! ## The content loader: title and description when a step throws -/

/-- The step `setText` leaves title and description as they were, whether it
returns or throws, when its store does. -/
theorem setText_meta {α : Type} (element : Option String) (obj : Option α) (what : String)
    (field : α → Option String) (dom : Dom) (store : String → Dom)
    (hstore : ∀ t, (store t).title = dom.title ∧ (store t).metaDescription = dom.metaDescription) :
    (pageAfter (setText element obj what field dom store)).title = dom.title ∧
      (pageAfter (setText element obj what field dom store)).metaDescription =
        dom.metaDescription := by
  unfold setText
  cases element with
  | none => exact ⟨rfl, rfl⟩
  | some e =>
    cases obj with
    | none => exact ⟨rfl, rfl⟩
    | some o => exact hstore _

/-- Two steps that leave title and description as they were, in sequence. -/
theorem bind_meta (x : Except Thrown Dom) (f : Dom → Except Thrown Dom) (dom : Dom)
    (hx : (pageAfter x).title = dom.title ∧ (pageAfter x).metaDescription = dom.metaDescription)
    (hf : ∀ a, (pageAfter (f a)).title = a.title ∧
      (pageAfter (f a)).metaDescription = a.metaDescription) :
    (pageAfter (x >>= f)).title = dom.title ∧
      (pageAfter (x >>= f)).metaDescription = dom.metaDescription := by
  cases x with
  | error t => exact hx
  | ok a => exact ⟨(hf a).1.trans hx.1, (hf a).2.trans hx.2⟩

theorem setHeroMeta_meta (contentData : ContentDocument) (dom : Dom) :
    (pageAfter (setHeroMeta contentData dom)).title = dom.title ∧
      (pageAfter (setHeroMeta contentData dom)).metaDescription = dom.metaDescription := by
  unfold setHeroMeta
  repeat' split
  all_goals exact ⟨rfl, rfl⟩

theorem setHeroLede_meta (contentData : ContentDocument) (dom : Dom) :
    (pageAfter (setHeroLede contentData dom)).title = dom.title ∧
      (pageAfter (setHeroLede contentData dom)).metaDescription = dom.metaDescription := by
  unfold setHeroLede
  repeat' split
  all_goals exact ⟨rfl, rfl⟩

theorem setIntro_meta (contentData : ContentDocument) (dom : Dom) :
    (pageAfter (setIntro contentData dom)).title = dom.title ∧
      (pageAfter (setIntro contentData dom)).metaDescription = dom.metaDescription := by
  unfold setIntro
  repeat' split
  all_goals exact ⟨rfl, rfl⟩

theorem populateParagraphs_meta (contentData : ContentDocument) (dom : Dom) :
    (pageAfter (populateParagraphs contentData dom)).title = dom.title ∧
      (pageAfter (populateParagraphs contentData dom)).metaDescription = dom.metaDescription := by
  unfold populateParagraphs
  repeat' split
  all_goals try dsimp only
  all_goals repeat' split
  all_goals exact ⟨rfl, rfl⟩

theorem setQuote_meta (contentData : ContentDocument) (dom : Dom) :
    (pageAfter (setQuote contentData dom)).title = dom.title ∧
      (pageAfter (setQuote contentData dom)).metaDescription = dom.metaDescription := by
  unfold setQuote
  repeat' split
  all_goals exact ⟨rfl, rfl⟩

theorem populateSkills_meta (contentData : ContentDocument) (dom : Dom) :
    (pageAfter (populateSkills contentData dom)).title = dom.title ∧
      (pageAfter (populateSkills contentData dom)).metaDescription = dom.metaDescription := by
  unfold populateSkills
  repeat' split
  all_goals exact ⟨rfl, rfl⟩

theorem setProjectsList_meta (contentData : ContentDocument) (dom : Dom) :
    (pageAfter (setProjectsList contentData dom)).title = dom.title ∧
      (pageAfter (setProjectsList contentData dom)).metaDescription = dom.metaDescription := by
  unfold setProjectsList
  repeat' split
  all_goals exact ⟨rfl, rfl⟩

theorem setContactMethods_meta (contentData : ContentDocument) (dom : Dom) :
    (pageAfter (setContactMethods contentData dom)).title = dom.title ∧
      (pageAfter (setContactMethods contentData dom)).metaDescription = dom.metaDescription := by
  unfold setContactMethods
  repeat' split
  all_goals exact ⟨rfl, rfl⟩

theorem setCopyright_meta (contentData : ContentDocument) (dom : Dom) :
    (pageAfter (setCopyright contentData dom)).title = dom.title ∧
      (pageAfter (setCopyright contentData dom)).metaDescription = dom.metaDescription := by
  unfold setCopyright
  repeat' split
  all_goals exact ⟨rfl, rfl⟩

theorem setSocialLinks_meta (contentData : ContentDocument) (dom : Dom) :
    (pageAfter (setSocialLinks contentData dom)).title = dom.title ∧
      (pageAfter (setSocialLinks contentData dom)).metaDescription = dom.metaDescription := by
  unfold setSocialLinks
  repeat' split
  all_goals exact ⟨rfl, rfl⟩

theorem populateHero_meta (contentData : ContentDocument) (dom : Dom) :
    (pageAfter (populateHero contentData dom)).title = dom.title ∧
      (pageAfter (populateHero contentData dom)).metaDescription = dom.metaDescription := by
  unfold populateHero
  refine bind_meta _ _ _ (setText_meta _ _ _ _ _ _ (fun _ => ⟨rfl, rfl⟩)) (fun a1 => ?_)
  refine bind_meta _ _ _ (setText_meta _ _ _ _ _ _ (fun _ => ⟨rfl, rfl⟩)) (fun a2 => ?_)
  refine bind_meta _ _ _ (setText_meta _ _ _ _ _ _ (fun _ => ⟨rfl, rfl⟩)) (fun a3 => ?_)
  refine bind_meta _ _ _ (setText_meta _ _ _ _ _ _ (fun _ => ⟨rfl, rfl⟩)) (fun a4 => ?_)
  refine bind_meta _ _ _ (setHeroMeta_meta _ _) (fun a5 => ?_)
  exact setHeroLede_meta _ _

theorem populateAbout_meta (contentData : ContentDocument) (dom : Dom) :
    (pageAfter (populateAbout contentData dom)).title = dom.title ∧
      (pageAfter (populateAbout contentData dom)).metaDescription = dom.metaDescription := by
  unfold populateAbout
  refine bind_meta _ _ _ (setText_meta _ _ _ _ _ _ (fun _ => ⟨rfl, rfl⟩)) (fun a1 => ?_)
  refine bind_meta _ _ _ (setText_meta _ _ _ _ _ _ (fun _ => ⟨rfl, rfl⟩)) (fun a2 => ?_)
  refine bind_meta _ _ _ (setIntro_meta _ _) (fun a3 => ?_)
  refine bind_meta _ _ _ (populateParagraphs_meta _ _) (fun a4 => ?_)
  refine bind_meta _ _ _ (setQuote_meta _ _) (fun a5 => ?_)
  exact populateSkills_meta _ _

theorem populateProjects_meta (contentData : ContentDocument) (dom : Dom) :
    (pageAfter (populateProjects contentData dom)).title = dom.title ∧
      (pageAfter (populateProjects contentData dom)).metaDescription = dom.metaDescription := by
  unfold populateProjects
  refine bind_meta _ _ _ (setText_meta _ _ _ _ _ _ (fun _ => ⟨rfl, rfl⟩)) (fun a1 => ?_)
  refine bind_meta _ _ _ (setText_meta _ _ _ _ _ _ (fun _ => ⟨rfl, rfl⟩)) (fun a2 => ?_)
  refine bind_meta _ _ _ (setText_meta _ _ _ _ _ _ (fun _ => ⟨rfl, rfl⟩)) (fun a3 => ?_)
  exact setProjectsList_meta _ _

theorem populateContact_meta (contentData : ContentDocument) (dom : Dom) :
    (pageAfter (populateContact contentData dom)).title = dom.title ∧
      (pageAfter (populateContact contentData dom)).metaDescription = dom.metaDescription := by
  unfold populateContact
  refine bind_meta _ _ _ (setText_meta _ _ _ _ _ _ (fun _ => ⟨rfl, rfl⟩)) (fun a1 => ?_)
  refine bind_meta _ _ _ (setText_meta _ _ _ _ _ _ (fun _ => ⟨rfl, rfl⟩)) (fun a2 => ?_)
  refine bind_meta _ _ _ (setText_meta _ _ _ _ _ _ (fun _ => ⟨rfl, rfl⟩)) (fun a3 => ?_)
  refine bind_meta _ _ _ (setContactMethods_meta _ _) (fun a4 => ?_)
  exact setText_meta _ _ _ _ _ _ (fun _ => ⟨rfl, rfl⟩)

theorem populateFooter_meta (contentData : ContentDocument) (dom : Dom) :
    (pageAfter (populateFooter contentData dom)).title = dom.title ∧
      (pageAfter (populateFooter contentData dom)).metaDescription = dom.metaDescription := by
  unfold populateFooter
  refine bind_meta _ _ _ (setCopyright_meta _ _) (fun a1 => ?_)
  exact setSocialLinks_meta _ _

/-- A run of `populateContent` that throws leaves the title and the description
meta tag as they were: they are written by the last step, which throws before
it writes or not at all. -/
theorem populateContent_thrown_meta (doc : ContentDocument) (dom : Dom) (thrown : Thrown)
    (h : populateContent (some doc) dom = .error thrown) :
    thrown.dom.title = dom.title ∧ thrown.dom.metaDescription = dom.metaDescription := by
  unfold populateContent at h
  dsimp only at h
  cases h1 : populateHero doc dom with
  | error t =>
    rw [h1] at h
    cases h
    have := populateHero_meta doc dom
    rw [h1] at this
    exact this
  | ok a1 =>
    have m1 := populateHero_meta doc dom
    rw [h1] at m1 h
    rw [ok_bind] at h
    cases h2 : populateAbout doc a1 with
    | error t =>
      rw [h2] at h
      cases h
      have := populateAbout_meta doc a1
      rw [h2] at this
      exact ⟨this.1.trans m1.1, this.2.trans m1.2⟩
    | ok a2 =>
      have m2 := populateAbout_meta doc a1
      rw [h2] at m2 h
      rw [ok_bind] at h
      cases h3 : populateProjects doc a2 with
      | error t =>
        rw [h3] at h
        cases h
        have := populateProjects_meta doc a2
        rw [h3] at this
        exact ⟨this.1.trans (m2.1.trans m1.1), this.2.trans (m2.2.trans m1.2)⟩
      | ok a3 =>
        have m3 := populateProjects_meta doc a2
        rw [h3] at m3 h
        rw [ok_bind] at h
        cases h4 : populateContact doc a3 with
        | error t =>
          rw [h4] at h
          cases h
          have := populateContact_meta doc a3
          rw [h4] at this
          exact ⟨this.1.trans (m3.1.trans (m2.1.trans m1.1)),
            this.2.trans (m3.2.trans (m2.2.trans m1.2))⟩
        | ok a4 =>
          have m4 := populateContact_meta doc a3
          rw [h4] at m4 h
          rw [ok_bind] at h
          cases h5 : populateFooter doc a4 with
          | error t =>
            rw [h5] at h
            cases h
            have := populateFooter_meta doc a4
            rw [h5] at this
            exact ⟨this.1.trans (m4.1.trans (m3.1.trans (m2.1.trans m1.1))),
              this.2.trans (m4.2.trans (m3.2.trans (m2.2.trans m1.2)))⟩
          | ok a5 =>
            have m5 := populateFooter_meta doc a4
            rw [h5] at m5 h
            rw [ok_bind] at h
            unfold updateMetaTags at h
            split at h
            · cases h
              exact ⟨m5.1.trans (m4.1.trans (m3.1.trans (m2.1.trans m1.1))),
                m5.2.trans (m4.2.trans (m3.2.trans (m2.2.trans m1.2)))⟩
            · split at h <;> cases h

/-! ## Loading a malformed document -/

/-- The failing input of C21: with `hero` well-formed and `about` absent,
`populateContent` throws in `populateAbout`, after `populateHero` has written
its regions: the page after `loadContent` is not the page before it, the hero
title reads `Ada Lovelace` instead of `Your Name`, and the about title is as
before. -/
theorem loadContent_malformed_counterexample :
    (∃ thrown, populateContent (some heroOnlyDocument) samplePage = .error thrown) ∧
      (loadContent (.response true 200 (some (some heroOnlyDocument))) sampleWorld).dom ≠
        sampleWorld.dom ∧
      samplePage.heroTitle = some "Your Name" ∧
      (loadContent (.response true 200 (some (some heroOnlyDocument))) sampleWorld).dom.heroTitle =
        some "Ada Lovelace" ∧
      (loadContent (.response true 200 (some (some heroOnlyDocument))) sampleWorld).dom.aboutTitle =
        samplePage.aboutTitle := by
  refine ⟨?_, ?_, rfl, ?_, ?_⟩
  · cases h : populateContent (some heroOnlyDocument) samplePage with
    | error t => exact ⟨t, rfl⟩
    | ok d =>
      have hno : (populateContent (some heroOnlyDocument) samplePage).isOk = false := by decide
      rw [h] at hno
      cases hno
  · decide
  · decide
  · decide

/-- C21 fails on the code: when a populate step throws on the fetched document,
the `catch` block of `loadContent` restores nothing, although it announces the
HTML fallback: the page is left as the throwing step left it (the regions
written before the throw keep what was written), with the title and the
description meta tag as they were.  The rest of the claim holds: no
`contentLoaded` event is dispatched; the document has been assigned to
`contentData`, and the error is logged with one `console.error` call. -/
theorem loadContent_malformed (status : Nat) (doc : ContentDocument) (w : World)
    (thrown : Thrown) (h : populateContent (some doc) w.dom = .error thrown) :
    (loadContent (.response true status (some (some doc))) w).dom = thrown.dom ∧
      (loadContent (.response true status (some (some doc))) w).dom.title = w.dom.title ∧
      (loadContent (.response true status (some (some doc))) w).dom.metaDescription =
        w.dom.metaDescription ∧
      (loadContent (.response true status (some (some doc))) w).events = w.events ∧
      (loadContent (.response true status (some (some doc))) w).contentData = some doc ∧
      (loadContent (.response true status (some (some doc))) w).consoleErrors =
        w.consoleErrors ++ ["❌ Error loading content: " ++ thrown.message] := by
  have hmeta := populateContent_thrown_meta doc w.dom thrown h
  have hrun : loadContent (.response true status (some (some doc))) w =
      loadFailed thrown.message { w with contentData := some doc, dom := thrown.dom } := by
    simp only [loadContent, Bool.not_true, Bool.false_eq_true, if_false, h]
  rw [hrun]
  exact ⟨rfl, hmeta.1, hmeta.2, rfl, rfl, rfl⟩

/-- C21 on `heroOnlyDocument` and `sampleWorld`. -/
theorem loadContent_malformed_witness :
    (loadContent (.response true 200 (some (some heroOnlyDocument))) sampleWorld).dom.title =
        "Portfolio" ∧
      (loadContent (.response true 200 (some (some heroOnlyDocument))) sampleWorld).events = [] ∧
      (loadContent (.response true 200 (some (some heroOnlyDocument))) sampleWorld).consoleErrors =
        ["❌ Error loading content: TypeError: about is undefined"] := by
  cases h : populateContent (some heroOnlyDocument) sampleWorld.dom with
  | ok d =>
    have hno : (populateContent (some heroOnlyDocument) sampleWorld.dom).isOk = false := by
      decide
    rw [h] at hno
    cases hno
  | error thrown =>
    obtain ⟨_, htitle, _, hevents, _, herr⟩ :=
      loadContent_malformed 200 heroOnlyDocument sampleWorld thrown h
    have hmsg : thrown.message = "TypeError: about is undefined" := by
      have hm : (match populateContent (some heroOnlyDocument) sampleWorld.dom with
          | .ok _ => ""
          | .error t => t.message) = "TypeError: about is undefined" := by decide
      rw [h] at hm
      exact hm
    rw [hmsg] at herr
    exact ⟨htitle, hevents, herr⟩

/-! ## The `contentLoaded` event -/

/-- C22: when the fetch gives an ok response whose body parses and
`populateContent` returns, `loadContent` dispatches exactly one `contentLoaded`
event, whose detail is the parsed document, on the page that all the populate
steps have written, and logs no error; in every other case it dispatches none
and logs one error. -/
theorem contentLoaded_once (fetch : FetchResult) (w : World) :
    (∀ status data dom1, fetch = .response true status (some data) →
      populateContent data w.dom = .ok dom1 →
      (loadContent fetch w).events = w.events ++ [data] ∧
        (loadContent fetch w).dom = dom1 ∧
        (loadContent fetch w).contentData = data ∧
        (loadContent fetch w).consoleErrors = w.consoleErrors) ∧
      ((∀ status data dom1, fetch = .response true status (some data) →
          populateContent data w.dom ≠ .ok dom1) →
        (loadContent fetch w).events = w.events ∧
          ∃ error, (loadContent fetch w).consoleErrors = w.consoleErrors ++ [error]) := by
  constructor
  · intro status data dom1 hf hp
    subst hf
    simp [loadContent, hp]
  · intro hno
    cases fetch with
    | rejected => exact ⟨rfl, _, rfl⟩
    | response ok status json =>
      cases ok with
      | false => exact ⟨rfl, _, rfl⟩
      | true =>
        cases json with
        | none => exact ⟨rfl, _, rfl⟩
        | some data =>
          cases hp : populateContent data w.dom with
          | ok dom1 => exact absurd hp (hno status data dom1 rfl)
          | error thrown =>
            simp only [loadContent, Bool.not_true, Bool.false_eq_true, if_false, hp]
            exact ⟨rfl, _, rfl⟩

/-- C22 on the example document of the specification (one event, the page fully
populated) and on a malformed document (no event). -/
theorem contentLoaded_once_witness :
    (loadContent (.response true 200 (some (some specExampleDocument))) sampleWorld).events =
        [some specExampleDocument] ∧
      (loadContent (.response true 200 (some (some specExampleDocument))) sampleWorld).dom =
        loadedSamplePage ∧
      (loadContent (.response true 200 (some (some heroOnlyDocument))) sampleWorld).events = [] := by
  have h1 := (contentLoaded_once (.response true 200 (some (some specExampleDocument)))
    sampleWorld).1 200 (some specExampleDocument) loadedSamplePage rfl rfl
  have h2 := (contentLoaded_once (.response true 200 (some (some heroOnlyDocument)))
    sampleWorld).2 (fun status data dom1 hf hp => by
      cases hf
      have hno : (populateContent (some heroOnlyDocument) sampleWorld.dom).isOk = false := by
        decide
      rw [hp] at hno
      cases hno)
  exact ⟨h1.1, h1.2.1, h2.1⟩

/-! ## The preview modal -/

/-- The method `resumePreview.show` returns exactly when the interpolations of
`modalHTML` do, and then the page holds the modals that `close` left and the new
one. -/
theorem show_eq (contentData : ContentDocument) (page : Page) :
    resumePreview.show contentData page =
      match resumePreview.modalParts contentData with
      | .ok parts =>
        .ok { modals := page.modals.tail ++
          [{ html := resumePreview.modalHTML parts, parts := parts, document := contentData }] }
      | .error e => .error e := by
  unfold resumePreview.show
  cases resumePreview.modalParts contentData <;> rfl

/-- C23: on a page with at most one element with id `resumePreviewModal`, a
call of `resumePreview.show` that returns leaves exactly one such element, built
from the document it was called with, and `resumePreview.close` after it leaves
none; `show` returns whenever the interpolations of its template do; `close`
leaves none, and changes nothing on a page without a modal. -/
theorem single_modal (contentData : ContentDocument) (page : Page)
    (hpage : page.modals.length ≤ 1) :
    (∀ page1, resumePreview.show contentData page = .ok page1 →
      ∃ parts, resumePreview.modalParts contentData = .ok parts ∧
        page1.modals =
          [{ html := resumePreview.modalHTML parts, parts := parts, document := contentData }] ∧
        (resumePreview.close page1).modals = []) ∧
      (∀ parts, resumePreview.modalParts contentData = .ok parts →
        ∃ page1, resumePreview.show contentData page = .ok page1) ∧
      (resumePreview.close page).modals = [] ∧
      (page.modals = [] → resumePreview.close page = page) := by
  have htail : page.modals.tail = [] := by
    cases hm : page.modals with
    | nil => rfl
    | cons m rest =>
      rw [hm] at hpage
      cases rest with
      | nil => rfl
      | cons m2 rest2 => simp at hpage
  refine ⟨fun page1 h => ?_, fun parts h => ?_, htail, fun h => ?_⟩
  · rw [show_eq] at h
    cases hp : resumePreview.modalParts contentData with
    | error e => rw [hp] at h; cases h
    | ok parts =>
      rw [hp] at h
      cases h
      rw [htail]
      exact ⟨parts, rfl, rfl, rfl⟩
  · rw [show_eq, h]
    exact ⟨_, rfl⟩
  · cases page with
    | mk modals =>
      cases h
      rfl

/-- C23 on two calls of `show` in a row: the modal of the second document
replaces the modal of the first, and `close` removes it. -/
theorem single_modal_witness :
    ∃ page0 page1,
      resumePreview.show emptySkillsDocument { modals := [] } = .ok page0 ∧
        page0.modals.length = 1 ∧
        resumePreview.show fullDocument page0 = .ok page1 ∧
        page1.modals.map (fun modal => modal.document) = [fullDocument] ∧
        (resumePreview.close page1).modals = [] := by
  have hp0 : (resumePreview.modalParts emptySkillsDocument).isOk = true := by decide
  have hp1 : (resumePreview.modalParts fullDocument).isOk = true := by decide
  obtain ⟨parts0, h0⟩ := isOk_iff hp0
  obtain ⟨parts1, h1⟩ := isOk_iff hp1
  obtain ⟨page0, hs0⟩ := (single_modal emptySkillsDocument { modals := [] } (by decide)).2.1
    parts0 h0
  obtain ⟨q0, _, hm0, _⟩ := (single_modal emptySkillsDocument { modals := [] } (by decide)).1
    page0 hs0
  have hlen : page0.modals.length ≤ 1 := by rw [hm0]; exact Nat.le_refl 1
  obtain ⟨page1, hs1⟩ := (single_modal fullDocument page0 hlen).2.1 parts1 h1
  obtain ⟨q1, _, hm1, hc1⟩ := (single_modal fullDocument page0 hlen).1 page1 hs1
  exact ⟨page0, page1, hs0, by rw [hm0]; rfl, hs1, by rw [hm1]; rfl, hc1⟩

/-! ## The preview of a document without `resume` -/

/-- C25 fails on the code: for every document without a `resume` object
`resumePreview.show` throws and builds no modal; when the header, the profile
and the projects have been rendered, the error is the `TypeError` of reading
`resume.experience` in `renderExperience`. -/
theorem show_without_resume (contentData : ContentDocument) (page : Page)
    (hres : contentData.resume = none) :
    (∃ e, resumePreview.show contentData page = .error e) ∧
      (∀ header source projects,
        resumePreview.renderHeader contentData.personal = .ok header →
        resumePreview.summarySource contentData = some source →
        resumePreview.renderProjects contentData.projects = .ok projects →
        resumePreview.show contentData page = .error "TypeError: resume is undefined") := by
  have hexp : resumePreview.renderExperience contentData.resume =
      .error "TypeError: resume is undefined" := by
    rw [hres]
    rfl
  have hparts : ∀ header source projects,
      resumePreview.renderHeader contentData.personal = .ok header →
      resumePreview.summarySource contentData = some source →
      resumePreview.renderProjects contentData.projects = .ok projects →
      resumePreview.modalParts contentData = .error "TypeError: resume is undefined" := by
    intro header source projects hh hs hp
    unfold resumePreview.modalParts
    rw [hh, ok_bind, hs]
    simp only [reqValue, ok_bind]
    rw [hp, ok_bind, hexp]
    rfl
  constructor
  · rw [show_eq]
    cases hm : resumePreview.modalParts contentData with
    | error e => exact ⟨e, rfl⟩
    | ok parts =>
      exfalso
      unfold resumePreview.modalParts at hm
      obtain ⟨header, hh, hm⟩ := bind_ok hm
      obtain ⟨source, hs, hm⟩ := bind_ok hm
      obtain ⟨projects, hp, hm⟩ := bind_ok hm
      obtain ⟨experience, he, hm⟩ := bind_ok hm
      rw [hexp] at he
      cases he
  · intro header source projects hh hs hp
    rw [show_eq, hparts header source projects hh hs hp]

/-- C25 on the example document of the specification. -/
theorem show_without_resume_witness :
    specExampleDocument.resume = none ∧
      resumePreview.show specExampleDocument { modals := [] } =
        .error "TypeError: resume is undefined" := by
  have hh : (resumePreview.renderHeader specExampleDocument.personal).isOk = true := by decide
  have hp : (resumePreview.renderProjects specExampleDocument.projects).isOk = true := by decide
  obtain ⟨header, hh⟩ := isOk_iff hh
  obtain ⟨projects, hp⟩ := isOk_iff hp
  exact ⟨rfl, (show_without_resume specExampleDocument { modals := [] } rfl).2
    header "x" projects hh rfl hp⟩

/-! ## Stripping markup twice -/

/-- Where the tag pattern matches nowhere, the scan keeps every character. -/
theorem stripTagsGo_id (cs : List Char) (h : ∀ k, tagLength (cs.drop k) = none) :
    stripTagsGo 0 cs = cs := by
  induction cs with
  | nil => rfl
  | cons c rest ih =>
    have h0 := h 0
    simp only [List.drop_zero] at h0
    simp only [stripTagsGo, h0]
    rw [ih (fun k => by simpa using h (k + 1))]

/-- C28: stripping is idempotent: `stripTags (stripTags s) = stripTags s` for
every string, because what `replace(/<[^>]+>/g, '')` returns holds no match of
the tag pattern at any position, and a string without a match is returned as it
is. -/
theorem stripTags_idempotent (s : String) :
    stripTags (stripTags s) = stripTags s ∧
      (∀ k, tagLength ((stripTags s).data.drop k) = none) ∧
      (∀ t : String, (∀ k, tagLength (t.data.drop k) = none) → stripTags t = t) := by
  refine ⟨?_, fun k => stripTagsGo_no_tag 0 s.data k, fun t ht => ?_⟩
  · unfold stripTags
    show String.mk (stripTagsGo 0 (stripTagsGo 0 s.data)) = _
    rw [stripTagsGo_id _ (fun k => stripTagsGo_no_tag 0 s.data k)]
  · unfold stripTags
    rw [stripTagsGo_id _ ht]

/-! ## What the removal of the paragraphs spares -/

/-- Removing the paragraphs keeps the intro and the pullquote blocks as they
are. -/
theorem filter_removeParagraphs (bs : List Block) :
    (removeParagraphs bs).filter (fun b => b.isIntro || b.isPullquote) =
      bs.filter (fun b => b.isIntro || b.isPullquote) := by
  induction bs with
  | nil => rfl
  | cons x rest ih =>
    cases x <;> simp only [removeParagraphs, List.filter_cons, ih] <;> rfl

/-- After the removal no skills block of the region holds a paragraph. -/
theorem skills_removeParagraphs (bs : List Block) (qs : List String)
    (h : Block.skills qs ∈ removeParagraphs bs) : qs = [] := by
  induction bs with
  | nil => simp [removeParagraphs] at h
  | cons x rest ih =>
    cases x <;> simp only [removeParagraphs, List.mem_cons] at h
    · exact ih (h.resolve_left (fun e => by cases e))
    · exact ih h
    · exact ih (h.resolve_left (fun e => by cases e))
    · rcases h with h | h
      · cases h
        rfl
      · exact ih h
    · exact ih (h.resolve_left (fun e => by cases e))

/-- A paragraph inserted after the intro changes nothing that a test false of
paragraphs selects. -/
theorem filter_insertAfterIntro (f : Block → Bool) (t : String) (hf : f (.paragraph t) = false)
    (bs done : List Block) (h : insertAfterIntro (.paragraph t) bs = some done) :
    done.filter f = bs.filter f := by
  induction bs generalizing done with
  | nil => simp [insertAfterIntro] at h
  | cons x rest ih =>
    rw [insertAfterIntro_cons] at h
    split at h
    · cases h
      simp [List.filter_cons, hf]
    · cases hr : insertAfterIntro (.paragraph t) rest with
      | none => rw [hr] at h; cases h
      | some r =>
        rw [hr] at h
        cases h
        simp [List.filter_cons, ih r hr]

/-- A paragraph inserted before the pullquote changes nothing that a test false
of paragraphs selects. -/
theorem filter_insertBeforePullquote (f : Block → Bool) (t : String)
    (hf : f (.paragraph t) = false)
    (bs done : List Block) (h : insertBeforePullquote (.paragraph t) bs = some done) :
    done.filter f = bs.filter f := by
  induction bs generalizing done with
  | nil => simp [insertBeforePullquote] at h
  | cons x rest ih =>
    rw [insertBeforePullquote_cons] at h
    split at h
    · cases h
      simp [List.filter_cons, hf]
    · cases hr : insertBeforePullquote (.paragraph t) rest with
      | none => rw [hr] at h; cases h
      | some r =>
        rw [hr] at h
        cases h
        simp [List.filter_cons, ih r hr]

/-- The loop `insertParagraphs` adds paragraphs only: what a test that is false
of paragraphs selects is as before. -/
theorem filter_insertParagraphs (f : Block → Bool) (hf : ∀ t, f (.paragraph t) = false)
    (pq : Bool) (count : Nat) (ps : List String) (k : Nat) (bs done : List Block)
    (h : insertParagraphs pq count ps k bs = .ok done) :
    done.filter f = bs.filter f := by
  induction ps generalizing k bs with
  | nil =>
    simp only [insertParagraphs] at h
    cases h
    rfl
  | cons t rest ih =>
    simp only [insertParagraphs] at h
    split at h
    · next r hr =>
      rw [ih _ _ h]
      split at hr
      · exact filter_insertBeforePullquote f t (hf t) bs r hr
      · exact filter_insertAfterIntro f t (hf t) bs r hr
    · cases h

/-- A skills block is in the region when it is among its skills blocks. -/
theorem skills_mem_filter (bs : List Block) (qs : List String) :
    Block.skills qs ∈ bs ↔
      Block.skills qs ∈ bs.filter (fun b => match b with | .skills _ => true | _ => false) := by
  simp [List.mem_filter]

/-- C27 fails on the code: when `populateAbout` replaces the paragraphs
(`about.paragraphs` present), the intro and the pullquote blocks of the region
are left exactly as they were, in their order, but every paragraph inside a
skills block of the region is removed: afterwards no skills block of the region
holds a paragraph. -/
theorem skills_paragraphs_removed (contentData : ContentDocument) (about : About)
    (ps : List String) (dom d1 : Dom) (blocks : List Block)
    (ha : contentData.about = some about) (hp : about.paragraphs = some ps)
    (hB : dom.aboutText = some blocks)
    (h : populateParagraphs contentData dom = .ok d1) :
    ∃ done, d1.aboutText = some done ∧
      done.filter (fun b => b.isIntro || b.isPullquote) =
        blocks.filter (fun b => b.isIntro || b.isPullquote) ∧
      (∀ qs, Block.skills qs ∈ done → qs = []) := by
  obtain ⟨about1, ha1, hcases⟩ := populateParagraphs_inv contentData dom d1 blocks hB h
  rw [ha] at ha1
  cases ha1
  rcases hcases with ⟨hnone, _⟩ | ⟨ps1, done, hp1, hins, hd1⟩
  · rw [hp] at hnone
    cases hnone
  · refine ⟨done, by rw [hd1], ?_, fun qs hq => ?_⟩
    · rw [filter_insertParagraphs _ (fun _ => rfl) _ _ _ _ _ _ hins, filter_removeParagraphs]
    · have hf := filter_insertParagraphs
        (fun b => match b with | .skills _ => true | _ => false) (fun _ => rfl) _ _ _ _ _ _ hins
      rw [skills_mem_filter, hf, ← skills_mem_filter] at hq
      exact skills_removeParagraphs _ _ hq

/-- C27 on `samplePage`, whose skills block holds the paragraph `What I do`:
after the paragraphs step the skills block is empty. -/
theorem skills_paragraphs_removed_witness :
    samplePage.aboutText =
        some [.intro "Fallback intro", .paragraph "Fallback one", .paragraph "Fallback two",
          .pullquote ["Fallback quote"], .skills ["What I do"]] ∧
      ∃ d1, populateParagraphs portfolioDocument samplePage = .ok d1 ∧
        d1.aboutText =
          some [.intro "Fallback intro", .paragraph "Second", .paragraph "First",
            .paragraph "Third", .pullquote ["Fallback quote"], .skills []] := by
  refine ⟨rfl, ?_⟩
  have hok : (populateParagraphs portfolioDocument samplePage).isOk = true := by decide
  obtain ⟨d1, h⟩ := isOk_iff hok
  obtain ⟨done, hdone, _, _⟩ := skills_paragraphs_removed portfolioDocument _ _ samplePage d1 _
    rfl rfl rfl h
  refine ⟨d1, h, ?_⟩
  have hrun : (populateParagraphs portfolioDocument samplePage).toOption.bind
      (fun dom => dom.aboutText) =
      some [.intro "Fallback intro", .paragraph "Second", .paragraph "First",
        .paragraph "Third", .pullquote ["Fallback quote"], .skills []] := by decide
  rw [h] at hrun
  exact hrun

/-! ## The skills by category -/

/-- The step `groupSkill` in terms of `skillCategory`. -/
theorem groupSkill_eq (grouped : List (String × List (Option String))) (skill : Skill) :
    groupSkill grouped skill =
      if skillCategory skill ∈ objectPrototypeKeys then none
      else if grouped.any (fun e => e.1 == skillCategory skill) then
        some (grouped.map (fun e =>
          if e.1 == skillCategory skill then (e.1, e.2 ++ [skill.title]) else e))
      else some (grouped ++ [(skillCategory skill, [skill.title])]) := rfl

/-- The titles under a category after one more skill. -/
theorem titlesIn_append (cat : String) (processed : List Skill) (skill : Skill) :
    titlesIn cat (processed ++ [skill]) =
      if skillCategory skill = cat then titlesIn cat processed ++ [skill.title]
      else titlesIn cat processed := by
  unfold titlesIn
  rw [List.filter_append]
  by_cases h : skillCategory skill = cat
  · simp [h]
  · simp [h]

/-- No titles under a category that no skill has. -/
theorem titlesIn_eq_nil (cat : String) (skills : List Skill)
    (h : ∀ s ∈ skills, skillCategory s ≠ cat) : titlesIn cat skills = [] := by
  unfold titlesIn
  rw [List.map_eq_nil_iff, List.filter_eq_nil_iff]
  intro s hs
  simpa using h s hs

/-- Filing a title under a category that is not there changes nothing. -/
theorem map_update_of_not_mem (grouped : List (String × List (Option String))) (cat : String)
    (t : Option String) (h : cat ∉ grouped.map (fun e => e.1)) :
    grouped.map (fun e => if e.1 == cat then (e.1, e.2 ++ [t]) else e) = grouped := by
  induction grouped with
  | nil => rfl
  | cons e rest ih =>
    simp only [List.map_cons, List.mem_cons, not_or] at h
    have hne : (e.1 == cat) = false := by
      simpa using fun heq : e.1 = cat => h.1 heq.symm
    rw [List.map_cons, ih h.2, hne]
    rfl

/-- Filing a title keeps the categories. -/
theorem map_update_keys (grouped : List (String × List (Option String))) (cat : String)
    (t : Option String) :
    (grouped.map (fun e => if e.1 == cat then (e.1, e.2 ++ [t]) else e)).map (fun e => e.1) =
      grouped.map (fun e => e.1) := by
  induction grouped with
  | nil => rfl
  | cons e rest ih =>
    simp only [List.map_cons, ih]
    by_cases he : e.1 = cat
    · simp [he]
    · simp [he]

/-- The number of titles, entry by entry. -/
theorem titleCount_cons (e : String × List (Option String))
    (rest : List (String × List (Option String))) :
    titleCount (e :: rest) = e.2.length + titleCount rest := by
  simp [titleCount]

/-- Filing a title under a category that is there adds one title. -/
theorem titleCount_update (grouped : List (String × List (Option String))) (cat : String)
    (t : Option String) (hnd : (grouped.map (fun e => e.1)).Nodup)
    (hmem : cat ∈ grouped.map (fun e => e.1)) :
    titleCount (grouped.map (fun e => if e.1 == cat then (e.1, e.2 ++ [t]) else e)) =
      titleCount grouped + 1 := by
  induction grouped with
  | nil => simp at hmem
  | cons e rest ih =>
    simp only [List.map_cons, List.nodup_cons] at hnd
    by_cases he : e.1 = cat
    · have hrest := map_update_of_not_mem rest cat t (he ▸ hnd.1)
      have hb : (e.1 == cat) = true := by simpa using he
      rw [List.map_cons, hrest, hb, if_pos rfl, titleCount_cons, titleCount_cons]
      simp only [List.length_append, List.length_singleton]
      omega
    · have hmem' : cat ∈ rest.map (fun e => e.1) := by
        simp only [List.map_cons, List.mem_cons] at hmem
        rcases hmem with h | h
        · exact absurd h.symm he
        · exact h
      have := ih hnd.2 hmem'
      have hb : (e.1 == cat) = false := by simpa using he
      rw [List.map_cons, hb, if_neg (by simp), titleCount_cons, titleCount_cons, this]
      omega

/-- Filing one skill keeps what `Grouped` says. -/
theorem groupSkill_grouped (grouped g1 : List (String × List (Option String)))
    (processed : List Skill) (skill : Skill)
    (h : groupSkill grouped skill = some g1) (hinv : Grouped grouped processed) :
    Grouped g1 (processed ++ [skill]) := by
  obtain ⟨hnd, hent, hmem, hcount⟩ := hinv
  rw [groupSkill_eq] at h
  split at h
  · cases h
  · split at h
    · next hany =>
      cases h
      have hkey : skillCategory skill ∈ grouped.map (fun e => e.1) := by
        simp only [List.any_eq_true, beq_iff_eq] at hany
        obtain ⟨e, he, heq⟩ := hany
        exact List.mem_map.mpr ⟨e, he, heq⟩
      refine ⟨by rw [map_update_keys]; exact hnd, ?_, ?_, ?_⟩
      · intro e' he'
        obtain ⟨e, he, hup⟩ := List.mem_map.mp he'
        obtain ⟨ht, hne⟩ := hent e he
        by_cases hc : e.1 = skillCategory skill
        · simp only [beq_iff_eq, hc, if_true] at hup
          subst hup
          refine ⟨?_, by simp⟩
          simp only [titlesIn_append, if_true]
          rw [ht, hc]
        · simp only [beq_iff_eq, hc, if_false] at hup
          subst hup
          refine ⟨?_, hne⟩
          rw [titlesIn_append, if_neg (fun heq => hc heq.symm)]
          exact ht
      · intro s hs
        rw [map_update_keys]
        rcases List.mem_append.mp hs with h1 | h1
        · exact hmem s h1
        · simp only [List.mem_singleton] at h1
          rw [h1]
          exact hkey
      · rw [titleCount_update grouped _ _ hnd hkey, hcount]
        simp
    · next hany =>
      cases h
      have hkey : skillCategory skill ∉ grouped.map (fun e => e.1) := by
        intro hk
        obtain ⟨e, he, heq⟩ := List.mem_map.mp hk
        exact hany (List.any_eq_true.mpr ⟨e, he, by simpa using heq⟩)
      refine ⟨?_, ?_, ?_, ?_⟩
      · rw [List.map_append, List.nodup_append]
        refine ⟨hnd, by simp, ?_⟩
        intro a ha hb
        simp only [List.map_cons, List.map_nil, List.mem_singleton] at hb
        exact hkey (hb ▸ ha)
      · intro e he
        rcases List.mem_append.mp he with h1 | h1
        · obtain ⟨ht, hne⟩ := hent e h1
          refine ⟨?_, hne⟩
          have hc : ¬ skillCategory skill = e.1 := fun heq =>
            hkey (heq ▸ List.mem_map.mpr ⟨e, h1, rfl⟩)
          rw [titlesIn_append, if_neg hc]
          exact ht
        · simp only [List.mem_singleton] at h1
          subst h1
          refine ⟨?_, by simp⟩
          simp only [titlesIn_append, if_true]
          rw [titlesIn_eq_nil (skillCategory skill) processed
            (fun s hs heq => hkey (heq ▸ hmem s hs))]
          rfl
      · intro s hs
        rw [List.map_append]
        rcases List.mem_append.mp hs with h1 | h1
        · exact List.mem_append_left _ (hmem s h1)
        · simp only [List.mem_singleton] at h1
          rw [h1]
          exact List.mem_append_right _ (by simp)
      · simp only [titleCount, List.map_append, List.sum_append, List.map_cons, List.map_nil,
          List.length_singleton, List.sum_cons, List.sum_nil, List.length_append]
        simp only [titleCount] at hcount
        omega

/-- The loop that fills `grouped` keeps what `Grouped` says. -/
theorem groupSkills_grouped (grouped final : List (String × List (Option String)))
    (processed rest : List Skill)
    (h : groupSkills grouped rest = some final) (hinv : Grouped grouped processed) :
    Grouped final (processed ++ rest) := by
  induction rest generalizing grouped processed with
  | nil =>
    simp only [groupSkills] at h
    cases h
    simpa using hinv
  | cons skill more ih =>
    simp only [groupSkills] at h
    split at h
    · next g1 hg1 =>
      have := ih g1 (processed ++ [skill]) h (groupSkill_grouped grouped g1 processed skill hg1 hinv)
      simpa using this
    · cases h

/-- The loop that fills `grouped` runs to its end when no category is the name
of a property that objects inherit. -/
theorem groupSkills_isSome (grouped : List (String × List (Option String))) (rest : List Skill)
    (h : ∀ s ∈ rest, skillCategory s ∉ objectPrototypeKeys) :
    ∃ final, groupSkills grouped rest = some final := by
  induction rest generalizing grouped with
  | nil => exact ⟨grouped, rfl⟩
  | cons skill more ih =>
    simp only [groupSkills]
    have hs := h skill (by simp)
    rw [groupSkill_eq, if_neg hs]
    by_cases hany : grouped.any (fun e => e.1 == skillCategory skill) = true
    · rw [if_pos hany]
      exact ih _ (fun s hmem => h s (by simp [hmem]))
    · rw [if_neg hany]
      exact ih _ (fun s hmem => h s (by simp [hmem]))

/-- The loop that fills `grouped` throws when a category is the name of a
property that objects inherit. -/
theorem groupSkills_none (grouped : List (String × List (Option String))) (rest : List Skill)
    (h : ∃ s ∈ rest, skillCategory s ∈ objectPrototypeKeys) :
    groupSkills grouped rest = none := by
  induction rest generalizing grouped with
  | nil => simp at h
  | cons skill more ih =>
    simp only [groupSkills]
    by_cases hs : skillCategory skill ∈ objectPrototypeKeys
    · rw [groupSkill_eq, if_pos hs]
    · have hmore : ∃ s ∈ more, skillCategory s ∈ objectPrototypeKeys := by
        obtain ⟨s, hmem, hk⟩ := h
        rcases List.mem_cons.mp hmem with h1 | h1
        · exact absurd (h1 ▸ hk) hs
        · exact ⟨s, h1, hk⟩
      rw [groupSkill_eq, if_neg hs]
      by_cases hany : grouped.any (fun e => e.1 == skillCategory skill) = true
      · rw [if_pos hany]
        exact ih _ hmore
      · rw [if_neg hany]
        exact ih _ hmore

/-- The entries of `Object.entries` are the own properties in another order. -/
theorem objectEntries_perm {α : Type} (obj : List (String × α)) :
    (objectEntries obj).Perm obj := by
  unfold objectEntries
  refine (List.Perm.append_right _ (List.perm_insertionSort _ _)).trans ?_
  exact List.filter_append_perm _ obj

/-- A skill filed under an inherited property name declares its category. -/
theorem truthy_of_prototype_key (skill : Skill)
    (h : skillCategory skill ∈ objectPrototypeKeys) : truthy skill.category = true := by
  unfold skillCategory at h
  by_cases ht : truthy skill.category = true
  · exact ht
  · rw [if_neg ht] at h
    exact absurd h (by decide)

/-- C26 fails on the code for categories named like an inherited property.
For non-empty `about.skills`: if no skill declares a category, the section is
the flat list of bullets and titles in document order, without a category line.
If some skill declares one and no category is the name of a property that
objects inherit (`constructor`, `toString`, ...), the section is one block per
category, the categories distinct, each with the titles of its own skills in
document order (`Other` for a skill that declares none), every skill filed under
a category that is there, as many titles as skills; and the section returns.
If a category is such a name, `grouped[cat].push` throws: the section draws no
skill and the run ends in the `catch` block. -/
theorem skills_grouping (th : Theme) (lib : JsPDF) (contentData : ContentDocument)
    (about : About) (skills : List Skill)
    (ha : contentData.about = some about) (hs : about.skills = some skills)
    (hne : skills ≠ []) :
    ((∀ s ∈ skills, truthy s.category = false) →
        skillsMarks th about = some (concatMap (fun s => skillMarks th s.title) skills)) ∧
      ((∃ s ∈ skills, truthy s.category = true) →
        (∀ s ∈ skills, skillCategory s ∉ objectPrototypeKeys) →
        ∃ entries, skillsMarks th about = some (concatMap (categoryMarks th) entries) ∧
          (entries.map (fun e => e.1)).Nodup ∧
          (∀ e ∈ entries, e.2 = titlesIn e.1 skills ∧ e.2 ≠ []) ∧
          (∀ s ∈ skills, skillCategory s ∈ entries.map (fun e => e.1)) ∧
          titleCount entries = skills.length) ∧
      (∀ s0 s1, skillsSection th lib contentData s0 = .ok s1 →
        ∃ m, skillsMarks th about = some m ∧
          marksOf s1.calls =
            marksOf s0.calls ++ headingMarks th "Skills and Interests" ++ m) ∧
      ((∀ s ∈ skills, skillCategory s ∉ objectPrototypeKeys) →
        ∀ s0, ∃ s1, skillsSection th lib contentData s0 = .ok s1) ∧
      ((∃ s ∈ skills, skillCategory s ∈ objectPrototypeKeys) →
        skillsMarks th about = none ∧
          ∀ s0, ∃ e, skillsSection th lib contentData s0 = .error e ∧
            e.message = "TypeError: grouped[cat].push is not a function") := by
  have hlen : skills.length > 0 := List.length_pos.mpr hne
  refine ⟨?_, ?_, ?_, ?_, ?_⟩
  · intro hflat
    have hcat : skills.any (fun skill => truthy skill.category) = false := by
      rw [List.any_eq_false]
      intro s hmem
      rw [hflat s hmem]
      simp
    simp [skillsMarks, hs, hlen, hcat]
  · intro hsome hkeys
    have hcat : skills.any (fun skill => truthy skill.category) = true := by
      rw [List.any_eq_true]
      exact hsome
    obtain ⟨grouped, hg⟩ := groupSkills_isSome [] skills hkeys
    have hinv := groupSkills_grouped [] grouped [] skills hg
      ⟨List.nodup_nil, fun e he => (by cases he), fun s hmem => (by cases hmem), rfl⟩
    rw [List.nil_append] at hinv
    obtain ⟨hnd, hent, hmem, hcount⟩ := hinv
    have hperm := objectEntries_perm grouped
    refine ⟨objectEntries grouped, by simp [skillsMarks, hs, hlen, hcat, hg], ?_, ?_, ?_, ?_⟩
    · exact (hperm.map _).nodup_iff.mpr hnd
    · intro e he
      exact hent e (hperm.mem_iff.mp he)
    · intro s hsm
      exact (hperm.map _).mem_iff.mpr (hmem s hsm)
    · rw [← hcount]
      exact ((hperm.map _).sum_eq)
  · intro s0 s1 hrun
    obtain ⟨about1, m, ha1, hm, hmarks⟩ := skillsSection_marks th lib contentData s0 s1 hrun
    rw [ha] at ha1
    cases ha1
    exact ⟨m, hm, hmarks⟩
  · intro hkeys s0
    obtain ⟨grouped, hg⟩ := groupSkills_isSome [] skills hkeys
    by_cases hcat : skills.any (fun skill => truthy skill.category) = true
    · exact ⟨_, by
        simp only [skillsSection, ha, hs, req, bind, Except.bind, pure, Except.pure, hlen,
          if_true, hcat, hg]
        rfl⟩
    · exact ⟨_, by
        simp only [skillsSection, ha, hs, req, bind, Except.bind, pure, Except.pure, hlen,
          if_true, hcat]
        rfl⟩
  · intro hbad
    have hg := groupSkills_none [] skills hbad
    have hcat : skills.any (fun skill => truthy skill.category) = true := by
      obtain ⟨s, hmem, hk⟩ := hbad
      rw [List.any_eq_true]
      exact ⟨s, hmem, truthy_of_prototype_key s hk⟩
    refine ⟨by simp [skillsMarks, hs, hlen, hcat, hg], fun s0 => ?_⟩
    refine ⟨{ message := "TypeError: " ++ "grouped[cat].push is not a function",
              calls := (addSection th lib "Skills and Interests" none s0).calls }, ?_, rfl⟩
    simp only [skillsSection, ha, hs, req, bind, Except.bind, pure, Except.pure, hlen,
      if_true, hcat, hg]

/-- C26 on the skills of `fullDocument` (two categories) and on skills with the
category `constructor` (the section throws). -/
theorem skills_grouping_witness :
    fullDocument.about = some { skills := some fullSkills } ∧
      skillsMarks pdfTheme { skills := some fullSkills } =
        some (concatMap (categoryMarks pdfTheme)
          [("Mathematics", [some "Analysis", some "Algebra"]), ("Other", [some "Music"])]) ∧
      (∃ e, skillsSection pdfTheme sampleA4 constructorSkillsDocument sampleState = .error e ∧
        e.message = "TypeError: grouped[cat].push is not a function") := by
  have hfull := skills_grouping pdfTheme sampleA4 fullDocument { skills := some fullSkills }
    fullSkills rfl rfl (by decide)
  have hbad := skills_grouping pdfTheme sampleA4 constructorSkillsDocument
    { skills := some constructorSkills } constructorSkills rfl rfl (by decide)
  obtain ⟨entries, hm, _, _, _, _⟩ := hfull.2.1 (by decide) (by decide)
  refine ⟨rfl, ?_, (hbad.2.2.2.2 (by decide)).2 sampleState⟩
  rw [hm]
  have hval : skillsMarks pdfTheme { skills := some fullSkills } =
      some (concatMap (categoryMarks pdfTheme)
        [("Mathematics", [some "Analysis", some "Algebra"]), ("Other", [some "Music"])]) := by
    decide
  rw [← hm, hval]

theorem cursorOk_call {lo hi : ℚ} {s : PdfState} (c : DocCall) (hc : c.inPage lo hi)
    (h : CursorOk lo hi s) : CursorOk lo hi (call c s) := by
  refine ⟨h.1, fun d hd => ?_⟩
  rcases List.mem_append.mp hd with h1 | h1
  · exact h.2 d h1
  · simp only [List.mem_singleton] at h1
    rw [h1]
    exact hc

theorem cursorOk_useFont {lo hi : ℚ} {s : PdfState} (f : Font)
    (h : CursorOk lo hi s) : CursorOk lo hi (useFont f s) := by
  refine ⟨h.1, fun d hd => ?_⟩
  rcases List.mem_append.mp hd with h1 | h1
  · exact h.2 d h1
  · simp only [List.mem_cons, List.mem_singleton, List.not_mem_nil, or_false] at h1
    rcases h1 with h1 | h1 <;> (rw [h1]; trivial)

theorem cursorOk_drawText {lo hi : ℚ} {s : PdfState} (t : TextArg) (x : ℚ) (a : Option String)
    (hy : s.y ≤ hi) (h : CursorOk lo hi s) : CursorOk lo hi (drawText t x a s) :=
  cursorOk_call _ ⟨h.1, hy⟩ h

theorem cursorOk_advance {lo hi : ℚ} {s : PdfState} (d : ℚ) (hd : 0 ≤ d)
    (h : CursorOk lo hi s) : CursorOk lo hi (advance d s) :=
  ⟨by show lo ≤ s.y + d; linarith [h.1], h.2⟩

/-- The guard `checkPageBreak` on an A4 page: afterwards the required space is
there, or the cursor is at the top margin of a new page. -/
theorem cursorOk_checkPageBreak (lib : JsPDF) (hH : lib.pageHeight = 297) (r : ℚ)
    (s : PdfState) (h : CursorOk 25 272 s) :
    CursorOk 25 272 (checkPageBreak pdfTheme lib r s) ∧
      ((checkPageBreak pdfTheme lib r s).y + r ≤ 272 ∨
        (checkPageBreak pdfTheme lib r s).y = 25) := by
  unfold checkPageBreak
  split
  · refine ⟨⟨le_refl _, fun d hd => ?_⟩, Or.inr rfl⟩
    rcases List.mem_append.mp hd with h1 | h1
    · exact h.2 d h1
    · simp only [List.mem_singleton] at h1
      rw [h1]
      trivial
  · next hno =>
    refine ⟨h, Or.inl ?_⟩
    rw [hH] at hno
    have : pdfTheme.layout.margin = 25 := rfl
    rw [this] at hno
    linarith

/-- The guard `ensureBlockFits` on an A4 page: afterwards the block height is
there, or the cursor is at the top margin of a new page. -/
theorem cursorOk_ensureBlockFits (lib : JsPDF) (hH : lib.pageHeight = 297) (r : ℚ)
    (s : PdfState) (h : CursorOk 25 272 s) :
    CursorOk 25 272 (ensureBlockFits pdfTheme lib r s) ∧
      ((ensureBlockFits pdfTheme lib r s).y + r ≤ 272 ∨
        (ensureBlockFits pdfTheme lib r s).y = 25) :=
  cursorOk_checkPageBreak lib hH r s h

theorem lineHeight_eq : pdfTheme.layout.lineHeight = 4.5 := rfl

theorem margin_eq : pdfTheme.layout.margin = 25 := rfl

theorem cursorOk_addWrappedText (lib : JsPDF) (text : String) (o : WrapOptions)
    (hlh : o.lineHeight = some 4) (s : PdfState) (hy : s.y ≤ 272) (h : CursorOk 25 272 s) :
    CursorOk 25 272 (addWrappedText pdfTheme lib text o s).1 ∧
      (addWrappedText pdfTheme lib text o s).1.y = s.y ∧
      0 ≤ (addWrappedText pdfTheme lib text o s).2 := by
  refine ⟨?_, rfl, ?_⟩
  · exact cursorOk_drawText _ _ _ hy (cursorOk_call _ trivial (cursorOk_call _ trivial
      (cursorOk_useFont _ h)))
  · show 0 ≤ ((wrappedLines lib text o).length : ℚ) * numOr o.lineHeight pdfTheme.layout.lineHeight
    rw [hlh]
    have : numOr (some 4) pdfTheme.layout.lineHeight = 4 := by
      unfold numOr
      norm_num
    rw [this]
    positivity

theorem cursorOk_addSection (lib : JsPDF) (hH : lib.pageHeight = 297) (title : String)
    (s : PdfState) (h : CursorOk 25 272 s) :
    CursorOk 25 272 (addSection pdfTheme lib title none s) ∧
      (addSection pdfTheme lib title none s).y ≤ 272 := by
  have h0 : CursorOk 25 272 { s with y := numOr none s.y } := h
  obtain ⟨hok, hy⟩ := cursorOk_checkPageBreak lib hH 16 _ h0
  unfold addSection
  dsimp only
  generalize checkPageBreak pdfTheme lib 16 { s with y := numOr none s.y } = s1 at hok hy
  have hle : s1.y ≤ 272 := by rcases hy with h1 | h1 <;> linarith
  have hle2 : s1.y + pdfTheme.layout.lineHeight * 1.7 ≤ 272 := by
    rw [lineHeight_eq]
    rcases hy with h1 | h1 <;> linarith
  have hge2 : (25 : ℚ) ≤ s1.y + pdfTheme.layout.lineHeight * 1.7 := by
    rw [lineHeight_eq]
    linarith [hok.1]
  have hfinal : s1.y + pdfTheme.layout.lineHeight * 1.7 + 5 ≤ 272 := by
    rw [lineHeight_eq]
    rcases hy with h1 | h1 <;> linarith
  refine ⟨?_, hfinal⟩
  exact cursorOk_advance 5 (by norm_num) (cursorOk_call _ ⟨hge2, hle2, hge2, hle2⟩
    (cursorOk_call _ trivial (cursorOk_call _ trivial
      (cursorOk_advance _ (by rw [lineHeight_eq]; norm_num)
        (cursorOk_drawText _ _ _ hle (cursorOk_call _ trivial (cursorOk_useFont _ hok)))))))

theorem cursorOk_foldl {α : Type} (f : PdfState → α → PdfState)
    (hf : ∀ s a, CursorOk 25 272 s → CursorOk 25 272 (f s a)) (l : List α) (s : PdfState)
    (h : CursorOk 25 272 s) : CursorOk 25 272 (l.foldl f s) := by
  induction l generalizing s with
  | nil => exact h
  | cons a rest ih => exact ih _ (hf s a h)

theorem resultOk_req_bind {α : Type} (v : Option α) (what : String) (s : PdfState)
    (f : α → Except RenderError PdfState) (hs : ∀ c ∈ s.calls, c.inPage 25 272)
    (hf : ∀ a, ResultOk 25 272 (f a)) : ResultOk 25 272 (req v what s >>= f) := by
  cases v with
  | none => exact hs
  | some a => exact hf a

theorem resultOk_bind (x : Except RenderError PdfState)
    (f : PdfState → Except RenderError PdfState) (hx : ResultOk 25 272 x)
    (hf : ∀ a, CursorOk 25 272 a → ResultOk 25 272 (f a)) : ResultOk 25 272 (x >>= f) := by
  cases x with
  | error e => exact hx
  | ok a => exact hf a hx

theorem resultOk_forEachIdx {α : Type} (f : α → Nat → PdfState → Except RenderError PdfState)
    (hf : ∀ a i s, CursorOk 25 272 s → ResultOk 25 272 (f a i s))
    (l : List α) (i : Nat) (s : PdfState) (h : CursorOk 25 272 s) :
    ResultOk 25 272 (forEachIdx f l i s) := by
  induction l generalizing i s with
  | nil => exact h
  | cons a rest ih =>
    unfold forEachIdx
    have h1 := hf a i s h
    cases hfa : f a i s with
    | error e => rw [hfa] at h1; exact h1
    | ok s1 => rw [hfa] at h1; exact ih _ _ h1

theorem cursorOk_bulletLine (lib : JsPDF) (hH : lib.pageHeight = 297) (text : String)
    (s : PdfState) (h : CursorOk 25 272 s) : CursorOk 25 272 (bulletLine pdfTheme lib text s) := by
  obtain ⟨hok, hy⟩ := cursorOk_checkPageBreak lib hH 10 s h
  unfold bulletLine
  dsimp only
  generalize checkPageBreak pdfTheme lib 10 s = s1 at hok hy
  have hle : s1.y ≤ 272 := by rcases hy with h1 | h1 <;> linarith
  have h2 : CursorOk 25 272 (drawText (TextArg.str (some "•")) pdfTheme.layout.margin none
      (call (DocCall.setTextColor pdfTheme.colors.primary) (useFont pdfTheme.fonts.body s1))) :=
    cursorOk_drawText _ _ _ hle (cursorOk_call _ trivial (cursorOk_useFont _ hok))
  have hle2 : (drawText (TextArg.str (some "•")) pdfTheme.layout.margin none
      (call (DocCall.setTextColor pdfTheme.colors.primary)
        (useFont pdfTheme.fonts.body s1))).y ≤ 272 := hle
  generalize drawText (TextArg.str (some "•")) pdfTheme.layout.margin none
      (call (DocCall.setTextColor pdfTheme.colors.primary) (useFont pdfTheme.fonts.body s1)) = s2
    at h2 hle2
  obtain ⟨h3, _, h4⟩ := cursorOk_addWrappedText lib text
    { x := pdfTheme.layout.margin + 4, font := pdfTheme.fonts.body,
      color := pdfTheme.colors.primary,
      maxWidth := lib.pageWidth - pdfTheme.layout.margin * 2 - 4, lineHeight := some 4 } rfl s2
    hle2 h2
  exact cursorOk_advance _ (by linarith) h3

theorem cursorOk_skillLine (lib : JsPDF) (hH : lib.pageHeight = 297) (t : Option String)
    (s : PdfState) (h : CursorOk 25 272 s) : CursorOk 25 272 (skillLine pdfTheme lib t s) := by
  obtain ⟨hok, hy⟩ := cursorOk_ensureBlockFits lib hH 8 s h
  unfold skillLine
  dsimp only
  generalize ensureBlockFits pdfTheme lib 8 s = s1 at hok hy
  have hle : s1.y ≤ 272 := by rcases hy with h1 | h1 <;> linarith
  exact cursorOk_advance _ (by rw [lineHeight_eq]; norm_num)
    (cursorOk_drawText _ _ _ hle (cursorOk_drawText _ _ _ hle
      (cursorOk_call _ trivial (cursorOk_useFont _ hok))))

theorem cursorOk_categoryBlock (lib : JsPDF) (hH : lib.pageHeight = 297)
    (entry : String × List (Option String)) (s : PdfState) (h : CursorOk 25 272 s) :
    CursorOk 25 272 (categoryBlock pdfTheme lib entry s) := by
  obtain ⟨hok, hy⟩ := cursorOk_ensureBlockFits lib hH (14 + entry.2.length * 7) s h
  unfold categoryBlock
  dsimp only
  generalize ensureBlockFits pdfTheme lib (14 + entry.2.length * 7) s = s1 at hok hy
  have hn : (0 : ℚ) ≤ (entry.2.length : ℚ) * 7 := by positivity
  have hle : s1.y ≤ 272 := by rcases hy with h1 | h1 <;> linarith
  exact cursorOk_advance 4 (by norm_num) (cursorOk_foldl _
    (fun s2 a hs2 => cursorOk_skillLine lib hH a s2 hs2) _ _
    (cursorOk_advance _ (by rw [lineHeight_eq]; norm_num)
      (cursorOk_drawText _ _ _ hle (cursorOk_call _ trivial (cursorOk_useFont _ hok)))))

theorem cursorOk_referenceBlock (lib : JsPDF) (hH : lib.pageHeight = 297) (ref : Reference)
    (s : PdfState) (h : CursorOk 25 272 s) :
    CursorOk 25 272 (referenceBlock pdfTheme lib ref s) := by
  obtain ⟨hok, hy⟩ := cursorOk_ensureBlockFits lib hH 16 s h
  unfold referenceBlock
  dsimp only
  generalize ensureBlockFits pdfTheme lib 16 s = s1 at hok hy
  have hle : s1.y ≤ 272 := by rcases hy with h1 | h1 <;> linarith
  have hle2 : s1.y + pdfTheme.layout.lineHeight * 1.5 ≤ 272 := by
    rw [lineHeight_eq]
    rcases hy with h1 | h1 <;> linarith
  exact cursorOk_advance _ (by rw [lineHeight_eq]; norm_num)
    (cursorOk_drawText _ _ _ hle2 (cursorOk_call _ trivial (cursorOk_useFont _
      (cursorOk_advance _ (by rw [lineHeight_eq]; norm_num)
        (cursorOk_drawText _ _ _ hle (cursorOk_call _ trivial (cursorOk_useFont _ hok)))))))

theorem sectionSpacing_eq : pdfTheme.layout.sectionSpacing = 8 := rfl

theorem resultOk_headerSection (lib : JsPDF) (contentData : ContentDocument) (s : PdfState)
    (h : CursorOk 25 272 s) (hy : s.y + 23 ≤ 272) :
    ResultOk 25 272 (headerSection pdfTheme lib contentData s) := by
  unfold headerSection
  refine resultOk_req_bind _ _ _ _ h.2 (fun personal => ?_)
  dsimp only
  have h1 : CursorOk 25 272 (useFont pdfTheme.fonts.name
      (call (DocCall.setTextColor pdfTheme.colors.primary)
        (call (DocCall.getTextWidth personal.name) s))) :=
    cursorOk_useFont _ (cursorOk_call _ trivial (cursorOk_call _ trivial h))
  refine resultOk_req_bind _ _ _ _ h1.2 (fun name => ?_)
  have hs := h.1
  have e1 : s.y ≤ 272 := by linarith
  have e2 : s.y + 6 ≤ 272 := by linarith
  have e3 : s.y + 6 + 5 ≤ 272 := by linarith
  have e4 : s.y + 6 + 5 + 12 ≤ 272 := by linarith
  have e5 : (25 : ℚ) ≤ s.y + 6 + 5 + 12 := by linarith
  exact cursorOk_advance 10 (by norm_num) (cursorOk_call _ ⟨e5, e4, e5, e4⟩
    (cursorOk_call _ trivial (cursorOk_call _ trivial (cursorOk_advance 12 (by norm_num)
      (cursorOk_drawText _ _ _ e3 (cursorOk_call _ trivial (cursorOk_useFont _
        (cursorOk_advance 5 (by norm_num) (cursorOk_drawText _ _ _ e2 (cursorOk_call _ trivial
          (cursorOk_useFont _ (cursorOk_advance 6 (by norm_num)
            (cursorOk_drawText _ _ _ e1 h1)))))))))))))

theorem resultOk_profileSection (lib : JsPDF) (hH : lib.pageHeight = 297)
    (contentData : ContentDocument) (s : PdfState) (h : CursorOk 25 272 s) :
    ResultOk 25 272 (profileSection pdfTheme lib contentData s) := by
  obtain ⟨hok, hy⟩ := cursorOk_addSection lib hH "Profile" s h
  unfold profileSection
  dsimp only
  generalize addSection pdfTheme lib "Profile" none s = s1 at hok hy
  refine resultOk_req_bind _ _ _ _ hok.2 (fun source => ?_)
  obtain ⟨h3, _, h4⟩ := cursorOk_addWrappedText lib (stripTags source)
    { x := pdfTheme.layout.margin, font := pdfTheme.fonts.body,
      color := pdfTheme.colors.primary,
      maxWidth := lib.pageWidth - pdfTheme.layout.margin * 2, lineHeight := some 4 } rfl s1
    hy hok
  exact cursorOk_advance _ (by rw [sectionSpacing_eq]; norm_num) (cursorOk_advance _ h4 h3)

theorem resultOk_projectBlock (lib : JsPDF) (hH : lib.pageHeight = 297) (count : Nat)
    (project : Project) (index : Nat) (s : PdfState) (h : CursorOk 25 272 s) :
    ResultOk 25 272 (projectBlock pdfTheme lib count project index s) := by
  obtain ⟨hok, hy⟩ := cursorOk_ensureBlockFits lib hH 25 s h
  unfold projectBlock
  dsimp only
  generalize ensureBlockFits pdfTheme lib 25 s = s1 at hok hy
  have h1 : CursorOk 25 272 (call (DocCall.setTextColor pdfTheme.colors.primary)
      (useFont pdfTheme.fonts.jobTitle s1)) := cursorOk_call _ trivial (cursorOk_useFont _ hok)
  refine resultOk_req_bind _ _ _ _ h1.2 (fun title => ?_)
  dsimp only
  have hle : s1.y ≤ 272 := by rcases hy with h2 | h2 <;> linarith
  have hle2 : s1.y + pdfTheme.layout.lineHeight * 1.5 ≤ 272 := by
    rw [lineHeight_eq]
    rcases hy with h2 | h2 <;> linarith
  have h2 : CursorOk 25 272 (advance (pdfTheme.layout.lineHeight * 1.5)
      (drawText (TextArg.str (some (toUpperCase title))) pdfTheme.layout.margin none
        (call (DocCall.setTextColor pdfTheme.colors.primary)
          (useFont pdfTheme.fonts.jobTitle s1)))) :=
    cursorOk_advance _ (by rw [lineHeight_eq]; norm_num) (cursorOk_drawText _ _ _ hle h1)
  have h3 : CursorOk 25 272 (if truthy project.subtitle = true then
      advance (pdfTheme.layout.lineHeight * 1.3)
        (drawText (TextArg.str project.subtitle) pdfTheme.layout.margin none
          (call (DocCall.setTextColor pdfTheme.colors.secondary)
            (useFont pdfTheme.fonts.italic
              (advance (pdfTheme.layout.lineHeight * 1.5)
                (drawText (TextArg.str (some (toUpperCase title))) pdfTheme.layout.margin none
                  (call (DocCall.setTextColor pdfTheme.colors.primary)
                    (useFont pdfTheme.fonts.jobTitle s1)))))))
      else advance (pdfTheme.layout.lineHeight * 1.5)
        (drawText (TextArg.str (some (toUpperCase title))) pdfTheme.layout.margin none
          (call (DocCall.setTextColor pdfTheme.colors.primary)
            (useFont pdfTheme.fonts.jobTitle s1)))) := by
    split
    · exact cursorOk_advance _ (by rw [lineHeight_eq]; norm_num)
        (cursorOk_drawText _ _ _ hle2 (cursorOk_call _ trivial (cursorOk_useFont _ h2)))
    · exact h2
  refine resultOk_req_bind _ _ _ _ h3.2 (fun description => ?_)
  have h4 := cursorOk_foldl (fun s line => bulletLine pdfTheme lib (trim line) s)
    (fun s2 a hs2 => cursorOk_bulletLine lib hH _ s2 hs2) (descLines description) _ h3
  show ResultOk 25 272 (pure _)
  simp only [ResultOk, pure, Except.pure]
  split
  · exact cursorOk_advance 8 (by norm_num) h4
  · exact h4

theorem resultOk_projectsSection (lib : JsPDF) (hH : lib.pageHeight = 297)
    (contentData : ContentDocument) (s : PdfState) (h : CursorOk 25 272 s) :
    ResultOk 25 272 (projectsSection pdfTheme lib contentData s) := by
  unfold projectsSection
  refine resultOk_req_bind _ _ _ _ h.2 (fun projects => ?_)
  cases projects.items with
  | none => exact h
  | some items =>
    dsimp only
    split
    · refine resultOk_bind _ _ (resultOk_forEachIdx _
        (fun a i s2 hs2 => resultOk_projectBlock lib hH _ a i s2 hs2) _ _ _
        (cursorOk_addSection lib hH "Projects" s h).1) (fun s3 h3 => ?_)
      exact cursorOk_advance _ (by rw [sectionSpacing_eq]; norm_num) h3
    · exact h

theorem estimate_ge (n : Nat) :
    pdfTheme.layout.lineHeight * 1.5 ≤ estimateJobBlockHeight pdfTheme n := by
  unfold estimateJobBlockHeight
  dsimp only
  rw [lineHeight_eq]
  have : (0 : ℚ) ≤ (n : ℚ) * (4.5 * 1.1 + 2.5) := by positivity
  linarith

theorem resultOk_jobBlock (lib : JsPDF) (hH : lib.pageHeight = 297) (count : Nat)
    (job : Job) (index : Nat) (s : PdfState) (h : CursorOk 25 272 s) :
    ResultOk 25 272 (jobBlock pdfTheme lib count job index s) := by
  unfold jobBlock
  refine resultOk_req_bind _ _ _ _ h.2 (fun achievements => ?_)
  obtain ⟨hok, hy⟩ := cursorOk_ensureBlockFits lib hH
    (estimateJobBlockHeight pdfTheme achievements.length) s h
  have hest := estimate_ge achievements.length
  dsimp only
  generalize ensureBlockFits pdfTheme lib
    (estimateJobBlockHeight pdfTheme achievements.length) s = s1 at hok hy
  have h1 : CursorOk 25 272 (call (DocCall.setTextColor pdfTheme.colors.primary)
      (useFont pdfTheme.fonts.jobTitle s1)) := cursorOk_call _ trivial (cursorOk_useFont _ hok)
  refine resultOk_req_bind _ _ _ _ h1.2 (fun title => ?_)
  have hle2 : s1.y + pdfTheme.layout.lineHeight * 1.5 ≤ 272 := by
    rcases hy with h2 | h2
    · linarith
    · rw [lineHeight_eq, h2]
      norm_num
  have hle : s1.y ≤ 272 := by
    have := hle2
    rw [lineHeight_eq] at this
    linarith
  have h3 : CursorOk 25 272 (advance (pdfTheme.layout.lineHeight * 1.7)
      (drawText (TextArg.str (some (jsToString job.company ++ ", " ++ jsToString job.location)))
        pdfTheme.layout.margin none
        (call (DocCall.setTextColor pdfTheme.colors.secondary)
          (useFont pdfTheme.fonts.body
            (advance (pdfTheme.layout.lineHeight * 1.5)
              (drawText (TextArg.str job.period) (lib.pageWidth - pdfTheme.layout.margin)
                (some "right")
                (call (DocCall.setTextColor pdfTheme.colors.secondary)
                  (useFont pdfTheme.fonts.small
                    (drawText (TextArg.str (some (toUpperCase title))) pdfTheme.layout.margin
                      none
                      (call (DocCall.setTextColor pdfTheme.colors.primary)
                        (useFont pdfTheme.fonts.jobTitle s1))))))))))) :=
    cursorOk_advance _ (by rw [lineHeight_eq]; norm_num)
      (cursorOk_drawText _ _ _ hle2 (cursorOk_call _ trivial (cursorOk_useFont _
        (cursorOk_advance _ (by rw [lineHeight_eq]; norm_num)
          (cursorOk_drawText _ _ _ hle (cursorOk_call _ trivial (cursorOk_useFont _
            (cursorOk_drawText _ _ _ hle h1))))))))
  have h4 := cursorOk_foldl (fun s achievement => bulletLine pdfTheme lib achievement s)
    (fun s2 a hs2 => cursorOk_bulletLine lib hH _ s2 hs2) achievements _ h3
  show ResultOk 25 272 (pure _)
  simp only [ResultOk, pure, Except.pure]
  split
  · exact cursorOk_advance 10 (by norm_num) h4
  · exact h4

theorem resultOk_experienceSection (lib : JsPDF) (hH : lib.pageHeight = 297)
    (contentData : ContentDocument) (s : PdfState) (h : CursorOk 25 272 s) :
    ResultOk 25 272 (experienceSection pdfTheme lib contentData s) := by
  obtain ⟨hok, _⟩ := cursorOk_addSection lib hH "Professional Experience" s h
  unfold experienceSection
  dsimp only
  generalize addSection pdfTheme lib "Professional Experience" none s = s1 at hok
  refine resultOk_req_bind _ _ _ _ hok.2 (fun resume => ?_)
  refine resultOk_req_bind _ _ _ _ hok.2 (fun experience => ?_)
  refine resultOk_bind _ _ (resultOk_forEachIdx _
    (fun a i s2 hs2 => resultOk_jobBlock lib hH _ a i s2 hs2) _ _ _ hok) (fun s3 h3 => ?_)
  exact cursorOk_advance _ (by rw [sectionSpacing_eq]; norm_num) h3

theorem resultOk_educationBlock (lib : JsPDF) (hH : lib.pageHeight = 297) (count : Nat)
    (edu : Education) (index : Nat) (s : PdfState) (h : CursorOk 25 272 s) :
    ResultOk 25 272 (educationBlock pdfTheme lib count edu index s) := by
  obtain ⟨hok, hy⟩ := cursorOk_ensureBlockFits lib hH 18 s h
  unfold educationBlock
  dsimp only
  generalize ensureBlockFits pdfTheme lib 18 s = s1 at hok hy
  have h1 : CursorOk 25 272 (call (DocCall.setTextColor pdfTheme.colors.primary)
      (useFont pdfTheme.fonts.jobTitle s1)) := cursorOk_call _ trivial (cursorOk_useFont _ hok)
  refine resultOk_req_bind _ _ _ _ h1.2 (fun institution => ?_)
  have hle : s1.y ≤ 272 := by rcases hy with h2 | h2 <;> linarith
  have hle2 : s1.y + pdfTheme.layout.lineHeight * 1.5 ≤ 272 := by
    rw [lineHeight_eq]
    rcases hy with h2 | h2 <;> linarith
  have h4 : CursorOk 25 272 (drawText (.str edu.degree) pdfTheme.layout.margin none
      (call (DocCall.setTextColor pdfTheme.colors.secondary) (useFont pdfTheme.fonts.body
        (advance (pdfTheme.layout.lineHeight * 1.5)
          (drawText (.str edu.period) (lib.pageWidth - pdfTheme.layout.margin) (some "right")
            (call (DocCall.setTextColor pdfTheme.colors.secondary)
              (useFont pdfTheme.fonts.small
                (drawText (.str (some (toUpperCase institution))) pdfTheme.layout.margin none
                  (call (DocCall.setTextColor pdfTheme.colors.primary)
                    (useFont pdfTheme.fonts.jobTitle s1)))))))))) :=
    cursorOk_drawText _ _ _ hle2 (cursorOk_call _ trivial (cursorOk_useFont _
      (cursorOk_advance _ (by rw [lineHeight_eq]; norm_num)
        (cursorOk_drawText _ _ _ hle (cursorOk_call _ trivial (cursorOk_useFont _
          (cursorOk_drawText _ _ _ hle h1)))))))
  show ResultOk 25 272 (pure _)
  simp only [ResultOk, pure, Except.pure]
  split
  · exact cursorOk_advance _ (by rw [lineHeight_eq]; norm_num) h4
  · exact cursorOk_advance _ (by rw [lineHeight_eq]; norm_num) h4

theorem resultOk_educationSection (lib : JsPDF) (hH : lib.pageHeight = 297)
    (contentData : ContentDocument) (s : PdfState) (h : CursorOk 25 272 s) :
    ResultOk 25 272 (educationSection pdfTheme lib contentData s) := by
  obtain ⟨hok, _⟩ := cursorOk_addSection lib hH "Education" s h
  unfold educationSection
  dsimp only
  generalize addSection pdfTheme lib "Education" none s = s1 at hok
  refine resultOk_req_bind _ _ _ _ hok.2 (fun resume => ?_)
  refine resultOk_req_bind _ _ _ _ hok.2 (fun education => ?_)
  refine resultOk_bind _ _ (resultOk_forEachIdx _
    (fun a i s2 hs2 => resultOk_educationBlock lib hH _ a i s2 hs2) _ _ _ hok) (fun s3 h3 => ?_)
  exact cursorOk_advance _ (by rw [sectionSpacing_eq]; norm_num) h3

theorem resultOk_skillsSection (lib : JsPDF) (hH : lib.pageHeight = 297)
    (contentData : ContentDocument) (s : PdfState) (h : CursorOk 25 272 s) :
    ResultOk 25 272 (skillsSection pdfTheme lib contentData s) := by
  obtain ⟨hok, _⟩ := cursorOk_addSection lib hH "Skills and Interests" s h
  unfold skillsSection
  generalize addSection pdfTheme lib "Skills and Interests" none s = s1 at hok
  refine resultOk_req_bind _ _ _ _ hok.2 (fun about => ?_)
  dsimp only
  have hsp : (0 : ℚ) ≤ pdfTheme.layout.sectionSpacing + 4 := by
    rw [sectionSpacing_eq]
    norm_num
  split
  · exact cursorOk_advance _ hsp hok
  · next skills _ =>
    split
    · split
      · refine resultOk_req_bind _ _ _ _ hok.2 (fun grouped => ?_)
        exact cursorOk_advance _ hsp (cursorOk_foldl _
          (fun s2 a hs2 => cursorOk_categoryBlock lib hH a s2 hs2) _ _ hok)
      · exact cursorOk_advance _ hsp (cursorOk_foldl _
          (fun s2 a hs2 => cursorOk_skillLine lib hH _ s2 hs2) _ _
          (cursorOk_ensureBlockFits lib hH _ _ hok).1)
    · exact cursorOk_advance _ hsp hok

theorem resultOk_referenceSection (lib : JsPDF) (hH : lib.pageHeight = 297)
    (contentData : ContentDocument) (s : PdfState) (h : CursorOk 25 272 s) :
    ResultOk 25 272 (referenceSection pdfTheme lib contentData s) := by
  unfold referenceSection
  refine resultOk_req_bind _ _ _ _ h.2 (fun resume => ?_)
  split
  · exact h
  · next references _ =>
    split
    · exact cursorOk_foldl _ (fun s2 a hs2 => cursorOk_referenceBlock lib hH a s2 hs2) _ _
        (cursorOk_addSection lib hH _ s h).1
    · exact h

theorem resultOk_saveSection (contentData : ContentDocument) (s : PdfState)
    (h : CursorOk 25 272 s) : ResultOk 25 272 (saveSection contentData s) := by
  unfold saveSection
  refine resultOk_req_bind _ _ _ _ h.2 (fun personal => ?_)
  refine resultOk_req_bind _ _ _ _ h.2 (fun name => ?_)
  exact cursorOk_call _ trivial h

/-- On an A4 page, whatever the document and the wrapping, a run of the `try`
block keeps the cursor at or below the top margin line and places every text
and rule between the margins. -/
theorem resultOk_render (lib : JsPDF) (hH : lib.pageHeight = 297)
    (contentData : ContentDocument) : ResultOk 25 272 (render pdfTheme lib contentData) := by
  unfold render
  dsimp only
  have h0 : CursorOk 25 272 { y := pdfTheme.layout.margin, font := defaultFont, calls := [] } :=
    ⟨le_refl _, fun c hc => by cases hc⟩
  refine resultOk_bind _ _ (resultOk_headerSection lib contentData _ h0
    (by show pdfTheme.layout.margin + 23 ≤ 272; rw [margin_eq]; norm_num)) (fun s1 h1 => ?_)
  refine resultOk_bind _ _ (resultOk_profileSection lib hH contentData _ h1) (fun s2 h2 => ?_)
  refine resultOk_bind _ _ (resultOk_projectsSection lib hH contentData _ h2) (fun s3 h3 => ?_)
  refine resultOk_bind _ _ (resultOk_experienceSection lib hH contentData _ h3) (fun s4 h4 => ?_)
  refine resultOk_bind _ _ (resultOk_educationSection lib hH contentData _ h4) (fun s5 h5 => ?_)
  refine resultOk_bind _ _ (resultOk_skillsSection lib hH contentData _ h5) (fun s6 h6 => ?_)
  refine resultOk_bind _ _ (resultOk_referenceSection lib hH contentData _ h6) (fun s7 h7 => ?_)
  exact resultOk_saveSection contentData s7 h7

/-- The calls that returned in a run of `generateResumePDF` are among the calls
the `try` block meant to make. -/
theorem generateResumePDF_calls_mem (lib : JsPDF) (contentData : ContentDocument)
    (c : DocCall) (hc : c ∈ (generateResumePDF (.resolved lib) contentData).calls) :
    c ∈ callsOf (render pdfTheme lib contentData) := by
  unfold generateResumePDF at hc
  dsimp only at hc
  cases hr : render pdfTheme lib contentData with
  | error e =>
    rw [hr] at hc
    dsimp only at hc
    cases hplay : playCalls lib [] e.calls with
    | mk played thrown =>
      obtain ⟨rest, hrest, _⟩ := playCalls_prefix lib _ _ _ _ hplay
      rw [hplay] at hc
      simp only [List.nil_append] at hrest
      show c ∈ e.calls
      rw [hrest]
      cases thrown <;> exact List.mem_append_left _ hc
  | ok s =>
    rw [hr] at hc
    dsimp only at hc
    cases hplay : playCalls lib [] s.calls with
    | mk played thrown =>
      obtain ⟨rest, hrest, _⟩ := playCalls_prefix lib _ _ _ _ hplay
      rw [hplay] at hc
      simp only [List.nil_append] at hrest
      show c ∈ s.calls
      rw [hrest]
      cases thrown <;> exact List.mem_append_left _ hc

/-- C29: on an A4 page (`pageHeight = 297`) with `pdfTheme`, for every document
and every wrapping result, in exact rationals: a run of the `try` block that
returns leaves the cursor at `y ≥ margin = 25` and has placed every text and
every rule at a height between `margin` and `pageHeight - margin = 272`; a run
that throws has placed everything it placed in that range; so has every call
that returned in a run of `generateResumePDF`, in particular every `doc.text`
call (section headings, block title lines, second lines of a block, bullet
glyphs and wrapped texts). -/
theorem cursor_invariant (lib : JsPDF) (hH : lib.pageHeight = 297)
    (contentData : ContentDocument) :
    (∀ s, render pdfTheme lib contentData = .ok s →
        pdfTheme.layout.margin ≤ s.y ∧
          ∀ c ∈ s.calls, c.inPage pdfTheme.layout.margin
            (lib.pageHeight - pdfTheme.layout.margin)) ∧
      (∀ e, render pdfTheme lib contentData = .error e →
        ∀ c ∈ e.calls, c.inPage pdfTheme.layout.margin
          (lib.pageHeight - pdfTheme.layout.margin)) ∧
      (∀ c ∈ (generateResumePDF (.resolved lib) contentData).calls,
        c.inPage pdfTheme.layout.margin (lib.pageHeight - pdfTheme.layout.margin)) ∧
      (∀ font t x y align,
        DocCall.text font t x y align ∈ (generateResumePDF (.resolved lib) contentData).calls →
          25 ≤ y ∧ y ≤ 272) ∧
      (∀ x1 y1 x2 y2,
        DocCall.line x1 y1 x2 y2 ∈ (generateResumePDF (.resolved lib) contentData).calls →
          25 ≤ y1 ∧ y1 ≤ 272 ∧ 25 ≤ y2 ∧ y2 ≤ 272) := by
  have hm : pdfTheme.layout.margin = 25 := rfl
  have hhi : lib.pageHeight - pdfTheme.layout.margin = 272 := by
    rw [hH, hm]
    norm_num
  rw [hhi, hm]
  have hrender := resultOk_render lib hH contentData
  have hall : ∀ c ∈ (generateResumePDF (.resolved lib) contentData).calls,
      c.inPage 25 272 := by
    intro c hc
    have hmem := generateResumePDF_calls_mem lib contentData c hc
    cases hr : render pdfTheme lib contentData with
    | error e =>
      rw [hr] at hrender hmem
      exact hrender c hmem
    | ok s =>
      rw [hr] at hrender hmem
      exact hrender.2 c hmem
  refine ⟨fun s hs => ?_, fun e he => ?_, hall, fun font t x y align hc => hall _ hc,
    fun x1 y1 x2 y2 hc => hall _ hc⟩
  · rw [hs] at hrender
    exact hrender
  · rw [he] at hrender
    exact hrender

theorem cursor_invariant_witness :
    sampleA4.pageHeight = 297 ∧
      (generateResumePDF (.resolved sampleA4) crowdedDocument).calls ≠ [] ∧
      ∀ font t x y align,
        DocCall.text font t x y align ∈
            (generateResumePDF (.resolved sampleA4) crowdedDocument).calls →
          25 ≤ y ∧ y ≤ 272 :=
  ⟨rfl, by decide!, (cursor_invariant sampleA4 rfl crowdedDocument).2.2.2.1⟩

theorem summarySource_eq (contentData : ContentDocument) :
    resumePreview.summarySource contentData = pdfSummarySource contentData := rfl

theorem summarySource_withReferences (contentData : ContentDocument)
    (references : Option (List Reference)) :
    resumePreview.summarySource (withReferences contentData references) =
      resumePreview.summarySource contentData := by
  unfold resumePreview.summarySource withReferences
  cases contentData.resume <;> rfl

theorem renderExperience_withReferences (contentData : ContentDocument)
    (references : Option (List Reference)) :
    resumePreview.renderExperience (withReferences contentData references).resume =
      resumePreview.renderExperience contentData.resume := by
  unfold withReferences
  cases contentData.resume <;> rfl

theorem renderEducation_withReferences (contentData : ContentDocument)
    (references : Option (List Reference)) :
    resumePreview.renderEducation (withReferences contentData references).resume =
      resumePreview.renderEducation contentData.resume := by
  unfold withReferences
  cases contentData.resume <;> rfl

/-- The interpolations of the preview do not read `resume.references`. -/
theorem modalParts_withReferences (contentData : ContentDocument)
    (references : Option (List Reference)) :
    resumePreview.modalParts (withReferences contentData references) =
      resumePreview.modalParts contentData := by
  unfold resumePreview.modalParts
  rw [summarySource_withReferences, renderExperience_withReferences,
    renderEducation_withReferences]
  rfl

theorem modalMarkup_withReferences (contentData : ContentDocument)
    (references : Option (List Reference)) (page : Page) :
    modalMarkup (resumePreview.show (withReferences contentData references) page) =
      modalMarkup (resumePreview.show contentData page) := by
  rw [show_eq, show_eq, modalParts_withReferences]
  cases resumePreview.modalParts contentData with
  | error e => rfl
  | ok parts =>
    simp only [modalMarkup, Except.toOption, Option.map_some', List.map_append, List.map_cons,
      List.map_nil]

/-- The Experience section of the preview, when there are jobs: one block per
job, in document order. -/
theorem renderExperience_blocks (resume : Resume) (experience : List Job) (out : String)
    (hexp : resume.experience = some experience) (hne : experience ≠ [])
    (h : resumePreview.renderExperience (some resume) = .ok out) :
    ∃ blocks, mapThrowing resumePreview.renderJob experience = .ok blocks ∧
      out = resumePreview.renderSection "Professional Experience" (join "" blocks) := by
  unfold resumePreview.renderExperience at h
  simp only [reqValue, ok_bind, hexp] at h
  have hlen : ¬ experience.length = 0 := fun h0 => hne (List.length_eq_zero.mp h0)
  rw [if_neg hlen] at h
  obtain ⟨blocks, hb, h⟩ := bind_ok h
  cases h
  exact ⟨blocks, hb, rfl⟩

theorem renderProjects_blocks (projects : Projects) (items : List Project) (out : String)
    (hitems : projects.items = some items) (hne : items ≠ [])
    (h : resumePreview.renderProjects (some projects) = .ok out) :
    ∃ blocks, mapThrowing resumePreview.renderProject items = .ok blocks ∧
      out = resumePreview.renderSection "Projects" (join "" blocks) := by
  unfold resumePreview.renderProjects at h
  simp only [reqValue, ok_bind, hitems] at h
  have hlen : ¬ items.length = 0 := fun h0 => hne (List.length_eq_zero.mp h0)
  rw [if_neg hlen] at h
  obtain ⟨blocks, hb, h⟩ := bind_ok h
  cases h
  exact ⟨blocks, hb, rfl⟩

theorem renderEducation_blocks (resume : Resume) (education : List Education) (out : String)
    (hedu : resume.education = some education) (hne : education ≠ [])
    (h : resumePreview.renderEducation (some resume) = .ok out) :
    ∃ blocks, mapThrowing resumePreview.renderEducationEntry education = .ok blocks ∧
      out = resumePreview.renderSection "Education" (join "" blocks) := by
  unfold resumePreview.renderEducation at h
  simp only [reqValue, ok_bind, hedu] at h
  have hlen : ¬ education.length = 0 := fun h0 => hne (List.length_eq_zero.mp h0)
  rw [if_neg hlen] at h
  obtain ⟨blocks, hb, h⟩ := bind_ok h
  cases h
  exact ⟨blocks, hb, rfl⟩

/-- What the interpolations of the preview are when they all return. -/
theorem modalParts_ok (contentData : ContentDocument) (parts : ModalParts)
    (h : resumePreview.modalParts contentData = .ok parts) :
    ∃ source, resumePreview.summarySource contentData = some source ∧
      resumePreview.renderHeader contentData.personal = .ok parts.header ∧
      parts.profile = resumePreview.renderSection "Profile" ("<p>" ++ stripTags source ++ "</p>") ∧
      resumePreview.renderProjects contentData.projects = .ok parts.projects ∧
      resumePreview.renderExperience contentData.resume = .ok parts.experience ∧
      resumePreview.renderEducation contentData.resume = .ok parts.education ∧
      resumePreview.renderSkills contentData.about = .ok parts.skills := by
  unfold resumePreview.modalParts at h
  obtain ⟨header, hh, h⟩ := bind_ok h
  obtain ⟨source, hs, h⟩ := bind_ok h
  obtain ⟨projects, hp, h⟩ := bind_ok h
  obtain ⟨experience, he, h⟩ := bind_ok h
  obtain ⟨education, hd, h⟩ := bind_ok h
  obtain ⟨skills, hk, h⟩ := bind_ok h
  cases h
  refine ⟨source, ?_, hh, rfl, hp, he, hd, hk⟩
  cases hsrc : resumePreview.summarySource contentData with
  | none => rw [hsrc] at hs; cases hs
  | some src => rw [hsrc] at hs; cases hs; rfl

theorem reference_mem_drawnHeadings (contentData : ContentDocument) :
    "REFERENCE" ∈ drawnHeadings contentData ↔ hasReferences contentData = true := by
  unfold drawnHeadings
  cases hasProjects contentData <;> cases hasReferences contentData <;> decide

/-! ## The preview and the PDF -/

/-- C24 fails as stated: for `fullDocument`, whose `resume.references` holds one
reference, the PDF draws the heading REFERENCE and the reference's name, and the
markup of the preview modal holds neither (it does hold the heading EDUCATION). -/
theorem preview_pdf_counterexample :
    hasReferences fullDocument = true ∧
      "REFERENCE" ∈
        headingsOf pdfTheme (generateResumePDF (.resolved sampleA4) fullDocument).calls ∧
      Mark.text pdfTheme.fonts.jobTitle (.str (some "Charles Babbage")) ∈
        marksOf (generateResumePDF (.resolved sampleA4) fullDocument).calls ∧
      (modalMarkup (resumePreview.show fullDocument { modals := [] })).map
          (fun markup => markup.map (fun html =>
            (occursIn "EDUCATION" html, occursIn "REFERENCE" html,
              occursIn "Charles Babbage" html))) =
        some [(true, false, false)] := by
  decide!

/-- C24, amended: the preview has no References section.  For every document,
the markup `resumePreview.show` builds is the same whatever `resume.references`
holds, while a completed run of `generateResumePDF` draws the heading REFERENCE
exactly when `resume.references` is non-empty.  What the preview does hold comes
from the fields the PDF reads: its Profile is the text the PDF's Profile wraps
(`resume?.objective || hero.lede`, stripped of tags), and its Projects,
Professional Experience and Education sections, when their sequence is
non-empty, hold one block per entry, in document order. -/
theorem preview_sections (contentData : ContentDocument) :
    (∀ references page,
        modalMarkup (resumePreview.show (withReferences contentData references) page) =
          modalMarkup (resumePreview.show contentData page)) ∧
      (∀ load, successNotification ∈ (generateResumePDF load contentData).notifications →
        ("REFERENCE" ∈ headingsOf pdfTheme (generateResumePDF load contentData).calls ↔
          hasReferences contentData = true)) ∧
      (∀ parts, resumePreview.modalParts contentData = .ok parts →
        ∃ source resume projects,
          pdfSummarySource contentData = some source ∧ contentData.resume = some resume ∧
          contentData.projects = some projects ∧
          parts.profile =
            resumePreview.renderSection "Profile" ("<p>" ++ stripTags source ++ "</p>") ∧
          (∀ items, projects.items = some items → items ≠ [] →
            ∃ blocks, parts.projects = resumePreview.renderSection "Projects" (join "" blocks) ∧
              blocks.length = items.length ∧
              ∀ (j : Nat) project, items[j]? = some project →
                ∃ b, blocks[j]? = some b ∧ resumePreview.renderProject project = .ok b) ∧
          (∀ experience, resume.experience = some experience → experience ≠ [] →
            ∃ blocks, parts.experience =
                resumePreview.renderSection "Professional Experience" (join "" blocks) ∧
              blocks.length = experience.length ∧
              ∀ (j : Nat) job, experience[j]? = some job →
                ∃ b, blocks[j]? = some b ∧ resumePreview.renderJob job = .ok b) ∧
          (∀ education, resume.education = some education → education ≠ [] →
            ∃ blocks, parts.education =
                resumePreview.renderSection "Education" (join "" blocks) ∧
              blocks.length = education.length ∧
              ∀ (j : Nat) edu, education[j]? = some edu →
                ∃ b, blocks[j]? = some b ∧ resumePreview.renderEducationEntry edu = .ok b)) := by
  refine ⟨fun references page => modalMarkup_withReferences contentData references page,
    fun load hdone => ?_, fun parts hparts => ?_⟩
  · rw [completed_headings load contentData hdone]
    exact reference_mem_drawnHeadings contentData
  · obtain ⟨source, hs, _, hprofile, hp, he, hd, _⟩ := modalParts_ok contentData parts hparts
    cases hres : contentData.resume with
    | none =>
      rw [hres] at he
      cases he
    | some resume =>
      cases hproj : contentData.projects with
      | none =>
        rw [hproj] at hp
        cases hp
      | some projects =>
        rw [hres] at he hd
        rw [hproj] at hp
        refine ⟨source, resume, projects, hs, rfl, rfl, hprofile, fun items hi hne => ?_,
          fun experience hexp hne => ?_, fun education hedu hne => ?_⟩
        · obtain ⟨blocks, hb, hout⟩ := renderProjects_blocks projects items _ hi hne hp
          obtain ⟨hlen, hall⟩ := mapThrowing_ok _ _ _ hb
          exact ⟨blocks, hout, hlen, hall⟩
        · obtain ⟨blocks, hb, hout⟩ := renderExperience_blocks resume experience _ hexp hne he
          obtain ⟨hlen, hall⟩ := mapThrowing_ok _ _ _ hb
          exact ⟨blocks, hout, hlen, hall⟩
        · obtain ⟨blocks, hb, hout⟩ := renderEducation_blocks resume education _ hedu hne hd
          obtain ⟨hlen, hall⟩ := mapThrowing_ok _ _ _ hb
          exact ⟨blocks, hout, hlen, hall⟩

/-- C24, amended, on `fullDocument`: its PDF completes and draws REFERENCE; its
preview is the preview of the same document without references. -/
theorem preview_sections_witness :
    successNotification ∈
        (generateResumePDF (.resolved sampleA4) fullDocument).notifications ∧
      "REFERENCE" ∈
        headingsOf pdfTheme (generateResumePDF (.resolved sampleA4) fullDocument).calls ∧
      modalMarkup (resumePreview.show (withReferences fullDocument none) { modals := [] }) =
        modalMarkup (resumePreview.show fullDocument { modals := [] }) :=
  ⟨by decide!, ((preview_sections fullDocument).2.1 (.resolved sampleA4) (by decide!)).mpr rfl,
    (preview_sections fullDocument).1 none { modals := [] }⟩

end Portfolio
